import Mathlib

/-!
# ONDC open-commerce accelerator: participant authentication

A shallow embedding of the signing and authentication core of
`google/ondc-opencommerce`:

* `shared/signing-authentication/authentication/authentication.go`
* `shared/signing-authentication/authentication/header.go`
* `shared/middleware/middleware.go`

together with the library functions these files call (Go `strings`, `strconv`,
`fmt`, `encoding/base64`, `golang.org/x/crypto/blake2b`, `crypto/sha512`,
`crypto/ed25519` and Tink's `subtle` Ed25519 signer and verifier).

Conventions.  A Go `string` is a `List Char` (valid UTF-8 text), a Go `[]byte`
is a `List Nat` (`Bytes`), `int64` values are `Int`.  Go functions that return
`(T, error)` return `Except Error T`; `ExtractInfoFromHeader`, which returns a
meaningful first result next to its error, returns a pair.

The hash functions and Ed25519 are written out after their standards (FIPS
180-4, RFC 7693, RFC 8032) so that the fixtures of the tests can be evaluated.
The JSON form of a Tink keyset, the JSON decoding of the request context and
the registry are parameters.  The middleware is a function from a request to
the trace of what the handler does.
-/

namespace Ondc

/-- A Go string, as its sequence of code points. -/
abbrev Str := List Char

/-- A Go byte slice. -/
abbrev Bytes := List Nat

/-- Every element of a byte slice is a byte. -/
def IsBytes (bs : Bytes) : Prop := ∀ b ∈ bs, b < 256

instance (bs : Bytes) : Decidable (IsBytes bs) := by
  unfold IsBytes; infer_instance

/-- The Go error values the embedded code can produce. -/
inductive Error where
  /-- An error made by `fmt.Errorf` or `errors.New`, with its text. -/
  | errorf (text : Str)
  /-- A `*strconv.NumError` wrapping `strconv.ErrSyntax`, for the given input. -/
  | numSyntax (num : Str)
  /-- A `*strconv.NumError` wrapping `strconv.ErrRange`, for the given input. -/
  | numRange (num : Str)
  /-- A `base64.CorruptInputError`. -/
  | corruptInput
  /-- An error reported by the Tink library or by a collaborator. -/
  | library (text : Str)
  deriving DecidableEq, Repr

/-! ## Results of calls that can panic -/

/-- The result of a call of a Go function that can also panic: the value it
returns, the non-nil error it returns, or the panic. -/
inductive Outcome (α : Type) where
  /-- The call returns a value and a nil error. -/
  | ok (value : α)
  /-- The call returns a non-nil error. -/
  | error (err : Error)
  /-- The call panics, with the text of the run-time error. -/
  | panic (text : Str)
  deriving DecidableEq, Repr

/-! ## Go `strings` -/

namespace strings

/-- The double quote character. -/
def quote : Char := Char.ofNat 34

/-- Go `unicode.IsSpace`: the Latin-1 spaces and the code points with the
Unicode White_Space property. -/
def isSpace (c : Char) : Bool :=
  let n := c.toNat
  (9 ≤ n && n ≤ 13) || n = 32 || n = 0x85 || n = 0xA0 || n = 0x1680 ||
  (0x2000 ≤ n && n ≤ 0x200A) || n = 0x2028 || n = 0x2029 || n = 0x202F ||
  n = 0x205F || n = 0x3000

/-- Go `strings.TrimPrefix(s, pre)`. -/
def TrimPrefix (s pre : Str) : Str :=
  if pre.isPrefixOf s then s.drop pre.length else s

/-- Go `strings.Split(s, sep)` for a one-character separator (the source only
splits on "," and "|"): the pieces between the separators, never an empty list. -/
def Split : Str → Char → List Str
  | [], _ => [[]]
  | c :: cs, sep =>
    if c = sep then [] :: Split cs sep
    else match Split cs sep with
      | [] => [[c]]
      | piece :: pieces => (c :: piece) :: pieces

/-- Go `strings.Cut(s, sep)` for a one-character separator: the text before the
first separator, the text after it, and whether the separator occurs. -/
def Cut (s : Str) (sep : Char) : Str × Str × Bool :=
  if sep ∈ s then
    (s.takeWhile (fun c => c != sep), (s.dropWhile (fun c => c != sep)).tail, true)
  else (s, [], false)

/-- Go `strings.TrimSpace(s)`. -/
def TrimSpace (s : Str) : Str :=
  (s.dropWhile isSpace).rdropWhile isSpace

/-- Go `strings.Trim(s, cutset)`. -/
def Trim (s cutset : Str) : Str :=
  (s.dropWhile (fun c => decide (c ∈ cutset))).rdropWhile (fun c => decide (c ∈ cutset))

end strings

/-! ## Go `strconv` -/

namespace strconv

/-- The decimal digit character of a number below ten. -/
def digitChar (n : Nat) : Char := Char.ofNat (48 + n)

/-- The value of a decimal digit character. -/
def digitVal (c : Char) : Option Nat :=
  if 48 ≤ c.toNat ∧ c.toNat ≤ 57 then some (c.toNat - 48) else none

/-- The decimal digits of `n`, most significant first, using at most `fuel`
digits. -/
def decimal : Nat → Nat → Str
  | 0, _ => []
  | fuel + 1, n =>
    if n < 10 then [digitChar n] else decimal fuel (n / 10) ++ [digitChar (n % 10)]

/-- Go `strconv.FormatInt(i, 10)`, which is also what the verb `%d` prints. -/
def FormatInt (i : Int) : Str :=
  if i < 0 then '-' :: decimal (i.natAbs + 1) i.natAbs else decimal (i.natAbs + 1) i.natAbs

/-- One step of `strconv.ParseUint` in base ten: the next character must be
a digit (else `ErrSyntax`) and the value must stay below `2^64` (else
`ErrRange`). -/
def parseStep (s : Str) (acc : Except Error Nat) (c : Char) : Except Error Nat :=
  match acc with
  | .error e => .error e
  | .ok n =>
    match digitVal c with
    | none => .error (.numSyntax s)
    | some d => if 10 * n + d < 2 ^ 64 then .ok (10 * n + d) else .error (.numRange s)

/-- Go `strconv.Atoi(s)` on a platform whose `int` has 64 bits: an optional
sign, one or more decimal digits, a value between `-2^63` and `2^63 - 1`. -/
def Atoi (s : Str) : Except Error Int :=
  let neg := s.head? = some '-'
  let digits := if s.head? = some '-' ∨ s.head? = some '+' then s.tail else s
  if digits = [] then .error (.numSyntax s) else
  match digits.foldl (parseStep s) (.ok 0) with
  | .error e => .error e
  | .ok un =>
    if neg then
      if un ≤ 2 ^ 63 then .ok (-(un : Int)) else .error (.numRange s)
    else
      if un < 2 ^ 63 then .ok (un : Int) else .error (.numRange s)

end strconv

/-! ## Go `fmt` -/

namespace fmt

/-- An operand of `fmt.Sprintf`. -/
inductive Arg where
  | int (i : Int)
  | str (s : Str)

/-- Go `fmt.Sprintf(format, args...)` for the verbs the source uses: `%d` with
an integer operand and `%s` with a string operand; `%%` prints a percent sign.
Every other character of the format is copied.  (A verb without a matching
operand, which no call in the source has, is copied as it stands.) -/
def Sprintf : Str → List Arg → Str
  | [], _ => []
  | [c], _ => [c]
  | c :: v :: rest, args =>
    if c = '%' then
      match v, args with
      | 'd', Arg.int i :: args => strconv.FormatInt i ++ Sprintf rest args
      | 's', Arg.str s :: args => s ++ Sprintf rest args
      | '%', args => '%' :: Sprintf rest args
      | _, _ => c :: v :: Sprintf rest args
    else c :: Sprintf (v :: rest) args

end fmt

/-! ## Go `encoding/base64`, `StdEncoding` -/

namespace base64

/-- The standard alphabet of RFC 4648. -/
def alphabet : Str :=
  "ABCDEFGHIJKLMNOPQRSTUVWXYZabcdefghijklmnopqrstuvwxyz0123456789+/".toList

/-- The character of a six-bit value. -/
def encodeChar (v : Nat) : Char := alphabet.getD v 'A'

/-- The six-bit value of a character of the alphabet. -/
def decodeChar (c : Char) : Option Nat :=
  let i := alphabet.indexOf c
  if i < 64 then some i else none

/-- Go `base64.StdEncoding.EncodeToString`: three bytes become four
characters, the last group is padded with `=`. -/
def EncodeToString : Bytes → Str
  | [] => []
  | [a] => [encodeChar (a / 4), encodeChar (a % 4 * 16), '=', '=']
  | [a, b] => [encodeChar (a / 4), encodeChar (a % 4 * 16 + b / 16), encodeChar (b % 16 * 4), '=']
  | a :: b :: c :: rest =>
    encodeChar (a / 4) :: encodeChar (a % 4 * 16 + b / 16) ::
      encodeChar (b % 16 * 4 + c / 64) :: encodeChar (c % 64) :: EncodeToString rest

/-- The quantum loop of the decoder, on input without line breaks. -/
def decodeQuanta : Str → Except Error Bytes
  | [] => .ok []
  | c0 :: c1 :: c2 :: c3 :: rest =>
    match decodeChar c0, decodeChar c1 with
    | some v0, some v1 =>
      match decodeChar c2, decodeChar c3 with
      | some v2, some v3 =>
        match decodeQuanta rest with
        | .ok bs =>
          .ok ((v0 * 4 + v1 / 16) % 256 :: (v1 % 16 * 16 + v2 / 4) % 256 ::
            (v2 % 4 * 64 + v3) % 256 :: bs)
        | .error e => .error e
      | some v2, none =>
        if c3 = '=' ∧ rest = [] then
          .ok [(v0 * 4 + v1 / 16) % 256, (v1 % 16 * 16 + v2 / 4) % 256]
        else .error .corruptInput
      | none, _ =>
        if c2 = '=' ∧ c3 = '=' ∧ rest = [] then .ok [(v0 * 4 + v1 / 16) % 256]
        else .error .corruptInput
    | _, _ => .error .corruptInput
  | _ => .error .corruptInput

/-- Go `base64.StdEncoding.DecodeString`: carriage returns and line feeds are
ignored, padding is required, and the unused low bits of the last group are
not checked. -/
def DecodeString (s : Str) : Except Error Bytes :=
  decodeQuanta (s.filter (fun c => c != '\r' && c != '\n'))

end base64

/-! ## Byte-order helpers -/

/-- The value of a byte string read as a big-endian number. -/
def beNat (bs : Bytes) : Nat := bs.foldl (fun acc b => acc * 256 + b) 0

/-- The `len` low-order bytes of `n`, most significant first. -/
def beBytes : Nat → Nat → Bytes
  | 0, _ => []
  | len + 1, n => (n / 256 ^ len) % 256 :: beBytes len n

/-- The value of a byte string read as a little-endian number. -/
def leNat : Bytes → Nat
  | [] => 0
  | b :: bs => b + 256 * leNat bs

/-- The `len` low-order bytes of `n`, least significant first. -/
def leBytes : Nat → Nat → Bytes
  | 0, _ => []
  | len + 1, n => n % 256 :: leBytes len (n / 256)

/-- The first `count` consecutive pieces of `size` bytes of a byte string. -/
def chunks (size : Nat) : Nat → Bytes → List Bytes
  | 0, _ => []
  | count + 1, bs => bs.take size :: chunks size count (bs.drop size)

/-- Reduction of a sum to a 64-bit word. -/
def mask64 (x : Nat) : Nat := x % 18446744073709551616

/-- Rotation of a 64-bit word to the right. -/
def rotr64 (x n : Nat) : Nat := mask64 ((x >>> n) ||| (x <<< (64 - n)))

/-! ## Go `crypto/sha512` (FIPS 180-4), used inside Ed25519 -/

namespace sha512

/-- The round constants. -/
def K : List Nat := [
  0x428a2f98d728ae22, 0x7137449123ef65cd, 0xb5c0fbcfec4d3b2f, 0xe9b5dba58189dbbc,
  0x3956c25bf348b538, 0x59f111f1b605d019, 0x923f82a4af194f9b, 0xab1c5ed5da6d8118,
  0xd807aa98a3030242, 0x12835b0145706fbe, 0x243185be4ee4b28c, 0x550c7dc3d5ffb4e2,
  0x72be5d74f27b896f, 0x80deb1fe3b1696b1, 0x9bdc06a725c71235, 0xc19bf174cf692694,
  0xe49b69c19ef14ad2, 0xefbe4786384f25e3, 0x0fc19dc68b8cd5b5, 0x240ca1cc77ac9c65,
  0x2de92c6f592b0275, 0x4a7484aa6ea6e483, 0x5cb0a9dcbd41fbd4, 0x76f988da831153b5,
  0x983e5152ee66dfab, 0xa831c66d2db43210, 0xb00327c898fb213f, 0xbf597fc7beef0ee4,
  0xc6e00bf33da88fc2, 0xd5a79147930aa725, 0x06ca6351e003826f, 0x142929670a0e6e70,
  0x27b70a8546d22ffc, 0x2e1b21385c26c926, 0x4d2c6dfc5ac42aed, 0x53380d139d95b3df,
  0x650a73548baf63de, 0x766a0abb3c77b2a8, 0x81c2c92e47edaee6, 0x92722c851482353b,
  0xa2bfe8a14cf10364, 0xa81a664bbc423001, 0xc24b8b70d0f89791, 0xc76c51a30654be30,
  0xd192e819d6ef5218, 0xd69906245565a910, 0xf40e35855771202a, 0x106aa07032bbd1b8,
  0x19a4c116b8d2d0c8, 0x1e376c085141ab53, 0x2748774cdf8eeb99, 0x34b0bcb5e19b48a8,
  0x391c0cb3c5c95a63, 0x4ed8aa4ae3418acb, 0x5b9cca4f7763e373, 0x682e6ff3d6b2b8a3,
  0x748f82ee5defb2fc, 0x78a5636f43172f60, 0x84c87814a1f0ab72, 0x8cc702081a6439ec,
  0x90befffa23631e28, 0xa4506cebde82bde9, 0xbef9a3f7b2c67915, 0xc67178f2e372532b,
  0xca273eceea26619c, 0xd186b8c721c0c207, 0xeada7dd6cde0eb1e, 0xf57d4f7fee6ed178,
  0x06f067aa72176fba, 0x0a637dc5a2c898a6, 0x113f9804bef90dae, 0x1b710b35131c471b,
  0x28db77f523047d84, 0x32caab7b40c72493, 0x3c9ebe0a15c9bebc, 0x431d67c49c100d4c,
  0x4cc5d4becb3e42b6, 0x597f299cfc657e2a, 0x5fcb6fab3ad6faec, 0x6c44198c4a475817]

/-- The initial hash value. -/
def H0 : List Nat := [0x6a09e667f3bcc908, 0xbb67ae8584caa73b, 0x3c6ef372fe94f82b, 0xa54ff53a5f1d36f1, 0x510e527fade682d1, 0x9b05688c2b3e6c1f, 0x1f83d9abfb41bd6b, 0x5be0cd19137e2179]

def bigSigma0 (x : Nat) : Nat := rotr64 x 28 ^^^ rotr64 x 34 ^^^ rotr64 x 39
def bigSigma1 (x : Nat) : Nat := rotr64 x 14 ^^^ rotr64 x 18 ^^^ rotr64 x 41
def smallSigma0 (x : Nat) : Nat := rotr64 x 1 ^^^ rotr64 x 8 ^^^ (x >>> 7)
def smallSigma1 (x : Nat) : Nat := rotr64 x 19 ^^^ rotr64 x 61 ^^^ (x >>> 6)
def ch (e f g : Nat) : Nat := (e &&& f) ^^^ ((e ^^^ 18446744073709551615) &&& g)
def maj (a b c : Nat) : Nat := (a &&& b) ^^^ (a &&& c) ^^^ (b &&& c)

/-- Padding: the byte `0x80`, zeros up to 112 modulo 128, and the bit length
as a 128-bit big-endian number. -/
def pad (msg : Bytes) : Bytes :=
  msg ++ 128 :: List.replicate ((128 - (msg.length + 17) % 128) % 128) 0 ++
    beBytes 16 (8 * msg.length)

/-- The message schedule: the first `n` words, given the sixteen latest. -/
def schedule : Nat → List Nat → List Nat
  | 0, _ => []
  | _ + 1, [] => []
  | n + 1, w0 :: rest =>
    w0 :: schedule n (rest ++
      [mask64 (smallSigma1 (rest.getD 13 0) + rest.getD 8 0 + smallSigma0 (rest.getD 0 0) + w0)])

/-- One round on the working variables, with a constant and a schedule word. -/
def round (s : List Nat) (kw : Nat × Nat) : List Nat :=
  match s with
  | [a, b, c, d, e, f, g, h] =>
    let t1 := mask64 (h + bigSigma1 e + ch e f g + kw.1 + kw.2)
    let t2 := mask64 (bigSigma0 a + maj a b c)
    [mask64 (t1 + t2), a, b, c, mask64 (d + t1), e, f, g]
  | _ => s

/-- The compression function on one 128-byte block. -/
def compress (h : List Nat) (block : Bytes) : List Nat :=
  let w := schedule 80 ((chunks 8 16 block).map beNat)
  let s := (K.zip w).foldl round h
  List.zipWith (fun x y => mask64 (x + y)) h s

/-- Go `sha512.Sum512`. -/
def Sum512 (msg : Bytes) : Bytes :=
  let p := pad msg
  ((chunks 128 (p.length / 128) p).foldl compress H0).flatMap (beBytes 8)

end sha512

/-! ## `golang.org/x/crypto/blake2b` (RFC 7693), unkeyed, 64-byte output -/

namespace blake2b

/-- The initialisation vector (that of SHA-512). -/
def IV : List Nat := sha512.H0

/-- The message word permutations of the twelve rounds. -/
def SIGMA : List (List Nat) := [
  [0, 1, 2, 3, 4, 5, 6, 7, 8, 9, 10, 11, 12, 13, 14, 15],
  [14, 10, 4, 8, 9, 15, 13, 6, 1, 12, 0, 2, 11, 7, 5, 3],
  [11, 8, 12, 0, 5, 2, 15, 13, 10, 14, 3, 6, 7, 1, 9, 4],
  [7, 9, 3, 1, 13, 12, 11, 14, 2, 6, 5, 10, 4, 0, 15, 8],
  [9, 0, 5, 7, 2, 4, 10, 15, 14, 1, 11, 12, 6, 8, 3, 13],
  [2, 12, 6, 10, 0, 11, 8, 3, 4, 13, 7, 5, 15, 14, 1, 9],
  [12, 5, 1, 15, 14, 13, 4, 10, 0, 7, 6, 3, 9, 2, 8, 11],
  [13, 11, 7, 14, 12, 1, 3, 9, 5, 0, 15, 4, 8, 6, 2, 10],
  [6, 15, 14, 9, 11, 3, 0, 8, 12, 2, 13, 7, 1, 4, 10, 5],
  [10, 2, 8, 4, 7, 6, 1, 5, 15, 11, 9, 14, 3, 12, 13, 0],
  [0, 1, 2, 3, 4, 5, 6, 7, 8, 9, 10, 11, 12, 13, 14, 15],
  [14, 10, 4, 8, 9, 15, 13, 6, 1, 12, 0, 2, 11, 7, 5, 3]]

/-- The mixing function on the words `a`, `b`, `c`, `d` of the work vector. -/
def G (v : List Nat) (a b c d x y : Nat) : List Nat :=
  let va := mask64 (v.getD a 0 + v.getD b 0 + x)
  let vd := rotr64 (v.getD d 0 ^^^ va) 32
  let vc := mask64 (v.getD c 0 + vd)
  let vb := rotr64 (v.getD b 0 ^^^ vc) 24
  let va2 := mask64 (va + vb + y)
  let vd2 := rotr64 (vd ^^^ va2) 16
  let vc2 := mask64 (vc + vd2)
  let vb2 := rotr64 (vb ^^^ vc2) 63
  (((v.set a va2).set b vb2).set c vc2).set d vd2

/-- One round: four column steps and four diagonal steps. -/
def mixRound (m : List Nat) (v : List Nat) (s : List Nat) : List Nat :=
  let w (i : Nat) : Nat := m.getD (s.getD i 0) 0
  let v := G v 0 4 8 12 (w 0) (w 1)
  let v := G v 1 5 9 13 (w 2) (w 3)
  let v := G v 2 6 10 14 (w 4) (w 5)
  let v := G v 3 7 11 15 (w 6) (w 7)
  let v := G v 0 5 10 15 (w 8) (w 9)
  let v := G v 1 6 11 12 (w 10) (w 11)
  let v := G v 2 7 8 13 (w 12) (w 13)
  G v 3 4 9 14 (w 14) (w 15)

/-- The compression function: chain value, 128-byte block, byte counter and
final-block flag. -/
def F (h : List Nat) (block : Bytes) (t : Nat) ( last : Bool) : List Nat :=
  let m := (chunks 8 16 block).map leNat
  let v := h ++ IV
  let v := v.set 12 (v.getD 12 0 ^^^ (t % 2 ^ 64))
  let v := v.set 13 (v.getD 13 0 ^^^ (t / 2 ^ 64 % 2 ^ 64))
  let v := if last then v.set 14 (v.getD 14 0 ^^^ 18446744073709551615) else v
  let v := SIGMA.foldl (mixRound m) v
  List.zipWith (fun x y => x ^^^ y) h (List.zipWith (fun x y => x ^^^ y) (v.take 8) (v.drop 8))

/-- Absorbs the message block by block; the last block, possibly empty or
partial, is padded with zeros and compressed with the final flag. -/
def absorb : Nat → List Nat → Bytes → Nat → List Nat
  | 0, h, _, _ => h
  | fuel + 1, h, msg, t =>
    if msg.length ≤ 128 then
      F h (msg ++ List.replicate (128 - msg.length) 0) (t + msg.length) true
    else
      absorb fuel (F h (msg.take 128) (t + 128) false) (msg.drop 128) (t + 128)

/-- Go `blake2b.Sum512`: the parameter block sets digest length 64, no key,
fanout and depth one. -/
def Sum512 (data : Bytes) : Bytes :=
  (absorb (data.length / 128 + 1) (IV.set 0 (IV.getD 0 0 ^^^ 0x01010040)) data 0).flatMap
    (leBytes 8)

end blake2b

/-! ## Go `crypto/ed25519` (RFC 8032)

Points are in extended coordinates `(X : Y : Z : T)` over the integers modulo
`p`; scalar multiplication is binary double-and-add, which computes the same
group element as the library's table-driven routines. -/

namespace ed25519

/-- The field prime `2^255 - 19`. -/
def p : Nat := 57896044618658097711785492504343953926634992332820282019728792003956564819949

/-- The order of the base point. -/
def L : Nat := 7237005577332262213973186563042994240857116359379907606001950938285454250989

/-- The curve constant `-121665/121666`. -/
def d : Nat := 37095705934669439343138083508754565189542113879843219016388785533085940283555

/-- A square root of `-1`. -/
def sqrtM1 : Nat := 19681161376707505956807079304988542015446066515923890162744021073123829784752

structure Point where
  X : Nat
  Y : Nat
  Z : Nat
  T : Nat

/-- Subtraction in the field. -/
def fsub (a b : Nat) : Nat := (a + (p - b % p)) % p

/-- The power `acc * b ^ e` in the field, for an exponent of at most `fuel` bits. -/
def powMod : Nat → Nat → Nat → Nat → Nat
  | 0, _, _, acc => acc
  | fuel + 1, b, e, acc =>
    powMod fuel (b * b % p) (e / 2) (if e % 2 = 1 then acc * b % p else acc)

/-- Inversion in the field. -/
def finv (a : Nat) : Nat := powMod 255 a (p - 2) 1

/-- The neutral element. -/
def identity : Point := ⟨0, 1, 1, 0⟩

/-- The base point, with `y = 4/5` and even `x`. -/
def basePoint : Point :=
  ⟨15112221349535400772501151409588531511454012693041857206046113283949847762202,
   46316835694926478169428394003475163141307993866256225615783033603165251855960,
   1,
   15112221349535400772501151409588531511454012693041857206046113283949847762202 *
   46316835694926478169428394003475163141307993866256225615783033603165251855960 % p⟩

/-- Point addition (RFC 8032, section 5.1.4). -/
def add (P Q : Point) : Point :=
  let a := fsub P.Y P.X * fsub Q.Y Q.X % p
  let b := (P.Y + P.X) * (Q.Y + Q.X) % p
  let c := 2 * P.T * Q.T * d % p
  let dd := 2 * P.Z * Q.Z % p
  let e := fsub b a
  let f := fsub dd c
  let g := (dd + c) % p
  let h := (b + a) % p
  ⟨e * f % p, g * h % p, f * g % p, e * h % p⟩

/-- Point negation. -/
def neg (P : Point) : Point := ⟨fsub 0 P.X, P.Y, P.Z, fsub 0 P.T⟩

/-- The sum `acc + [k]P`, for a scalar of at most `fuel` bits. -/
def scalarMult : Nat → Nat → Point → Point → Point
  | 0, _, _, acc => acc
  | fuel + 1, k, P, acc =>
    scalarMult fuel (k / 2) (add P P) (if k % 2 = 1 then add acc P else acc)

/-- The 32-byte encoding of a point: `y` little-endian, the parity of `x` in
the top bit. -/
def encodePoint (P : Point) : Bytes :=
  let zi := finv P.Z
  leBytes 32 (P.Y * zi % p + 2 ^ 255 * (P.X * zi % p % 2))

/-- Decoding of a point as the library does it (`Point.SetBytes`): the top bit
selects the sign of `x`, `y` is taken modulo `p`, and the encoding is refused
when `x` has no square root. -/
def decodePoint (bs : Bytes) : Option Point :=
  if bs.length ≠ 32 then none else
  let n := leNat bs
  let y := (n % 2 ^ 255) % p
  let x2 := fsub (y * y % p) 1 * finv ((d * y % p * y + 1) % p) % p
  let x0 := powMod 253 x2 ((p + 3) / 8) 1
  let x1 := if x0 * x0 % p = x2 then x0 else x0 * sqrtM1 % p
  if x1 * x1 % p ≠ x2 then none else
  let x := if x1 % 2 = n / 2 ^ 255 % 2 then x1 else fsub 0 x1
  some ⟨x, y, 1, x * y % p⟩

/-- The secret scalar: the first half of the seed's hash, clamped. -/
def clamp (h : Bytes) : Nat :=
  leNat (h.take 32) % 2 ^ 254 / 8 * 8 + 2 ^ 254

/-- The public key of a seed (`ed25519.NewKeyFromSeed`). -/
def publicKey (seed : Bytes) : Bytes :=
  encodePoint (scalarMult 255 (clamp (sha512.Sum512 seed)) basePoint identity)

/-- Go `ed25519.Sign` with the private key of `seed`. -/
def Sign (seed message : Bytes) : Bytes :=
  let h := sha512.Sum512 seed
  let a := clamp h
  let pub := encodePoint (scalarMult 255 a basePoint identity)
  let r := leNat (sha512.Sum512 (h.drop 32 ++ message)) % L
  let R := encodePoint (scalarMult 253 r basePoint identity)
  let k := leNat (sha512.Sum512 (R ++ pub ++ message)) % L
  R ++ leBytes 32 ((r + k * a) % L)

/-- Go `ed25519.Verify`.  It panics when the public key does not have 32
bytes, with the text `ed25519: bad public key length: ` and the length.
Otherwise it reports whether the signature has 64 bytes, the key decodes to a
point `A`, the scalar `S` is below `L`, and the encoding of `[S]B - [k]A` is
the first half of the signature. -/
def Verify (pub message sig : Bytes) : Outcome Bool :=
  if pub.length ≠ 32 then
    .panic ("ed25519: bad public key length: ".toList ++ strconv.FormatInt (pub.length : Int))
  else if sig.length ≠ 64 then .ok false else
  match decodePoint pub with
  | none => .ok false
  | some A =>
    let k := leNat (sha512.Sum512 (sig.take 32 ++ pub ++ message)) % L
    let S := leNat (sig.drop 32)
    if L ≤ S then .ok false else
    .ok (decide (sig.take 32 =
      encodePoint (add (scalarMult 253 k (neg A) identity) (scalarMult 253 S basePoint identity))))

end ed25519

/-! ## Tink `signature/subtle` -/

namespace subtle

/-- Tink `subtle.NewED25519Verifier`: the verifier holds the public key as it
is given; nothing is checked and the error is always nil. -/
def NewED25519Verifier (publicKey : Bytes) : Except Error Bytes := .ok publicKey

/-- Tink `ED25519Verifier.Verify`: an error for a signature that does not have
64 bytes, then the call of `ed25519.Verify`, whose panic is not recovered, and
an error when it reports false. -/
def Verify (verifier signature data : Bytes) : Outcome Unit :=
  if signature.length ≠ 64 then
    .error (.library "the length of the signature is not 64".toList)
  else
    match ed25519.Verify verifier data signature with
    | .panic text => .panic text
    | .error e => .error e
    | .ok true => .ok ()
    | .ok false => .error (.library "ED25519Verifier: invalid signature".toList)

/-- Tink `subtle.NewED25519Signer`: a signer for a seed of exactly 32 bytes. -/
def NewED25519Signer (keyValue : Bytes) : Except Error Bytes :=
  if keyValue.length ≠ 32 then
    .error (.library "ed25519: invalid key length".toList)
  else .ok keyValue

end subtle

/-- Go `[]byte(s)`: the UTF-8 encoding of one code point. -/
def utf8Char (c : Char) : Bytes :=
  let n := c.toNat
  if n < 0x80 then [n]
  else if n < 0x800 then [0xC0 + n / 64, 0x80 + n % 64]
  else if n < 0x10000 then [0xE0 + n / 4096, 0x80 + n / 64 % 64, 0x80 + n % 64]
  else [0xF0 + n / 262144, 0x80 + n / 4096 % 64, 0x80 + n / 64 % 64, 0x80 + n % 64]

/-- Go `[]byte(s)`: the bytes of a string. -/
def bytesOf (s : Str) : Bytes := s.flatMap utf8Char

/-! ## Tink keysets

The keyset container and its JSON form belong to the Tink library.  A keyset
is represented by the Ed25519 key material of its primary key (a key with
output prefix type `RAW`, as `ED25519KeyWithoutPrefixTemplate` makes them);
reading and writing the JSON form are parameters of the embedding. -/

namespace keyset

/-- The key material of an Ed25519 keyset handle: the `key_value` of the
`Ed25519PrivateKey` message (the seed) and the `key_value` of its
`public_key`. -/
structure Handle where
  keyValue : Bytes
  publicKey : Bytes
  deriving DecidableEq

/-- Tink's keyset serialisation: `insecurecleartextkeyset.Read` over a
`keyset.NewJSONReader`, and `insecurecleartextkeyset.Write` over a
`keyset.NewJSONWriter`. -/
structure JSON where
  Read : Bytes → Except Error Handle
  Write : Handle → Except Error Bytes

/-- Tink `keyset.NewHandle(signature.ED25519KeyWithoutPrefixTemplate())`: a
fresh key pair from 32 random bytes. -/
def NewHandle (random : Bytes) : Except Error Handle :=
  if random.length ≠ 32 then .error (.library "keyset.NewHandle: random source failed".toList)
  else .ok ⟨random, ed25519.publicKey random⟩

end keyset

/-! ## Package `authentication` (`authentication.go`) -/

namespace authentication

/-- The function `readJSONKeyset`. -/
def readJSONKeyset (tk : keyset.JSON) (keysetJSON : Bytes) : Except Error keyset.Handle :=
  tk.Read keysetJSON

/-- The function `GenerateKeysetJSON`; `random` stands for the 32 bytes the
key generator draws. -/
def GenerateKeysetJSON (tk : keyset.JSON) (random : Bytes) : Except Error Bytes :=
  match keyset.NewHandle random with
  | .error e => .error e
  | .ok keysetHandle => tk.Write keysetHandle

/-- The function `ExtractRawPublicKey`.  After reading the keyset the source
writes its public part as JSON, reads `key[0].keyData.value` back, decodes the
base64 text and unmarshals the `Ed25519PublicKey` message: the result is the
`key_value` of the public key. -/
def ExtractRawPublicKey (tk : keyset.JSON) (keysetJSON : Bytes) : Except Error Bytes :=
  match readJSONKeyset tk keysetJSON with
  | .error e => .error e
  | .ok keysetHandle => .ok keysetHandle.publicKey

/-- The function `Sign`: `signature.NewSigner` on the keyset, then
`signer.Sign(data)`, which for a `RAW` key is the bare Ed25519 signature. -/
def Sign (tk : keyset.JSON) (data keysetJSON : Bytes) : Except Error Bytes :=
  match readJSONKeyset tk keysetJSON with
  | .error e => .error e
  | .ok keysetHandle =>
    match subtle.NewED25519Signer keysetHandle.keyValue with
    | .error e => .error e
    | .ok signer => .ok (ed25519.Sign signer data)

/-- The format of the signing string. -/
def signingStringFormat : Str :=
  "(created): %d\n(expires): %d\ndigest: BLAKE-512=%s".toList

/-- The function `createSigningString`. -/
def createSigningString (payload : Bytes) (createdTimestamp expiredTimestamp : Int) : Str :=
  let digest := blake2b.Sum512 payload
  let digestB64 := base64.EncodeToString digest
  fmt.Sprintf signingStringFormat
    [.int createdTimestamp, .int expiredTimestamp, .str digestB64]

/-- The function `SignPayload`. -/
def SignPayload (tk : keyset.JSON) (payload keysetJSON : Bytes)
    (createdTimestamp expiredTimestamp : Int) : Except Error Str :=
  let signingString := createSigningString payload createdTimestamp expiredTimestamp
  match Sign tk (bytesOf signingString) keysetJSON with
  | .error e => .error e
  | .ok signature => .ok (base64.EncodeToString signature)

/-- The function `VerifySignature`.  Its result is an error or nil; the panic
of `ed25519.Verify` underneath passes through it. -/
def VerifySignature (signature : Str) (payload publicKey : Bytes)
    (createdTimestamp expiredTimestamp : Int) : Outcome Unit :=
  match base64.DecodeString signature with
  | .error e => .error e
  | .ok signatureDecoded =>
    match subtle.NewED25519Verifier publicKey with
    | .error e => .error e
    | .ok verifier =>
      let signingString := createSigningString payload createdTimestamp expiredTimestamp
      subtle.Verify verifier signatureDecoded (bytesOf signingString)

/-- The format of the authentication header. -/
def authSignatureFormat : Str :=
  "Signature keyId=\"%s|%s|ed25519\",algorithm=\"ed25519\",created=\"%d\",expires=\"%d\",headers=\"(created) (expires) digest\",signature=\"%s\"".toList

/-- The `fmt.Sprintf` call of `CreateAuthSignature`: the header for a
subscriber, key id, validity window and signature text. -/
def authSignature (subscriberID keyID : Str) (createdTimestamp expiredTimestamp : Int)
    (signature : Str) : Str :=
  fmt.Sprintf authSignatureFormat
    [.str subscriberID, .str keyID, .int createdTimestamp, .int expiredTimestamp, .str signature]

/-- The function `CreateAuthSignature`.  On failure Go returns the empty
string next to the error. -/
def CreateAuthSignature (tk : keyset.JSON) (payload keysetJSON : Bytes)
    (createdTimestamp expiredTimestamp : Int) (subscriberID keyID : Str) : Except Error Str :=
  match SignPayload tk payload keysetJSON createdTimestamp expiredTimestamp with
  | .error e => .error e
  | .ok signature =>
    .ok (authSignature subscriberID keyID createdTimestamp expiredTimestamp signature)

/-! ## Package `authentication` (`header.go`) -/

/-- The struct `Info`. -/
structure Info where
  SubscriberID : Str
  UniqueKeyID : Str
  KeyIDAlgorithm : Str
  Algorithm : Str
  Created : Int
  Expired : Int
  Signature : Str
  deriving DecidableEq

/-- The zero value of `Info`. -/
def Info.zero : Info := ⟨[], [], [], [], 0, 0, []⟩

/-- The loop body that fills the map `values`: the latest binding of a key is
at the front. -/
def addElement (values : List (Str × Str)) (element : Str) : List (Str × Str) :=
  match strings.Cut element '=' with
  | (key, val, found) =>
    if found then
      (strings.TrimSpace key, strings.Trim (strings.TrimSpace val) [strings.quote]) :: values
    else values

/-- The map `values` after the first loop of `ExtractInfoFromHeader`. -/
def headerValues (header : Str) : List (Str × Str) :=
  let trimmedHeader := strings.TrimPrefix header "Signature ".toList
  (strings.Split trimmedHeader ',').foldl addElement []

/-- The keys the header must carry, in the order they are checked. -/
def requiredKeys : List Str :=
  ["keyId".toList, "algorithm".toList, "created".toList, "expires".toList,
   "headers".toList, "signature".toList]

/-- The map read `values[k]`: the empty string for an absent key. -/
def valueOf (values : List (Str × Str)) (k : Str) : Str :=
  (values.lookup k).getD []

/-- The function `ExtractInfoFromHeader`: the `Info` and the error it returns. -/
def ExtractInfoFromHeader (header : Str) : Info × Option Error :=
  let values := headerValues header
  match requiredKeys.find? (fun k => (values.lookup k).isNone) with
  | some k => (Info.zero, some (.errorf (fmt.Sprintf "Missing %s".toList [.str k])))
  | none =>
    match strings.Split (valueOf values "keyId".toList) '|' with
    | [subscriberID, uniqueKeyID, keyIDAlgorithm] =>
      match strconv.Atoi (valueOf values "created".toList) with
      | .error e => (Info.zero, some e)
      | .ok created =>
        match strconv.Atoi (valueOf values "expires".toList) with
        | .error e => (Info.zero, some e)
        | .ok expires =>
          ({ SubscriberID := subscriberID
             UniqueKeyID := uniqueKeyID
             KeyIDAlgorithm := keyIDAlgorithm
             Algorithm := valueOf values "algorithm".toList
             Created := created
             Expired := expires
             Signature := valueOf values "signature".toList }, none)
    | _ =>
      (Info.zero, some (.errorf (fmt.Sprintf "invalid Key ID: %s".toList
        [.str (valueOf values "keyId".toList)])))

end authentication

/-! ## Package `middleware` (`middleware.go`) -/

namespace middleware

/-- An HTTP request as the middleware sees it: its headers under their
canonical names, the bytes its body still yields when it is read, its method
and its URL. -/
structure Request where
  Header : List (Str × Str)
  Body : Bytes
  Method : Str := "POST".toList
  URL : Str := "/".toList
  deriving DecidableEq

/-- Go `io.ReadAll(r.Body)`: the bytes the body yields, and the request with
its body drained. -/
def ReadAll (r : Request) : Bytes × Request := (r.Body, { r with Body := [] })

/-- The assignment `r.Body = io.NopCloser(bytes.NewBuffer(body))`. -/
def Request.setBody (r : Request) (body : Bytes) : Request := { r with Body := body }

/-- Go `r.Header.Get(name)` for a canonical header name: the empty string when
the header is absent. -/
def Request.Get (r : Request) (name : Str) : Str := (r.Header.lookup name).getD []

/-- What a run of the middleware does, in order. -/
inductive Event (Context : Type) where
  /-- The clock is read, `a.clock.Now()`. -/
  | clockNow
  /-- The request body is read, `io.ReadAll(r.Body)`. -/
  | readBody
  /-- The registry is asked, `a.registryClient.PublicSigningKey(...)`. -/
  | publicSigningKey (subscriberID uniqueKeyID : Str) (ctx : Context)
  /-- The rejection is written, `a.unauthenticated(w)`. -/
  | unauthenticated
  /-- The wrapped handler runs, `handler.ServeHTTP(w, r)`, on this request. -/
  | serveHTTP (r : Request)
  /-- The run panics, with the text of the run-time error; nothing runs after
  it. -/
  | panic (text : Str)
  deriving DecidableEq

/-- The struct `authenticator`; `clock` is the Unix second `a.clock.Now()`
reports and `decodeContext` is the decoding of the request body into the
struct with the single field `context` by `encoding/json`. -/
structure authenticator (Context : Type) where
  registryClient : Str → Str → Context → Except Error Bytes
  clock : Int
  decodeContext : Bytes → Except Error Context
  role : Str
  subscriberID : Str
  verifyingHeader : Str
  nackHeader : Str

/-- The method `authenticator.authentication`, as the trace of what the
returned handler does on a request. -/
def authentication {Context : Type} (a : authenticator Context) (r : Request) :
    List (Event Context) :=
  let header := r.Get a.verifyingHeader
  match authentication.ExtractInfoFromHeader header with
  | (_, some _) => [.unauthenticated]
  | (info, none) =>
    if info.Algorithm ≠ info.KeyIDAlgorithm then [.unauthenticated]
    else
      let currentTimestamp := a.clock
      if info.Created > currentTimestamp ∨ info.Expired < currentTimestamp then
        [.clockNow, .unauthenticated]
      else
        let body := (ReadAll r).1
        let restored := (ReadAll r).2.setBody body
        match a.decodeContext body with
        | .error _ => [.clockNow, .readBody, .unauthenticated]
        | .ok ondcCtx =>
          match a.registryClient info.SubscriberID info.UniqueKeyID ondcCtx with
          | .error _ =>
            [.clockNow, .readBody,
             .publicSigningKey info.SubscriberID info.UniqueKeyID ondcCtx, .unauthenticated]
          | .ok ed25519PublicKey =>
            match authentication.VerifySignature info.Signature body ed25519PublicKey
                info.Created info.Expired with
            | .error _ =>
              [.clockNow, .readBody,
               .publicSigningKey info.SubscriberID info.UniqueKeyID ondcCtx, .unauthenticated]
            | .panic text =>
              [.clockNow, .readBody,
               .publicSigningKey info.SubscriberID info.UniqueKeyID ondcCtx, .panic text]
            | .ok _ =>
              [.clockNow, .readBody,
               .publicSigningKey info.SubscriberID info.UniqueKeyID ondcCtx,
               .serveHTTP restored]

/-- The function `NPAuthentication`. -/
def NPAuthentication {Context : Type} (registryClient : Str → Str → Context → Except Error Bytes)
    (clock : Int) (decodeContext : Bytes → Except Error Context) (role subscriberID : Str)
    (r : Request) : List (Event Context) :=
  authentication
    { registryClient := registryClient, clock := clock, decodeContext := decodeContext,
      role := role, subscriberID := subscriberID,
      verifyingHeader := "Authorization".toList, nackHeader := "WWW-Authenticate".toList } r

/-- The function `BGAuthentication`. -/
def BGAuthentication {Context : Type} (registryClient : Str → Str → Context → Except Error Bytes)
    (clock : Int) (decodeContext : Bytes → Except Error Context) (role subscriberID : Str)
    (r : Request) : List (Event Context) :=
  authentication
    { registryClient := registryClient, clock := clock, decodeContext := decodeContext,
      role := role, subscriberID := subscriberID,
      verifyingHeader := "X-Gateway-Authorization".toList,
      nackHeader := "Proxy-Authenticate".toList } r

end middleware

/-! ## Specification-side notions and test fixtures -/

namespace strconv

/-- The number a string of decimal digits denotes. -/
def digitsValue (s : Str) : Nat := s.foldl (fun acc c => 10 * acc + (c.toNat - 48)) 0

/-- The string `s` is the decimal numeral of `i`: a minus sign when `i` is
negative, then one or more decimal digits whose value is the magnitude of `i`. -/
def IsDecimalOf (s : Str) (i : Int) : Prop :=
  ∃ ds : Str, s = (if i < 0 then ['-'] else []) ++ ds ∧ ds ≠ [] ∧
    (∀ c ∈ ds, c.isDigit = true) ∧ digitsValue ds = i.natAbs

end strconv

namespace fixture

/-- The bytes of a base64 text, empty when the text does not decode. -/
def decoded (s : Str) : Bytes :=
  match base64.DecodeString s with
  | .ok bs => bs
  | .error _ => []

/-- The value `ed22519PrivateKey` of `authentication_test.go`. -/
def ed22519PrivateKey : Str :=
  "lP3sHA+9gileOkXYJXh4Jg8tK0gEEMbf9yCPnFpbldhrAY+NErqL9WD+Vav7TE5tyVXGXBle9ONZi2W7o144eQ==".toList

/-- The value `ed25519PublicKey` of `authentication_test.go`. -/
def ed25519PublicKey : Str := "awGPjRK6i/Vg/lWr+0xObclVxlwZXvTjWYtlu6NeOHk=".toList

/-- The value `payload` of `authentication_test.go`. -/
def payload : Bytes :=
  bytesOf "\x7b\"context\":\x7b\"domain\":\"nic2004:60212\",\"country\":\"IND\",\"city\":\"Kochi\",\"action\":\"search\",\"core_version\":\"0.9.1\",\"bap_id\":\"bap.stayhalo.in\",\"bap_uri\":\"https://8f9f-49-207-209-131.ngrok.io/protocol/\",\"transaction_id\":\"e6d9f908-1d26-4ff3-a6d1-3af3d3721054\",\"message_id\":\"a2fe6d52-9fe4-4d1a-9d0b-dccb8b48522d\",\"timestamp\":\"2022-01-04T09:17:55.971Z\",\"ttl\":\"P1M\"\x7d,\"message\":\x7b\"intent\":\x7b\"fulfillment\":\x7b\"start\":\x7b\"location\":\x7b\"gps\":\"10.108768, 76.347517\"\x7d\x7d,\"end\":\x7b\"location\":\x7b\"gps\":\"10.102997, 76.353480\"\x7d\x7d\x7d\x7d\x7d\x7d".toList

/-- The value `creationTime` of `authentication_test.go`. -/
def creationTime : Int := 1641287875

/-- The value `expirationTime` of `authentication_test.go`. -/
def expirationTime : Int := 1641291475

/-- The value `wantedSignature` of `authentication_test.go`. -/
def wantedSignature : Str :=
  "cjbhP0PFyrlSCNszJM1F/YmHDVAWsZqJUPzojnE/7TJU3fJ/rmIlgaUHEr5E0/2PIyf0tpSnWtT6cyNNlpmoAQ==".toList

/-- The header `want` of `TestCreateAuthSignature`. -/
def wantAuthSignature : Str :=
  "Signature keyId=\"example-bap.com|bap1234|ed25519\",algorithm=\"ed25519\",created=\"1641287875\",expires=\"1641291475\",headers=\"(created) (expires) digest\",signature=\"cjbhP0PFyrlSCNszJM1F/YmHDVAWsZqJUPzojnE/7TJU3fJ/rmIlgaUHEr5E0/2PIyf0tpSnWtT6cyNNlpmoAQ==\"".toList

/-- The key material `createTestKeysetJSON` puts in the keyset: the first 32
bytes of the private key and the public key. -/
def testKeyset : keyset.Handle :=
  ⟨(decoded ed22519PrivateKey).take 32, decoded ed25519PublicKey⟩

/-- A keyset serialisation for examples: the length of the seed, the seed,
the public key. -/
def exampleJSON : keyset.JSON where
  Read := fun bs =>
    match bs with
    | [] => .error (.library "empty keyset".toList)
    | n :: rest => .ok ⟨rest.take n, rest.drop n⟩
  Write := fun h => .ok (h.keyValue.length :: (h.keyValue ++ h.publicKey))

/-- The fixture keyset in the example serialisation. -/
def exampleKeysetJSON : Bytes := 32 :: (testKeyset.keyValue ++ testKeyset.publicKey)

/-- The value `testAuthHeader` of `middleware_test.go`. -/
def testAuthHeader : Str :=
  "Signature keyId=\"example-bap.com|bap1234|ed25519\",algorithm=\"ed25519\",created=\"1641287875\",expires=\"1641291475\",headers=\"(created) (expires) digest\",signature=\"cjbhP0PFyrlSCNszJM1F/YmHDVAWsZqJUPzojnE/7TJU3fJ/rmIlgaUHEr5E0/2PIyf0tpSnWtT6cyNNlpmoAQ==\"".toList

/-- The header of the second case of `TestNPAuthenticationFail`: the key id
names `x25519`, the algorithm field `ed25519`. -/
def mismatchAuthHeader : Str :=
  "Signature keyId=\"example-bap.com|bap1234|x25519\",algorithm=\"ed25519\",created=\"1641287875\",expires=\"1641291475\",headers=\"(created) (expires) digest\",signature=\"cjbhP0PFyrlSCNszJM1F/YmHDVAWsZqJUPzojnE/7TJU3fJ/rmIlgaUHEr5E0/2PIyf0tpSnWtT6cyNNlpmoAQ==\"".toList

/-- The `Info` of `testAuthHeader`. -/
def testInfo : authentication.Info :=
  { SubscriberID := "example-bap.com".toList
    UniqueKeyID := "bap1234".toList
    KeyIDAlgorithm := "ed25519".toList
    Algorithm := "ed25519".toList
    Created := 1641287875
    Expired := 1641291475
    Signature := wantedSignature }

/-- The request of the middleware tests: the fixture payload under the given
`Authorization` header. -/
def testRequest (authHeader : Str) : middleware.Request :=
  { Header := [("Authorization".toList, authHeader)], Body := payload }

/-- The authenticator of the middleware tests at a given clock reading: the
registry stub returns the fixture public key, and the context of every body
decodes (to a context without content). -/
def testAuthenticator (timestamp : Int) : middleware.authenticator Unit :=
  { registryClient := fun _ _ _ => .ok (decoded ed25519PublicKey)
    clock := timestamp
    decodeContext := fun _ => .ok ()
    role := "Seller App".toList
    subscriberID := "bpp.com".toList
    verifyingHeader := "Authorization".toList
    nackHeader := "WWW-Authenticate".toList }

end fixture

namespace middleware

/-- Every gate of the authenticator passes: the configured header decodes,
the two algorithm names agree, the clock reading lies in the validity window,
the body decodes into the context envelope, the registry returns a key, and
the signature verifies over the body with the header's window. -/
def GatesPass {Context : Type} (a : authenticator Context) (r : Request) : Prop :=
  ∃ info ctx key,
    authentication.ExtractInfoFromHeader (r.Get a.verifyingHeader) = (info, none) ∧
    info.Algorithm = info.KeyIDAlgorithm ∧
    info.Created ≤ a.clock ∧ a.clock ≤ info.Expired ∧
    a.decodeContext r.Body = .ok ctx ∧
    a.registryClient info.SubscriberID info.UniqueKeyID ctx = .ok key ∧
    authentication.VerifySignature info.Signature r.Body key info.Created info.Expired = .ok ()

/-- The run panics: every gate before the signature passes, the registry
returns a key, and `VerifySignature` panics on it with this text. -/
def Panics {Context : Type} (a : authenticator Context) (r : Request) (text : Str) : Prop :=
  ∃ info ctx key,
    authentication.ExtractInfoFromHeader (r.Get a.verifyingHeader) = (info, none) ∧
    info.Algorithm = info.KeyIDAlgorithm ∧
    info.Created ≤ a.clock ∧ a.clock ≤ info.Expired ∧
    a.decodeContext r.Body = .ok ctx ∧
    a.registryClient info.SubscriberID info.UniqueKeyID ctx = .ok key ∧
    authentication.VerifySignature info.Signature r.Body key info.Created info.Expired =
      .panic text

end middleware

namespace authentication

/-- One element of the header: a key, the equals sign and the quoted value. -/
def element (key value : Str) : Str :=
  key ++ '=' :: strings.quote :: (value ++ [strings.quote])

/-- The text is base64 text: characters of the standard alphabet and padding. -/
def IsBase64Text (s : Str) : Prop := ∀ c ∈ s, c ∈ base64.alphabet ∨ c = '='

/-- The value is a 64-bit signed integer. -/
def IsInt64 (i : Int) : Prop := -2 ^ 63 ≤ i ∧ i < 2 ^ 63

end authentication

/-! ## Package `errorcode` (`errorcode.go`) -/

namespace errorcode

/-- The constant `RoleGateway`. -/
def RoleGateway : Str := "Gateway".toList

/-- The constant `RoleBuyerApp`. -/
def RoleBuyerApp : Str := "Buyer App".toList

/-- The constant `RoleSellerApp`. -/
def RoleSellerApp : Str := "Seller App".toList

/-- The constant `RoleLogistics`. -/
def RoleLogistics : Str := "Logistics".toList

/-- The constant `ErrInvalidSignature`. -/
def ErrInvalidSignature : Str := "Invalid Signature".toList

/-- The constant `ErrInvalidRequest`. -/
def ErrInvalidRequest : Str := "Invalid Request".toList

/-- The map `lookupTable`, keyed by role and error type. -/
def lookupTable : List ((Str × Str) × Int) :=
  [((RoleGateway, ErrInvalidRequest), 10000),
   ((RoleGateway, ErrInvalidSignature), 10001),
   ((RoleBuyerApp, ErrInvalidSignature), 20001),
   ((RoleSellerApp, ErrInvalidRequest), 30000),
   ((RoleSellerApp, ErrInvalidSignature), 30016),
   ((RoleLogistics, ErrInvalidSignature), 60005),
   ((RoleLogistics, ErrInvalidRequest), 60006)]

/-- The function `Lookup`: the code of the table and `true`, or the zero value
and `false` when the map has no such key. -/
def Lookup (role err : Str) : Int × Bool :=
  match lookupTable.lookup (role, err) with
  | some code => (code, true)
  | none => (0, false)

end errorcode

namespace authentication

/-- The key `k` occurs in the header: after the literal `Signature ` is
stripped, some comma-separated element contains `=` and the text before its
first `=`, without surrounding white space, is `k`. -/
def occursAsKey (header k : Str) : Bool :=
  (strings.Split (strings.TrimPrefix header "Signature ".toList) ',').any
    (fun element => (strings.Cut element '=').2.2 &&
      decide (strings.TrimSpace (strings.Cut element '=').1 = k))

/-- The text `s` is a decimal integer with value `i`: an optional sign `+` or
`-`, one or more decimal digits, and a value in the 64-bit range. -/
def IsDecimalInteger (s : Str) (i : Int) : Prop :=
  ∃ sign digits : Str, s = sign ++ digits ∧ (sign = [] ∨ sign = ['+'] ∨ sign = ['-']) ∧
    digits ≠ [] ∧ (∀ c ∈ digits, c.isDigit = true) ∧
    i = (if sign = ['-'] then -(strconv.digitsValue digits : Int)
         else (strconv.digitsValue digits : Int)) ∧
    IsInt64 i

end authentication

namespace fixture

/-- The second header of `TestExtractInfoFromHeaderFailed`: a key id of two
segments. -/
def twoSegmentHeader : Str :=
  "Signature keyId=\"example-bg.com|bg3456\",algorithm=\"ed25519\",created=\"1641287875\",expires=\"1641291475\",headers=\"(created) (expires) digest\",signature=\"cjbhP0PFyrlSCNszJM1F/YmHDVAWsZqJUPzojnE/7TJU3fJ/rmIlgaUHEr5E0/2PIyf0tpSnWtT6cyNNlpmoAQ==\"".toList

/-- The third header of `TestExtractInfoFromHeaderFailed`: `created` is not a
number. -/
def invalidCreatedHeader : Str :=
  "Signature keyId=\"example-bg.com|bg3456|ed25519\",algorithm=\"ed25519\",created=\"invalid\",expires=\"1641291475\",headers=\"(created) (expires) digest\",signature=\"cjbhP0PFyrlSCNszJM1F/YmHDVAWsZqJUPzojnE/7TJU3fJ/rmIlgaUHEr5E0/2PIyf0tpSnWtT6cyNNlpmoAQ==\"".toList

end fixture

/-! ## Go `encoding/json` for the response structs of package `model` -/

namespace json

/-- The two lower-case hexadecimal digits of a byte. -/
def hex2 (n : Nat) : Str :=
  ["0123456789abcdef".toList.getD (n / 16 % 16) '0', "0123456789abcdef".toList.getD (n % 16) '0']

/-- How `json.Marshal` writes one character of a string: the quote and the
backslash are escaped, control characters and the characters `<`, `>`, `&`,
U+2028 and U+2029 are written as `\u` escapes. -/
def escapeChar (c : Char) : Str :=
  if c = strings.quote then ['\\', strings.quote]
  else if c = '\\' then ['\\', '\\']
  else if c = '\n' then ['\\', 'n']
  else if c = '\r' then ['\\', 'r']
  else if c = '\t' then ['\\', 't']
  else if c.toNat < 32 ∨ c = '<' ∨ c = '>' ∨ c = '&' then
    '\\' :: 'u' :: '0' :: '0' :: hex2 c.toNat
  else if c.toNat = 0x2028 then "\\u2028".toList
  else if c.toNat = 0x2029 then "\\u2029".toList
  else [c]

/-- A string as `json.Marshal` writes it. -/
def quoted (s : Str) : Str := strings.quote :: (s.flatMap escapeChar ++ [strings.quote])

end json

namespace model

/-- The struct `Ack`, without its field `Tags`: the middleware leaves it nil
and `omitempty` leaves it out. -/
structure Ack where
  Status : Str

/-- The struct `MessageAck`. -/
structure MessageAck where
  Ack : Option Ack

/-- The struct `Error`; its field `Type` is written `Type_`. -/
structure Error where
  Type_ : Str
  Code : Option Str
  Path : Str := []
  Message : Str := []

/-- The struct `AckResponse`. -/
structure AckResponse where
  Message : Option MessageAck
  Error : Option Error

/-- The members of a JSON object, separated by commas, between braces. -/
def object (members : List Str) : Str :=
  '\x7b' :: ((",".toList).intercalate members ++ ['\x7d'])

/-- A member of a JSON object. -/
def member (name value : Str) : Str := json.quoted name ++ ':' :: value

/-- Go `json.Marshal` of an `Ack`. -/
def Ack.marshal (a : Ack) : Str := object [member "status".toList (json.quoted a.Status)]

/-- Go `json.Marshal` of a `MessageAck`: a nil `ack` is written as `null`. -/
def MessageAck.marshal (m : MessageAck) : Str :=
  object [member "ack".toList
    (match m.Ack with
     | none => "null".toList
     | some a => a.marshal)]

/-- Go `json.Marshal` of an `Error`: `path` and `message` are left out when
empty. -/
def Error.marshal (e : Error) : Str :=
  object ([member "type".toList (json.quoted e.Type_),
      member "code".toList
        (match e.Code with
         | none => "null".toList
         | some c => json.quoted c)] ++
    (if e.Path = [] then [] else [member "path".toList (json.quoted e.Path)]) ++
    (if e.Message = [] then [] else [member "message".toList (json.quoted e.Message)]))

/-- Go `json.Marshal` of an `AckResponse`: both members are left out when nil. -/
def AckResponse.marshal (r : AckResponse) : Str :=
  object ((match r.Message with
      | none => []
      | some m => [member "message".toList m.marshal]) ++
    (match r.Error with
      | none => []
      | some e => [member "error".toList e.marshal]))

end model

/-! ## Go `net/http`: the response writer -/

namespace http

/-- The bytes allowed in a header name (`httpguts` token characters). -/
def isTokenChar (c : Char) : Bool :=
  c.isAlphanum ||
    decide (c.toNat ∈ [33, 35, 36, 37, 38, 39, 42, 43, 45, 46, 94, 95, 96, 124, 126])

/-- The loop of `textproto.CanonicalMIMEHeaderKey`: the first letter and every
letter after a hyphen in upper case, the other letters in lower case. -/
def canonicalLoop : Bool → Str → Str
  | _, [] => []
  | upper, c :: cs =>
    let c1 :=
      if upper ∧ c.isLower then Char.ofNat (c.toNat - 32)
      else if ¬ upper ∧ c.isUpper then Char.ofNat (c.toNat + 32)
      else c
    c1 :: canonicalLoop (c1 = '-') cs

/-- Go `textproto.CanonicalMIMEHeaderKey`: a name with a character that is
not allowed is returned as it is. -/
def CanonicalMIMEHeaderKey (s : Str) : Str :=
  if s.all isTokenChar then canonicalLoop true s else s

/-- An `http.ResponseWriter`, as a recorder of what is written to it: the
header map, whether the status line was written, the status code, the headers
as they were when the status line was written, and the body. -/
structure ResponseWriter where
  Header : List (Str × Str)
  wroteHeader : Bool
  Code : Nat
  HeaderWritten : List (Str × Str)
  Body : Bytes
  deriving DecidableEq

/-- A fresh response writer (`httptest.NewRecorder`). -/
def NewRecorder : ResponseWriter := ⟨[], false, 200, [], []⟩

/-- Go `w.Header().Set(key, value)`. -/
def ResponseWriter.Set (w : ResponseWriter) (key value : Str) : ResponseWriter :=
  { w with Header := (CanonicalMIMEHeaderKey key, value) ::
      w.Header.filter (fun kv => kv.1 != CanonicalMIMEHeaderKey key) }

/-- Go `w.WriteHeader(code)`: only the first call counts. -/
def ResponseWriter.WriteHeader (w : ResponseWriter) (code : Nat) : ResponseWriter :=
  if w.wroteHeader then w
  else { w with wroteHeader := true, Code := code, HeaderWritten := w.Header }

/-- Go `w.Write(data)`: writes the status line with code 200 first if it was
not written. -/
def ResponseWriter.Write (w : ResponseWriter) (data : Bytes) : ResponseWriter :=
  let w1 := w.WriteHeader 200
  { w1 with Body := w1.Body ++ data }

/-- The header of the response as sent, read with `Header.Get`. -/
def ResponseWriter.Get (w : ResponseWriter) (key : Str) : Str :=
  (w.HeaderWritten.lookup (CanonicalMIMEHeaderKey key)).getD []

/-- Go `http.Error(w, error, code)`. -/
def Error (w : ResponseWriter) (error : Str) (code : Nat) : ResponseWriter :=
  (((w.Set "Content-Type".toList "text/plain; charset=utf-8".toList).Set
      "X-Content-Type-Options".toList "nosniff".toList).WriteHeader code).Write
    (bytesOf (error ++ ['\n']))

end http

namespace middleware

/-- The method `authenticator.unauthenticated`.  After `http.Error` the code
does not return. -/
def unauthenticated {Context : Type} (a : authenticator Context) (w : http.ResponseWriter) :
    http.ResponseWriter :=
  let (errCode, ok) := errorcode.Lookup a.role errorcode.ErrInvalidSignature
  let w1 := if !ok then http.Error w [] 500 else w
  let errCodeStr := strconv.FormatInt errCode
  let response : model.AckResponse :=
    { Message := some { Ack := some { Status := "NACK".toList } }
      Error := some { Type_ := "CONTEXT-ERROR".toList, Code := some errCodeStr } }
  let responseJSON := bytesOf response.marshal
  let headerValue := fmt.Sprintf
    "Signature realm=\"%s\",headers=\"(created) (expires) digest\"".toList
    [.str a.subscriberID]
  ((w1.Set a.nackHeader headerValue).WriteHeader 401).Write responseJSON

/-- What one step of a run writes to the response: the rejection writes
through `unauthenticated`; the other steps of the middleware do not write. -/
def writeEvent {Context : Type} (a : authenticator Context) (w : http.ResponseWriter) :
    Event Context → http.ResponseWriter
  | .unauthenticated => unauthenticated a w
  | _ => w

/-- The response the middleware itself has written after a run on a
request. -/
def authenticator.respond {Context : Type} (a : authenticator Context) (r : Request)
    (w : http.ResponseWriter) : http.ResponseWriter :=
  (authentication a r).foldl (writeEvent a) w

/-- The authenticator of `NPAuthentication`. -/
def NPAuthenticator {Context : Type} (registryClient : Str → Str → Context → Except Error Bytes)
    (clock : Int) (decodeContext : Bytes → Except Error Context) (role subscriberID : Str) :
    authenticator Context :=
  { registryClient := registryClient, clock := clock, decodeContext := decodeContext,
    role := role, subscriberID := subscriberID,
    verifyingHeader := "Authorization".toList, nackHeader := "WWW-Authenticate".toList }

/-- The authenticator of `BGAuthentication`. -/
def BGAuthenticator {Context : Type} (registryClient : Str → Str → Context → Except Error Bytes)
    (clock : Int) (decodeContext : Bytes → Except Error Context) (role subscriberID : Str) :
    authenticator Context :=
  { registryClient := registryClient, clock := clock, decodeContext := decodeContext,
    role := role, subscriberID := subscriberID,
    verifyingHeader := "X-Gateway-Authorization".toList,
    nackHeader := "Proxy-Authenticate".toList }

/-- The function `Logging`, as the trace of what the returned handler does;
`verbose` is `log.V(1)`. -/
def Logging {Context : Type} (verbose : Bool) (r : Request) : List (Event Context) :=
  if verbose then
    let body := (ReadAll r).1
    let restored := (ReadAll r).2.setBody body
    [.readBody, .serveHTTP restored]
  else [.serveHTTP r]

end middleware

namespace fixture

/-- The public key of the sixth case of `TestNPAuthenticationFail`: the
fixture key with one character changed. -/
def wrongPublicKey : Str := "awGPjRK6i/Vg/lWr+0xObclVxlwZXvTjWYtlu7NeOHk=".toList

/-- The authenticator of the middleware tests when the registry stub returns
the wrong public key. -/
def wrongKeyAuthenticator (timestamp : Int) : middleware.authenticator Unit :=
  { testAuthenticator timestamp with registryClient := fun _ _ _ => .ok (decoded wrongPublicKey) }

/-- The authenticator of the middleware tests with a registry that returns
the empty key and no error. -/
def emptyKeyAuthenticator (timestamp : Int) : middleware.authenticator Unit :=
  { testAuthenticator timestamp with registryClient := fun _ _ _ => .ok [] }

end fixture

namespace middleware

/-- The challenge the rejection sets in the response header. -/
def challenge (subscriberID : Str) : Str :=
  "Signature realm=\"".toList ++ subscriberID ++
    "\",headers=\"(created) (expires) digest\"".toList

/-- The JSON body of the rejection for an error code. -/
def nackBody (code : Int) : Str :=
  "\x7b\"message\":\x7b\"ack\":\x7b\"status\":\"NACK\"\x7d\x7d,\"error\":\x7b\"type\":\"CONTEXT-ERROR\",\"code\":\"".toList ++
    strconv.FormatInt code ++ "\"\x7d\x7d".toList

end middleware

/-! ## `crypto/ecdh`: X25519 (RFC 7748) -/

namespace x25519

/-- The field prime `2^255 - 19`. -/
def p : Nat := 2 ^ 255 - 19

/-- The constant `(486662 - 2) / 4` of the Montgomery ladder. -/
def a24 : Nat := 121665

/-- Subtraction in the field. -/
def fsub (a b : Nat) : Nat := (a + (p - b % p)) % p

/-- The power `acc * b ^ e` in the field, for an exponent of at most `fuel` bits. -/
def powMod : Nat → Nat → Nat → Nat → Nat
  | 0, _, _, acc => acc
  | fuel + 1, b, e, acc =>
    powMod fuel (b * b % p) (e / 2) (if e % 2 = 1 then acc * b % p else acc)

/-- Inversion in the field. -/
def finv (a : Nat) : Nat := powMod 255 a (p - 2) 1

/-- The scalar of a 32-byte private key: the three low bits and the top bit
cleared, bit 254 set. -/
def decodeScalar (k : Bytes) : Nat :=
  leNat (k.take 32) % 2 ^ 254 / 8 * 8 + 2 ^ 254

/-- The u-coordinate of a 32-byte public key: the top bit is ignored and the
value is reduced into the field. -/
def decodeUCoordinate (u : Bytes) : Nat :=
  leNat (u.take 32) % 2 ^ 255 % p

/-- The state of the Montgomery ladder: `x_2`, `z_2`, `x_3`, `z_3` and the
pending swap. -/
structure Ladder where
  x2 : Nat
  z2 : Nat
  x3 : Nat
  z3 : Nat
  swap : Bool
  deriving DecidableEq, Repr

/-- The conditional swap of the two ladder points. -/
def Ladder.cswap (s : Ladder) (swap : Bool) : Ladder :=
  if swap then { s with x2 := s.x3, z2 := s.z3, x3 := s.x2, z3 := s.z2 } else s

/-- One step of the ladder, for the bit `kt` of the scalar. -/
def step (x1 : Nat) (kt : Bool) (s : Ladder) : Ladder :=
  let s := s.cswap (s.swap != kt)
  let A := (s.x2 + s.z2) % p
  let AA := A * A % p
  let B := fsub s.x2 s.z2
  let BB := B * B % p
  let E := fsub AA BB
  let C := (s.x3 + s.z3) % p
  let D := fsub s.x3 s.z3
  let DA := D * A % p
  let CB := C * B % p
  { x3 := (DA + CB) * (DA + CB) % p
    z3 := x1 * (fsub DA CB * fsub DA CB % p) % p
    x2 := AA * BB % p
    z2 := E * ((AA + a24 * E) % p) % p
    swap := kt }

/-- The ladder over the bits `t - 1, ..., 0` of the scalar. -/
def ladder (x1 k : Nat) : Nat → Ladder → Ladder
  | 0, s => s
  | t + 1, s => ladder x1 k t (step x1 (k.testBit t) s)

/-- The function `X25519(k, u)`.  It is defined on 32-byte strings, and the
key constructors of the curve admit no others; elsewhere the result is left
empty. -/
def X25519 (k u : Bytes) : Bytes :=
  if k.length = 32 ∧ u.length = 32 then
    let x1 := decodeUCoordinate u
    let s := ladder x1 (decodeScalar k) 255 { x2 := 1, z2 := 0, x3 := x1, z3 := 1, swap := false }
    let s := s.cswap s.swap
    leBytes 32 (s.x2 * finv s.z2 % p)
  else []

/-- The base point, `u = 9`. -/
def basePoint : Bytes := 9 :: List.replicate 31 0

/-- Alice's private key in the Diffie-Hellman test vector of RFC 7748,
section 6.1. -/
def alicePrivate : Bytes :=
  [119, 7, 109, 10, 115, 24, 165, 125, 60, 22, 193, 114, 81, 178, 102, 69, 223, 76, 47, 135, 235,
    192, 153, 42, 177, 119, 251, 165, 29, 185, 44, 42]

/-- Alice's public key in the test vector. -/
def alicePublic : Bytes :=
  [133, 32, 240, 9, 137, 48, 167, 84, 116, 139, 125, 220, 180, 62, 247, 90, 13, 191, 58, 13, 38,
    56, 26, 244, 235, 164, 169, 142, 170, 155, 78, 106]

/-- Bob's private key in the test vector. -/
def bobPrivate : Bytes :=
  [93, 171, 8, 126, 98, 74, 138, 75, 121, 225, 127, 139, 131, 128, 14, 230, 111, 59, 177, 41, 38,
    24, 182, 253, 28, 47, 139, 39, 255, 136, 224, 235]

/-- Bob's public key in the test vector. -/
def bobPublic : Bytes :=
  [222, 158, 219, 125, 123, 125, 193, 180, 211, 91, 97, 194, 236, 228, 53, 55, 63, 131, 67, 200,
    91, 120, 103, 77, 173, 252, 126, 20, 111, 136, 43, 79]

/-- The shared secret of Alice and Bob in the test vector. -/
def sharedK : Bytes :=
  [74, 93, 157, 91, 164, 206, 45, 225, 114, 142, 59, 244, 128, 53, 15, 37, 224, 126, 33, 201, 71,
    209, 158, 51, 118, 240, 155, 60, 30, 22, 23, 66]

end x25519

namespace ecdh

/-- The method `NewPrivateKey` of the X25519 curve: a copy of a 32-byte key. -/
def NewPrivateKey (key : Bytes) : Except Error Bytes :=
  if key.length ≠ 32 then .error (.errorf "crypto/ecdh: invalid private key size".toList)
  else .ok key

/-- The method `NewPublicKey` of the X25519 curve: a copy of a 32-byte key. -/
def NewPublicKey (key : Bytes) : Except Error Bytes :=
  if key.length ≠ 32 then .error (.errorf "crypto/ecdh: invalid public key".toList)
  else .ok key

/-- The method `ECDH` of an X25519 private key: the shared secret, refused
when it is all zero. -/
def ECDH (privateKey remote : Bytes) : Except Error Bytes :=
  let out := x25519.X25519 privateKey remote
  if out.all (· == 0) then
    .error (.errorf "crypto/ecdh: bad X25519 remote ECDH input: low order point".toList)
  else .ok out

/-- The public key of an X25519 private key. -/
def PublicKey (privateKey : Bytes) : Bytes := x25519.X25519 privateKey x25519.basePoint

end ecdh

/-! ## `crypto/aes`: AES-256 (FIPS 197) -/

namespace aes

/-- The block size in bytes. -/
def BlockSize : Nat := 16

/-- The substitution table. -/
def sboxTable : List Nat := [
  0x63, 0x7c, 0x77, 0x7b, 0xf2, 0x6b, 0x6f, 0xc5, 0x30, 0x01, 0x67, 0x2b, 0xfe, 0xd7, 0xab, 0x76,
  0xca, 0x82, 0xc9, 0x7d, 0xfa, 0x59, 0x47, 0xf0, 0xad, 0xd4, 0xa2, 0xaf, 0x9c, 0xa4, 0x72, 0xc0,
  0xb7, 0xfd, 0x93, 0x26, 0x36, 0x3f, 0xf7, 0xcc, 0x34, 0xa5, 0xe5, 0xf1, 0x71, 0xd8, 0x31, 0x15,
  0x04, 0xc7, 0x23, 0xc3, 0x18, 0x96, 0x05, 0x9a, 0x07, 0x12, 0x80, 0xe2, 0xeb, 0x27, 0xb2, 0x75,
  0x09, 0x83, 0x2c, 0x1a, 0x1b, 0x6e, 0x5a, 0xa0, 0x52, 0x3b, 0xd6, 0xb3, 0x29, 0xe3, 0x2f, 0x84,
  0x53, 0xd1, 0x00, 0xed, 0x20, 0xfc, 0xb1, 0x5b, 0x6a, 0xcb, 0xbe, 0x39, 0x4a, 0x4c, 0x58, 0xcf,
  0xd0, 0xef, 0xaa, 0xfb, 0x43, 0x4d, 0x33, 0x85, 0x45, 0xf9, 0x02, 0x7f, 0x50, 0x3c, 0x9f, 0xa8,
  0x51, 0xa3, 0x40, 0x8f, 0x92, 0x9d, 0x38, 0xf5, 0xbc, 0xb6, 0xda, 0x21, 0x10, 0xff, 0xf3, 0xd2,
  0xcd, 0x0c, 0x13, 0xec, 0x5f, 0x97, 0x44, 0x17, 0xc4, 0xa7, 0x7e, 0x3d, 0x64, 0x5d, 0x19, 0x73,
  0x60, 0x81, 0x4f, 0xdc, 0x22, 0x2a, 0x90, 0x88, 0x46, 0xee, 0xb8, 0x14, 0xde, 0x5e, 0x0b, 0xdb,
  0xe0, 0x32, 0x3a, 0x0a, 0x49, 0x06, 0x24, 0x5c, 0xc2, 0xd3, 0xac, 0x62, 0x91, 0x95, 0xe4, 0x79,
  0xe7, 0xc8, 0x37, 0x6d, 0x8d, 0xd5, 0x4e, 0xa9, 0x6c, 0x56, 0xf4, 0xea, 0x65, 0x7a, 0xae, 0x08,
  0xba, 0x78, 0x25, 0x2e, 0x1c, 0xa6, 0xb4, 0xc6, 0xe8, 0xdd, 0x74, 0x1f, 0x4b, 0xbd, 0x8b, 0x8a,
  0x70, 0x3e, 0xb5, 0x66, 0x48, 0x03, 0xf6, 0x0e, 0x61, 0x35, 0x57, 0xb9, 0x86, 0xc1, 0x1d, 0x9e,
  0xe1, 0xf8, 0x98, 0x11, 0x69, 0xd9, 0x8e, 0x94, 0x9b, 0x1e, 0x87, 0xe9, 0xce, 0x55, 0x28, 0xdf,
  0x8c, 0xa1, 0x89, 0x0d, 0xbf, 0xe6, 0x42, 0x68, 0x41, 0x99, 0x2d, 0x0f, 0xb0, 0x54, 0xbb, 0x16]

/-- The inverse substitution table. -/
def invSboxTable : List Nat := [
  0x52, 0x09, 0x6a, 0xd5, 0x30, 0x36, 0xa5, 0x38, 0xbf, 0x40, 0xa3, 0x9e, 0x81, 0xf3, 0xd7, 0xfb,
  0x7c, 0xe3, 0x39, 0x82, 0x9b, 0x2f, 0xff, 0x87, 0x34, 0x8e, 0x43, 0x44, 0xc4, 0xde, 0xe9, 0xcb,
  0x54, 0x7b, 0x94, 0x32, 0xa6, 0xc2, 0x23, 0x3d, 0xee, 0x4c, 0x95, 0x0b, 0x42, 0xfa, 0xc3, 0x4e,
  0x08, 0x2e, 0xa1, 0x66, 0x28, 0xd9, 0x24, 0xb2, 0x76, 0x5b, 0xa2, 0x49, 0x6d, 0x8b, 0xd1, 0x25,
  0x72, 0xf8, 0xf6, 0x64, 0x86, 0x68, 0x98, 0x16, 0xd4, 0xa4, 0x5c, 0xcc, 0x5d, 0x65, 0xb6, 0x92,
  0x6c, 0x70, 0x48, 0x50, 0xfd, 0xed, 0xb9, 0xda, 0x5e, 0x15, 0x46, 0x57, 0xa7, 0x8d, 0x9d, 0x84,
  0x90, 0xd8, 0xab, 0x00, 0x8c, 0xbc, 0xd3, 0x0a, 0xf7, 0xe4, 0x58, 0x05, 0xb8, 0xb3, 0x45, 0x06,
  0xd0, 0x2c, 0x1e, 0x8f, 0xca, 0x3f, 0x0f, 0x02, 0xc1, 0xaf, 0xbd, 0x03, 0x01, 0x13, 0x8a, 0x6b,
  0x3a, 0x91, 0x11, 0x41, 0x4f, 0x67, 0xdc, 0xea, 0x97, 0xf2, 0xcf, 0xce, 0xf0, 0xb4, 0xe6, 0x73,
  0x96, 0xac, 0x74, 0x22, 0xe7, 0xad, 0x35, 0x85, 0xe2, 0xf9, 0x37, 0xe8, 0x1c, 0x75, 0xdf, 0x6e,
  0x47, 0xf1, 0x1a, 0x71, 0x1d, 0x29, 0xc5, 0x89, 0x6f, 0xb7, 0x62, 0x0e, 0xaa, 0x18, 0xbe, 0x1b,
  0xfc, 0x56, 0x3e, 0x4b, 0xc6, 0xd2, 0x79, 0x20, 0x9a, 0xdb, 0xc0, 0xfe, 0x78, 0xcd, 0x5a, 0xf4,
  0x1f, 0xdd, 0xa8, 0x33, 0x88, 0x07, 0xc7, 0x31, 0xb1, 0x12, 0x10, 0x59, 0x27, 0x80, 0xec, 0x5f,
  0x60, 0x51, 0x7f, 0xa9, 0x19, 0xb5, 0x4a, 0x0d, 0x2d, 0xe5, 0x7a, 0x9f, 0x93, 0xc9, 0x9c, 0xef,
  0xa0, 0xe0, 0x3b, 0x4d, 0xae, 0x2a, 0xf5, 0xb0, 0xc8, 0xeb, 0xbb, 0x3c, 0x83, 0x53, 0x99, 0x61,
  0x17, 0x2b, 0x04, 0x7e, 0xba, 0x77, 0xd6, 0x26, 0xe1, 0x69, 0x14, 0x63, 0x55, 0x21, 0x0c, 0x7d]

/-- The substitution of one byte. -/
def sbox (x : Nat) : Nat := sboxTable.getD x 0

/-- The inverse substitution of one byte. -/
def invSbox (x : Nat) : Nat := invSboxTable.getD x 0

/-- Multiplication by `x` in `GF(2^8)`. -/
def xtime (b : Nat) : Nat := (2 * b % 256) ^^^ (if 128 ≤ b then 27 else 0)

/-- Byte-wise exclusive or. -/
def xorBytes (a b : Bytes) : Bytes := List.zipWith (· ^^^ ·) a b

/-- The transformation `SubBytes`. -/
def subBytes (s : Bytes) : Bytes := s.map sbox

/-- The transformation `InvSubBytes`. -/
def invSubBytes (s : Bytes) : Bytes := s.map invSbox

/-- The transformation `ShiftRows`; the state is held column by column. -/
def shiftRows : Bytes → Bytes
  | [s0, s1, s2, s3, s4, s5, s6, s7, s8, s9, s10, s11, s12, s13, s14, s15] =>
    [s0, s5, s10, s15, s4, s9, s14, s3, s8, s13, s2, s7, s12, s1, s6, s11]
  | s => s

/-- The transformation `InvShiftRows`. -/
def invShiftRows : Bytes → Bytes
  | [s0, s1, s2, s3, s4, s5, s6, s7, s8, s9, s10, s11, s12, s13, s14, s15] =>
    [s0, s13, s10, s7, s4, s1, s14, s11, s8, s5, s2, s15, s12, s9, s6, s3]
  | s => s

/-- Multiplication by `03`. -/
def mul3 (b : Nat) : Nat := xtime b ^^^ b

/-- Multiplication by `09`. -/
def mul9 (b : Nat) : Nat := xtime (xtime (xtime b)) ^^^ b

/-- Multiplication by `0b`. -/
def mul11 (b : Nat) : Nat := xtime (xtime (xtime b)) ^^^ xtime b ^^^ b

/-- Multiplication by `0d`. -/
def mul13 (b : Nat) : Nat := xtime (xtime (xtime b)) ^^^ xtime (xtime b) ^^^ b

/-- Multiplication by `0e`. -/
def mul14 (b : Nat) : Nat := xtime (xtime (xtime b)) ^^^ xtime (xtime b) ^^^ xtime b

/-- The transformation `MixColumns`, one column after the other. -/
def mixColumns : Bytes → Bytes
  | a :: b :: c :: d :: rest =>
    (xtime a ^^^ mul3 b ^^^ c ^^^ d) :: (a ^^^ xtime b ^^^ mul3 c ^^^ d) ::
      (a ^^^ b ^^^ xtime c ^^^ mul3 d) :: (mul3 a ^^^ b ^^^ c ^^^ xtime d) :: mixColumns rest
  | s => s

/-- The transformation `InvMixColumns`. -/
def invMixColumns : Bytes → Bytes
  | a :: b :: c :: d :: rest =>
    (mul14 a ^^^ mul11 b ^^^ mul13 c ^^^ mul9 d) :: (mul9 a ^^^ mul14 b ^^^ mul11 c ^^^ mul13 d) ::
      (mul13 a ^^^ mul9 b ^^^ mul14 c ^^^ mul11 d) ::
      (mul11 a ^^^ mul13 b ^^^ mul9 c ^^^ mul14 d) :: invMixColumns rest
  | s => s

/-- The value at `x` of the map over `GF(2)` that agrees with `f` at the
eight powers of two below 256: a map on bytes is linear when it agrees with
its linear form. -/
def linearForm (f : Nat → Nat) (x : Nat) : Nat :=
  (if x.testBit 0 then f 1 else 0) ^^^ (if x.testBit 1 then f 2 else 0) ^^^
    (if x.testBit 2 then f 4 else 0) ^^^ (if x.testBit 3 then f 8 else 0) ^^^
    (if x.testBit 4 then f 16 else 0) ^^^ (if x.testBit 5 then f 32 else 0) ^^^
    (if x.testBit 6 then f 64 else 0) ^^^ (if x.testBit 7 then f 128 else 0)

/-- The function `RotWord` of the key expansion. -/
def rotWord : Bytes → Bytes
  | [] => []
  | a :: rest => rest ++ [a]

/-- The words `w[i], w[i+1], ...` of the key expansion for a 32-byte key,
`count` of them, put in front of the words made so far (latest first); `rc`
is the round constant. -/
def expandLoop : Nat → Nat → Nat → List Bytes → List Bytes
  | 0, _, _, ws => ws
  | count + 1, i, rc, ws =>
    let temp := ws.getD 0 []
    let temp :=
      if i % 8 = 0 then xorBytes (subBytes (rotWord temp)) [rc, 0, 0, 0]
      else if i % 8 = 4 then subBytes temp
      else temp
    expandLoop count (i + 1) (if i % 8 = 0 then xtime rc else rc)
      (xorBytes (ws.getD 7 []) temp :: ws)

/-- The round keys of a block of four words each. -/
def roundKeys : List Bytes → List Bytes
  | w0 :: w1 :: w2 :: w3 :: rest => (w0 ++ w1 ++ w2 ++ w3) :: roundKeys rest
  | _ => []

/-- The key expansion of a 32-byte key: fifteen round keys. -/
def expandKey (key : Bytes) : List Bytes :=
  roundKeys (expandLoop 52 8 1 (chunks 4 8 key).reverse).reverse

/-- The rounds of the cipher after the first round key; the last round has
no `MixColumns`. -/
def rounds : List Bytes → Bytes → Bytes
  | [], s => s
  | [k], s => xorBytes (shiftRows (subBytes s)) k
  | k :: ks, s => rounds ks (xorBytes (mixColumns (shiftRows (subBytes s))) k)

/-- The rounds of the inverse cipher before the first round key. -/
def invRounds : List Bytes → Bytes → Bytes
  | [], s => s
  | [k], s => invSubBytes (invShiftRows (xorBytes s k))
  | k :: ks, s => invSubBytes (invShiftRows (invMixColumns (xorBytes (invRounds ks s) k)))

/-- An AES cipher (`cipher.Block`): its round keys. -/
structure Block where
  roundKeys : List Bytes
  deriving DecidableEq, Repr

/-- The function `aes.NewCipher`. -/
def NewCipher (key : Bytes) : Except Error Block :=
  if key.length = 16 ∨ key.length = 24 ∨ key.length = 32 then .ok { roundKeys := expandKey key }
  else .error (.errorf ("crypto/aes: invalid key size ".toList ++ strconv.FormatInt key.length))

/-- The method `Encrypt` on one block. -/
def Block.Encrypt (c : Block) (src : Bytes) : Bytes :=
  match c.roundKeys with
  | [] => src
  | k :: ks => rounds ks (xorBytes src k)

/-- The method `Decrypt` on one block. -/
def Block.Decrypt (c : Block) (src : Bytes) : Bytes :=
  match c.roundKeys with
  | [] => src
  | k :: ks => xorBytes (invRounds ks src) k

end aes

/-! ## `github.com/zenazn/pkcs7pad` -/

namespace pkcs7pad

/-- The function `Pad`: between one and `size` bytes are appended, each the
number of bytes appended. -/
def Pad (buf : Bytes) (size : Nat) : Bytes :=
  let i := size - buf.length % size
  buf ++ List.replicate i i

/-- The function `Unpad`: the last byte is the padding length; it must be at
least one and at most the length of the buffer, and the bytes of the padding
(among the last 255) must all be equal to it. -/
def Unpad (buf : Bytes) : Except Error Bytes :=
  if buf.length = 0 then .error (.errorf "pkcs7pad: bad padding".toList)
  else
    let padLen := buf.getD (buf.length - 1) 0
    let toCheck := if 255 > buf.length then buf.length else 255
    let good := (List.range toCheck).all
      (fun i => decide (padLen ≤ i) || buf.getD (buf.length - 1 - i) 0 == padLen)
    if good && decide (1 ≤ padLen) && decide (padLen ≤ buf.length) then
      .ok (buf.take (buf.length - padLen))
    else .error (.errorf "pkcs7pad: bad padding".toList)

end pkcs7pad

/-! ## Package `crypto` -/

namespace crypto

/-- The DER prefix of an X25519 public key (`SubjectPublicKeyInfo` with the
algorithm `1.3.101.110`). -/
def derHeader : Bytes := [0x30, 0x2a, 0x30, 0x05, 0x06, 0x03, 0x2b, 0x65, 0x6e, 0x03, 0x21, 0x00]

/-- The function `GenerateEncryptionKeyPair`, for the 32 bytes read from the
random source: the private key, the public key and the public key in DER
form. -/
def GenerateEncryptionKeyPair (random : Bytes) : Except Error (Bytes × Bytes × Bytes) :=
  match ecdh.NewPrivateKey random with
  | .error err => .error err
  | .ok key => .ok (key, ecdh.PublicKey key, derHeader ++ ecdh.PublicKey key)

/-- The function `createAESCipher`. -/
def createAESCipher (privateKey publicKey : Bytes) : Except Error aes.Block :=
  match ecdh.NewPrivateKey privateKey with
  | .error err => .error err
  | .ok x25519PrivateKey =>
    match ecdh.NewPublicKey publicKey with
    | .error err => .error err
    | .ok x25519PublicKey =>
      match ecdh.ECDH x25519PrivateKey x25519PublicKey with
      | .error err => .error err
      | .ok sharedSecret => aes.NewCipher sharedSecret

/-- The text of the run-time error of a slice expression `s[low:high]` whose
`high` is beyond the capacity. -/
def sliceBounds (high capacity : Nat) : Str :=
  "runtime error: slice bounds out of range [:".toList ++ strconv.FormatInt high ++
    "] with capacity ".toList ++ strconv.FormatInt capacity

/-- The loop `for i := 0; i < len(messageByte); i += BlockSize` of
`DecryptMessage` and `EncryptMessage`, which transforms the block
`messageByte[i : i+BlockSize]` in place.  The slice `messageByte` has the
length `len` and its array the capacity `capacity`; `done` holds the bytes
before `i` and `rest` the bytes of the array from `i` on.  The slice
expression panics when `i + BlockSize` is beyond the capacity. -/
def blockLoop (f : Bytes → Bytes) (len capacity : Nat) : Nat → Bytes → Bytes → Outcome Bytes
  | 0, done, rest => .ok (done ++ rest)
  | fuel + 1, done, rest =>
    if done.length < len then
      if done.length + aes.BlockSize ≤ capacity then
        blockLoop f len capacity fuel (done ++ f (rest.take aes.BlockSize)) (rest.drop aes.BlockSize)
      else .panic (sliceBounds (done.length + aes.BlockSize) capacity)
    else .ok (done ++ rest)

/-- The function `DecryptMessage`.  The result is the byte content of the
returned string.  The slice `base64.StdEncoding.DecodeString` returns is cut
from an array of `DecodedLen(len(s))` bytes, zero beyond the decoded bytes. -/
def DecryptMessage (encryptedMessage : Str) (privateKey publicKey : Bytes) : Outcome Bytes :=
  match createAESCipher privateKey publicKey with
  | .error err => .error err
  | .ok aesCipher =>
    match base64.DecodeString encryptedMessage with
    | .error err => .error err
    | .ok messageByte =>
      let capacity := (bytesOf encryptedMessage).length / 4 * 3
      let array := messageByte ++ List.replicate (capacity - messageByte.length) 0
      match blockLoop aesCipher.Decrypt messageByte.length capacity (messageByte.length + 1) [] array with
      | .panic text => .panic text
      | .error err => .error err
      | .ok array =>
        match pkcs7pad.Unpad (array.take messageByte.length) with
        | .error err => .error err
        | .ok messageByte => .ok messageByte

/-- The function `EncryptMessage`, on the byte content of the message. -/
def EncryptMessage (message : Bytes) (privateKey publicKey : Bytes) : Outcome Str :=
  let messageByte := message
  match createAESCipher privateKey publicKey with
  | .error err => .error err
  | .ok aesCipher =>
    let messageByte := pkcs7pad.Pad messageByte aes.BlockSize
    match blockLoop aesCipher.Encrypt messageByte.length messageByte.length (messageByte.length + 1) [] messageByte with
    | .panic text => .panic text
    | .error err => .error err
    | .ok messageByte => .ok (base64.EncodeToString messageByte)

end crypto

namespace fixture

/-- The constant `examplePrivateKeyDERB64` of `cryptotest`. -/
def examplePrivateKeyDERB64 : Str :=
  "MC4CAQAwBQYDK2VuBCIEIOgl3rf3arbk1PvIe0C9TZp7ImR71NSQdvuSu+zzY6xo".toList

/-- The constant `ExamplePublicKeyDERB64` of `cryptotest`. -/
def ExamplePublicKeyDERB64 : Str :=
  "MCowBQYDK2VuAyEAi801MjVpgFOXHjliyT6Nb14HkS5dj1p41qbeyU6/SC8=".toList

/-- The constant `examplePlainText` of `cryptotest`. -/
def examplePlainText : Str := "ONDC is a Great Initiative!".toList

/-- The constant `exampleEncryptedTextB64` of `cryptotest`. -/
def exampleEncryptedTextB64 : Str := "CrwN248HS4CIYsUvxtrK0pWCBaoyZh4LnWtGqeH7Mpc=".toList

/-- The shared secret of the example private key and the example public key. -/
def sharedSecret : Bytes :=
  [184, 189, 187, 86, 116, 104, 182, 139, 115, 148, 179, 86, 143, 89, 189, 188, 159, 52, 213, 151,
    218, 18, 182, 50, 138, 166, 193, 172, 68, 167, 234, 27]

/-- The challenge string of `TestEncryptDecryptMessage`. -/
def challengeString : Str := "This is a secret message".toList

/-- The field `X25519PrivateKey` of `cryptotest.NewExample`: the raw key that
`x509.ParsePKCS8PrivateKey` finds in the decoded constant, its last 32 bytes. -/
def X25519PrivateKey : Bytes := (decoded examplePrivateKeyDERB64).drop 16

/-- The field `X25519PublicKey` of `cryptotest.NewExample`: the raw key that
`x509.ParsePKIXPublicKey` finds in the decoded constant, its last 32 bytes. -/
def X25519PublicKey : Bytes := (decoded ExamplePublicKeyDERB64).drop 12

end fixture

/-! ## Package `middleware`: `Adapt` -/

namespace http

/-- Go `w.Header().Get(key)`: the value in the header map of the writer, the
empty string when the key is absent. -/
def ResponseWriter.headerGet (w : ResponseWriter) (key : Str) : Str :=
  (w.Header.lookup (CanonicalMIMEHeaderKey key)).getD []

end http

namespace middleware

/-- An `http.Handler`: what `ServeHTTP` does to the response writer on a
request. -/
abbrev Handler := http.ResponseWriter → Request → http.ResponseWriter

/-- The type `Adapter`. -/
abbrev Adapter := Handler → Handler

/-- The function `Adapt`: the loop applies the adapters one after the other
to the handler made so far. -/
def Adapt (handler : Handler) (adapters : List Adapter) : Handler :=
  adapters.foldl (fun handler adapter => adapter handler) handler

end middleware

namespace fixture

/-- The value `testEmptyHandler` of `middleware_test.go`. -/
def testEmptyHandler : middleware.Handler := fun w _ => w

/-- The adapter `testAdapter(val)` of `TestAdapt`: it appends `val` to the
header `Test-Header` and then calls the wrapped handler. -/
def testAdapter (val : Str) : middleware.Adapter :=
  fun handler w r =>
    let currentHeader := w.headerGet "Test-Header".toList
    handler (w.Set "Test-Header".toList (currentHeader ++ val)) r

end fixture

/-! ## Package `regexp` and the validators of package `model` -/

namespace regexp

/-- A regular expression, as `regexp.MustCompile` parses the patterns of the
source: a character class of ranges, concatenation, the operators `*`, `+`
and `?`. -/
inductive Regexp where
  /-- A character class, `[a-b...]`: the ranges it is made of. -/
  | cls (ranges : List (Char × Char))
  /-- The concatenation of two expressions. -/
  | cat (r s : Regexp)
  /-- The expression `r*`. -/
  | star (r : Regexp)
  /-- The expression `r+`. -/
  | plus (r : Regexp)
  /-- The expression `r?`. -/
  | quest (r : Regexp)
  /-- The expression that matches nothing; it arises in derivatives only. -/
  | none
  /-- The expression that matches the empty string only. -/
  | eps
  /-- The alternation of two expressions. -/
  | alt (r s : Regexp)
  deriving DecidableEq, Repr

/-- The character is in one of the ranges. -/
def inRanges (ranges : List (Char × Char)) (c : Char) : Bool :=
  ranges.any (fun range => decide (range.1 ≤ c) && decide (c ≤ range.2))

/-- The expression matches the empty string. -/
def nullable : Regexp → Bool
  | .cls _ => false
  | .cat r s => nullable r && nullable s
  | .star _ => true
  | .plus r => nullable r
  | .quest _ => true
  | .none => false
  | .eps => true
  | .alt r s => nullable r || nullable s

/-- The derivative: the expression for what may follow the character `c` in
a match. -/
def deriv : Regexp → Char → Regexp
  | .cls ranges, c => if inRanges ranges c then .eps else .none
  | .cat r s, c =>
    if nullable r then .alt (.cat (deriv r c) s) (deriv s c) else .cat (deriv r c) s
  | .star r, c => .cat (deriv r c) (.star r)
  | .plus r, c => .cat (deriv r c) (.star r)
  | .quest r, c => deriv r c
  | .none, _ => .none
  | .eps, _ => .none
  | .alt r s, c => .alt (deriv r c) (deriv s c)

/-- Some prefix of the text matches the expression. -/
def matchesPrefix (r : Regexp) : Str → Bool
  | [] => nullable r
  | c :: cs => nullable r || matchesPrefix (deriv r c) cs

/-- The method `MatchString`: the text contains a match of the expression,
starting at any position. -/
def MatchString (r : Regexp) (s : Str) : Bool :=
  s.tails.any (matchesPrefix r)

/-- The character is one of the decimal digits `0` to `9`. -/
def isDecimalDigit (c : Char) : Bool := decide ('0' ≤ c) && decide (c ≤ '9')

/-- A condition on the form of an expression under which every text it
matches has a decimal digit in it. -/
def needsDigit : Regexp → Bool
  | .cls ranges => ranges.all (fun range => decide ('0' ≤ range.1) && decide (range.2 ≤ '9'))
  | .cat r s => needsDigit r || needsDigit s
  | .star _ => false
  | .plus r => needsDigit r
  | .quest _ => false
  | .none => true
  | .eps => false
  | .alt r s => needsDigit r && needsDigit s

end regexp

namespace model

/-- The class `[0-9]`. -/
def digits : regexp.Regexp := .cls [('0', '9')]

/-- The pattern `decimalValueRegex`, `[+-]?([0-9]*[.])?[0-9]+`. -/
def decimalValueRegex : regexp.Regexp :=
  .cat (.quest (.cls [('+', '+'), ('-', '-')]))
    (.cat (.quest (.cat (.star digits) (.cls [('.', '.')]))) (.plus digits))

/-- The function `isRegex`: the validator of a pattern, on the string of the
field. -/
def isRegex (regex : regexp.Regexp) (field : Str) : Bool :=
  regexp.MatchString regex field

/-- The struct `DecimalValue`. -/
structure DecimalValue where
  Value : Str

/-- The validation of a `DecimalValue` by the validator of `Validator()`: the
tag `custom_decimal_value` on its field. -/
def DecimalValue.valid (d : DecimalValue) : Bool := isRegex decimalValueRegex d.Value

end model

/-! ## `strconv.Quote` -/

namespace strconv

/-- The four lower-case hexadecimal digits of a number below `0x10000`. -/
def hex4 (n : Nat) : Str := json.hex2 (n / 256) ++ json.hex2 (n % 256)

/-- Go `strconv.IsPrint`; `table` stands for the tables of the package for
the runes above `U+00FF`. -/
def IsPrint (table : Char → Bool) (r : Char) : Bool :=
  let n := r.toNat
  if n ≤ 0xFF then
    if 0x20 ≤ n ∧ n < 0x7F then true
    else if 0xA1 ≤ n then n != 0xAD
    else false
  else table r

/-- How `strconv.Quote` writes one rune (`appendEscapedRune` with the double
quote). -/
def escapedRune (table : Char → Bool) (r : Char) : Str :=
  if r = strings.quote ∨ r = '\\' then ['\\', r]
  else if IsPrint table r then [r]
  else if r.toNat = 7 then ['\\', 'a']
  else if r.toNat = 8 then ['\\', 'b']
  else if r.toNat = 12 then ['\\', 'f']
  else if r = '\n' then ['\\', 'n']
  else if r = '\r' then ['\\', 'r']
  else if r = '\t' then ['\\', 't']
  else if r.toNat = 11 then ['\\', 'v']
  else if r.toNat < 32 ∨ r.toNat = 0x7F then '\\' :: 'x' :: json.hex2 r.toNat
  else if r.toNat < 0x10000 then '\\' :: 'u' :: hex4 r.toNat
  else '\\' :: 'U' :: (hex4 (r.toNat / 0x10000) ++ hex4 (r.toNat % 0x10000))

/-- Go `strconv.Quote(s)`, which is also what the verb `%q` of `fmt` writes
for a string. -/
def Quote (table : Char → Bool) (s : Str) : Str :=
  strings.quote :: (s.flatMap (escapedRune table) ++ [strings.quote])

end strconv

/-! ## The key rotation service (`key-rotation/server.go`) -/

namespace keyrotation

/-- The struct `attribute`. -/
structure eventAttribute where
  DataFormat : Str
  EventType : Str
  SecretID : Str
  Timestamp : Str
  deriving DecidableEq

/-- The field `Message` of `secretManagerEvent`. -/
structure message where
  Attributes : eventAttribute
  Data : Str := []
  MessageID : Str := []
  MessageIDUnder : Str := []
  PublishTime : Str := []
  PublishTimeUnder : Str := []
  deriving DecidableEq

/-- The struct `secretManagerEvent`. -/
structure secretManagerEvent where
  Message : message
  Subscription : Str := []
  deriving DecidableEq

/-- The struct `config`; the rotation period is a `time.Duration`, a number
of nanoseconds. -/
structure config where
  ProjectID : Str := []
  SecretID : Str := []
  RegistryURL : Str := []
  RequestID : Str := []
  SubscriberID : Str := []
  RotationPeriod : Int := 0
  ONDCEnvironment : Str := []
  deriving DecidableEq

/-- The map `payload` of `rotationHandler`. -/
structure payload where
  privateKeyEncryption : Bytes
  publicKeyEncryption : Bytes
  publicKeyEncryptionDER : Bytes
  signingKeySet : Bytes
  publicKeySigning : Bytes
  deriving DecidableEq

/-- The struct `server`, with the two clients as the function each one
offers: `AddKey(ctx, secretID, payload)` of the key client and
`RotateKeys(encryptionPublicKey, signingPublicKey, requestID, subscriberID, d)`
of the registry client return an error or nil. -/
structure server where
  keyClient : Str → Bytes → Option Error
  registryClient : Str → Str → Str → Str → Int → Option Error
  conf : config

/-- What the handler takes from outside the repository on one request: the
decoding of the request body by `encoding/json`, the bytes the random source
gives the two key generators, the Tink keyset format, `json.Marshal` of the
payload, and the tables of `strconv.IsPrint`. -/
structure library where
  decode : Bytes → Except Error secretManagerEvent
  encryptionRandom : Bytes
  signingRandom : Bytes
  tk : keyset.JSON
  marshal : payload → Except Error Bytes
  isPrint : Char → Bool

/-- A call the handler makes, in the order of the calls. -/
inductive Call where
  /-- The call `crypto.GenerateEncryptionKeyPair()`. -/
  | generateEncryptionKeyPair
  /-- The call `authentication.GenerateKeysetJSON()`. -/
  | generateKeysetJSON
  /-- The call `s.keyClient.AddKey(ctx, secretID, payload)`. -/
  | addKey (secretID : Str) (payload : Bytes)
  /-- The call `s.registryClient.RotateKeys(...)`. -/
  | rotateKeys (encryptionPublicKey signingPublicKey requestID subscriberID : Str) (d : Int)
  deriving DecidableEq

/-- Go `json.Marshal` of the map `payload`: the keys of a map are written in
sorted order and a byte slice as its base64 text. -/
def marshalPayload (p : payload) : Except Error Bytes :=
  .ok (bytesOf (model.object
    [model.member "encryptionKey".toList (model.object
      [model.member "privateKeyEncryption".toList
          (json.quoted (base64.EncodeToString p.privateKeyEncryption)),
        model.member "publicKeyEncryption".toList
          (json.quoted (base64.EncodeToString p.publicKeyEncryption)),
        model.member "publicKeyEncryptionDER".toList
          (json.quoted (base64.EncodeToString p.publicKeyEncryptionDER))]),
      model.member "signingKey".toList (model.object
      [model.member "publicKeySigning".toList
          (json.quoted (base64.EncodeToString p.publicKeySigning)),
        model.member "signingKeySet".toList
          (json.quoted (base64.EncodeToString p.signingKeySet))])]))

/-- The method `server.rotationHandler`: the response writer after the
handler has run, and the calls it has made. -/
def rotationHandler (s : server) (lib : library) (w : http.ResponseWriter)
    (r : middleware.Request) : http.ResponseWriter × List Call :=
  if r.Method ≠ "POST".toList then (w.WriteHeader 405, [])
  else
    match lib.decode r.Body with
    | .error _ => (w.WriteHeader 400, [])
    | .ok event =>
      let eventType := event.Message.Attributes.EventType
      if eventType ≠ "SECRET_ROTATE".toList then
        let msg := "Ignore event type: ".toList ++ strconv.Quote lib.isPrint eventType
        ((w.WriteHeader 200).Write (bytesOf msg), [])
      else
        match crypto.GenerateEncryptionKeyPair lib.encryptionRandom with
        | .error _ => (w.WriteHeader 500, [.generateEncryptionKeyPair])
        | .ok (encryptionPrivateKey, encryptionPublicKey, encryptionPublicKeyDER) =>
          match authentication.GenerateKeysetJSON lib.tk lib.signingRandom with
          | .error _ => (w.WriteHeader 500, [.generateEncryptionKeyPair, .generateKeysetJSON])
          | .ok signingKeyset =>
            match authentication.ExtractRawPublicKey lib.tk signingKeyset with
            | .error _ => (w.WriteHeader 500, [.generateEncryptionKeyPair, .generateKeysetJSON])
            | .ok signingPublicKey =>
              match lib.marshal
                  { privateKeyEncryption := encryptionPrivateKey
                    publicKeyEncryption := encryptionPublicKey
                    publicKeyEncryptionDER := encryptionPublicKeyDER
                    signingKeySet := signingKeyset
                    publicKeySigning := signingPublicKey } with
              | .error _ => (w.WriteHeader 500, [.generateEncryptionKeyPair, .generateKeysetJSON])
              | .ok payloadJSON =>
                match s.keyClient event.Message.Attributes.SecretID payloadJSON with
                | some _ =>
                  (w.WriteHeader 500,
                    [.generateEncryptionKeyPair, .generateKeysetJSON,
                     .addKey event.Message.Attributes.SecretID payloadJSON])
                | none =>
                  let encryptionPublicKeyB64 := base64.EncodeToString encryptionPublicKeyDER
                  let signingPublicKeyB64 := base64.EncodeToString signingPublicKey
                  let reqID := s.conf.RequestID
                  let subID := s.conf.SubscriberID
                  let period := s.conf.RotationPeriod
                  match s.registryClient encryptionPublicKeyB64 signingPublicKeyB64 reqID subID
                      period with
                  | some _ =>
                    (w.WriteHeader 500,
                      [.generateEncryptionKeyPair, .generateKeysetJSON,
                       .addKey event.Message.Attributes.SecretID payloadJSON,
                       .rotateKeys encryptionPublicKeyB64 signingPublicKeyB64 reqID subID period])
                  | none =>
                    let completeMsg := "Key rotation is completed".toList
                    (w.Write (bytesOf completeMsg),
                      [.generateEncryptionKeyPair, .generateKeysetJSON,
                       .addKey event.Message.Attributes.SecretID payloadJSON,
                       .rotateKeys encryptionPublicKeyB64 signingPublicKeyB64 reqID subID period])

end keyrotation

namespace fixture

/-- The event of the second case of `TestRotationHandler`, with the event
type `SECRET_CREATE`. -/
def createEvent : keyrotation.secretManagerEvent :=
  { Message :=
      { Attributes :=
          { DataFormat := "JSON_API_V1".toList
            EventType := "SECRET_CREATE".toList
            SecretID := "projects/1019248048664/secrets/key-logistic".toList
            Timestamp := "2023-03-23T00:05:00.122233-07:00".toList }
        MessageID := "7231722999366000".toList
        MessageIDUnder := "7231722999366000".toList
        PublishTime := "2023-03-23T07:05:01.854Z".toList
        PublishTimeUnder := "2023-03-23T07:05:01.854Z".toList } }

/-- The event of the third case of `TestRotationHandler`, with the event
type `SECRET_ROTATE`. -/
def rotateEvent : keyrotation.secretManagerEvent :=
  { createEvent with
    Message := { createEvent.Message with
      Attributes := { createEvent.Message.Attributes with EventType := "SECRET_ROTATE".toList } } }

/-- The server of `TestRotationHandler`: both clients are stubs that return
nil, and the configuration is empty. -/
def rotationServer : keyrotation.server :=
  { keyClient := fun _ _ => none, registryClient := fun _ _ _ _ _ => none, conf := {} }

/-- The library results for a request whose body decodes to `event`: the
random bytes are Alice's private key of the X25519 test vector and the seed
of the example signing key. -/
def rotationLibrary (event : keyrotation.secretManagerEvent) : keyrotation.library :=
  { decode := fun _ => .ok event
    encryptionRandom := x25519.alicePrivate
    signingRandom := testKeyset.keyValue
    tk := exampleJSON
    marshal := keyrotation.marshalPayload
    isPrint := fun _ => true }

/-- A request to the rotation handler with the given method; the body is
left empty, as the example library decodes every body to its event. -/
def rotationRequest (method : Str) : middleware.Request :=
  { Header := [], Body := [], Method := method, URL := "/".toList }

/-- The payload of the rotation with the random bytes of `rotationLibrary`. -/
def rotationPayload : keyrotation.payload :=
  { privateKeyEncryption := x25519.alicePrivate
    publicKeyEncryption := x25519.alicePublic
    publicKeyEncryptionDER := crypto.derHeader ++ x25519.alicePublic
    signingKeySet := exampleKeysetJSON
    publicKeySigning := testKeyset.publicKey }

/-- The JSON text of `rotationPayload`. -/
def rotationPayloadJSON : Bytes :=
  match keyrotation.marshalPayload rotationPayload with
  | .ok payloadJSON => payloadJSON
  | .error _ => []

/-- A server whose key client fails on every call. -/
def failingKeyServer : keyrotation.server :=
  { rotationServer with keyClient := fun _ _ => some (.errorf "add key failed".toList) }

/-- A server whose registry client fails on every call. -/
def failingRegistryServer : keyrotation.server :=
  { rotationServer with
    registryClient := fun _ _ _ _ _ => some (.errorf "rotate keys failed".toList) }

end fixture

/-! ## The request action service (`buyer-platform/request-action-service/server.go`) -/

namespace middleware

/-- Go `r.Header.Set(key, value)` for a canonical header name. -/
def Request.Set (r : Request) (key value : Str) : Request :=
  { r with Header := (key, value) :: r.Header.filter (fun kv => kv.1 != key) }

end middleware

namespace requestaction

/-- The method `server.createONDCRequest`.  The key client's keyset, the
clock reading `now` (the Unix second of `s.clk.Now()`) and the error
`http.NewRequest` has for the URL, if any, are taken from outside;
`subscriberID` and `keyID` are the fields of the configuration. -/
def createONDCRequest (tk : keyset.JSON) (keysetResult : Except Error Bytes) (now : Int)
    (subscriberID keyID : Str) (urlError : Str → Option Error) (action url : Str)
    (body : Bytes) : Except Error middleware.Request :=
  match keysetResult with
  | .error err => .error err
  | .ok keyset =>
    let currentTime := now
    let expiredTime := currentTime + 30
    match authentication.CreateAuthSignature tk body keyset currentTime expiredTime
        subscriberID keyID with
    | .error err => .error err
    | .ok authHeader =>
      let requestURL := url ++ "/".toList ++ action
      match urlError requestURL with
      | some err => .error err
      | none =>
        let request : middleware.Request :=
          { Header := [], Body := body, Method := "POST".toList, URL := requestURL }
        .ok ((request.Set "Authorization".toList authHeader).Set "Content-Type".toList
          "application/json".toList)

end requestaction

/-! ## The header in its encoded form, and the forms the decoder takes for it -/

namespace authentication

/-- The header as `CreateAuthSignature` lays it out, for any six values. -/
def encoded (keyId algorithm created expires headers signature : Str) : Str :=
  "Signature ".toList ++
    (element "keyId".toList keyId ++ ',' ::
    (element "algorithm".toList algorithm ++ ',' ::
    (element "created".toList created ++ ',' ::
    (element "expires".toList expires ++ ',' ::
    (element "headers".toList headers ++ ',' ::
    element "signature".toList signature)))))

/-- The header of a subscriber, key id, window and signature with the
algorithm name `algorithm` in the key id and in the algorithm field. -/
def authSignatureFor (algorithm subscriberID keyID : Str) (createdTimestamp expiredTimestamp : Int)
    (signature : Str) : Str :=
  encoded (subscriberID ++ '|' :: (keyID ++ '|' :: algorithm)) algorithm
    (strconv.FormatInt createdTimestamp) (strconv.FormatInt expiredTimestamp)
    "(created) (expires) digest".toList signature

/-- How one element of a header is written: whether the value stands between
double quotes, and the white space before and after the key and before and
after the value. -/
structure Layout where
  quoted : Bool
  beforeKey : Str
  afterKey : Str
  beforeValue : Str
  afterValue : Str
  deriving DecidableEq

/-- The layout of the encoded form: the value between double quotes and no
white space. -/
def Layout.plain : Layout := ⟨true, [], [], [], []⟩

/-- The white space of the layout is made of spaces only. -/
def Layout.Spaces (l : Layout) : Prop :=
  (∀ c ∈ l.beforeKey, c = ' ') ∧ (∀ c ∈ l.afterKey, c = ' ') ∧
    (∀ c ∈ l.beforeValue, c = ' ') ∧ (∀ c ∈ l.afterValue, c = ' ')

/-- One element of a header in a layout. -/
def elementIn (l : Layout) (key value : Str) : Str :=
  l.beforeKey ++ key ++ l.afterKey ++ '=' ::
    (l.beforeValue ++ (if l.quoted then strings.quote :: (value ++ [strings.quote]) else value) ++
      l.afterValue)

/-- The header with the six values, each written in its own layout, with or
without the leading literal `Signature `. -/
def encodedIn (leading : Bool) (l1 l2 l3 l4 l5 l6 : Layout)
    (keyId algorithm created expires headers signature : Str) : Str :=
  (if leading then "Signature ".toList else []) ++
    (elementIn l1 "keyId".toList keyId ++ ',' ::
    (elementIn l2 "algorithm".toList algorithm ++ ',' ::
    (elementIn l3 "created".toList created ++ ',' ::
    (elementIn l4 "expires".toList expires ++ ',' ::
    (elementIn l5 "headers".toList headers ++ ',' ::
    elementIn l6 "signature".toList signature)))))

/-- The value has no white space at either end. -/
def NoOuterSpace (v : Str) : Prop :=
  (∀ c, v.head? = some c → strings.isSpace c = false) ∧
    (∀ c, v.getLast? = some c → strings.isSpace c = false)

end authentication

/-! # Theorems -/

/-! ## Lemmas on the byte-order helpers -/

theorem length_leBytes (len n : Nat) : (leBytes len n).length = len := by
  induction len generalizing n with
  | zero => rfl
  | succ k ih => simp [leBytes, ih]

theorem isBytes_leBytes (len n : Nat) : IsBytes (leBytes len n) := by
  induction len generalizing n with
  | zero => intro b hb; simp [leBytes] at hb
  | succ k ih =>
    intro b hb
    simp only [leBytes, List.mem_cons] at hb
    rcases hb with rfl | hb
    · exact Nat.mod_lt _ (by norm_num)
    · exact ih _ b hb

theorem isBytes_append {xs ys : Bytes} (hx : IsBytes xs) (hy : IsBytes ys) :
    IsBytes (xs ++ ys) := by
  intro b hb
  rcases List.mem_append.mp hb with h | h
  · exact hx b h
  · exact hy b h

/-! ## Lemmas on base64 -/

namespace base64

theorem decodeChar_encodeChar (v : Nat) (hv : v < 64) : decodeChar (encodeChar v) = some v := by
  interval_cases v <;> rfl

theorem decodeChar_pad : decodeChar '=' = none := by decide

theorem encodeChar_ne_cr (v : Nat) : encodeChar v ≠ '\r' := by
  by_cases hv : v < 64
  · interval_cases v <;> decide
  · have : encodeChar v = 'A' := by
      unfold encodeChar
      rw [List.getD_eq_default]
      simp [alphabet]; omega
    rw [this]; decide

theorem encodeChar_ne_lf (v : Nat) : encodeChar v ≠ '\n' := by
  by_cases hv : v < 64
  · interval_cases v <;> decide
  · have : encodeChar v = 'A' := by
      unfold encodeChar
      rw [List.getD_eq_default]
      simp [alphabet]; omega
    rw [this]; decide

theorem filter_EncodeToString (bs : Bytes) :
    (EncodeToString bs).filter (fun c => c != '\r' && c != '\n') = EncodeToString bs := by
  rw [List.filter_eq_self]
  induction bs using EncodeToString.induct with
  | case1 => simp [EncodeToString]
  | case2 a =>
    intro c hc
    simp only [EncodeToString, List.mem_cons, List.not_mem_nil, or_false] at hc
    rcases hc with rfl | rfl | rfl | rfl <;>
      simp [encodeChar_ne_cr, encodeChar_ne_lf]
  | case3 a b =>
    intro c hc
    simp only [EncodeToString, List.mem_cons, List.not_mem_nil, or_false] at hc
    rcases hc with rfl | rfl | rfl | rfl <;>
      simp [encodeChar_ne_cr, encodeChar_ne_lf]
  | case4 a b c rest ih =>
    intro x hx
    simp only [EncodeToString, List.mem_cons] at hx
    rcases hx with rfl | rfl | rfl | rfl | hx
    · simp [encodeChar_ne_cr, encodeChar_ne_lf]
    · simp [encodeChar_ne_cr, encodeChar_ne_lf]
    · simp [encodeChar_ne_cr, encodeChar_ne_lf]
    · simp [encodeChar_ne_cr, encodeChar_ne_lf]
    · exact ih x hx

theorem decodeQuanta_EncodeToString (bs : Bytes) (hbs : IsBytes bs) :
    decodeQuanta (EncodeToString bs) = .ok bs := by
  induction bs using EncodeToString.induct with
  | case1 => simp [EncodeToString, decodeQuanta]
  | case2 a =>
    have ha : a < 256 := hbs a (by simp)
    simp only [EncodeToString, decodeQuanta]
    rw [decodeChar_encodeChar _ (by omega), decodeChar_encodeChar _ (by omega), decodeChar_pad]
    simp
    omega
  | case3 a b =>
    have ha : a < 256 := hbs a (by simp)
    have hb : b < 256 := hbs b (by simp)
    simp only [EncodeToString, decodeQuanta]
    rw [decodeChar_encodeChar _ (by omega), decodeChar_encodeChar _ (by omega),
      decodeChar_encodeChar _ (by omega), decodeChar_pad]
    simp
    omega
  | case4 a b c rest ih =>
    have ha : a < 256 := hbs a (by simp)
    have hb : b < 256 := hbs b (by simp)
    have hc : c < 256 := hbs c (by simp)
    have hrest : IsBytes rest := fun x hx => hbs x (by simp [hx])
    simp only [EncodeToString, decodeQuanta]
    rw [decodeChar_encodeChar _ (by omega), decodeChar_encodeChar _ (by omega),
      decodeChar_encodeChar _ (by omega), decodeChar_encodeChar _ (by omega), ih hrest]
    simp
    omega

/-- Decoding inverts encoding on byte strings. -/
theorem DecodeString_EncodeToString (bs : Bytes) (hbs : IsBytes bs) :
    DecodeString (EncodeToString bs) = .ok bs := by
  unfold DecodeString
  rw [filter_EncodeToString, decodeQuanta_EncodeToString bs hbs]

theorem length_EncodeToString (bs : Bytes) :
    (EncodeToString bs).length = 4 * ((bs.length + 2) / 3) := by
  induction bs using EncodeToString.induct with
  | case1 => rfl
  | case2 a => simp [EncodeToString]
  | case3 a b => simp [EncodeToString]
  | case4 a b c rest ih =>
    simp only [EncodeToString, List.length_cons, ih]
    omega

theorem getLast?_EncodeToString (bs : Bytes) (h : bs.length % 3 = 1) :
    (EncodeToString bs).getLast? = some '=' := by
  induction bs using EncodeToString.induct with
  | case1 => simp at h
  | case2 a => simp [EncodeToString]
  | case3 a b => simp [EncodeToString]
  | case4 a b c rest ih =>
    have hr : rest.length % 3 = 1 := by
      simp only [List.length_cons] at h; omega
    have hne : EncodeToString rest ≠ [] := by
      intro he
      have := length_EncodeToString rest
      rw [he] at this
      simp at this
      omega
    simp only [EncodeToString]
    rw [List.getLast?_cons_cons, List.getLast?_cons_cons, List.getLast?_cons_cons]
    cases hq : EncodeToString rest with
    | nil => exact absurd hq hne
    | cons x xs =>
      rw [List.getLast?_cons_cons, ← hq]
      exact ih hr

end base64

theorem length_flatMap_leBytes (k : Nat) (ws : List Nat) :
    (ws.flatMap (leBytes k)).length = k * ws.length := by
  induction ws with
  | nil => simp
  | cons w ws ih =>
    simp only [List.flatMap_cons, List.length_append, length_leBytes, ih, List.length_cons]
    ring

/-! ## Lemmas on BLAKE2b -/

namespace blake2b

theorem length_G (v : List Nat) (a b c d x y : Nat) : (G v a b c d x y).length = v.length := by
  simp [G]

theorem length_mixRound (m v s : List Nat) : (mixRound m v s).length = v.length := by
  simp [mixRound, length_G]

theorem length_foldl_mixRound (m : List Nat) (ss : List (List Nat)) (v : List Nat) :
    (ss.foldl (mixRound m) v).length = v.length := by
  induction ss generalizing v with
  | nil => rfl
  | cons s ss ih => simp [List.foldl_cons, ih, length_mixRound]

theorem length_F (h : List Nat) (block : Bytes) (t : Nat) ( last : Bool) (hh : h.length = 8) :
    (F h block t last).length = 8 := by
  have hiv : IV.length = 8 := by decide
  unfold F
  simp only [List.length_zipWith, List.length_take, List.length_drop, length_foldl_mixRound]
  split <;> simp [hh, hiv]

theorem length_absorb (fuel : Nat) (h : List Nat) (msg : Bytes) (t : Nat) (hh : h.length = 8) :
    (absorb fuel h msg t).length = 8 := by
  induction fuel generalizing h msg t with
  | zero => simpa [absorb] using hh
  | succ n ih =>
    unfold absorb
    split
    · exact length_F _ _ _ _ hh
    · exact ih _ _ _ (length_F _ _ _ _ hh)

/-- The digest has 64 bytes. -/
theorem length_Sum512 (data : Bytes) : (Sum512 data).length = 64 := by
  unfold Sum512
  rw [length_flatMap_leBytes, length_absorb]
  simp [IV, sha512.H0]

end blake2b

/-! ## Lemmas on Ed25519 -/

namespace ed25519

theorem length_encodePoint (P : Point) : (encodePoint P).length = 32 := by
  simp [encodePoint, length_leBytes]

theorem isBytes_encodePoint (P : Point) : IsBytes (encodePoint P) := by
  simp only [encodePoint]
  exact isBytes_leBytes _ _

theorem length_publicKey (seed : Bytes) : (publicKey seed).length = 32 :=
  length_encodePoint _

theorem length_Sign (seed message : Bytes) : (Sign seed message).length = 64 := by
  simp [Sign, length_encodePoint, length_leBytes]

theorem isBytes_Sign (seed message : Bytes) : IsBytes (Sign seed message) := by
  simp only [Sign]
  exact isBytes_append (isBytes_encodePoint _) (isBytes_leBytes _ _)

end ed25519

/-! ## Lemmas on decimal numbers -/

namespace strconv


theorem digitVal_digitChar (k : Nat) (hk : k < 10) : digitVal (digitChar k) = some k := by
  interval_cases k <;> rfl

theorem toNat_digitChar (k : Nat) (hk : k < 10) : (digitChar k).toNat = 48 + k := by
  interval_cases k <;> rfl

theorem decimal_ne_nil (fuel n : Nat) : decimal (fuel + 1) n ≠ [] := by
  unfold decimal
  split <;> simp

theorem mem_decimal (fuel n : Nat) : ∀ c ∈ decimal fuel n, ∃ k, k < 10 ∧ c = digitChar k := by
  induction fuel generalizing n with
  | zero => intro c hc; simp [decimal] at hc
  | succ f ih =>
    intro c hc
    unfold decimal at hc
    split at hc
    · simp only [List.mem_singleton] at hc
      exact ⟨n, by omega, hc⟩
    · rcases List.mem_append.mp hc with h | h
      · exact ih _ c h
      · simp only [List.mem_singleton] at h
        exact ⟨n % 10, Nat.mod_lt _ (by norm_num), h⟩

theorem digitsValue_decimal (fuel n : Nat) (h : n < fuel) : digitsValue (decimal fuel n) = n := by
  induction fuel generalizing n with
  | zero => omega
  | succ f ih =>
    unfold decimal
    split
    · rename_i h10
      simp [digitsValue, toNat_digitChar n h10]
    · have hlt : n / 10 < f := by omega
      have := ih (n / 10) hlt
      unfold digitsValue at this ⊢
      rw [List.foldl_append, this]
      simp [toNat_digitChar (n % 10) (Nat.mod_lt _ (by norm_num))]
      omega

theorem foldl_parseStep_decimal (s : Str) (fuel n : Nat) (h : n < fuel) (hn : n < 2 ^ 64) :
    (decimal fuel n).foldl (parseStep s) (.ok 0) = .ok n := by
  induction fuel generalizing n with
  | zero => omega
  | succ f ih =>
    unfold decimal
    split
    · rename_i h10
      have : n < 18446744073709551616 := by omega
      simp [parseStep, digitVal_digitChar n h10, this]
    · have hlt : n / 10 < f := by omega
      have h64 : n / 10 < 2 ^ 64 := by omega
      rw [List.foldl_append, ih (n / 10) hlt h64]
      have : 10 * (n / 10) + n % 10 < 2 ^ 64 := by omega
      simp only [List.foldl_cons, List.foldl_nil, parseStep,
        digitVal_digitChar (n % 10) (Nat.mod_lt _ (by norm_num)), this, if_true]
      congr 1
      omega

theorem digitChar_ne_sign (k : Nat) (hk : k < 10) : digitChar k ≠ '-' ∧ digitChar k ≠ '+' := by
  interval_cases k <;> decide

/-- Parsing inverts formatting on the 64-bit integers. -/
theorem Atoi_FormatInt (i : Int) (hlo : -2 ^ 63 ≤ i) (hhi : i < 2 ^ 63) :
    Atoi (FormatInt i) = .ok i := by
  have h64 : i.natAbs < 2 ^ 64 := by omega
  have hfold := foldl_parseStep_decimal
  by_cases hneg : i < 0
  · have hne := decimal_ne_nil i.natAbs i.natAbs
    have hle : i.natAbs ≤ 2 ^ 63 := by omega
    have hval : -((i.natAbs : Nat) : Int) = i := by omega
    have hle2 : i.natAbs ≤ 9223372036854775808 := by omega
    simp [Atoi, FormatInt, hneg, hne, hfold _ (i.natAbs + 1) i.natAbs (by omega) h64, hle2]
    rw [abs_of_neg hneg]; ring
  · have hne := decimal_ne_nil i.natAbs i.natAbs
    have hlt : i.natAbs < 2 ^ 63 := by omega
    have hval : ((i.natAbs : Nat) : Int) = i := by omega
    have hhead : (decimal (i.natAbs + 1) i.natAbs).head? ≠ some '-' ∧
        (decimal (i.natAbs + 1) i.natAbs).head? ≠ some '+' := by
      cases hd : decimal (i.natAbs + 1) i.natAbs with
      | nil => exact absurd hd hne
      | cons c cs =>
        obtain ⟨k, hk, rfl⟩ := mem_decimal _ _ c (by rw [hd]; simp)
        have := digitChar_ne_sign k hk
        simp [this.1, this.2]
    have hlt2 : i.natAbs < 9223372036854775808 := by omega
    simp [Atoi, FormatInt, hneg, hne, hhead.1, hhead.2,
      hfold _ (i.natAbs + 1) i.natAbs (by omega) h64, hlt2]
    exact not_lt.mp hneg

end strconv

/-! ## Lemmas on `Sprintf` -/

namespace fmt

theorem Sprintf_cons_ne (c : Char) (l : Str) (args : List Arg) (hc : c ≠ '%') :
    Sprintf (c :: l) args = c :: Sprintf l args := by
  cases l with
  | nil => simp [Sprintf]
  | cons v rest => simp [Sprintf, hc]

theorem Sprintf_append_literal (pre l : Str) (args : List Arg) (h : ∀ c ∈ pre, c ≠ '%') :
    Sprintf (pre ++ l) args = pre ++ Sprintf l args := by
  induction pre with
  | nil => rfl
  | cons c pre ih =>
    rw [List.cons_append, Sprintf_cons_ne _ _ _ (h c (by simp)),
      ih (fun x hx => h x (by simp [hx])), List.cons_append]

theorem Sprintf_d (rest : Str) (i : Int) (args : List Arg) :
    Sprintf ('%' :: 'd' :: rest) (Arg.int i :: args) = strconv.FormatInt i ++ Sprintf rest args := by
  simp [Sprintf]

theorem Sprintf_s (rest : Str) (s : Str) (args : List Arg) :
    Sprintf ('%' :: 's' :: rest) (Arg.str s :: args) = s ++ Sprintf rest args := by
  simp [Sprintf]

theorem Sprintf_literal (pre : Str) (args : List Arg) (h : ∀ c ∈ pre, c ≠ '%') :
    Sprintf pre args = pre := by
  have := Sprintf_append_literal pre [] args h
  simpa [Sprintf] using this

end fmt

namespace authentication

theorem authSignature_nested (subscriberID keyID : Str) (created expired : Int)
    (signature : Str) :
    authSignature subscriberID keyID created expired signature =
      "Signature keyId=\"".toList ++ (subscriberID ++ ("|".toList ++ (keyID ++
      ("|ed25519\",algorithm=\"ed25519\",created=\"".toList ++ (strconv.FormatInt created ++
      ("\",expires=\"".toList ++ (strconv.FormatInt expired ++
      ("\",headers=\"(created) (expires) digest\",signature=\"".toList ++ (signature ++
      "\"".toList))))))))) := by
  have hfmt : authSignatureFormat =
      "Signature keyId=\"".toList ++ ('%' :: 's' :: ("|".toList ++ ('%' :: 's' ::
      ("|ed25519\",algorithm=\"ed25519\",created=\"".toList ++ ('%' :: 'd' ::
      ("\",expires=\"".toList ++ ('%' :: 'd' ::
      ("\",headers=\"(created) (expires) digest\",signature=\"".toList ++ ('%' :: 's' ::
      "\"".toList))))))))) := by decide
  unfold authSignature
  rw [hfmt, fmt.Sprintf_append_literal _ _ _ (by decide), fmt.Sprintf_s,
    fmt.Sprintf_append_literal _ _ _ (by decide), fmt.Sprintf_s,
    fmt.Sprintf_append_literal _ _ _ (by decide), fmt.Sprintf_d,
    fmt.Sprintf_append_literal _ _ _ (by decide), fmt.Sprintf_d,
    fmt.Sprintf_append_literal _ _ _ (by decide), fmt.Sprintf_s,
    fmt.Sprintf_literal _ _ (by decide)]

theorem createSigningString_nested (payload : Bytes) (created expired : Int) :
    createSigningString payload created expired =
      "(created): ".toList ++ (strconv.FormatInt created ++
      ("\n(expires): ".toList ++ (strconv.FormatInt expired ++
      ("\ndigest: BLAKE-512=".toList ++ base64.EncodeToString (blake2b.Sum512 payload))))) := by
  have hfmt : signingStringFormat =
      "(created): ".toList ++ ('%' :: 'd' :: ("\n(expires): ".toList ++ ('%' :: 'd' ::
      ("\ndigest: BLAKE-512=".toList ++ ('%' :: 's' :: []))))) := by decide
  unfold createSigningString
  simp only []
  rw [hfmt, fmt.Sprintf_append_literal _ _ _ (by decide), fmt.Sprintf_d,
    fmt.Sprintf_append_literal _ _ _ (by decide), fmt.Sprintf_d,
    fmt.Sprintf_append_literal _ _ _ (by decide), fmt.Sprintf_s]
  simp [fmt.Sprintf]

theorem createSigningString_append (payload : Bytes) (created expired : Int) :
    createSigningString payload created expired =
      "(created): ".toList ++ strconv.FormatInt created ++
      "\n(expires): ".toList ++ strconv.FormatInt expired ++
      "\ndigest: BLAKE-512=".toList ++ base64.EncodeToString (blake2b.Sum512 payload) := by
  rw [createSigningString_nested]
  simp only [List.append_assoc]

theorem authSignature_append (subscriberID keyID : Str) (created expired : Int)
    (signature : Str) :
    authSignature subscriberID keyID created expired signature =
      "Signature keyId=\"".toList ++ subscriberID ++ "|".toList ++ keyID ++
      "|ed25519\",algorithm=\"ed25519\",created=\"".toList ++ strconv.FormatInt created ++
      "\",expires=\"".toList ++ strconv.FormatInt expired ++
      "\",headers=\"(created) (expires) digest\",signature=\"".toList ++ signature ++
      "\"".toList := by
  rw [authSignature_nested]
  simp only [List.append_assoc]

end authentication

namespace fixture

theorem exampleJSON_read_write (h : keyset.Handle) (bs : Bytes)
    (hw : exampleJSON.Write h = .ok bs) : exampleJSON.Read bs = .ok h := by
  simp only [exampleJSON, Except.ok.injEq] at hw
  subst hw
  simp [exampleJSON]

theorem length_testKeyset_keyValue : testKeyset.keyValue.length = 32 := by decide!

/-- The signature of the fixture payload under the fixture key, evaluated. -/
theorem sign_testKeyset :
    base64.EncodeToString (ed25519.Sign testKeyset.keyValue
      (bytesOf (authentication.createSigningString payload creationTime expirationTime))) =
      wantedSignature := by decide!

/-- The fixture public key is the public key of the fixture seed, and the
Ed25519 verification accepts the fixture signature. -/
theorem verify_testKeyset :
    ed25519.publicKey testKeyset.keyValue = testKeyset.publicKey ∧
    ed25519.Verify (ed25519.publicKey testKeyset.keyValue)
      (bytesOf (authentication.createSigningString payload creationTime expirationTime))
      (ed25519.Sign testKeyset.keyValue
        (bytesOf (authentication.createSigningString payload creationTime expirationTime))) =
      .ok true := by decide!

end fixture

namespace strconv

theorem isDigit_digitChar (k : Nat) (hk : k < 10) : (digitChar k).isDigit = true := by
  interval_cases k <;> rfl

theorem isDecimalOf_FormatInt (i : Int) : IsDecimalOf (FormatInt i) i := by
  refine ⟨decimal (i.natAbs + 1) i.natAbs, ?_, decimal_ne_nil _ _, ?_, ?_⟩
  · unfold FormatInt
    split <;> simp
  · intro c hc
    obtain ⟨k, hk, rfl⟩ := mem_decimal _ _ c hc
    exact isDigit_digitChar k hk
  · exact digitsValue_decimal _ _ (by omega)

end strconv

namespace authentication

/-- C2: `createSigningString` is total and returns exactly
`(created): <created>`, a line feed, `(expires): <expired>`, a line feed and
`digest: BLAKE-512=<d>`, where both timestamps are decimal numerals, `d` is
the padded base64 text (88 characters) of the 64-byte BLAKE2b-512 digest of
the payload, and the string ends with the padding character, not a line feed. -/
theorem createSigningString_spec (payload : Bytes) (created expired : Int) :
    createSigningString payload created expired =
        "(created): ".toList ++ strconv.FormatInt created ++
        "\n(expires): ".toList ++ strconv.FormatInt expired ++
        "\ndigest: BLAKE-512=".toList ++ base64.EncodeToString (blake2b.Sum512 payload) ∧
      strconv.IsDecimalOf (strconv.FormatInt created) created ∧
      strconv.IsDecimalOf (strconv.FormatInt expired) expired ∧
      (blake2b.Sum512 payload).length = 64 ∧
      (base64.EncodeToString (blake2b.Sum512 payload)).length = 88 ∧
      (createSigningString payload created expired).getLast? = some '=' := by
  have hlen := blake2b.length_Sum512 payload
  have hlast : (base64.EncodeToString (blake2b.Sum512 payload)).getLast? = some '=' :=
    base64.getLast?_EncodeToString _ (by rw [hlen])
  refine ⟨createSigningString_append payload created expired,
    strconv.isDecimalOf_FormatInt created, strconv.isDecimalOf_FormatInt expired, hlen, ?_, ?_⟩
  · rw [base64.length_EncodeToString, hlen]
  · rw [createSigningString_append, List.getLast?_append, hlast]
    rfl

/-- On a key of 32 bytes `ed25519.Verify` returns. -/
theorem Verify_of_length (pub message sig : Bytes) (h : pub.length = 32) :
    ∃ b, ed25519.Verify pub message sig = .ok b := by
  unfold ed25519.Verify
  simp only [h, ne_eq, not_true_eq_false, if_false]
  split
  · exact ⟨_, rfl⟩
  · split
    · exact ⟨_, rfl⟩
    · split <;> exact ⟨_, rfl⟩

/-- The one way `VerifySignature` panics: the signature decodes to 64 bytes
and the key does not have 32 bytes. -/
theorem VerifySignature_panic_iff (signature : Str) (payload publicKey : Bytes)
    (created expired : Int) (text : Str) :
    VerifySignature signature payload publicKey created expired = .panic text ↔
      ∃ sig, base64.DecodeString signature = .ok sig ∧ sig.length = 64 ∧
        publicKey.length ≠ 32 ∧
        text = "ed25519: bad public key length: ".toList ++
          strconv.FormatInt (publicKey.length : Int) := by
  unfold VerifySignature
  cases hdec : base64.DecodeString signature with
  | error e => simp
  | ok sig =>
    by_cases hsig : sig.length = 64
    · by_cases hkey : publicKey.length = 32
      · obtain ⟨b, hb⟩ := Verify_of_length publicKey
          (bytesOf (createSigningString payload created expired)) sig hkey
        cases b <;> simp [subtle.NewED25519Verifier, subtle.Verify, hsig, hkey, hb]
      · simp only [subtle.NewED25519Verifier, subtle.Verify, ne_eq, hsig, not_true_eq_false,
          if_false, ed25519.Verify, hkey, not_false_eq_true, if_true, Outcome.panic.injEq,
          Except.ok.injEq, exists_eq_left', true_and]
        exact eq_comm
    · simp [subtle.NewED25519Verifier, subtle.Verify, hsig]

/-- C8: `VerifySignature` does not fail closed on a public key that is not 32
bytes long.  A signature text that is not valid standard base64 gives the
decoder's error, and a decoded signature that is not 64 bytes long gives an
error, whatever the key; but on a signature of 64 bytes and a key that is not
32 bytes long the call panics inside `ed25519.Verify`, with the text
`ed25519: bad public key length: ` and the length of the key. -/
theorem VerifySignature_panics (signature : Str) (payload publicKey : Bytes)
    (created expired : Int) :
    (∀ err, base64.DecodeString signature = .error err →
      VerifySignature signature payload publicKey created expired = .error err) ∧
    (∀ sig, base64.DecodeString signature = .ok sig → sig.length ≠ 64 →
      VerifySignature signature payload publicKey created expired =
        .error (.library "the length of the signature is not 64".toList)) ∧
    (∀ sig, base64.DecodeString signature = .ok sig → sig.length = 64 →
      publicKey.length ≠ 32 →
      VerifySignature signature payload publicKey created expired =
        .panic ("ed25519: bad public key length: ".toList ++
          strconv.FormatInt (publicKey.length : Int))) := by
  refine ⟨?_, ?_, ?_⟩
  · intro err hdec
    simp only [VerifySignature, hdec]
  · intro sig hdec hsig
    simp only [VerifySignature, hdec, subtle.NewED25519Verifier, subtle.Verify, ne_eq, hsig,
      not_false_eq_true, if_true]
  · intro sig hdec hsig hkey
    simp only [VerifySignature, hdec, subtle.NewED25519Verifier, subtle.Verify, ne_eq, hsig,
      not_true_eq_false, if_false, ed25519.Verify, hkey, not_false_eq_true, if_true]

theorem VerifySignature_panics_witness :
    VerifySignature fixture.wantedSignature fixture.payload []
        fixture.creationTime fixture.expirationTime =
      .panic "ed25519: bad public key length: 0".toList :=
  (VerifySignature_panics fixture.wantedSignature fixture.payload []
      fixture.creationTime fixture.expirationTime).2.2
    (ed25519.Sign fixture.testKeyset.keyValue
      (bytesOf (createSigningString fixture.payload fixture.creationTime
        fixture.expirationTime)))
    (by
      rw [← fixture.sign_testKeyset]
      exact base64.DecodeString_EncodeToString _ (ed25519.isBytes_Sign _ _))
    (ed25519.length_Sign _ _) (by decide)

/-- C9: when `SignPayload` returns a signature text, `CreateAuthSignature`
returns exactly the header
`Signature keyId="<subscriberID>|<keyID>|ed25519",algorithm="ed25519",created="<created>",expires="<expired>",headers="(created) (expires) digest",signature="<sig>"`
with the timestamps as decimal numerals and that signature text; when
`SignPayload` fails, it returns that error (and no header). -/
theorem CreateAuthSignature_spec (tk : keyset.JSON) (payload keysetJSON : Bytes)
    (created expired : Int) (subscriberID keyID : Str) :
    (∀ sig, SignPayload tk payload keysetJSON created expired = .ok sig →
      CreateAuthSignature tk payload keysetJSON created expired subscriberID keyID =
        .ok ("Signature keyId=\"".toList ++ subscriberID ++ "|".toList ++ keyID ++
          "|ed25519\",algorithm=\"ed25519\",created=\"".toList ++ strconv.FormatInt created ++
          "\",expires=\"".toList ++ strconv.FormatInt expired ++
          "\",headers=\"(created) (expires) digest\",signature=\"".toList ++ sig ++
          "\"".toList) ∧
      strconv.IsDecimalOf (strconv.FormatInt created) created ∧
      strconv.IsDecimalOf (strconv.FormatInt expired) expired) ∧
    (∀ err, SignPayload tk payload keysetJSON created expired = .error err →
      CreateAuthSignature tk payload keysetJSON created expired subscriberID keyID =
        .error err) := by
  constructor
  · intro sig h
    refine ⟨?_, strconv.isDecimalOf_FormatInt created, strconv.isDecimalOf_FormatInt expired⟩
    unfold CreateAuthSignature
    rw [h]
    simp only [authSignature_append]
  · intro err h
    unfold CreateAuthSignature
    rw [h]

end authentication

namespace fixture

theorem read_exampleKeysetJSON : exampleJSON.Read exampleKeysetJSON = .ok testKeyset := by
  have h := length_testKeyset_keyValue
  simp [exampleJSON, exampleKeysetJSON, ← h]

theorem authSignature_fixture :
    authentication.authSignature "example-bap.com".toList "bap1234".toList creationTime
      expirationTime wantedSignature = wantAuthSignature := by decide!

end fixture

namespace authentication

theorem SignPayload_read (tk : keyset.JSON) (payload keysetJSON : Bytes) (created expired : Int)
    (h : keyset.Handle) (hread : tk.Read keysetJSON = .ok h) (hlen : h.keyValue.length = 32) :
    SignPayload tk payload keysetJSON created expired =
      .ok (base64.EncodeToString (ed25519.Sign h.keyValue
        (bytesOf (createSigningString payload created expired)))) := by
  simp [SignPayload, Sign, readJSONKeyset, hread, subtle.NewED25519Signer, hlen]

theorem SignPayload_fixture (tk : keyset.JSON) (keysetJSON : Bytes)
    (hread : tk.Read keysetJSON = .ok fixture.testKeyset) :
    SignPayload tk fixture.payload keysetJSON fixture.creationTime fixture.expirationTime =
      .ok fixture.wantedSignature := by
  rw [SignPayload_read tk _ _ _ _ _ hread fixture.length_testKeyset_keyValue,
    fixture.sign_testKeyset]

theorem CreateAuthSignature_spec_witness :
    (SignPayload fixture.exampleJSON fixture.payload fixture.exampleKeysetJSON
        fixture.creationTime fixture.expirationTime = .ok fixture.wantedSignature ∧
      CreateAuthSignature fixture.exampleJSON fixture.payload fixture.exampleKeysetJSON
        fixture.creationTime fixture.expirationTime "example-bap.com".toList "bap1234".toList =
        .ok ("Signature keyId=\"".toList ++ "example-bap.com".toList ++ "|".toList ++
          "bap1234".toList ++ "|ed25519\",algorithm=\"ed25519\",created=\"".toList ++
          strconv.FormatInt fixture.creationTime ++ "\",expires=\"".toList ++
          strconv.FormatInt fixture.expirationTime ++
          "\",headers=\"(created) (expires) digest\",signature=\"".toList ++
          fixture.wantedSignature ++ "\"".toList)) ∧
    (SignPayload fixture.exampleJSON fixture.payload [] fixture.creationTime
        fixture.expirationTime = .error (.library "empty keyset".toList) ∧
      CreateAuthSignature fixture.exampleJSON fixture.payload [] fixture.creationTime
        fixture.expirationTime "example-bap.com".toList "bap1234".toList =
        .error (.library "empty keyset".toList)) :=
  have hok := SignPayload_fixture fixture.exampleJSON fixture.exampleKeysetJSON
    fixture.read_exampleKeysetJSON
  have herr : SignPayload fixture.exampleJSON fixture.payload [] fixture.creationTime
      fixture.expirationTime = .error (.library "empty keyset".toList) := rfl
  ⟨⟨hok, ((CreateAuthSignature_spec fixture.exampleJSON fixture.payload
      fixture.exampleKeysetJSON fixture.creationTime fixture.expirationTime
      "example-bap.com".toList "bap1234".toList).1 _ hok).1⟩,
   ⟨herr, (CreateAuthSignature_spec fixture.exampleJSON fixture.payload [] fixture.creationTime
      fixture.expirationTime "example-bap.com".toList "bap1234".toList).2 _ herr⟩⟩

/-- C3: with the fixture Ed25519 key pair in the keyset, the fixture search
payload and the window created=1641287875, expired=1641291475, `SignPayload`
returns exactly the signature `cjbhP0...oAQ==` of the tests, and
`CreateAuthSignature` for subscriber `example-bap.com` and key id `bap1234`
returns exactly the header the test expects. -/
theorem fixture_known_vector (tk : keyset.JSON) (keysetJSON : Bytes)
    (hread : tk.Read keysetJSON = .ok fixture.testKeyset) :
    SignPayload tk fixture.payload keysetJSON 1641287875 1641291475 =
      .ok "cjbhP0PFyrlSCNszJM1F/YmHDVAWsZqJUPzojnE/7TJU3fJ/rmIlgaUHEr5E0/2PIyf0tpSnWtT6cyNNlpmoAQ==".toList ∧
    CreateAuthSignature tk fixture.payload keysetJSON 1641287875 1641291475
        "example-bap.com".toList "bap1234".toList =
      .ok "Signature keyId=\"example-bap.com|bap1234|ed25519\",algorithm=\"ed25519\",created=\"1641287875\",expires=\"1641291475\",headers=\"(created) (expires) digest\",signature=\"cjbhP0PFyrlSCNszJM1F/YmHDVAWsZqJUPzojnE/7TJU3fJ/rmIlgaUHEr5E0/2PIyf0tpSnWtT6cyNNlpmoAQ==\"".toList := by
  have hsig := SignPayload_fixture tk keysetJSON hread
  refine ⟨hsig, ?_⟩
  have hcreate : CreateAuthSignature tk fixture.payload keysetJSON fixture.creationTime
      fixture.expirationTime "example-bap.com".toList "bap1234".toList =
      .ok fixture.wantAuthSignature := by
    unfold CreateAuthSignature
    rw [hsig]
    simp only [fixture.authSignature_fixture]
  exact hcreate

theorem fixture_known_vector_witness :
    fixture.exampleJSON.Read fixture.exampleKeysetJSON = .ok fixture.testKeyset ∧
    SignPayload fixture.exampleJSON fixture.payload fixture.exampleKeysetJSON 1641287875
        1641291475 =
      .ok "cjbhP0PFyrlSCNszJM1F/YmHDVAWsZqJUPzojnE/7TJU3fJ/rmIlgaUHEr5E0/2PIyf0tpSnWtT6cyNNlpmoAQ==".toList :=
  ⟨fixture.read_exampleKeysetJSON,
   (fixture_known_vector fixture.exampleJSON fixture.exampleKeysetJSON
     fixture.read_exampleKeysetJSON).1⟩

/-- C1: for every payload, every validity window and every keyset that
`GenerateKeysetJSON` returns, `ExtractRawPublicKey` and `SignPayload` succeed
on the keyset and `VerifySignature` accepts the signature under the extracted
public key, given the contracts of the two libraries underneath: Tink
reads back the keyset it wrote, and Ed25519 accepts the signature it made for
this signing string. -/
theorem sign_verify_round_trip (tk : keyset.JSON) (random payload keysetJSON : Bytes)
    (created expired : Int)
    (hgen : GenerateKeysetJSON tk random = .ok keysetJSON)
    (htink : ∀ h bs, tk.Write h = .ok bs → tk.Read bs = .ok h)
    (hed : ed25519.Verify (ed25519.publicKey random)
      (bytesOf (createSigningString payload created expired))
      (ed25519.Sign random (bytesOf (createSigningString payload created expired))) =
      .ok true) :
    ∃ publicKey signature,
      ExtractRawPublicKey tk keysetJSON = .ok publicKey ∧
      SignPayload tk payload keysetJSON created expired = .ok signature ∧
      VerifySignature signature payload publicKey created expired = .ok () := by
  unfold GenerateKeysetJSON keyset.NewHandle at hgen
  by_cases hlen : random.length = 32
  · simp only [hlen, ne_eq, not_true_eq_false, if_false] at hgen
    have hread := htink _ _ hgen
    refine ⟨ed25519.publicKey random, _, ?_, SignPayload_read tk payload keysetJSON created
      expired _ hread hlen, ?_⟩
    · simp [ExtractRawPublicKey, readJSONKeyset, hread]
    · simp only [VerifySignature]
      rw [base64.DecodeString_EncodeToString _ (ed25519.isBytes_Sign _ _)]
      simp [subtle.NewED25519Verifier, subtle.Verify, ed25519.length_publicKey,
        ed25519.length_Sign, hed]
  · simp [hlen] at hgen

theorem sign_verify_round_trip_witness :
    ∃ publicKey signature,
      ExtractRawPublicKey fixture.exampleJSON fixture.exampleKeysetJSON = .ok publicKey ∧
      SignPayload fixture.exampleJSON fixture.payload fixture.exampleKeysetJSON
        fixture.creationTime fixture.expirationTime = .ok signature ∧
      VerifySignature signature fixture.payload publicKey fixture.creationTime
        fixture.expirationTime = .ok () :=
  sign_verify_round_trip fixture.exampleJSON fixture.testKeyset.keyValue fixture.payload
    fixture.exampleKeysetJSON fixture.creationTime fixture.expirationTime
    (by
      simp [GenerateKeysetJSON, keyset.NewHandle, fixture.length_testKeyset_keyValue,
        fixture.verify_testKeyset.1, fixture.exampleJSON, fixture.exampleKeysetJSON])
    fixture.exampleJSON_read_write
    fixture.verify_testKeyset.2

end authentication

namespace fixture

theorem extract_testAuthHeader :
    authentication.ExtractInfoFromHeader testAuthHeader = (testInfo, none) := by decide!

theorem extract_mismatchAuthHeader :
    authentication.ExtractInfoFromHeader mismatchAuthHeader =
      ({ testInfo with KeyIDAlgorithm := "x25519".toList }, none) := by decide!

end fixture

namespace middleware

theorem authentication_of_error {Context : Type} (a : authenticator Context) (r : Request)
    (info : authentication.Info) (e : Error)
    (hx : authentication.ExtractInfoFromHeader (r.Get a.verifyingHeader) = (info, some e)) :
    authentication a r = [.unauthenticated] := by
  simp only [authentication, hx]

theorem authentication_of_info {Context : Type} (a : authenticator Context) (r : Request)
    (info : authentication.Info)
    (hx : authentication.ExtractInfoFromHeader (r.Get a.verifyingHeader) = (info, none)) :
    authentication a r =
      if info.Algorithm ≠ info.KeyIDAlgorithm then [.unauthenticated]
      else if info.Created > a.clock ∨ info.Expired < a.clock then
        [.clockNow, .unauthenticated]
      else
        match a.decodeContext r.Body with
        | .error _ => [.clockNow, .readBody, .unauthenticated]
        | .ok ondcCtx =>
          match a.registryClient info.SubscriberID info.UniqueKeyID ondcCtx with
          | .error _ =>
            [.clockNow, .readBody,
             .publicSigningKey info.SubscriberID info.UniqueKeyID ondcCtx, .unauthenticated]
          | .ok ed25519PublicKey =>
            match authentication.VerifySignature info.Signature r.Body ed25519PublicKey
                info.Created info.Expired with
            | .error _ =>
              [.clockNow, .readBody,
               .publicSigningKey info.SubscriberID info.UniqueKeyID ondcCtx, .unauthenticated]
            | .panic text =>
              [.clockNow, .readBody,
               .publicSigningKey info.SubscriberID info.UniqueKeyID ondcCtx, .panic text]
            | .ok _ =>
              [.clockNow, .readBody,
               .publicSigningKey info.SubscriberID info.UniqueKeyID ondcCtx,
               .serveHTTP r] := by
  simp only [authentication, hx, ReadAll, Request.setBody]

/-- C5: for a header that decodes to `info`, the authenticator rejects when the
clock reads less than `Created` and when it reads more than `Expired`, in both
cases without going on to the body; when the algorithm names agree and
`Created <= now <= Expired`, both bounds included, the window gate is passed:
the run goes on to read the body and the rejection of the window gate is not
what it produces. -/
theorem window_gate {Context : Type} (a : authenticator Context) (r : Request)
    (info : authentication.Info)
    (hdec : authentication.ExtractInfoFromHeader (r.Get a.verifyingHeader) = (info, none)) :
    (a.clock < info.Created →
      (authentication a r).getLast? = some .unauthenticated ∧
      Event.readBody ∉ authentication a r ∧ ∀ req, Event.serveHTTP req ∉ authentication a r) ∧
    (info.Expired < a.clock →
      (authentication a r).getLast? = some .unauthenticated ∧
      Event.readBody ∉ authentication a r ∧ ∀ req, Event.serveHTTP req ∉ authentication a r) ∧
    (info.Algorithm = info.KeyIDAlgorithm → info.Created ≤ a.clock → a.clock ≤ info.Expired →
      Event.readBody ∈ authentication a r ∧
      authentication a r ≠ [.clockNow, .unauthenticated]) := by
  rw [authentication_of_info a r info hdec]
  refine ⟨?_, ?_, ?_⟩
  · intro h
    have hwin : info.Created > a.clock ∨ info.Expired < a.clock := Or.inl h
    by_cases halg : info.Algorithm = info.KeyIDAlgorithm <;> simp [halg, hwin]
  · intro h
    have hwin : info.Created > a.clock ∨ info.Expired < a.clock := Or.inr h
    by_cases halg : info.Algorithm = info.KeyIDAlgorithm <;> simp [halg, hwin]
  · intro halg hc he
    have hwin : ¬ (info.Created > a.clock ∨ info.Expired < a.clock) := by omega
    cases hctx : a.decodeContext r.Body with
    | error e1 => simp [halg, hwin, hctx]
    | ok ctx =>
      cases hkey : a.registryClient info.SubscriberID info.UniqueKeyID ctx with
      | error e2 => simp [halg, hwin, hctx, hkey]
      | ok key =>
        cases hver : authentication.VerifySignature info.Signature r.Body key
            info.Created info.Expired with
        | error e3 => simp [halg, hwin, hctx, hkey, hver]
        | panic text => simp [halg, hwin, hctx, hkey, hver]
        | ok u => simp [halg, hwin, hctx, hkey, hver]

theorem window_gate_witness :
    authentication.ExtractInfoFromHeader
        ((fixture.testRequest fixture.testAuthHeader).Get "Authorization".toList) =
      (fixture.testInfo, none) ∧
    (authentication (fixture.testAuthenticator 1541287875)
      (fixture.testRequest fixture.testAuthHeader)).getLast? = some .unauthenticated ∧
    (authentication (fixture.testAuthenticator 1741287875)
      (fixture.testRequest fixture.testAuthHeader)).getLast? = some .unauthenticated ∧
    Event.readBody ∈ authentication (fixture.testAuthenticator 1641287875)
      (fixture.testRequest fixture.testAuthHeader) ∧
    Event.readBody ∈ authentication (fixture.testAuthenticator 1641291475)
      (fixture.testRequest fixture.testAuthHeader) :=
  ⟨fixture.extract_testAuthHeader,
   ((window_gate (fixture.testAuthenticator 1541287875)
      (fixture.testRequest fixture.testAuthHeader) fixture.testInfo
      fixture.extract_testAuthHeader).1 (by decide)).1,
   ((window_gate (fixture.testAuthenticator 1741287875)
      (fixture.testRequest fixture.testAuthHeader) fixture.testInfo
      fixture.extract_testAuthHeader).2.1 (by decide)).1,
   ((window_gate (fixture.testAuthenticator 1641287875)
      (fixture.testRequest fixture.testAuthHeader) fixture.testInfo
      fixture.extract_testAuthHeader).2.2 rfl (by decide) (by decide)).1,
   ((window_gate (fixture.testAuthenticator 1641291475)
      (fixture.testRequest fixture.testAuthHeader) fixture.testInfo
      fixture.extract_testAuthHeader).2.2 rfl (by decide) (by decide)).1⟩

/-- C6: when the header decodes to an `Info` whose `Algorithm` differs from
its `KeyIDAlgorithm`, the run consists of the rejection alone: the registry
is not asked for a key, the clock is not read and the body is not read. -/
theorem algorithm_mismatch_rejected {Context : Type} (a : authenticator Context) (r : Request)
    (info : authentication.Info)
    (hdec : authentication.ExtractInfoFromHeader (r.Get a.verifyingHeader) = (info, none))
    (hne : info.Algorithm ≠ info.KeyIDAlgorithm) :
    authentication a r = [.unauthenticated] ∧
    (∀ s k ctx, Event.publicSigningKey s k ctx ∉ authentication a r) ∧
    Event.clockNow ∉ authentication a r ∧ Event.readBody ∉ authentication a r := by
  rw [authentication_of_info a r info hdec]
  simp [hne]

theorem algorithm_mismatch_rejected_witness :
    authentication.ExtractInfoFromHeader
        ((fixture.testRequest fixture.mismatchAuthHeader).Get "Authorization".toList) =
      ({ fixture.testInfo with KeyIDAlgorithm := "x25519".toList }, none) ∧
    authentication (fixture.testAuthenticator 1641290000)
      (fixture.testRequest fixture.mismatchAuthHeader) = [.unauthenticated] :=
  ⟨fixture.extract_mismatchAuthHeader,
   (algorithm_mismatch_rejected (fixture.testAuthenticator 1641290000)
      (fixture.testRequest fixture.mismatchAuthHeader) _
      fixture.extract_mismatchAuthHeader (by decide)).1⟩

end middleware

/-! ## Lemmas on Go `strings` -/

namespace strings

theorem TrimPrefix_append (pre l : Str) : TrimPrefix (pre ++ l) pre = l := by
  unfold TrimPrefix
  have h : pre.isPrefixOf (pre ++ l) = true := by
    rw [List.isPrefixOf_iff_prefix]
    exact List.prefix_append pre l
  simp [h]

theorem Split_ne_nil (s : Str) (sep : Char) : Split s sep ≠ [] := by
  induction s with
  | nil => simp [Split]
  | cons c cs ih =>
    unfold Split
    split
    · simp
    · split <;> simp

theorem Split_of_not_mem (s : Str) (sep : Char) (h : sep ∉ s) : Split s sep = [s] := by
  induction s with
  | nil => rfl
  | cons c cs ih =>
    have hc : c ≠ sep := fun e => h (by simp [e])
    have hcs : sep ∉ cs := fun e => h (by simp [e])
    simp [Split, hc, ih hcs]

theorem Split_append_sep (a b : Str) (sep : Char) (h : sep ∉ a) :
    Split (a ++ sep :: b) sep = a :: Split b sep := by
  induction a with
  | nil => simp [Split]
  | cons c cs ih =>
    have hc : c ≠ sep := fun e => h (by simp [e])
    have hcs : sep ∉ cs := fun e => h (by simp [e])
    simp [Split, hc, ih hcs]

theorem Cut_append_sep (a b : Str) (sep : Char) (h : sep ∉ a) :
    Cut (a ++ sep :: b) sep = (a, b, true) := by
  have hboth : (a ++ sep :: b).takeWhile (fun c => c != sep) = a ∧
      (a ++ sep :: b).dropWhile (fun c => c != sep) = sep :: b := by
    induction a with
    | nil => simp [List.takeWhile, List.dropWhile]
    | cons c cs ih =>
      have hc : (c != sep) = true := by
        simp only [bne_iff_ne, ne_eq]
        exact fun e => h (by simp [e])
      have hcs : sep ∉ cs := fun e => h (by simp [e])
      rw [List.cons_append, List.takeWhile_cons, List.dropWhile_cons, hc]
      simp [(ih hcs).1, (ih hcs).2]
  obtain ⟨htake, hdrop⟩ := hboth
  unfold Cut
  rw [htake, hdrop]
  simp

theorem dropWhile_of_head (p : Char → Bool) (s : Str) (h : ∀ c, s.head? = some c → p c = false) :
    s.dropWhile p = s := by
  cases s with
  | nil => rfl
  | cons c cs => simp [List.dropWhile, h c rfl]

theorem rdropWhile_of_getLast (p : Char → Bool) (s : Str)
    (h : ∀ c, s.getLast? = some c → p c = false) : s.rdropWhile p = s := by
  rcases List.eq_nil_or_concat s with rfl | ⟨l, c, rfl⟩
  · rfl
  · have hc : p c = false := h c (by simp)
    simp [List.rdropWhile_concat, hc]

/-- Trimming a quoted text whose content neither begins nor ends with the
quote leaves the content. -/
theorem Trim_TrimSpace_quoted (v : Str) (hh : v.head? ≠ some quote)
    (hl : v.getLast? ≠ some quote) :
    Trim (TrimSpace (quote :: (v ++ [quote]))) [quote] = v := by
  have hq : isSpace quote = false := by decide
  have h1 : TrimSpace (quote :: (v ++ [quote])) = quote :: (v ++ [quote]) := by
    unfold TrimSpace
    rw [dropWhile_of_head _ _ (by intro c hc; simp at hc; rw [← hc]; exact hq)]
    have : quote :: (v ++ [quote]) = (quote :: v) ++ [quote] := rfl
    rw [this, List.rdropWhile_concat]
    simp [hq]
  rw [h1]
  unfold Trim
  have h2 : (quote :: (v ++ [quote])).dropWhile (fun c => decide (c ∈ [quote])) =
      (v ++ [quote]).dropWhile (fun c => decide (c ∈ [quote])) := by
    simp [List.dropWhile]
  rw [h2]
  by_cases hv : v = []
  · subst hv
    simp [List.dropWhile, List.rdropWhile]
  · have h3 : (v ++ [quote]).dropWhile (fun c => decide (c ∈ [quote])) = v ++ [quote] := by
      apply dropWhile_of_head
      intro c hc
      cases v with
      | nil => exact absurd rfl hv
      | cons x xs =>
        simp only [List.cons_append, List.head?_cons, Option.some.injEq] at hc
        subst hc
        have : x ≠ quote := fun e => hh (by simp [e])
        simp [this]
    rw [h3, List.rdropWhile_concat]
    simp only [List.mem_singleton, decide_True, if_true]
    apply rdropWhile_of_getLast
    intro c hc
    have : c ≠ quote := fun e => hl (by rw [hc, e])
    simp [this]

end strings

namespace strconv

theorem mem_FormatInt (i : Int) : ∀ c ∈ FormatInt i, c = '-' ∨ ∃ k, k < 10 ∧ c = digitChar k := by
  intro c hc
  unfold FormatInt at hc
  split at hc
  · rcases List.mem_cons.mp hc with h | h
    · exact Or.inl h
    · exact Or.inr (mem_decimal _ _ c h)
  · exact Or.inr (mem_decimal _ _ c hc)

theorem digitChar_ne_special (k : Nat) (hk : k < 10) :
    digitChar k ≠ ',' ∧ digitChar k ≠ strings.quote := by
  interval_cases k <;> decide

theorem FormatInt_no_special (i : Int) :
    ',' ∉ FormatInt i ∧ (FormatInt i).head? ≠ some strings.quote ∧
      (FormatInt i).getLast? ≠ some strings.quote := by
  have hall : ∀ c ∈ FormatInt i, c ≠ ',' ∧ c ≠ strings.quote := by
    intro c hc
    rcases mem_FormatInt i c hc with rfl | ⟨k, hk, rfl⟩
    · decide
    · exact digitChar_ne_special k hk
  refine ⟨fun h => (hall _ h).1 rfl, ?_, ?_⟩
  · intro h
    exact (hall _ (List.mem_of_mem_head? h)).2 rfl
  · intro h
    exact (hall _ (List.mem_of_mem_getLast? h)).2 rfl

end strconv

namespace authentication

theorem authSignature_elements (subscriberID keyID : Str) (created expired : Int)
    (signature : Str) :
    authSignature subscriberID keyID created expired signature =
      "Signature ".toList ++
      (element "keyId".toList (subscriberID ++ '|' :: (keyID ++ "|ed25519".toList)) ++ ',' ::
      (element "algorithm".toList "ed25519".toList ++ ',' ::
      (element "created".toList (strconv.FormatInt created) ++ ',' ::
      (element "expires".toList (strconv.FormatInt expired) ++ ',' ::
      (element "headers".toList "(created) (expires) digest".toList ++ ',' ::
      element "signature".toList signature))))) := by
  have hfmt : authSignatureFormat =
      "Signature ".toList ++ ("keyId".toList ++ ('=' :: strings.quote :: '%' :: 's' :: '|' ::
      '%' :: 's' :: ("|ed25519".toList ++ (strings.quote :: ',' :: ("algorithm".toList ++
      ('=' :: strings.quote :: ("ed25519".toList ++ (strings.quote :: ',' ::
      ("created".toList ++ ('=' :: strings.quote :: '%' :: 'd' :: strings.quote :: ',' ::
      ("expires".toList ++ ('=' :: strings.quote :: '%' :: 'd' :: strings.quote :: ',' ::
      ("headers".toList ++ ('=' :: strings.quote ::
      ("(created) (expires) digest".toList ++ (strings.quote :: ',' ::
      ("signature".toList ++ ('=' :: strings.quote :: '%' :: 's' ::
      [strings.quote])))))))))))))))))) := by decide
  have hq : strings.quote ≠ '%' := by decide
  have he : '=' ≠ '%' := by decide
  have hb : '|' ≠ '%' := by decide
  have hc : ',' ≠ '%' := by decide
  unfold authSignature
  rw [hfmt]
  rw [fmt.Sprintf_append_literal _ _ _ (by decide), fmt.Sprintf_append_literal _ _ _ (by decide),
    fmt.Sprintf_cons_ne _ _ _ he, fmt.Sprintf_cons_ne _ _ _ hq, fmt.Sprintf_s,
    fmt.Sprintf_cons_ne _ _ _ hb, fmt.Sprintf_s,
    fmt.Sprintf_append_literal _ _ _ (by decide),
    fmt.Sprintf_cons_ne _ _ _ hq, fmt.Sprintf_cons_ne _ _ _ hc,
    fmt.Sprintf_append_literal _ _ _ (by decide),
    fmt.Sprintf_cons_ne _ _ _ he, fmt.Sprintf_cons_ne _ _ _ hq,
    fmt.Sprintf_append_literal _ _ _ (by decide),
    fmt.Sprintf_cons_ne _ _ _ hq, fmt.Sprintf_cons_ne _ _ _ hc,
    fmt.Sprintf_append_literal _ _ _ (by decide),
    fmt.Sprintf_cons_ne _ _ _ he, fmt.Sprintf_cons_ne _ _ _ hq, fmt.Sprintf_d,
    fmt.Sprintf_cons_ne _ _ _ hq, fmt.Sprintf_cons_ne _ _ _ hc,
    fmt.Sprintf_append_literal _ _ _ (by decide),
    fmt.Sprintf_cons_ne _ _ _ he, fmt.Sprintf_cons_ne _ _ _ hq, fmt.Sprintf_d,
    fmt.Sprintf_cons_ne _ _ _ hq, fmt.Sprintf_cons_ne _ _ _ hc,
    fmt.Sprintf_append_literal _ _ _ (by decide),
    fmt.Sprintf_cons_ne _ _ _ he, fmt.Sprintf_cons_ne _ _ _ hq,
    fmt.Sprintf_append_literal _ _ _ (by decide),
    fmt.Sprintf_cons_ne _ _ _ hq, fmt.Sprintf_cons_ne _ _ _ hc,
    fmt.Sprintf_append_literal _ _ _ (by decide),
    fmt.Sprintf_cons_ne _ _ _ he, fmt.Sprintf_cons_ne _ _ _ hq, fmt.Sprintf_s,
    fmt.Sprintf_literal _ _ (by decide)]
  simp only [element, List.append_assoc, List.cons_append, List.nil_append]

end authentication

namespace authentication

theorem addElement_element (values : List (Str × Str)) (k v : Str) (hk : '=' ∉ k)
    (hks : strings.TrimSpace k = k) (hh : v.head? ≠ some strings.quote)
    (hl : v.getLast? ≠ some strings.quote) :
    addElement values (element k v) = (k, v) :: values := by
  unfold addElement element
  rw [strings.Cut_append_sep k _ '=' hk]
  simp [hks, strings.Trim_TrimSpace_quoted v hh hl]

theorem not_mem_element (k v : Str) (hk : ',' ∉ k) (hv : ',' ∉ v) : ',' ∉ element k v := by
  unfold element
  have hq : ',' ≠ strings.quote := by decide
  simp [hk, hv, hq]

theorem headerValues_authSignature (subscriberID keyID : Str) (created expired : Int)
    (signature : Str)
    (hsub : ',' ∉ subscriberID ∧ subscriberID.head? ≠ some strings.quote)
    (hkey : ',' ∉ keyID)
    (hsig : ',' ∉ signature ∧ signature.head? ≠ some strings.quote ∧
      signature.getLast? ≠ some strings.quote) :
    headerValues (authSignature subscriberID keyID created expired signature) =
      [("signature".toList, signature),
       ("headers".toList, "(created) (expires) digest".toList),
       ("expires".toList, strconv.FormatInt expired),
       ("created".toList, strconv.FormatInt created),
       ("algorithm".toList, "ed25519".toList),
       ("keyId".toList, subscriberID ++ '|' :: (keyID ++ "|ed25519".toList))] := by
  have hc := strconv.FormatInt_no_special created
  have he := strconv.FormatInt_no_special expired
  have hid : ',' ∉ subscriberID ++ '|' :: (keyID ++ "|ed25519".toList) := by
    have h1 : ',' ∉ "|ed25519".toList := by decide
    have h2 : ',' ≠ '|' := by decide
    simp [hsub.1, hkey, h1, h2]
  have hidh : (subscriberID ++ '|' :: (keyID ++ "|ed25519".toList)).head? ≠
      some strings.quote := by
    cases subscriberID with
    | nil => simp only [List.nil_append, List.head?_cons]; decide
    | cons c cs =>
      have := hsub.2
      simpa using this
  have hidl : (subscriberID ++ '|' :: (keyID ++ "|ed25519".toList)).getLast? ≠
      some strings.quote := by
    have e : subscriberID ++ '|' :: (keyID ++ "|ed25519".toList) =
        (subscriberID ++ '|' :: keyID) ++ "|ed25519".toList := by simp
    have h9 : ("|ed25519".toList).getLast? = some '9' := by decide
    rw [e, List.getLast?_append, h9]
    show some '9' ≠ some strings.quote
    decide
  unfold headerValues
  simp only [authSignature_elements, strings.TrimPrefix_append]
  rw [strings.Split_append_sep _ _ ',' (not_mem_element _ _ (by decide) hid),
    strings.Split_append_sep _ _ ',' (not_mem_element _ _ (by decide) (by decide)),
    strings.Split_append_sep _ _ ',' (not_mem_element _ _ (by decide) hc.1),
    strings.Split_append_sep _ _ ',' (not_mem_element _ _ (by decide) he.1),
    strings.Split_append_sep _ _ ',' (not_mem_element _ _ (by decide) (by decide)),
    strings.Split_of_not_mem _ ',' (not_mem_element _ _ (by decide) hsig.1)]
  simp only [List.foldl_cons, List.foldl_nil]
  rw [addElement_element _ "keyId".toList _ (by decide) (by decide) hidh hidl,
    addElement_element _ "algorithm".toList "ed25519".toList (by decide) (by decide)
      (by decide) (by decide),
    addElement_element _ "created".toList _ (by decide) (by decide) hc.2.1 hc.2.2,
    addElement_element _ "expires".toList _ (by decide) (by decide) he.2.1 he.2.2,
    addElement_element _ "headers".toList "(created) (expires) digest".toList (by decide)
      (by decide) (by decide) (by decide),
    addElement_element _ "signature".toList _ (by decide) (by decide) hsig.2.1 hsig.2.2]

theorem Split_keyId (subscriberID keyID : Str) (hsub : '|' ∉ subscriberID)
    (hkey : '|' ∉ keyID) :
    strings.Split (subscriberID ++ '|' :: (keyID ++ "|ed25519".toList)) '|' =
      [subscriberID, keyID, "ed25519".toList] := by
  have e : keyID ++ "|ed25519".toList = keyID ++ '|' :: "ed25519".toList := rfl
  rw [strings.Split_append_sep _ _ '|' hsub, e, strings.Split_append_sep _ _ '|' hkey,
    strings.Split_of_not_mem _ '|' (by decide)]

/-- The header codec round trip under the general conditions on the texts. -/
theorem ExtractInfoFromHeader_authSignature (subscriberID keyID : Str) (created expired : Int)
    (signature : Str)
    (hsub : ',' ∉ subscriberID ∧ '|' ∉ subscriberID ∧ subscriberID.head? ≠ some strings.quote)
    (hkey : ',' ∉ keyID ∧ '|' ∉ keyID)
    (hsig : ',' ∉ signature ∧ signature.head? ≠ some strings.quote ∧
      signature.getLast? ≠ some strings.quote)
    (hc : IsInt64 created) (he : IsInt64 expired) :
    ExtractInfoFromHeader (authSignature subscriberID keyID created expired signature) =
      ({ SubscriberID := subscriberID
         UniqueKeyID := keyID
         KeyIDAlgorithm := "ed25519".toList
         Algorithm := "ed25519".toList
         Created := created
         Expired := expired
         Signature := signature }, none) := by
  unfold ExtractInfoFromHeader
  simp only [headerValues_authSignature subscriberID keyID created expired signature
    ⟨hsub.1, hsub.2.2⟩ hkey.1 hsig]
  have hfind : requiredKeys.find? (fun k =>
      (List.lookup k [("signature".toList, signature),
       ("headers".toList, "(created) (expires) digest".toList),
       ("expires".toList, strconv.FormatInt expired),
       ("created".toList, strconv.FormatInt created),
       ("algorithm".toList, "ed25519".toList),
       ("keyId".toList, subscriberID ++ '|' :: (keyID ++ "|ed25519".toList))]).isNone) =
      none := rfl
  have hid : valueOf [("signature".toList, signature),
       ("headers".toList, "(created) (expires) digest".toList),
       ("expires".toList, strconv.FormatInt expired),
       ("created".toList, strconv.FormatInt created),
       ("algorithm".toList, "ed25519".toList),
       ("keyId".toList, subscriberID ++ '|' :: (keyID ++ "|ed25519".toList))] "keyId".toList =
      subscriberID ++ '|' :: (keyID ++ "|ed25519".toList) := rfl
  have hcr : valueOf [("signature".toList, signature),
       ("headers".toList, "(created) (expires) digest".toList),
       ("expires".toList, strconv.FormatInt expired),
       ("created".toList, strconv.FormatInt created),
       ("algorithm".toList, "ed25519".toList),
       ("keyId".toList, subscriberID ++ '|' :: (keyID ++ "|ed25519".toList))]
       "created".toList = strconv.FormatInt created := rfl
  have hex : valueOf [("signature".toList, signature),
       ("headers".toList, "(created) (expires) digest".toList),
       ("expires".toList, strconv.FormatInt expired),
       ("created".toList, strconv.FormatInt created),
       ("algorithm".toList, "ed25519".toList),
       ("keyId".toList, subscriberID ++ '|' :: (keyID ++ "|ed25519".toList))]
       "expires".toList = strconv.FormatInt expired := rfl
  have hal : valueOf [("signature".toList, signature),
       ("headers".toList, "(created) (expires) digest".toList),
       ("expires".toList, strconv.FormatInt expired),
       ("created".toList, strconv.FormatInt created),
       ("algorithm".toList, "ed25519".toList),
       ("keyId".toList, subscriberID ++ '|' :: (keyID ++ "|ed25519".toList))]
       "algorithm".toList = "ed25519".toList := rfl
  have hsg : valueOf [("signature".toList, signature),
       ("headers".toList, "(created) (expires) digest".toList),
       ("expires".toList, strconv.FormatInt expired),
       ("created".toList, strconv.FormatInt created),
       ("algorithm".toList, "ed25519".toList),
       ("keyId".toList, subscriberID ++ '|' :: (keyID ++ "|ed25519".toList))]
       "signature".toList = signature := rfl
  rw [hfind]
  simp only [hid, hcr, hex, hal, hsg, Split_keyId subscriberID keyID hsub.2.1 hkey.2,
    strconv.Atoi_FormatInt created hc.1 hc.2, strconv.Atoi_FormatInt expired he.1 he.2]

end authentication

namespace authentication

theorem base64Text_no_special (s : Str) (h : IsBase64Text s) :
    ',' ∉ s ∧ s.head? ≠ some strings.quote ∧ s.getLast? ≠ some strings.quote := by
  have hall : ∀ c ∈ s, c ≠ ',' ∧ c ≠ strings.quote := by
    intro c hc
    have halpha : ∀ x ∈ base64.alphabet, x ≠ ',' ∧ x ≠ strings.quote := by decide
    rcases h c hc with hin | rfl
    · exact halpha c hin
    · decide
  refine ⟨fun hm => (hall _ hm).1 rfl, ?_, ?_⟩
  · intro hm
    exact (hall _ (List.mem_of_mem_head? hm)).2 rfl
  · intro hm
    exact (hall _ (List.mem_of_mem_getLast? hm)).2 rfl

/-- C10, as stated, fails: for the subscriber id `example|bap.com` (with key id
`bap1234`, algorithm `ed25519`, the fixture window and the fixture base64
signature) the header that `CreateAuthSignature` renders does not decode;
`ExtractInfoFromHeader` returns the zero `Info` and the error
`invalid Key ID: example|bap.com|bap1234|ed25519`. -/
theorem header_round_trip_counterexample :
    ExtractInfoFromHeader (authSignature "example|bap.com".toList "bap1234".toList 1641287875
        1641291475 fixture.wantedSignature) =
      (Info.zero,
       some (.errorf "invalid Key ID: example|bap.com|bap1234|ed25519".toList)) := by
  decide!

/-- C10 (amended): for every subscriber id without `,` and `|` that does not
begin with a double quote, every unique key id without `,` and `|`, all
64-bit `created` and `expired`, and every base64 signature text, decoding the
header that `CreateAuthSignature` renders with `ExtractInfoFromHeader` returns
no error and the `Info` with these seven fields, `Algorithm` and
`KeyIDAlgorithm` both being `ed25519`. -/
theorem header_round_trip (subscriberID keyID : Str) (created expired : Int) (signature : Str)
    (hsub : ',' ∉ subscriberID ∧ '|' ∉ subscriberID ∧ subscriberID.head? ≠ some strings.quote)
    (hkey : ',' ∉ keyID ∧ '|' ∉ keyID)
    (hc : IsInt64 created) (he : IsInt64 expired) (hsig : IsBase64Text signature) :
    ExtractInfoFromHeader (authSignature subscriberID keyID created expired signature) =
      ({ SubscriberID := subscriberID
         UniqueKeyID := keyID
         KeyIDAlgorithm := "ed25519".toList
         Algorithm := "ed25519".toList
         Created := created
         Expired := expired
         Signature := signature }, none) :=
  ExtractInfoFromHeader_authSignature subscriberID keyID created expired signature hsub hkey
    (base64Text_no_special signature hsig) hc he

theorem header_round_trip_witness :
    ExtractInfoFromHeader (authSignature "example-bap.com".toList "bap1234".toList 1641287875
        1641291475 fixture.wantedSignature) = (fixture.testInfo, none) :=
  header_round_trip "example-bap.com".toList "bap1234".toList 1641287875 1641291475
    fixture.wantedSignature (by decide) (by decide) (by unfold IsInt64; decide)
    (by unfold IsInt64; decide) (by unfold IsBase64Text; decide)

end authentication

namespace errorcode

/-- C20: `Lookup` returns the code and `true` on each of the seven entries of
the table, and the zero code and `false` on every other pair of role and
error type, among them (Buyer App, Invalid Request). -/
theorem Lookup_table :
    Lookup RoleGateway ErrInvalidRequest = (10000, true) ∧
    Lookup RoleGateway ErrInvalidSignature = (10001, true) ∧
    Lookup RoleBuyerApp ErrInvalidSignature = (20001, true) ∧
    Lookup RoleSellerApp ErrInvalidRequest = (30000, true) ∧
    Lookup RoleSellerApp ErrInvalidSignature = (30016, true) ∧
    Lookup RoleLogistics ErrInvalidSignature = (60005, true) ∧
    Lookup RoleLogistics ErrInvalidRequest = (60006, true) ∧
    Lookup RoleBuyerApp ErrInvalidRequest = (0, false) ∧
    ∀ role err : Str,
      (role, err) ∉ [(RoleGateway, ErrInvalidRequest), (RoleGateway, ErrInvalidSignature),
        (RoleBuyerApp, ErrInvalidSignature), (RoleSellerApp, ErrInvalidRequest),
        (RoleSellerApp, ErrInvalidSignature), (RoleLogistics, ErrInvalidSignature),
        (RoleLogistics, ErrInvalidRequest)] →
      Lookup role err = (0, false) := by
  refine ⟨by decide, by decide, by decide, by decide, by decide, by decide, by decide,
    by decide, ?_⟩
  intro role err h
  simp only [List.mem_cons, List.mem_singleton, List.not_mem_nil, or_false, not_or] at h
  obtain ⟨h1, h2, h3, h4, h5, h6, h7⟩ := h
  have e : ∀ k : Str × Str, (role, err) ≠ k → ((role, err) == k) = false := by
    intro k hk
    simpa using hk
  simp only [Lookup, lookupTable, List.lookup, e _ h1, e _ h2, e _ h3, e _ h4, e _ h5, e _ h6,
    e _ h7]

theorem Lookup_table_witness :
    Lookup "Unknown Role".toList ErrInvalidRequest = (0, false) ∧
    Lookup RoleLogistics "Unknown Error".toList = (0, false) :=
  ⟨Lookup_table.2.2.2.2.2.2.2.2 "Unknown Role".toList ErrInvalidRequest (by decide),
   Lookup_table.2.2.2.2.2.2.2.2 RoleLogistics "Unknown Error".toList (by decide)⟩

end errorcode

namespace strings

theorem length_Split (s : Str) (sep : Char) : (Split s sep).length = s.count sep + 1 := by
  induction s with
  | nil => simp [Split]
  | cons c cs ih =>
    unfold Split
    by_cases h : c = sep
    · subst h
      simp [ih]
    · have hne : (c == sep) = false := by simpa using h
      simp only [h, if_false, List.count_cons, hne]
      cases hs : Split cs sep with
      | nil => exact absurd hs (Split_ne_nil cs sep)
      | cons piece pieces =>
        rw [hs] at ih
        simpa using ih

end strings

namespace authentication

theorem lookup_foldl_addElement (k : Str) (elements : List Str) (values : List (Str × Str)) :
    ((elements.foldl addElement values).lookup k).isNone =
      ((values.lookup k).isNone &&
        !elements.any (fun element => (strings.Cut element '=').2.2 &&
          decide (strings.TrimSpace (strings.Cut element '=').1 = k))) := by
  induction elements generalizing values with
  | nil => simp
  | cons e es ih =>
    rw [List.foldl_cons, ih, List.any_cons]
    unfold addElement
    rcases hcut : strings.Cut e '=' with ⟨key, val, found⟩
    cases found with
    | false => simp
    | true =>
      by_cases hk : strings.TrimSpace key = k
      · have hb : (k == strings.TrimSpace key) = true := by simp [hk]
        simp [List.lookup, hb, hk]
      · have hb : (k == strings.TrimSpace key) = false := by
          simp only [beq_eq_false_iff_ne, ne_eq]
          exact fun e => hk e.symm
        simp [List.lookup, hb, hk]

theorem lookup_headerValues (header k : Str) :
    ((headerValues header).lookup k).isNone = !occursAsKey header k := by
  unfold headerValues occursAsKey
  simp only []
  rw [lookup_foldl_addElement]
  simp

theorem find_requiredKeys (header : Str) :
    requiredKeys.find? (fun k => ((headerValues header).lookup k).isNone) =
      requiredKeys.find? (fun k => !occursAsKey header k) := by
  congr 1
  funext k
  exact lookup_headerValues header k

theorem Sprintf_missing (k : Str) :
    fmt.Sprintf "Missing %s".toList [.str k] = "Missing ".toList ++ k := by
  have hfmt : "Missing %s".toList = "Missing ".toList ++ ('%' :: 's' :: []) := by decide
  rw [hfmt, fmt.Sprintf_append_literal _ _ _ (by decide), fmt.Sprintf_s]
  simp [fmt.Sprintf]

theorem Sprintf_invalidKeyID (v : Str) :
    fmt.Sprintf "invalid Key ID: %s".toList [.str v] = "invalid Key ID: ".toList ++ v := by
  have hfmt : "invalid Key ID: %s".toList = "invalid Key ID: ".toList ++ ('%' :: 's' :: []) := by
    decide
  rw [hfmt, fmt.Sprintf_append_literal _ _ _ (by decide), fmt.Sprintf_s]
  simp [fmt.Sprintf]

/-- C11: when at least one of the six required keys does not occur as the key
of a comma-separated `key=value` element of the header, `ExtractInfoFromHeader`
returns the zero `Info` and the error `Missing <k>`, where `k` is the first of
`keyId, algorithm, created, expires, headers, signature` that does not occur. -/
theorem ExtractInfoFromHeader_missing (header : Str)
    (h : ∃ k ∈ requiredKeys, occursAsKey header k = false) :
    ∃ k ∈ requiredKeys,
      requiredKeys.find? (fun k => !occursAsKey header k) = some k ∧
      ExtractInfoFromHeader header =
        (Info.zero, some (.errorf ("Missing ".toList ++ k))) := by
  obtain ⟨k0, hk0, hmiss⟩ := h
  cases hfind : requiredKeys.find? (fun k => !occursAsKey header k) with
  | none =>
    have := List.find?_eq_none.mp hfind k0 hk0
    simp [hmiss] at this
  | some k =>
    refine ⟨k, List.mem_of_find?_eq_some hfind, rfl, ?_⟩
    unfold ExtractInfoFromHeader
    simp only [find_requiredKeys, hfind, Sprintf_missing]

theorem ExtractInfoFromHeader_missing_witness :
    (∃ k ∈ requiredKeys, occursAsKey "Signature".toList k = false) ∧
    ∃ k ∈ requiredKeys,
      requiredKeys.find? (fun k => !occursAsKey "Signature".toList k) = some k ∧
      ExtractInfoFromHeader "Signature".toList =
        (Info.zero, some (.errorf ("Missing ".toList ++ k))) :=
  ⟨⟨"keyId".toList, by decide, by decide⟩,
   ExtractInfoFromHeader_missing "Signature".toList ⟨"keyId".toList, by decide, by decide⟩⟩

end authentication

namespace strconv

theorem isDigit_iff (c : Char) : c.isDigit = true ↔ 48 ≤ c.toNat ∧ c.toNat ≤ 57 := by
  unfold Char.isDigit Char.toNat
  simp [UInt32.le_def, UInt32.toNat, BitVec.le_def]

theorem digitVal_eq_some (c : Char) (h : c.isDigit = true) :
    digitVal c = some (c.toNat - 48) := by
  have := (isDigit_iff c).mp h
  simp [digitVal, this]

theorem digitVal_eq_none (c : Char) (h : c.isDigit = false) : digitVal c = none := by
  have : ¬ (48 ≤ c.toNat ∧ c.toNat ≤ 57) := by
    intro hh
    have := (isDigit_iff c).mpr hh
    simp [h] at this
  simp [digitVal, this]

theorem foldl_parseStep_error (s : Str) (e : Error) (ds : Str) :
    ds.foldl (parseStep s) (.error e) = .error e := by
  induction ds with
  | nil => rfl
  | cons c cs ih => simpa [parseStep] using ih

theorem le_foldl_value (ds : Str) (n : Nat) :
    n ≤ ds.foldl (fun acc c => 10 * acc + (c.toNat - 48)) n := by
  induction ds generalizing n with
  | nil => simp
  | cons c cs ih =>
    have := ih (10 * n + (c.toNat - 48))
    simp only [List.foldl_cons]
    omega

theorem foldl_parseStep_ok (s : Str) (ds : Str) (n un : Nat)
    (h : ds.foldl (parseStep s) (.ok n) = .ok un) :
    (∀ c ∈ ds, c.isDigit = true) ∧
      un = ds.foldl (fun acc c => 10 * acc + (c.toNat - 48)) n := by
  induction ds generalizing n with
  | nil =>
    simp only [List.foldl_nil, Except.ok.injEq] at h
    simp [h]
  | cons c cs ih =>
    simp only [List.foldl_cons] at h
    cases hd : c.isDigit with
    | false =>
      simp only [parseStep, digitVal_eq_none c hd, foldl_parseStep_error] at h
      cases h
    | true =>
      simp only [parseStep, digitVal_eq_some c hd] at h
      by_cases hlt : 10 * n + (c.toNat - 48) < 2 ^ 64
      · simp only [hlt, if_true] at h
        obtain ⟨h1, h2⟩ := ih _ h
        refine ⟨?_, by simpa using h2⟩
        intro x hx
        rcases List.mem_cons.mp hx with rfl | hx
        · exact hd
        · exact h1 x hx
      · simp only [hlt, if_false, foldl_parseStep_error] at h
        cases h

theorem foldl_parseStep_of_digits (s : Str) (ds : Str) (n : Nat)
    (hd : ∀ c ∈ ds, c.isDigit = true)
    (hv : ds.foldl (fun acc c => 10 * acc + (c.toNat - 48)) n < 2 ^ 64) (hn : n < 2 ^ 64) :
    ds.foldl (parseStep s) (.ok n) =
      .ok (ds.foldl (fun acc c => 10 * acc + (c.toNat - 48)) n) := by
  induction ds generalizing n with
  | nil => rfl
  | cons c cs ih =>
    simp only [List.foldl_cons] at hv ⊢
    have hlt : 10 * n + (c.toNat - 48) < 2 ^ 64 :=
      lt_of_le_of_lt (le_foldl_value cs _) hv
    have hc := hd c (by simp)
    simp only [parseStep, digitVal_eq_some c hc, hlt, if_true]
    exact ih _ (fun x hx => hd x (by simp [hx])) hv hlt

end strconv

namespace authentication

theorem Atoi_cons_minus (t : Str) :
    strconv.Atoi ('-' :: t) =
      if t = [] then .error (.numSyntax ('-' :: t)) else
      match t.foldl (strconv.parseStep ('-' :: t)) (.ok 0) with
      | .error e => .error e
      | .ok un =>
        if un ≤ 2 ^ 63 then .ok (-(un : Int)) else .error (.numRange ('-' :: t)) := by
  simp [strconv.Atoi]

theorem Atoi_cons_plus (t : Str) :
    strconv.Atoi ('+' :: t) =
      if t = [] then .error (.numSyntax ('+' :: t)) else
      match t.foldl (strconv.parseStep ('+' :: t)) (.ok 0) with
      | .error e => .error e
      | .ok un =>
        if un < 2 ^ 63 then .ok (un : Int) else .error (.numRange ('+' :: t)) := by
  simp [strconv.Atoi]

theorem Atoi_cons_other (c : Char) (t : Str) (h1 : c ≠ '-') (h2 : c ≠ '+') :
    strconv.Atoi (c :: t) =
      match (c :: t).foldl (strconv.parseStep (c :: t)) (.ok 0) with
      | .error e => .error e
      | .ok un =>
        if un < 2 ^ 63 then .ok (un : Int) else .error (.numRange (c :: t)) := by
  simp [strconv.Atoi, h1, h2]

/-- What `strconv.Atoi` accepts: exactly the decimal integers of the 64-bit
range, with their value. -/
theorem Atoi_ok_iff (s : Str) (i : Int) : strconv.Atoi s = .ok i ↔ IsDecimalInteger s i := by
  constructor
  · intro h
    cases s with
    | nil => simp [strconv.Atoi] at h
    | cons c t =>
      by_cases hm : c = '-'
      · subst hm
        rw [Atoi_cons_minus] at h
        by_cases ht : t = []
        · simp [ht] at h
        · simp only [ht, if_false] at h
          cases hf : t.foldl (strconv.parseStep ('-' :: t)) (.ok 0) with
          | error e => simp [hf] at h
          | ok un =>
            simp only [hf] at h
            by_cases hr : un ≤ 9223372036854775808
            · have hr2 : un ≤ 2 ^ 63 := by omega
              simp only [hr2, if_true, Except.ok.injEq] at h
              obtain ⟨hd, hv⟩ := strconv.foldl_parseStep_ok _ _ _ _ hf
              refine ⟨['-'], t, rfl, Or.inr (Or.inr rfl), ht, hd, ?_, ?_⟩
              · simp only [if_true, strconv.digitsValue, ← hv, h]
              · unfold IsInt64
                omega
            · simp [hr] at h
      · by_cases hp : c = '+'
        · subst hp
          rw [Atoi_cons_plus] at h
          by_cases ht : t = []
          · simp [ht] at h
          · simp only [ht, if_false] at h
            cases hf : t.foldl (strconv.parseStep ('+' :: t)) (.ok 0) with
            | error e => simp [hf] at h
            | ok un =>
              simp only [hf] at h
              by_cases hr : un < 9223372036854775808
              · have hr2 : un < 2 ^ 63 := by omega
                simp only [hr2, if_true, Except.ok.injEq] at h
                obtain ⟨hd, hv⟩ := strconv.foldl_parseStep_ok _ _ _ _ hf
                refine ⟨['+'], t, rfl, Or.inr (Or.inl rfl), ht, hd, ?_, ?_⟩
                · have : ¬ (['+'] = ['-']) := by decide
                  simp only [this, if_false, strconv.digitsValue, ← hv, h]
                · unfold IsInt64
                  omega
              · simp [hr] at h
        · rw [Atoi_cons_other c t hm hp] at h
          cases hf : (c :: t).foldl (strconv.parseStep (c :: t)) (.ok 0) with
          | error e => simp [hf] at h
          | ok un =>
            simp only [hf] at h
            by_cases hr : un < 9223372036854775808
            · have hr2 : un < 2 ^ 63 := by omega
              simp only [hr2, if_true, Except.ok.injEq] at h
              obtain ⟨hd, hv⟩ := strconv.foldl_parseStep_ok _ _ _ _ hf
              refine ⟨[], c :: t, rfl, Or.inl rfl, by simp, hd, ?_, ?_⟩
              · have : ¬ (([] : Str) = ['-']) := by decide
                simp only [this, if_false, strconv.digitsValue, ← hv, h]
              · unfold IsInt64
                omega
            · simp [hr] at h
  · rintro ⟨sign, digits, rfl, hsign, hne, hd, hi, h64⟩
    unfold IsInt64 at h64
    have hfold : ∀ s0 : Str, strconv.digitsValue digits < 2 ^ 64 →
        digits.foldl (strconv.parseStep s0) (.ok 0) = .ok (strconv.digitsValue digits) :=
      fun s0 hv => strconv.foldl_parseStep_of_digits s0 digits 0 hd hv (by norm_num)
    rcases hsign with rfl | rfl | rfl
    · have hnm : ¬ (([] : Str) = ['-']) := by decide
      simp only [hnm, if_false] at hi
      cases digits with
      | nil => exact absurd rfl hne
      | cons c t =>
        have hc := hd c (by simp)
        have h1 : c ≠ '-' := by rintro rfl; simp at hc
        have h2 : c ≠ '+' := by rintro rfl; simp at hc
        have hv : strconv.digitsValue (c :: t) < 9223372036854775808 := by omega
        rw [List.nil_append, Atoi_cons_other c t h1 h2, hfold _ (by omega)]
        simp [hv, hi]
    · have hnm : ¬ (['+'] = ['-']) := by decide
      simp only [hnm, if_false] at hi
      have hv : strconv.digitsValue digits < 9223372036854775808 := by omega
      have e : ['+'] ++ digits = '+' :: digits := rfl
      rw [e, Atoi_cons_plus, hfold _ (by omega)]
      simp [hne, hv, hi]
    · simp only [if_true] at hi
      have hv : strconv.digitsValue digits ≤ 9223372036854775808 := by omega
      have e : ['-'] ++ digits = '-' :: digits := rfl
      rw [e, Atoi_cons_minus, hfold _ (by omega)]
      simp [hne, hv, hi]

end authentication

namespace authentication

theorem ExtractInfoFromHeader_of_all (header : Str)
    (hall : ∀ k ∈ requiredKeys, occursAsKey header k = true) :
    ExtractInfoFromHeader header =
      match strings.Split (valueOf (headerValues header) "keyId".toList) '|' with
      | [subscriberID, uniqueKeyID, keyIDAlgorithm] =>
        match strconv.Atoi (valueOf (headerValues header) "created".toList) with
        | .error e => (Info.zero, some e)
        | .ok created =>
          match strconv.Atoi (valueOf (headerValues header) "expires".toList) with
          | .error e => (Info.zero, some e)
          | .ok expires =>
            ({ SubscriberID := subscriberID
               UniqueKeyID := uniqueKeyID
               KeyIDAlgorithm := keyIDAlgorithm
               Algorithm := valueOf (headerValues header) "algorithm".toList
               Created := created
               Expired := expires
               Signature := valueOf (headerValues header) "signature".toList }, none)
      | _ =>
        (Info.zero, some (.errorf ("invalid Key ID: ".toList ++
          valueOf (headerValues header) "keyId".toList))) := by
  have hfind : requiredKeys.find? (fun k => !occursAsKey header k) = none := by
    rw [List.find?_eq_none]
    intro k hk
    simp [hall k hk]
  unfold ExtractInfoFromHeader
  simp only [find_requiredKeys, hfind, Sprintf_invalidKeyID]

theorem Split_three_iff (v : Str) :
    (∃ a b c, strings.Split v '|' = [a, b, c]) ↔ v.count '|' = 2 := by
  have hlen := strings.length_Split v '|'
  constructor
  · rintro ⟨a, b, c, h⟩
    rw [h] at hlen
    simp at hlen
    omega
  · intro h
    rw [h] at hlen
    match hs : strings.Split v '|', hlen with
    | [a, b, c], _ => exact ⟨a, b, c, rfl⟩

/-- C12: for a header that carries all six required keys, `ExtractInfoFromHeader`
returns the zero `Info` and the error `invalid Key ID: <value>` whenever the
`keyId` value does not have exactly two `|` characters, that is, does not split
into exactly three segments.  When it has exactly three, the segments are, in
this order, the `SubscriberID`, `UniqueKeyID` and `KeyIDAlgorithm` of the `Info`
that is returned; the only errors left at this point are those of parsing
`created` and `expires`. -/
theorem keyId_segments (header : Str)
    (hall : ∀ k ∈ requiredKeys, occursAsKey header k = true) :
    ((valueOf (headerValues header) "keyId".toList).count '|' ≠ 2 →
      ExtractInfoFromHeader header =
        (Info.zero, some (.errorf ("invalid Key ID: ".toList ++
          valueOf (headerValues header) "keyId".toList)))) ∧
    ((valueOf (headerValues header) "keyId".toList).count '|' = 2 →
      ∃ a b c, strings.Split (valueOf (headerValues header) "keyId".toList) '|' = [a, b, c] ∧
        ((∃ info, ExtractInfoFromHeader header = (info, none) ∧
            info.SubscriberID = a ∧ info.UniqueKeyID = b ∧ info.KeyIDAlgorithm = c) ∨
         (∃ e, ExtractInfoFromHeader header = (Info.zero, some e) ∧
            (strconv.Atoi (valueOf (headerValues header) "created".toList) = .error e ∨
             strconv.Atoi (valueOf (headerValues header) "expires".toList) = .error e)))) := by
  rw [ExtractInfoFromHeader_of_all header hall]
  constructor
  · intro hne
    have hno : ¬ ∃ a b c,
        strings.Split (valueOf (headerValues header) "keyId".toList) '|' = [a, b, c] :=
      fun h => hne ((Split_three_iff _).mp h)
    split
    · rename_i a b c hs
      exact absurd ⟨a, b, c, hs⟩ hno
    · rfl
  · intro h2
    obtain ⟨a, b, c, hs⟩ := (Split_three_iff _).mpr h2
    refine ⟨a, b, c, hs, ?_⟩
    simp only [hs]
    cases hc : strconv.Atoi (valueOf (headerValues header) "created".toList) with
    | error e => exact Or.inr ⟨e, rfl, Or.inl rfl⟩
    | ok cr =>
      cases he : strconv.Atoi (valueOf (headerValues header) "expires".toList) with
      | error e => exact Or.inr ⟨e, rfl, Or.inr rfl⟩
      | ok ex => exact Or.inl ⟨_, rfl, rfl, rfl, rfl⟩

/-- C13: for a header with all six keys whose `keyId` value has three
segments, `ExtractInfoFromHeader` returns an error (and the zero `Info`)
whenever the `created` value or the `expires` value is not a decimal integer;
when both are, it returns no error and `Created` and `Expired` are exactly
their values. -/
theorem timestamps_parsed (header : Str)
    (hall : ∀ k ∈ requiredKeys, occursAsKey header k = true)
    (hthree : (valueOf (headerValues header) "keyId".toList).count '|' = 2) :
    (((¬ ∃ i, IsDecimalInteger (valueOf (headerValues header) "created".toList) i) ∨
      (¬ ∃ i, IsDecimalInteger (valueOf (headerValues header) "expires".toList) i)) →
      ∃ e, ExtractInfoFromHeader header = (Info.zero, some e)) ∧
    (∀ created expires,
      IsDecimalInteger (valueOf (headerValues header) "created".toList) created →
      IsDecimalInteger (valueOf (headerValues header) "expires".toList) expires →
      ∃ info, ExtractInfoFromHeader header = (info, none) ∧
        info.Created = created ∧ info.Expired = expires) := by
  obtain ⟨a, b, c, hs⟩ := (Split_three_iff _).mpr hthree
  rw [ExtractInfoFromHeader_of_all header hall]
  simp only [hs]
  constructor
  · intro hbad
    cases hc : strconv.Atoi (valueOf (headerValues header) "created".toList) with
    | error e => exact ⟨e, rfl⟩
    | ok cr =>
      cases he : strconv.Atoi (valueOf (headerValues header) "expires".toList) with
      | error e => exact ⟨e, rfl⟩
      | ok ex =>
        rcases hbad with h | h
        · exact absurd ⟨cr, (Atoi_ok_iff _ _).mp hc⟩ h
        · exact absurd ⟨ex, (Atoi_ok_iff _ _).mp he⟩ h
  · intro created expires hc he
    rw [(Atoi_ok_iff _ _).mpr hc, (Atoi_ok_iff _ _).mpr he]
    exact ⟨_, rfl, rfl, rfl⟩

end authentication

namespace fixture

theorem all_keys_twoSegmentHeader :
    ∀ k ∈ authentication.requiredKeys, authentication.occursAsKey twoSegmentHeader k = true := by
  decide!

theorem all_keys_testAuthHeader :
    ∀ k ∈ authentication.requiredKeys, authentication.occursAsKey testAuthHeader k = true := by
  decide!

theorem all_keys_invalidCreatedHeader :
    ∀ k ∈ authentication.requiredKeys,
      authentication.occursAsKey invalidCreatedHeader k = true := by
  decide!

theorem created_invalidCreatedHeader :
    ¬ ∃ i, authentication.IsDecimalInteger
      (authentication.valueOf (authentication.headerValues invalidCreatedHeader)
        "created".toList) i := by
  rintro ⟨i, h⟩
  have hv : authentication.valueOf (authentication.headerValues invalidCreatedHeader)
      "created".toList = "invalid".toList := by decide!
  rw [hv] at h
  have := (authentication.Atoi_ok_iff _ _).mpr h
  simp [strconv.Atoi, strconv.parseStep, strconv.digitVal] at this

theorem timestamps_testAuthHeader :
    authentication.IsDecimalInteger
      (authentication.valueOf (authentication.headerValues testAuthHeader) "created".toList)
      1641287875 ∧
    authentication.IsDecimalInteger
      (authentication.valueOf (authentication.headerValues testAuthHeader) "expires".toList)
      1641291475 := by
  have hc : authentication.valueOf (authentication.headerValues testAuthHeader)
      "created".toList = strconv.FormatInt 1641287875 := by decide!
  have he : authentication.valueOf (authentication.headerValues testAuthHeader)
      "expires".toList = strconv.FormatInt 1641291475 := by decide!
  rw [hc, he]
  exact ⟨(authentication.Atoi_ok_iff _ _).mp (strconv.Atoi_FormatInt _ (by norm_num) (by norm_num)),
    (authentication.Atoi_ok_iff _ _).mp (strconv.Atoi_FormatInt _ (by norm_num) (by norm_num))⟩

end fixture

namespace authentication

theorem keyId_segments_witness :
    ExtractInfoFromHeader fixture.twoSegmentHeader =
      (Info.zero, some (.errorf ("invalid Key ID: ".toList ++
        valueOf (headerValues fixture.twoSegmentHeader) "keyId".toList))) ∧
    ∃ a b c,
      strings.Split (valueOf (headerValues fixture.testAuthHeader) "keyId".toList) '|' =
        [a, b, c] ∧
      ((∃ info, ExtractInfoFromHeader fixture.testAuthHeader = (info, none) ∧
          info.SubscriberID = a ∧ info.UniqueKeyID = b ∧ info.KeyIDAlgorithm = c) ∨
       (∃ e, ExtractInfoFromHeader fixture.testAuthHeader = (Info.zero, some e) ∧
          (strconv.Atoi (valueOf (headerValues fixture.testAuthHeader) "created".toList) =
              .error e ∨
           strconv.Atoi (valueOf (headerValues fixture.testAuthHeader) "expires".toList) =
              .error e))) :=
  ⟨(keyId_segments fixture.twoSegmentHeader fixture.all_keys_twoSegmentHeader).1 (by decide!),
   (keyId_segments fixture.testAuthHeader fixture.all_keys_testAuthHeader).2 (by decide!)⟩

theorem timestamps_parsed_witness :
    (∃ e, ExtractInfoFromHeader fixture.invalidCreatedHeader = (Info.zero, some e)) ∧
    ∃ info, ExtractInfoFromHeader fixture.testAuthHeader = (info, none) ∧
      info.Created = 1641287875 ∧ info.Expired = 1641291475 :=
  ⟨(timestamps_parsed fixture.invalidCreatedHeader fixture.all_keys_invalidCreatedHeader
      (by decide!)).1 (Or.inl fixture.created_invalidCreatedHeader),
   (timestamps_parsed fixture.testAuthHeader fixture.all_keys_testAuthHeader (by decide!)).2
      1641287875 1641291475 fixture.timestamps_testAuthHeader.1
      fixture.timestamps_testAuthHeader.2⟩

end authentication

namespace middleware

theorem gatesPass_iff {Context : Type} (a : authenticator Context) (r : Request)
    (info : authentication.Info)
    (hx : authentication.ExtractInfoFromHeader (r.Get a.verifyingHeader) = (info, none)) :
    GatesPass a r ↔ (info.Algorithm = info.KeyIDAlgorithm ∧
      info.Created ≤ a.clock ∧ a.clock ≤ info.Expired ∧ ∃ ctx key,
      a.decodeContext r.Body = .ok ctx ∧
      a.registryClient info.SubscriberID info.UniqueKeyID ctx = .ok key ∧
      authentication.VerifySignature info.Signature r.Body key info.Created info.Expired =
        .ok ()) := by
  unfold GatesPass
  rw [hx]
  constructor
  · rintro ⟨i, ctx, key, hi, h1, h2, h3, h4, h5, h6⟩
    cases hi
    exact ⟨h1, h2, h3, ctx, key, h4, h5, h6⟩
  · rintro ⟨h1, h2, h3, ctx, key, h4, h5, h6⟩
    exact ⟨info, ctx, key, rfl, h1, h2, h3, h4, h5, h6⟩

theorem not_gatesPass_of_error {Context : Type} (a : authenticator Context) (r : Request)
    (info : authentication.Info) (e : Error)
    (hx : authentication.ExtractInfoFromHeader (r.Get a.verifyingHeader) = (info, some e)) :
    ¬ GatesPass a r := by
  unfold GatesPass
  rw [hx]
  rintro ⟨i, ctx, key, hi, _⟩
  cases hi

theorem panics_iff {Context : Type} (a : authenticator Context) (r : Request)
    (info : authentication.Info) (text : Str)
    (hx : authentication.ExtractInfoFromHeader (r.Get a.verifyingHeader) = (info, none)) :
    Panics a r text ↔ (info.Algorithm = info.KeyIDAlgorithm ∧
      info.Created ≤ a.clock ∧ a.clock ≤ info.Expired ∧ ∃ ctx key,
      a.decodeContext r.Body = .ok ctx ∧
      a.registryClient info.SubscriberID info.UniqueKeyID ctx = .ok key ∧
      authentication.VerifySignature info.Signature r.Body key info.Created info.Expired =
        .panic text) := by
  unfold Panics
  rw [hx]
  constructor
  · rintro ⟨i, ctx, key, hi, h1, h2, h3, h4, h5, h6⟩
    cases hi
    exact ⟨h1, h2, h3, ctx, key, h4, h5, h6⟩
  · rintro ⟨h1, h2, h3, ctx, key, h4, h5, h6⟩
    exact ⟨info, ctx, key, rfl, h1, h2, h3, h4, h5, h6⟩

theorem not_panics_of_error {Context : Type} (a : authenticator Context) (r : Request)
    (info : authentication.Info) (e : Error) (text : Str)
    (hx : authentication.ExtractInfoFromHeader (r.Get a.verifyingHeader) = (info, some e)) :
    ¬ Panics a r text := by
  unfold Panics
  rw [hx]
  rintro ⟨i, ctx, key, hi, _⟩
  cases hi

/-- The run of the middleware: the whole trace on success, one of the four
rejecting traces when a gate fails with an error, and the trace that ends in
the panic when `VerifySignature` panics. -/
theorem authentication_cases {Context : Type} (a : authenticator Context) (r : Request) :
    (GatesPass a r ∧ (∀ text, ¬ Panics a r text) ∧ ∃ s k ctx, authentication a r =
        [.clockNow, .readBody, .publicSigningKey s k ctx, .serveHTTP r]) ∨
    (¬ GatesPass a r ∧ (∀ text, ¬ Panics a r text) ∧ (authentication a r = [.unauthenticated] ∨
      authentication a r = [.clockNow, .unauthenticated] ∨
      authentication a r = [.clockNow, .readBody, .unauthenticated] ∨
      ∃ s k ctx, authentication a r =
        [.clockNow, .readBody, .publicSigningKey s k ctx, .unauthenticated])) ∨
    (¬ GatesPass a r ∧ ∃ text, Panics a r text ∧ (∀ other, Panics a r other → other = text) ∧
      ∃ s k ctx, authentication a r =
        [.clockNow, .readBody, .publicSigningKey s k ctx, .panic text]) := by
  rcases hx : authentication.ExtractInfoFromHeader (r.Get a.verifyingHeader) with ⟨info, _ | e⟩
  · simp only [gatesPass_iff a r info hx, panics_iff a r info _ hx,
      authentication_of_info a r info hx]
    by_cases halg : info.Algorithm = info.KeyIDAlgorithm
    · by_cases hwin : info.Created > a.clock ∨ info.Expired < a.clock
      · refine Or.inr (Or.inl ⟨?_, ?_, ?_⟩)
        · rintro ⟨_, h1, h2, _⟩
          omega
        · rintro text ⟨_, h1, h2, _⟩
          omega
        · simp [halg, hwin]
      · have hc : info.Created ≤ a.clock := by omega
        have he : a.clock ≤ info.Expired := by omega
        cases hctx : a.decodeContext r.Body with
        | error e1 => simp [halg, hwin, hctx]
        | ok ctx =>
          cases hkey : a.registryClient info.SubscriberID info.UniqueKeyID ctx with
          | error e2 => simp [halg, hwin, hctx, hkey]
          | ok key =>
            cases hver : authentication.VerifySignature info.Signature r.Body key
                info.Created info.Expired with
            | error e3 => simp [halg, hwin, hctx, hkey, hver]
            | panic text =>
              refine Or.inr (Or.inr ⟨?_, text, ⟨halg, hc, he, ctx, key, rfl, hkey, hver⟩, ?_,
                info.SubscriberID, info.UniqueKeyID, ctx, ?_⟩)
              · rintro ⟨_, _, _, ctx2, key2, h4, h5, h6⟩
                cases h4
                rw [hkey] at h5
                cases h5
                rw [hver] at h6
                cases h6
              · rintro other ⟨_, _, _, ctx2, key2, h4, h5, h6⟩
                cases h4
                rw [hkey] at h5
                cases h5
                rw [hver] at h6
                cases h6
                rfl
              · simp [halg, hwin, hctx, hkey, hver]
            | ok u => simp [halg, hwin, hctx, hkey, hver, hc, he]
    · simp [halg]
  · exact Or.inr (Or.inl ⟨not_gatesPass_of_error a r info e hx,
      fun text => not_panics_of_error a r info e text hx,
      Or.inl (authentication_of_error a r info e hx)⟩)

/-- The rejection is in the trace exactly when some gate fails with an error:
not every gate passes, and the run does not panic. -/
theorem unauthenticated_mem_iff {Context : Type} (a : authenticator Context) (r : Request) :
    Event.unauthenticated ∈ authentication a r ↔
      ¬ GatesPass a r ∧ ∀ text, ¬ Panics a r text := by
  rcases authentication_cases a r with ⟨hp, hnp, s, k, ctx, ht⟩ |
    ⟨hn, hnp, ht | ht | ht | ⟨s, k, ctx, ht⟩⟩ | ⟨hn, text, hp, _, s, k, ctx, ht⟩
  · simp [ht, hp]
  · simp [ht, hn, hnp]
  · simp [ht, hn, hnp]
  · simp [ht, hn, hnp]
  · simp [ht, hn, hnp]
  · rw [ht]
    constructor
    · intro h
      simp at h
    · rintro ⟨_, h⟩
      exact absurd hp (h text)

/-- The panic is in the trace exactly when the run panics. -/
theorem panic_mem_iff {Context : Type} (a : authenticator Context) (r : Request) (text : Str) :
    Event.panic text ∈ authentication a r ↔ Panics a r text := by
  rcases authentication_cases a r with ⟨hp, hnp, s, k, ctx, ht⟩ |
    ⟨hn, hnp, ht | ht | ht | ⟨s, k, ctx, ht⟩⟩ | ⟨hn, other, hp, huniq, s, k, ctx, ht⟩
  · simp [ht, hnp]
  · simp [ht, hnp]
  · simp [ht, hnp]
  · simp [ht, hnp]
  · simp [ht, hnp]
  · rw [ht]
    constructor
    · intro h
      simp at h
      rw [h]
      exact hp
    · intro h
      rw [huniq text h]
      simp

/-- What the middleware writes: nothing when every gate passes, the
rejection of `unauthenticated`, once, when the run rejects, and nothing when
the run panics. -/
theorem respond_eq {Context : Type} (a : authenticator Context) (r : Request)
    (w : http.ResponseWriter) :
    (GatesPass a r → a.respond r w = w) ∧
    (Event.unauthenticated ∈ authentication a r → a.respond r w = unauthenticated a w) ∧
    ((∃ text, Panics a r text) → a.respond r w = w) := by
  unfold authenticator.respond
  rcases authentication_cases a r with ⟨hp, hnp, s, k, ctx, ht⟩ |
    ⟨hn, hnp, ht | ht | ht | ⟨s, k, ctx, ht⟩⟩ | ⟨hn, text, hp, _, s, k, ctx, ht⟩
  · refine ⟨fun _ => ?_, fun h => ?_, fun ⟨text, h⟩ => absurd h (hnp text)⟩
    · rw [ht]
      rfl
    · rw [ht] at h
      simp at h
  · refine ⟨fun h => absurd h hn, fun _ => ?_, fun ⟨text, h⟩ => absurd h (hnp text)⟩
    rw [ht]
    rfl
  · refine ⟨fun h => absurd h hn, fun _ => ?_, fun ⟨text, h⟩ => absurd h (hnp text)⟩
    rw [ht]
    rfl
  · refine ⟨fun h => absurd h hn, fun _ => ?_, fun ⟨text, h⟩ => absurd h (hnp text)⟩
    rw [ht]
    rfl
  · refine ⟨fun h => absurd h hn, fun _ => ?_, fun ⟨text, h⟩ => absurd h (hnp text)⟩
    rw [ht]
    rfl
  · refine ⟨fun h => absurd h hn, fun h => ?_, fun _ => ?_⟩
    · rw [ht] at h
      simp at h
    · rw [ht]
      rfl

theorem Sprintf_challenge (subscriberID : Str) :
    fmt.Sprintf "Signature realm=\"%s\",headers=\"(created) (expires) digest\"".toList
      [.str subscriberID] = challenge subscriberID := by
  have hfmt : "Signature realm=\"%s\",headers=\"(created) (expires) digest\"".toList =
      "Signature realm=\"".toList ++ ('%' :: 's' ::
        "\",headers=\"(created) (expires) digest\"".toList) := by decide
  rw [hfmt, fmt.Sprintf_append_literal _ _ _ (by decide), fmt.Sprintf_s,
    fmt.Sprintf_literal _ _ (by decide)]
  simp [challenge]

theorem unauthenticated_found {Context : Type} (a : authenticator Context)
    (w : http.ResponseWriter) (code : Int)
    (hl : errorcode.Lookup a.role errorcode.ErrInvalidSignature = (code, true)) :
    unauthenticated a w =
      ((w.Set a.nackHeader (challenge a.subscriberID)).WriteHeader 401).Write
        (bytesOf (model.AckResponse.marshal
          { Message := some { Ack := some { Status := "NACK".toList } }
            Error := some { Type_ := "CONTEXT-ERROR".toList,
                            Code := some (strconv.FormatInt code) } })) := by
  unfold unauthenticated
  simp only [hl, Sprintf_challenge, Bool.not_true, Bool.false_eq_true, if_false]

theorem marshal_nack (role : Str)
    (hrole : role ∈ [errorcode.RoleGateway, errorcode.RoleBuyerApp, errorcode.RoleSellerApp,
      errorcode.RoleLogistics]) :
    (errorcode.Lookup role errorcode.ErrInvalidSignature).2 = true ∧
    model.AckResponse.marshal
      { Message := some { Ack := some { Status := "NACK".toList } }
        Error := some { Type_ := "CONTEXT-ERROR".toList,
                        Code := some (strconv.FormatInt
                          (errorcode.Lookup role errorcode.ErrInvalidSignature).1) } } =
      nackBody (errorcode.Lookup role errorcode.ErrInvalidSignature).1 := by
  simp only [List.mem_cons, List.mem_singleton, List.not_mem_nil, or_false] at hrole
  rcases hrole with rfl | rfl | rfl | rfl <;> decide!

/-- The rejection for one of the four roles, written to a fresh response. -/
theorem unauthenticated_of_role {Context : Type} (a : authenticator Context)
    (hrole : a.role ∈ [errorcode.RoleGateway, errorcode.RoleBuyerApp, errorcode.RoleSellerApp,
      errorcode.RoleLogistics]) :
    unauthenticated a http.NewRecorder =
      { Header := [(http.CanonicalMIMEHeaderKey a.nackHeader, challenge a.subscriberID)]
        wroteHeader := true
        Code := 401
        HeaderWritten := [(http.CanonicalMIMEHeaderKey a.nackHeader, challenge a.subscriberID)]
        Body := bytesOf (nackBody (errorcode.Lookup a.role errorcode.ErrInvalidSignature).1) } := by
  obtain ⟨hok, hbody⟩ := marshal_nack a.role hrole
  have hl : errorcode.Lookup a.role errorcode.ErrInvalidSignature =
      ((errorcode.Lookup a.role errorcode.ErrInvalidSignature).1, true) := by
    rw [← hok]
  rw [unauthenticated_found a _ _ hl, hbody]
  simp [http.ResponseWriter.Set, http.ResponseWriter.WriteHeader, http.ResponseWriter.Write,
    http.NewRecorder]

end middleware

namespace fixture

/-- The fixture signature verifies under the fixture public key. -/
theorem VerifySignature_fixture :
    authentication.VerifySignature wantedSignature payload (decoded ed25519PublicKey)
      creationTime expirationTime = .ok () := by
  have hs := sign_testKeyset
  have hv := verify_testKeyset
  have hpk : decoded ed25519PublicKey = ed25519.publicKey testKeyset.keyValue := hv.1.symm
  have hdec : base64.DecodeString wantedSignature =
      .ok (ed25519.Sign testKeyset.keyValue
        (bytesOf (authentication.createSigningString payload creationTime expirationTime))) := by
    rw [← hs]
    exact base64.DecodeString_EncodeToString _ (ed25519.isBytes_Sign _ _)
  unfold authentication.VerifySignature
  rw [hdec, hpk]
  simp [subtle.NewED25519Verifier, subtle.Verify, ed25519.length_publicKey,
    ed25519.length_Sign, hv.2]

/-- Under the wrong public key of the tests the fixture signature does not
verify. -/
theorem VerifySignature_wrongKey :
    ∃ e, authentication.VerifySignature wantedSignature payload (decoded wrongPublicKey)
      creationTime expirationTime = .error e := by
  have hdec : base64.DecodeString wantedSignature =
      .ok (ed25519.Sign testKeyset.keyValue
        (bytesOf (authentication.createSigningString payload creationTime expirationTime))) := by
    rw [← sign_testKeyset]
    exact base64.DecodeString_EncodeToString _ (ed25519.isBytes_Sign _ _)
  have hlen : (decoded wrongPublicKey).length = 32 := by decide!
  have hver : ed25519.Verify (decoded wrongPublicKey)
      (bytesOf (authentication.createSigningString payload creationTime expirationTime))
      (decoded wantedSignature) = .ok false := by decide!
  have hd2 : decoded wantedSignature = ed25519.Sign testKeyset.keyValue
      (bytesOf (authentication.createSigningString payload creationTime expirationTime)) := by
    simp [decoded, hdec]
  rw [hd2] at hver
  unfold authentication.VerifySignature
  rw [hdec]
  simp [subtle.NewED25519Verifier, subtle.Verify, hlen, hver, ed25519.length_Sign]

/-- On the empty key the verification of the fixture signature panics. -/
theorem VerifySignature_emptyKey :
    authentication.VerifySignature wantedSignature payload [] creationTime expirationTime =
      .panic "ed25519: bad public key length: 0".toList := by
  rw [authentication.VerifySignature_panic_iff]
  refine ⟨ed25519.Sign testKeyset.keyValue
    (bytesOf (authentication.createSigningString payload creationTime expirationTime)), ?_,
    ed25519.length_Sign _ _, by decide, by decide⟩
  rw [← sign_testKeyset]
  exact base64.DecodeString_EncodeToString _ (ed25519.isBytes_Sign _ _)

theorem get_testRequest (authHeader : Str) :
    (testRequest authHeader).Get "Authorization".toList = authHeader := by
  simp [testRequest, middleware.Request.Get, List.lookup]

theorem gatesPass_test :
    middleware.GatesPass (testAuthenticator 1641290000) (testRequest testAuthHeader) := by
  have hx : authentication.ExtractInfoFromHeader
      ((testRequest testAuthHeader).Get (testAuthenticator 1641290000).verifyingHeader) =
      (testInfo, none) := by
    show authentication.ExtractInfoFromHeader
      ((testRequest testAuthHeader).Get "Authorization".toList) = _
    rw [get_testRequest]
    exact extract_testAuthHeader
  rw [middleware.gatesPass_iff _ _ _ hx]
  refine ⟨rfl, by decide, by decide, (), decoded ed25519PublicKey, rfl, rfl, ?_⟩
  exact VerifySignature_fixture

theorem not_gatesPass_wrongKey :
    ¬ middleware.GatesPass (wrongKeyAuthenticator 1641290000) (testRequest testAuthHeader) := by
  have hx : authentication.ExtractInfoFromHeader
      ((testRequest testAuthHeader).Get (wrongKeyAuthenticator 1641290000).verifyingHeader) =
      (testInfo, none) := by
    show authentication.ExtractInfoFromHeader
      ((testRequest testAuthHeader).Get "Authorization".toList) = _
    rw [get_testRequest]
    exact extract_testAuthHeader
  rw [middleware.gatesPass_iff _ _ _ hx]
  rintro ⟨_, _, _, ctx, key, _, hkey, hver⟩
  have hk : key = decoded wrongPublicKey := by
    have : (wrongKeyAuthenticator 1641290000).registryClient testInfo.SubscriberID
        testInfo.UniqueKeyID ctx = .ok (decoded wrongPublicKey) := rfl
    rw [this] at hkey
    cases hkey
    rfl
  obtain ⟨e, he⟩ := VerifySignature_wrongKey
  rw [hk] at hver
  have : authentication.VerifySignature testInfo.Signature (testRequest testAuthHeader).Body
      (decoded wrongPublicKey) testInfo.Created testInfo.Expired = .error e := he
  rw [this] at hver
  cases hver

theorem not_gatesPass_expired :
    ¬ middleware.GatesPass (testAuthenticator 1641291476) (testRequest testAuthHeader) := by
  have hx : authentication.ExtractInfoFromHeader
      ((testRequest testAuthHeader).Get (testAuthenticator 1641291476).verifyingHeader) =
      (testInfo, none) := by
    show authentication.ExtractInfoFromHeader
      ((testRequest testAuthHeader).Get "Authorization".toList) = _
    rw [get_testRequest]
    exact extract_testAuthHeader
  rw [middleware.gatesPass_iff _ _ _ hx]
  rintro ⟨_, _, h, _⟩
  exact absurd h (by decide)

/-- The fixture request one second after `expires` is rejected. -/
theorem rejects_expired :
    middleware.Event.unauthenticated ∈
      middleware.authentication (testAuthenticator 1641291476) (testRequest testAuthHeader) := by
  have hx : authentication.ExtractInfoFromHeader
      ((testRequest testAuthHeader).Get (testAuthenticator 1641291476).verifyingHeader) =
      (testInfo, none) := by
    show authentication.ExtractInfoFromHeader
      ((testRequest testAuthHeader).Get "Authorization".toList) = _
    rw [get_testRequest]
    exact extract_testAuthHeader
  rw [middleware.unauthenticated_mem_iff]
  refine ⟨not_gatesPass_expired, fun text => ?_⟩
  rw [middleware.panics_iff _ _ _ _ hx]
  rintro ⟨_, _, h, _⟩
  exact absurd h (by decide)

/-- The fixture request is rejected when the registry returns the wrong key
of the tests. -/
theorem rejects_wrongKey :
    middleware.Event.unauthenticated ∈
      middleware.authentication (wrongKeyAuthenticator 1641290000)
        (testRequest testAuthHeader) := by
  have hx : authentication.ExtractInfoFromHeader
      ((testRequest testAuthHeader).Get (wrongKeyAuthenticator 1641290000).verifyingHeader) =
      (testInfo, none) := by
    show authentication.ExtractInfoFromHeader
      ((testRequest testAuthHeader).Get "Authorization".toList) = _
    rw [get_testRequest]
    exact extract_testAuthHeader
  rw [middleware.unauthenticated_mem_iff]
  refine ⟨not_gatesPass_wrongKey, fun text => ?_⟩
  rw [middleware.panics_iff _ _ _ _ hx]
  rintro ⟨_, _, _, ctx, key, _, hkey, hver⟩
  have hk : key = decoded wrongPublicKey := by
    have : (wrongKeyAuthenticator 1641290000).registryClient testInfo.SubscriberID
        testInfo.UniqueKeyID ctx = .ok (decoded wrongPublicKey) := rfl
    rw [this] at hkey
    cases hkey
    rfl
  obtain ⟨e, he⟩ := VerifySignature_wrongKey
  rw [hk] at hver
  have : authentication.VerifySignature testInfo.Signature (testRequest testAuthHeader).Body
      (decoded wrongPublicKey) testInfo.Created testInfo.Expired = .error e := he
  rw [this] at hver
  cases hver

/-- The run on the fixture request when the registry returns the empty key
and no error: it ends in the panic of `ed25519.Verify`. -/
theorem authentication_emptyKey :
    middleware.authentication (emptyKeyAuthenticator 1641290000) (testRequest testAuthHeader) =
      [.clockNow, .readBody, .publicSigningKey "example-bap.com".toList "bap1234".toList (),
       .panic "ed25519: bad public key length: 0".toList] := by
  have hx : authentication.ExtractInfoFromHeader
      ((testRequest testAuthHeader).Get (emptyKeyAuthenticator 1641290000).verifyingHeader) =
      (testInfo, none) := by
    show authentication.ExtractInfoFromHeader
      ((testRequest testAuthHeader).Get "Authorization".toList) = _
    rw [get_testRequest]
    exact extract_testAuthHeader
  have hver : authentication.VerifySignature testInfo.Signature
      (testRequest testAuthHeader).Body [] testInfo.Created testInfo.Expired =
      .panic "ed25519: bad public key length: 0".toList := VerifySignature_emptyKey
  have halg : testInfo.Algorithm = testInfo.KeyIDAlgorithm := rfl
  have hwin : ¬ (testInfo.Created > (emptyKeyAuthenticator 1641290000).clock ∨
      testInfo.Expired < (emptyKeyAuthenticator 1641290000).clock) := by decide
  have hctx : (emptyKeyAuthenticator 1641290000).decodeContext
      (testRequest testAuthHeader).Body = .ok () := rfl
  have hkey : (emptyKeyAuthenticator 1641290000).registryClient testInfo.SubscriberID
      testInfo.UniqueKeyID () = .ok [] := rfl
  rw [middleware.authentication_of_info _ _ _ hx]
  simp only [halg, hwin, hctx, hkey, hver, ne_eq, not_true_eq_false, if_false]
  rfl

end fixture

namespace middleware

/-- A header that decodes and a clock outside its window: the run rejects
and the handler is not called. -/
theorem rejects_of_window {Context : Type} (a : authenticator Context) (r : Request)
    (info : authentication.Info)
    (hdec : authentication.ExtractInfoFromHeader (r.Get a.verifyingHeader) = (info, none))
    (hwin : info.Created > a.clock ∨ info.Expired < a.clock) :
    Event.unauthenticated ∈ authentication a r ∧
    ∀ req, Event.serveHTTP req ∉ authentication a r := by
  rw [authentication_of_info a r info hdec]
  by_cases halg : info.Algorithm = info.KeyIDAlgorithm <;> simp [halg, hwin]

/-- A run in which every gate before the signature passes and
`VerifySignature` returns an error rejects. -/
theorem rejects_of_verify_error {Context : Type} (a : authenticator Context) (r : Request)
    (info : authentication.Info) (ctx : Context) (key : Bytes) (err : Error)
    (hdec : authentication.ExtractInfoFromHeader (r.Get a.verifyingHeader) = (info, none))
    (halg : info.Algorithm = info.KeyIDAlgorithm)
    (hc : info.Created ≤ a.clock) (he : a.clock ≤ info.Expired)
    (hctx : a.decodeContext r.Body = .ok ctx)
    (hkey : a.registryClient info.SubscriberID info.UniqueKeyID ctx = .ok key)
    (hver : authentication.VerifySignature info.Signature r.Body key info.Created
      info.Expired = .error err) :
    authentication a r =
      [.clockNow, .readBody, .publicSigningKey info.SubscriberID info.UniqueKeyID ctx,
       .unauthenticated] := by
  have hwin : ¬ (info.Created > a.clock ∨ info.Expired < a.clock) := by omega
  rw [authentication_of_info a r info hdec]
  simp [halg, hwin, hctx, hkey, hver]

theorem rejection_of_role {Context : Type} (a : authenticator Context) (r : Request)
    (hrole : a.role ∈ [errorcode.RoleGateway, errorcode.RoleBuyerApp, errorcode.RoleSellerApp,
      errorcode.RoleLogistics])
    (hrej : Event.unauthenticated ∈ authentication a r) :
    a.respond r http.NewRecorder = unauthenticated a http.NewRecorder ∧
    (a.respond r http.NewRecorder).Code = 401 ∧
    (a.respond r http.NewRecorder).Get a.nackHeader = challenge a.subscriberID ∧
    (a.respond r http.NewRecorder).Body =
      bytesOf (nackBody (errorcode.Lookup a.role errorcode.ErrInvalidSignature).1) := by
  have h := (respond_eq a r http.NewRecorder).2.1 hrej
  rw [h]
  refine ⟨rfl, ?_, ?_, ?_⟩ <;> rw [unauthenticated_of_role a hrole]
  simp [http.ResponseWriter.Get, List.lookup]

/-- The last event of a run: the rejection, the handler, or the panic. -/
theorem getLast_authentication {Context : Type} (a : authenticator Context) (r : Request) :
    (authentication a r).getLast? = some .unauthenticated ∨
    (∃ req, (authentication a r).getLast? = some (.serveHTTP req)) ∨
    ∃ text, Panics a r text ∧ (authentication a r).getLast? = some (.panic text) := by
  rcases authentication_cases a r with ⟨hp, hnp, s, k, ctx, ht⟩ |
    ⟨hn, hnp, ht | ht | ht | ⟨s, k, ctx, ht⟩⟩ | ⟨hn, text, hp, _, s, k, ctx, ht⟩
  · exact Or.inr (Or.inl ⟨r, by simp [ht]⟩)
  · exact Or.inl (by simp [ht])
  · exact Or.inl (by simp [ht])
  · exact Or.inl (by simp [ht])
  · exact Or.inl (by simp [ht])
  · exact Or.inr (Or.inr ⟨text, hp, by simp [ht]⟩)

/-- C4: the authentication middleware invokes the wrapped handler if and only
if every gate passes (header decoded, algorithms equal, clock within the
window, body decoded, registry key obtained, signature verified), but a
failing gate does not always end in `unauthenticated`.  When the registry
returns, without an error, a key that is not 32 bytes long and the signature
in the header decodes to 64 bytes, `VerifySignature` panics: the handler is
not invoked, `unauthenticated` is not called and nothing is written.  The
rejection is in the trace exactly when not every gate passes and the run does
not panic; a run ends with `unauthenticated`, with the handler, or with the
panic. -/
theorem authentication_panics {Context : Type} (a : authenticator Context) (r : Request) :
    ((∃ req, Event.serveHTTP req ∈ authentication a r) ↔ GatesPass a r) ∧
    (Event.unauthenticated ∈ authentication a r ↔
      ¬ GatesPass a r ∧ ∀ text, ¬ Panics a r text) ∧
    (∀ text, Event.panic text ∈ authentication a r ↔ Panics a r text) ∧
    (∀ text, Panics a r text ↔ ∃ info ctx key sig,
      authentication.ExtractInfoFromHeader (r.Get a.verifyingHeader) = (info, none) ∧
      info.Algorithm = info.KeyIDAlgorithm ∧
      info.Created ≤ a.clock ∧ a.clock ≤ info.Expired ∧
      a.decodeContext r.Body = .ok ctx ∧
      a.registryClient info.SubscriberID info.UniqueKeyID ctx = .ok key ∧
      base64.DecodeString info.Signature = .ok sig ∧ sig.length = 64 ∧ key.length ≠ 32 ∧
      text = "ed25519: bad public key length: ".toList ++
        strconv.FormatInt (key.length : Int)) ∧
    (∀ text, Panics a r text →
      ¬ GatesPass a r ∧ Event.unauthenticated ∉ authentication a r ∧
      (∀ req, Event.serveHTTP req ∉ authentication a r) ∧
      (authentication a r).getLast? = some (.panic text) ∧
      a.respond r http.NewRecorder = http.NewRecorder) ∧
    ((authentication a r).getLast? = some .unauthenticated ∨
      (∃ req, (authentication a r).getLast? = some (.serveHTTP req)) ∨
      ∃ text, (authentication a r).getLast? = some (.panic text)) := by
  have hserve : (∃ req, Event.serveHTTP req ∈ authentication a r) ↔ GatesPass a r := by
    rcases authentication_cases a r with ⟨hp, hnp, s, k, ctx, ht⟩ |
      ⟨hn, hnp, ht | ht | ht | ⟨s, k, ctx, ht⟩⟩ | ⟨hn, text, hp, _, s, k, ctx, ht⟩
    · exact ⟨fun _ => hp, fun _ => ⟨r, by simp [ht]⟩⟩
    all_goals
      refine ⟨?_, fun h => absurd h hn⟩
      rintro ⟨req, hreq⟩
      simp [ht] at hreq
  refine ⟨hserve, unauthenticated_mem_iff a r, panic_mem_iff a r, ?_, ?_, ?_⟩
  · intro text
    unfold Panics
    constructor
    · rintro ⟨info, ctx, key, h1, h2, h3, h4, h5, h6, h7⟩
      obtain ⟨sig, hs, hl, hk, ht⟩ := (authentication.VerifySignature_panic_iff _ _ _ _ _ _).1 h7
      exact ⟨info, ctx, key, sig, h1, h2, h3, h4, h5, h6, hs, hl, hk, ht⟩
    · rintro ⟨info, ctx, key, sig, h1, h2, h3, h4, h5, h6, hs, hl, hk, ht⟩
      exact ⟨info, ctx, key, h1, h2, h3, h4, h5, h6,
        (authentication.VerifySignature_panic_iff _ _ _ _ _ _).2 ⟨sig, hs, hl, hk, ht⟩⟩
  · intro text hp
    have hn : ¬ GatesPass a r := by
      rcases authentication_cases a r with ⟨_, hnp, _⟩ | ⟨hn, _⟩ | ⟨hn, _⟩
      · exact absurd hp (hnp text)
      · exact hn
      · exact hn
    have hu : Event.unauthenticated ∉ authentication a r := by
      rw [unauthenticated_mem_iff]
      rintro ⟨_, h⟩
      exact h text hp
    refine ⟨hn, hu, fun req hreq => hn (hserve.1 ⟨req, hreq⟩), ?_,
      (respond_eq a r http.NewRecorder).2.2 ⟨text, hp⟩⟩
    rcases authentication_cases a r with ⟨_, hnp, _⟩ | ⟨_, hnp, _⟩ |
      ⟨_, other, _, huniq, s, k, ctx, ht⟩
    · exact absurd hp (hnp text)
    · exact absurd hp (hnp text)
    · rw [huniq text hp, ht]
      simp
  · rcases getLast_authentication a r with h | h | ⟨text, _, h⟩
    · exact Or.inl h
    · exact Or.inr (Or.inl h)
    · exact Or.inr (Or.inr ⟨text, h⟩)

theorem authentication_panics_witness :
    authentication (fixture.emptyKeyAuthenticator 1641290000)
        (fixture.testRequest fixture.testAuthHeader) =
      [.clockNow, .readBody, .publicSigningKey "example-bap.com".toList "bap1234".toList (),
       .panic "ed25519: bad public key length: 0".toList] ∧
    ¬ GatesPass (fixture.emptyKeyAuthenticator 1641290000)
      (fixture.testRequest fixture.testAuthHeader) ∧
    Event.unauthenticated ∉ authentication (fixture.emptyKeyAuthenticator 1641290000)
      (fixture.testRequest fixture.testAuthHeader) ∧
    (fixture.emptyKeyAuthenticator 1641290000).respond
      (fixture.testRequest fixture.testAuthHeader) http.NewRecorder = http.NewRecorder :=
  have h := (authentication_panics (fixture.emptyKeyAuthenticator 1641290000)
    (fixture.testRequest fixture.testAuthHeader)).2.2.2.2.1
    "ed25519: bad public key length: 0".toList
    ((authentication_panics (fixture.emptyKeyAuthenticator 1641290000)
      (fixture.testRequest fixture.testAuthHeader)).2.2.1 _ |>.1
      (by rw [fixture.authentication_emptyKey]; simp))
  ⟨fixture.authentication_emptyKey, h.1, h.2.1, h.2.2.2.2⟩

/-- C14: for each of the four roles and every subscriber id, every rejection
by `NPAuthentication` (respectively `BGAuthentication`), that is every run in
which `unauthenticated` is called, writes status 401, the header
`WWW-Authenticate` (respectively `Proxy-Authenticate`) with the value
`Signature realm="<subscriberID>",headers="(created) (expires) digest"`, and
the JSON body with status `NACK`, type `CONTEXT-ERROR` and, as code, the
decimal numeral of `Lookup(role, ErrInvalidSignature)`; it is what
`unauthenticated` writes, whichever gate failed.  The runs that reject are
the runs in which some gate fails and `VerifySignature` does not panic. -/
theorem rejection_response {Context : Type}
    (registryClient : Str → Str → Context → Except Error Bytes) (clock : Int)
    (decodeContext : Bytes → Except Error Context) (role subscriberID : Str) (r : Request)
    (hrole : role ∈ [errorcode.RoleGateway, errorcode.RoleBuyerApp, errorcode.RoleSellerApp,
      errorcode.RoleLogistics]) :
    (Event.unauthenticated ∈ authentication (NPAuthenticator registryClient clock decodeContext role subscriberID) r →
      (NPAuthenticator registryClient clock decodeContext role subscriberID).respond r
          http.NewRecorder =
        unauthenticated (NPAuthenticator registryClient clock decodeContext role subscriberID)
          http.NewRecorder ∧
      ((NPAuthenticator registryClient clock decodeContext role subscriberID).respond r
          http.NewRecorder).Code = 401 ∧
      ((NPAuthenticator registryClient clock decodeContext role subscriberID).respond r
          http.NewRecorder).Get "WWW-Authenticate".toList =
        "Signature realm=\"".toList ++ subscriberID ++
          "\",headers=\"(created) (expires) digest\"".toList ∧
      ((NPAuthenticator registryClient clock decodeContext role subscriberID).respond r
          http.NewRecorder).Body =
        bytesOf ("\x7b\"message\":\x7b\"ack\":\x7b\"status\":\"NACK\"\x7d\x7d,\"error\":\x7b\"type\":\"CONTEXT-ERROR\",\"code\":\"".toList ++
          strconv.FormatInt (errorcode.Lookup role errorcode.ErrInvalidSignature).1 ++
          "\"\x7d\x7d".toList)) ∧
    (Event.unauthenticated ∈ authentication (BGAuthenticator registryClient clock decodeContext role subscriberID) r →
      (BGAuthenticator registryClient clock decodeContext role subscriberID).respond r
          http.NewRecorder =
        unauthenticated (BGAuthenticator registryClient clock decodeContext role subscriberID)
          http.NewRecorder ∧
      ((BGAuthenticator registryClient clock decodeContext role subscriberID).respond r
          http.NewRecorder).Code = 401 ∧
      ((BGAuthenticator registryClient clock decodeContext role subscriberID).respond r
          http.NewRecorder).Get "Proxy-Authenticate".toList =
        "Signature realm=\"".toList ++ subscriberID ++
          "\",headers=\"(created) (expires) digest\"".toList ∧
      ((BGAuthenticator registryClient clock decodeContext role subscriberID).respond r
          http.NewRecorder).Body =
        bytesOf ("\x7b\"message\":\x7b\"ack\":\x7b\"status\":\"NACK\"\x7d\x7d,\"error\":\x7b\"type\":\"CONTEXT-ERROR\",\"code\":\"".toList ++
          strconv.FormatInt (errorcode.Lookup role errorcode.ErrInvalidSignature).1 ++
          "\"\x7d\x7d".toList)) ∧
    (Event.unauthenticated ∈ authentication (NPAuthenticator registryClient clock decodeContext role subscriberID) r ↔
      ¬ GatesPass (NPAuthenticator registryClient clock decodeContext role subscriberID) r ∧
      ∀ text, ¬ Panics (NPAuthenticator registryClient clock decodeContext role subscriberID) r text) ∧
    (Event.unauthenticated ∈ authentication (BGAuthenticator registryClient clock decodeContext role subscriberID) r ↔
      ¬ GatesPass (BGAuthenticator registryClient clock decodeContext role subscriberID) r ∧
      ∀ text, ¬ Panics (BGAuthenticator registryClient clock decodeContext role subscriberID) r text) :=
  ⟨fun h => rejection_of_role
      (NPAuthenticator registryClient clock decodeContext role subscriberID) r hrole h,
   fun h => rejection_of_role
      (BGAuthenticator registryClient clock decodeContext role subscriberID) r hrole h,
   unauthenticated_mem_iff _ r, unauthenticated_mem_iff _ r⟩

theorem rejection_response_witness :
    ((fixture.testAuthenticator 1641291476).respond (fixture.testRequest fixture.testAuthHeader)
        http.NewRecorder).Code = 401 ∧
    ((fixture.testAuthenticator 1641291476).respond (fixture.testRequest fixture.testAuthHeader)
        http.NewRecorder).Get "WWW-Authenticate".toList =
      "Signature realm=\"".toList ++ "bpp.com".toList ++
        "\",headers=\"(created) (expires) digest\"".toList :=
  have h := (rejection_response (fun _ _ _ => .ok (fixture.decoded fixture.ed25519PublicKey))
    1641291476 (fun _ => .ok ()) "Seller App".toList "bpp.com".toList
    (fixture.testRequest fixture.testAuthHeader) (by decide)).1 fixture.rejects_expired
  ⟨h.2.1, h.2.2.1⟩

theorem unauthenticated_congr {Context : Type} (a₁ a₂ : authenticator Context)
    (w : http.ResponseWriter)
    (h : a₁.role = a₂.role ∧ a₁.subscriberID = a₂.subscriberID ∧ a₁.nackHeader = a₂.nackHeader) :
    unauthenticated a₁ w = unauthenticated a₂ w := by
  unfold unauthenticated
  rw [h.1, h.2.1, h.2.2]

/-- C15, as stated, fails: the fixture request with its valid signature, met
one second after `expires`, and the same request when the signature does not
verify (the registry returns the wrong key of the tests) get the same
response, with the same error code 30016 of an invalid signature. -/
theorem window_reason_counterexample :
    authentication.VerifySignature fixture.testInfo.Signature
        (fixture.testRequest fixture.testAuthHeader).Body
        (fixture.decoded fixture.ed25519PublicKey) fixture.testInfo.Created
        fixture.testInfo.Expired = .ok () ∧
    fixture.testInfo.Expired + 1 = (fixture.testAuthenticator 1641291476).clock ∧
    (∃ e, authentication.VerifySignature fixture.testInfo.Signature
        (fixture.testRequest fixture.testAuthHeader).Body
        (fixture.decoded fixture.wrongPublicKey) fixture.testInfo.Created
        fixture.testInfo.Expired = .error e) ∧
    (fixture.testAuthenticator 1641291476).respond (fixture.testRequest fixture.testAuthHeader)
        http.NewRecorder =
      (fixture.wrongKeyAuthenticator 1641290000).respond
        (fixture.testRequest fixture.testAuthHeader) http.NewRecorder ∧
    ((fixture.testAuthenticator 1641291476).respond (fixture.testRequest fixture.testAuthHeader)
        http.NewRecorder).Body = bytesOf (nackBody 30016) := by
  have h1 := (respond_eq (fixture.testAuthenticator 1641291476)
    (fixture.testRequest fixture.testAuthHeader) http.NewRecorder).2.1
    fixture.rejects_expired
  have h2 := (respond_eq (fixture.wrongKeyAuthenticator 1641290000)
    (fixture.testRequest fixture.testAuthHeader) http.NewRecorder).2.1
    fixture.rejects_wrongKey
  refine ⟨fixture.VerifySignature_fixture, by decide, fixture.VerifySignature_wrongKey, ?_, ?_⟩
  · rw [h1, h2]
    exact unauthenticated_congr _ _ _ ⟨rfl, rfl, rfl⟩
  · rw [h1, unauthenticated_of_role _ (by decide)]
    decide

/-- C15 (amended): a request whose header decodes and whose `expires` is one
second before the clock's now is rejected through `unauthenticated`, whether
its signature is valid or not; the response has the status 401, the challenge
header and the JSON body with the role's code of an invalid signature, and it
is the same as the response to a request whose signature does not verify
(`VerifySignature` returns an error) at an authenticator with the same role,
subscriber id and challenge header: the window violation is not told apart
in the response. -/
theorem window_rejection_response {Context : Type} (a₁ a₂ : authenticator Context)
    (r₁ r₂ : Request) (info₁ info₂ : authentication.Info) (ctx : Context) (key : Bytes)
    (err : Error)
    (hsame : a₁.role = a₂.role ∧ a₁.subscriberID = a₂.subscriberID ∧
      a₁.nackHeader = a₂.nackHeader)
    (hrole : a₁.role ∈ [errorcode.RoleGateway, errorcode.RoleBuyerApp,
      errorcode.RoleSellerApp, errorcode.RoleLogistics])
    (hdec₁ : authentication.ExtractInfoFromHeader (r₁.Get a₁.verifyingHeader) = (info₁, none))
    (hexp : info₁.Expired + 1 = a₁.clock)
    (hdec₂ : authentication.ExtractInfoFromHeader (r₂.Get a₂.verifyingHeader) = (info₂, none))
    (halg₂ : info₂.Algorithm = info₂.KeyIDAlgorithm)
    (hc₂ : info₂.Created ≤ a₂.clock) (he₂ : a₂.clock ≤ info₂.Expired)
    (hctx₂ : a₂.decodeContext r₂.Body = .ok ctx)
    (hkey₂ : a₂.registryClient info₂.SubscriberID info₂.UniqueKeyID ctx = .ok key)
    (hver₂ : authentication.VerifySignature info₂.Signature r₂.Body key info₂.Created
      info₂.Expired = .error err) :
    Event.unauthenticated ∈ authentication a₁ r₁ ∧
    (∀ req, Event.serveHTTP req ∉ authentication a₁ r₁) ∧
    Event.unauthenticated ∈ authentication a₂ r₂ ∧
    a₁.respond r₁ http.NewRecorder = a₂.respond r₂ http.NewRecorder ∧
    (a₁.respond r₁ http.NewRecorder).Code = 401 ∧
    (a₁.respond r₁ http.NewRecorder).Get a₁.nackHeader = challenge a₁.subscriberID ∧
    (a₁.respond r₁ http.NewRecorder).Body =
      bytesOf (nackBody (errorcode.Lookup a₁.role errorcode.ErrInvalidSignature).1) := by
  have hr₁ := rejects_of_window a₁ r₁ info₁ hdec₁ (Or.inr (by omega))
  have hr₂ : Event.unauthenticated ∈ authentication a₂ r₂ := by
    rw [rejects_of_verify_error a₂ r₂ info₂ ctx key err hdec₂ halg₂ hc₂ he₂ hctx₂ hkey₂ hver₂]
    simp
  have h := rejection_of_role a₁ r₁ hrole hr₁.1
  refine ⟨hr₁.1, hr₁.2, hr₂, ?_, h.2.1, h.2.2.1, h.2.2.2⟩
  rw [(respond_eq a₁ r₁ http.NewRecorder).2.1 hr₁.1,
    (respond_eq a₂ r₂ http.NewRecorder).2.1 hr₂]
  exact unauthenticated_congr a₁ a₂ _ hsame

theorem window_rejection_response_witness :
    (fixture.testAuthenticator 1641291476).respond (fixture.testRequest fixture.testAuthHeader)
        http.NewRecorder =
      (fixture.wrongKeyAuthenticator 1641290000).respond
        (fixture.testRequest fixture.testAuthHeader) http.NewRecorder ∧
    ((fixture.testAuthenticator 1641291476).respond (fixture.testRequest fixture.testAuthHeader)
        http.NewRecorder).Code = 401 ∧
    ((fixture.testAuthenticator 1641291476).respond (fixture.testRequest fixture.testAuthHeader)
        http.NewRecorder).Body = bytesOf (nackBody 30016) :=
  let ⟨e, he⟩ := fixture.VerifySignature_wrongKey
  have h := window_rejection_response (fixture.testAuthenticator 1641291476)
    (fixture.wrongKeyAuthenticator 1641290000) (fixture.testRequest fixture.testAuthHeader)
    (fixture.testRequest fixture.testAuthHeader) fixture.testInfo fixture.testInfo ()
    (fixture.decoded fixture.wrongPublicKey) e
    ⟨rfl, rfl, rfl⟩ (by decide)
    (by rw [show (fixture.testAuthenticator 1641291476).verifyingHeader = "Authorization".toList
          from rfl, fixture.get_testRequest]; exact fixture.extract_testAuthHeader)
    (by decide)
    (by rw [show (fixture.wrongKeyAuthenticator 1641290000).verifyingHeader =
          "Authorization".toList from rfl, fixture.get_testRequest]
        exact fixture.extract_testAuthHeader)
    rfl (by decide) (by decide) rfl rfl he
  ⟨h.2.2.2.1, h.2.2.2.2.1, h.2.2.2.2.2.2⟩

/-- C16: the handler gets the request with its body restored.  Whenever the
authentication middleware invokes the wrapped handler, and whenever the
`Logging` middleware does (it always does, after reading the body when the
verbosity is at least 1), the request handed over has a body that reads as
exactly the bytes that were read, and the same headers, method and URL. -/
theorem body_restored {Context : Type} (a : authenticator Context) (r : Request)
    (verbose : Bool) :
    (∀ req, Event.serveHTTP req ∈ authentication a r →
      req.Body = (ReadAll r).1 ∧ req.Header = r.Header ∧ req.Method = r.Method ∧
        req.URL = r.URL) ∧
    (∀ req, Event.serveHTTP req ∈ (Logging verbose r : List (Event Context)) →
      req.Body = (ReadAll r).1 ∧ req.Header = r.Header ∧ req.Method = r.Method ∧
        req.URL = r.URL) ∧
    (∃ req, (Logging verbose r : List (Event Context)).getLast? = some (.serveHTTP req)) ∧
    ((Event.readBody : Event Context) ∈ (Logging verbose r : List (Event Context)) ↔
      verbose = true) := by
  refine ⟨?_, ?_, ?_, ?_⟩
  · intro req hreq
    rcases authentication_cases a r with ⟨_, _, s, k, ctx, ht⟩ |
      ⟨_, _, ht | ht | ht | ⟨s, k, ctx, ht⟩⟩ | ⟨_, text, _, _, s, k, ctx, ht⟩
    all_goals
      rw [ht] at hreq
      simp at hreq
    subst hreq
    exact ⟨rfl, rfl, rfl, rfl⟩
  · intro req hreq
    cases verbose <;> simp [Logging] at hreq <;> subst hreq <;> exact ⟨rfl, rfl, rfl, rfl⟩
  · cases verbose <;> simp [Logging]
  · cases verbose <;> simp [Logging]

theorem body_restored_witness :
    Event.serveHTTP (fixture.testRequest fixture.testAuthHeader) ∈
        authentication (fixture.testAuthenticator 1641290000)
          (fixture.testRequest fixture.testAuthHeader) ∧
    (fixture.testRequest fixture.testAuthHeader).Body = fixture.payload ∧
    Event.serveHTTP (fixture.testRequest fixture.testAuthHeader) ∈
        (Logging true (fixture.testRequest fixture.testAuthHeader) : List (Event Unit)) :=
  have hmem : Event.serveHTTP (fixture.testRequest fixture.testAuthHeader) ∈
      authentication (fixture.testAuthenticator 1641290000)
        (fixture.testRequest fixture.testAuthHeader) := by
    rcases authentication_cases (fixture.testAuthenticator 1641290000)
      (fixture.testRequest fixture.testAuthHeader) with ⟨_, _, s, k, ctx, ht⟩ | ⟨hn, _⟩ | ⟨hn, _⟩
    · rw [ht]; simp
    · exact absurd fixture.gatesPass_test hn
    · exact absurd fixture.gatesPass_test hn
  have hlog : Event.serveHTTP (fixture.testRequest fixture.testAuthHeader) ∈
      (Logging true (fixture.testRequest fixture.testAuthHeader) : List (Event Unit)) := by
    simp [Logging, ReadAll, Request.setBody]
  ⟨hmem,
   ((body_restored (fixture.testAuthenticator 1641290000)
      (fixture.testRequest fixture.testAuthHeader) true).1 _ hmem).1,
   hlog⟩

end middleware

namespace aes

theorem ite_xor (a b : Bool) (c : Nat) :
    (if (a ^^ b) = true then c else 0) = (if a = true then c else 0) ^^^ (if b = true then c else 0) := by
  cases a <;> cases b <;> simp

theorem linearForm_xor (f : Nat → Nat) (x y : Nat) :
    linearForm f (x ^^^ y) = linearForm f x ^^^ linearForm f y := by
  unfold linearForm
  simp only [Nat.testBit_xor, ite_xor]
  ac_rfl

/-- A map on bytes that agrees with its linear form is additive. -/
theorem xor_of_linearForm (f : Nat → Nat) (h : ∀ x < 256, f x = linearForm f x)
    (x y : Nat) (hx : x < 256) (hy : y < 256) : f (x ^^^ y) = f x ^^^ f y := by
  have hxy : x ^^^ y < 256 := Nat.xor_lt_two_pow (n := 8) hx hy
  rw [h _ hxy, h x hx, h y hy, linearForm_xor]

theorem xtime_lt : ∀ x < 256, xtime x < 256 := by decide!

theorem sbox_lt : ∀ x < 256, sbox x < 256 := by decide!

theorem invSbox_sbox : ∀ x < 256, invSbox (sbox x) = x := by decide!

theorem mul_lt : ∀ x < 256, mul3 x < 256 ∧ mul9 x < 256 ∧ mul11 x < 256 ∧ mul13 x < 256 ∧
    mul14 x < 256 := by decide!

theorem mul9_linear : ∀ x < 256, mul9 x = linearForm mul9 x := by decide!

theorem mul11_linear : ∀ x < 256, mul11 x = linearForm mul11 x := by decide!

theorem mul13_linear : ∀ x < 256, mul13 x = linearForm mul13 x := by decide!

theorem mul14_linear : ∀ x < 256, mul14 x = linearForm mul14 x := by decide!

/-- The products of the matrix of `InvMixColumns` with the matrix of
`MixColumns`, entry by entry. -/
theorem mix_identities : ∀ x < 256,
    (mul14 (xtime x) ^^^ mul11 x ^^^ mul13 x ^^^ mul9 (mul3 x) = x ∧
      mul14 (mul3 x) ^^^ mul11 (xtime x) ^^^ mul13 x ^^^ mul9 x = 0 ∧
      mul14 x ^^^ mul11 (mul3 x) ^^^ mul13 (xtime x) ^^^ mul9 x = 0 ∧
      mul14 x ^^^ mul11 x ^^^ mul13 (mul3 x) ^^^ mul9 (xtime x) = 0) ∧
    (mul9 (xtime x) ^^^ mul14 x ^^^ mul11 x ^^^ mul13 (mul3 x) = 0 ∧
      mul9 (mul3 x) ^^^ mul14 (xtime x) ^^^ mul11 x ^^^ mul13 x = x ∧
      mul9 x ^^^ mul14 (mul3 x) ^^^ mul11 (xtime x) ^^^ mul13 x = 0 ∧
      mul9 x ^^^ mul14 x ^^^ mul11 (mul3 x) ^^^ mul13 (xtime x) = 0) ∧
    (mul13 (xtime x) ^^^ mul9 x ^^^ mul14 x ^^^ mul11 (mul3 x) = 0 ∧
      mul13 (mul3 x) ^^^ mul9 (xtime x) ^^^ mul14 x ^^^ mul11 x = 0 ∧
      mul13 x ^^^ mul9 (mul3 x) ^^^ mul14 (xtime x) ^^^ mul11 x = x ∧
      mul13 x ^^^ mul9 x ^^^ mul14 (mul3 x) ^^^ mul11 (xtime x) = 0) ∧
    (mul11 (xtime x) ^^^ mul13 x ^^^ mul9 x ^^^ mul14 (mul3 x) = 0 ∧
      mul11 (mul3 x) ^^^ mul13 (xtime x) ^^^ mul9 x ^^^ mul14 x = 0 ∧
      mul11 x ^^^ mul13 (mul3 x) ^^^ mul9 (xtime x) ^^^ mul14 x = 0 ∧
      mul11 x ^^^ mul13 x ^^^ mul9 (mul3 x) ^^^ mul14 (xtime x) = x) := by
  decide!

/-- A row of a product of two matrices over additive maps, regrouped by
column. -/
theorem row_transpose (g0 g1 g2 g3 : Nat → Nat)
    (h0 : ∀ x y, x < 256 → y < 256 → g0 (x ^^^ y) = g0 x ^^^ g0 y)
    (h1 : ∀ x y, x < 256 → y < 256 → g1 (x ^^^ y) = g1 x ^^^ g1 y)
    (h2 : ∀ x y, x < 256 → y < 256 → g2 (x ^^^ y) = g2 x ^^^ g2 y)
    (h3 : ∀ x y, x < 256 → y < 256 → g3 (x ^^^ y) = g3 x ^^^ g3 y)
    (a0 b0 c0 d0 a1 b1 c1 d1 a2 b2 c2 d2 a3 b3 c3 d3 : Nat)
    (ha0 : a0 < 256) (hb0 : b0 < 256) (hc0 : c0 < 256) (hd0 : d0 < 256)
    (ha1 : a1 < 256) (hb1 : b1 < 256) (hc1 : c1 < 256) (hd1 : d1 < 256)
    (ha2 : a2 < 256) (hb2 : b2 < 256) (hc2 : c2 < 256) (hd2 : d2 < 256)
    (ha3 : a3 < 256) (hb3 : b3 < 256) (hc3 : c3 < 256) (hd3 : d3 < 256) :
    g0 (a0 ^^^ b0 ^^^ c0 ^^^ d0) ^^^ g1 (a1 ^^^ b1 ^^^ c1 ^^^ d1) ^^^
        g2 (a2 ^^^ b2 ^^^ c2 ^^^ d2) ^^^ g3 (a3 ^^^ b3 ^^^ c3 ^^^ d3) =
      (g0 a0 ^^^ g1 a1 ^^^ g2 a2 ^^^ g3 a3) ^^^ (g0 b0 ^^^ g1 b1 ^^^ g2 b2 ^^^ g3 b3) ^^^
        (g0 c0 ^^^ g1 c1 ^^^ g2 c2 ^^^ g3 c3) ^^^ (g0 d0 ^^^ g1 d1 ^^^ g2 d2 ^^^ g3 d3) := by
  have x2 : ∀ {x y : Nat}, x < 256 → y < 256 → x ^^^ y < 256 :=
    fun hx hy => Nat.xor_lt_two_pow (n := 8) hx hy
  rw [h0 _ _ (x2 (x2 ha0 hb0) hc0) hd0, h0 _ _ (x2 ha0 hb0) hc0, h0 _ _ ha0 hb0,
    h1 _ _ (x2 (x2 ha1 hb1) hc1) hd1, h1 _ _ (x2 ha1 hb1) hc1, h1 _ _ ha1 hb1,
    h2 _ _ (x2 (x2 ha2 hb2) hc2) hd2, h2 _ _ (x2 ha2 hb2) hc2, h2 _ _ ha2 hb2,
    h3 _ _ (x2 (x2 ha3 hb3) hc3) hd3, h3 _ _ (x2 ha3 hb3) hc3, h3 _ _ ha3 hb3]
  ac_rfl

/-- The transformation `InvMixColumns` undoes `MixColumns` on a column. -/
theorem invMix_mix_column (a b c d : Nat) (ha : a < 256) (hb : b < 256) (hc : c < 256)
    (hd : d < 256) :
    mul14 (xtime a ^^^ mul3 b ^^^ c ^^^ d) ^^^ mul11 (a ^^^ xtime b ^^^ mul3 c ^^^ d) ^^^
        mul13 (a ^^^ b ^^^ xtime c ^^^ mul3 d) ^^^ mul9 (mul3 a ^^^ b ^^^ c ^^^ xtime d) = a ∧
      mul9 (xtime a ^^^ mul3 b ^^^ c ^^^ d) ^^^ mul14 (a ^^^ xtime b ^^^ mul3 c ^^^ d) ^^^
        mul11 (a ^^^ b ^^^ xtime c ^^^ mul3 d) ^^^ mul13 (mul3 a ^^^ b ^^^ c ^^^ xtime d) = b ∧
      mul13 (xtime a ^^^ mul3 b ^^^ c ^^^ d) ^^^ mul9 (a ^^^ xtime b ^^^ mul3 c ^^^ d) ^^^
        mul14 (a ^^^ b ^^^ xtime c ^^^ mul3 d) ^^^ mul11 (mul3 a ^^^ b ^^^ c ^^^ xtime d) = c ∧
      mul11 (xtime a ^^^ mul3 b ^^^ c ^^^ d) ^^^ mul13 (a ^^^ xtime b ^^^ mul3 c ^^^ d) ^^^
        mul9 (a ^^^ b ^^^ xtime c ^^^ mul3 d) ^^^ mul14 (mul3 a ^^^ b ^^^ c ^^^ xtime d) = d := by
  have l9 := fun x y hx hy => xor_of_linearForm mul9 mul9_linear x y hx hy
  have l11 := fun x y hx hy => xor_of_linearForm mul11 mul11_linear x y hx hy
  have l13 := fun x y hx hy => xor_of_linearForm mul13 mul13_linear x y hx hy
  have l14 := fun x y hx hy => xor_of_linearForm mul14 mul14_linear x y hx hy
  have xa := xtime_lt a ha
  have xb := xtime_lt b hb
  have xc := xtime_lt c hc
  have xd := xtime_lt d hd
  have ta := (mul_lt a ha).1
  have tb := (mul_lt b hb).1
  have tc := (mul_lt c hc).1
  have td := (mul_lt d hd).1
  obtain ⟨⟨a1, a2, a3, a4⟩, ⟨a5, a6, a7, a8⟩, ⟨a9, a10, a11, a12⟩, a13, a14, a15, a16⟩ :=
    mix_identities a ha
  obtain ⟨⟨b1, b2, b3, b4⟩, ⟨b5, b6, b7, b8⟩, ⟨b9, b10, b11, b12⟩, b13, b14, b15, b16⟩ :=
    mix_identities b hb
  obtain ⟨⟨c1, c2, c3, c4⟩, ⟨c5, c6, c7, c8⟩, ⟨c9, c10, c11, c12⟩, c13, c14, c15, c16⟩ :=
    mix_identities c hc
  obtain ⟨⟨d1, d2, d3, d4⟩, ⟨d5, d6, d7, d8⟩, ⟨d9, d10, d11, d12⟩, d13, d14, d15, d16⟩ :=
    mix_identities d hd
  refine ⟨?_, ?_, ?_, ?_⟩
  · rw [row_transpose mul14 mul11 mul13 mul9 l14 l11 l13 l9 _ _ _ _ _ _ _ _ _ _ _ _ _ _ _ _
      xa tb hc hd ha xb tc hd ha hb xc td ta hb hc xd, a1, b2, c3, d4]
    simp
  · rw [row_transpose mul9 mul14 mul11 mul13 l9 l14 l11 l13 _ _ _ _ _ _ _ _ _ _ _ _ _ _ _ _
      xa tb hc hd ha xb tc hd ha hb xc td ta hb hc xd, a5, b6, c7, d8]
    simp
  · rw [row_transpose mul13 mul9 mul14 mul11 l13 l9 l14 l11 _ _ _ _ _ _ _ _ _ _ _ _ _ _ _ _
      xa tb hc hd ha xb tc hd ha hb xc td ta hb hc xd, a9, b10, c11, d12]
    simp
  · rw [row_transpose mul11 mul13 mul9 mul14 l11 l13 l9 l14 _ _ _ _ _ _ _ _ _ _ _ _ _ _ _ _
      xa tb hc hd ha xb tc hd ha hb xc td ta hb hc xd, a13, b14, c15, d16]
    simp

end aes

namespace aes

theorem length_xorBytes (a b : Bytes) : (xorBytes a b).length = min a.length b.length := by
  simp [xorBytes]

theorem isBytes_xorBytes (a b : Bytes) (ha : IsBytes a) (hb : IsBytes b) :
    IsBytes (xorBytes a b) := by
  induction a generalizing b with
  | nil => intro x hx; simp [xorBytes] at hx
  | cons x a ih =>
    cases b with
    | nil => intro x hx; simp [xorBytes] at hx
    | cons y b =>
      intro z hz
      simp only [xorBytes, List.zipWith_cons_cons, List.mem_cons] at hz
      rcases hz with rfl | hz
      · exact Nat.xor_lt_two_pow (n := 8) (ha x (by simp)) (hb y (by simp))
      · exact ih b (fun w hw => ha w (by simp [hw])) (fun w hw => hb w (by simp [hw])) z hz

theorem xorBytes_cancel (a k : Bytes) (h : a.length ≤ k.length) :
    xorBytes (xorBytes a k) k = a := by
  induction a generalizing k with
  | nil => simp [xorBytes]
  | cons x a ih =>
    cases k with
    | nil => simp at h
    | cons y k =>
      have h2 : a.length ≤ k.length := by simpa using h
      have := ih k h2
      simp only [xorBytes] at this
      simp only [xorBytes, List.zipWith_cons_cons, this, Nat.xor_assoc, Nat.xor_self,
        Nat.xor_zero]

theorem length_subBytes (s : Bytes) : (subBytes s).length = s.length := by
  simp [subBytes]

theorem isBytes_subBytes (s : Bytes) (hs : IsBytes s) : IsBytes (subBytes s) := by
  intro x hx
  simp only [subBytes, List.mem_map] at hx
  obtain ⟨y, hy, rfl⟩ := hx
  exact sbox_lt y (hs y hy)

theorem invSubBytes_subBytes (s : Bytes) (hs : IsBytes s) : invSubBytes (subBytes s) = s := by
  induction s with
  | nil => rfl
  | cons x s ih =>
    simp only [subBytes, invSubBytes, List.map_cons, List.map_map] at ih ⊢
    rw [invSbox_sbox x (hs x (by simp)), ih (fun w hw => hs w (by simp [hw]))]

theorem block_cases (s : Bytes) (h : s.length = 16) :
    ∃ s0 s1 s2 s3 s4 s5 s6 s7 s8 s9 s10 s11 s12 s13 s14 s15,
      s = [s0, s1, s2, s3, s4, s5, s6, s7, s8, s9, s10, s11, s12, s13, s14, s15] := by
  match s, h with
  | [s0, s1, s2, s3, s4, s5, s6, s7, s8, s9, s10, s11, s12, s13, s14, s15], _ =>
    exact ⟨_, _, _, _, _, _, _, _, _, _, _, _, _, _, _, _, rfl⟩

theorem shiftRows_block (s : Bytes) (h : s.length = 16) (hs : IsBytes s) :
    (shiftRows s).length = 16 ∧ IsBytes (shiftRows s) ∧ invShiftRows (shiftRows s) = s := by
  obtain ⟨s0, s1, s2, s3, s4, s5, s6, s7, s8, s9, s10, s11, s12, s13, s14, s15, rfl⟩ :=
    block_cases s h
  refine ⟨rfl, ?_, rfl⟩
  intro x hx
  apply hs x
  simp only [shiftRows, List.mem_cons, List.mem_singleton] at hx ⊢
  tauto

theorem mixColumns_block (s : Bytes) (h : s.length = 16) (hs : IsBytes s) :
    (mixColumns s).length = 16 ∧ IsBytes (mixColumns s) ∧ invMixColumns (mixColumns s) = s := by
  obtain ⟨s0, s1, s2, s3, s4, s5, s6, s7, s8, s9, s10, s11, s12, s13, s14, s15, rfl⟩ :=
    block_cases s h
  have x2 : ∀ {x y : Nat}, x < 256 → y < 256 → x ^^^ y < 256 :=
    fun hx hy => Nat.xor_lt_two_pow (n := 8) hx hy
  have h0 := hs s0 (by simp)
  have h1 := hs s1 (by simp)
  have h2 := hs s2 (by simp)
  have h3 := hs s3 (by simp)
  have h4 := hs s4 (by simp)
  have h5 := hs s5 (by simp)
  have h6 := hs s6 (by simp)
  have h7 := hs s7 (by simp)
  have h8 := hs s8 (by simp)
  have h9 := hs s9 (by simp)
  have h10 := hs s10 (by simp)
  have h11 := hs s11 (by simp)
  have h12 := hs s12 (by simp)
  have h13 := hs s13 (by simp)
  have h14 := hs s14 (by simp)
  have h15 := hs s15 (by simp)
  have col : ∀ a b c d : Nat, a < 256 → b < 256 → c < 256 → d < 256 →
      (xtime a ^^^ mul3 b ^^^ c ^^^ d) < 256 ∧ (a ^^^ xtime b ^^^ mul3 c ^^^ d) < 256 ∧
        (a ^^^ b ^^^ xtime c ^^^ mul3 d) < 256 ∧ (mul3 a ^^^ b ^^^ c ^^^ xtime d) < 256 := by
    intro a b c d ha hb hc hd
    exact ⟨x2 (x2 (x2 (xtime_lt a ha) (mul_lt b hb).1) hc) hd,
      x2 (x2 (x2 ha (xtime_lt b hb)) (mul_lt c hc).1) hd,
      x2 (x2 (x2 ha hb) (xtime_lt c hc)) (mul_lt d hd).1,
      x2 (x2 (x2 (mul_lt a ha).1 hb) hc) (xtime_lt d hd)⟩
  obtain ⟨p0, p1, p2, p3⟩ := col s0 s1 s2 s3 h0 h1 h2 h3
  obtain ⟨p4, p5, p6, p7⟩ := col s4 s5 s6 s7 h4 h5 h6 h7
  obtain ⟨p8, p9, p10, p11⟩ := col s8 s9 s10 s11 h8 h9 h10 h11
  obtain ⟨p12, p13, p14, p15⟩ := col s12 s13 s14 s15 h12 h13 h14 h15
  obtain ⟨q0, q1, q2, q3⟩ := invMix_mix_column s0 s1 s2 s3 h0 h1 h2 h3
  obtain ⟨q4, q5, q6, q7⟩ := invMix_mix_column s4 s5 s6 s7 h4 h5 h6 h7
  obtain ⟨q8, q9, q10, q11⟩ := invMix_mix_column s8 s9 s10 s11 h8 h9 h10 h11
  obtain ⟨q12, q13, q14, q15⟩ := invMix_mix_column s12 s13 s14 s15 h12 h13 h14 h15
  refine ⟨rfl, ?_, ?_⟩
  · intro x hx
    simp only [mixColumns, List.mem_cons, List.mem_singleton, List.not_mem_nil, or_false] at hx
    rcases hx with rfl | rfl | rfl | rfl | rfl | rfl | rfl | rfl | rfl | rfl | rfl | rfl | rfl |
      rfl | rfl | rfl <;> assumption
  · simp only [mixColumns, invMixColumns, q0, q1, q2, q3, q4, q5, q6, q7, q8, q9, q10, q11, q12,
      q13, q14, q15]

/-- The rounds of the inverse cipher undo the rounds of the cipher. -/
theorem rounds_block (ks : List Bytes) (hks : ∀ k ∈ ks, k.length = 16 ∧ IsBytes k) (s : Bytes)
    (h : s.length = 16) (hs : IsBytes s) :
    (rounds ks s).length = 16 ∧ IsBytes (rounds ks s) ∧ invRounds ks (rounds ks s) = s := by
  induction ks generalizing s with
  | nil => exact ⟨h, hs, rfl⟩
  | cons k ks ih =>
    obtain ⟨hk, hkb⟩ := hks k (by simp)
    have sub1 := length_subBytes s
    have sub2 := isBytes_subBytes s hs
    have sub3 := invSubBytes_subBytes s hs
    obtain ⟨sh1, sh2, sh3⟩ := shiftRows_block (subBytes s) (by rw [sub1, h]) sub2
    cases ks with
    | nil =>
      refine ⟨?_, ?_, ?_⟩
      · simp [rounds, length_xorBytes, sh1, hk]
      · exact isBytes_xorBytes _ _ sh2 hkb
      · simp only [rounds, invRounds]
        rw [xorBytes_cancel _ _ (by rw [sh1, hk]), sh3, sub3]
    | cons k2 ks =>
      obtain ⟨m1, m2, m3⟩ := mixColumns_block (shiftRows (subBytes s)) sh1 sh2
      have x1 : (xorBytes (mixColumns (shiftRows (subBytes s))) k).length = 16 := by
        simp [length_xorBytes, m1, hk]
      have x2 := isBytes_xorBytes _ _ m2 hkb
      obtain ⟨r1, r2, r3⟩ := ih (fun k1 hk1 => hks k1 (by simp [hk1])) _ x1 x2
      refine ⟨?_, ?_, ?_⟩
      · simpa only [rounds] using r1
      · simpa only [rounds] using r2
      · simp only [rounds, invRounds]
        rw [r3, xorBytes_cancel _ _ (by rw [m1, hk]), m3, sh3, sub3]

/-- Decrypting a block undoes encrypting it. -/
theorem Decrypt_Encrypt (c : Block) (hc : ∀ k ∈ c.roundKeys, k.length = 16 ∧ IsBytes k)
    (s : Bytes) (h : s.length = 16) (hs : IsBytes s) :
    (c.Encrypt s).length = 16 ∧ IsBytes (c.Encrypt s) ∧ c.Decrypt (c.Encrypt s) = s := by
  unfold Block.Encrypt Block.Decrypt
  rcases hrk : c.roundKeys with _ | ⟨k, ks⟩
  · exact ⟨h, hs, rfl⟩
  · rw [hrk] at hc
    obtain ⟨hk, hkb⟩ := hc k (by simp)
    have x1 : (xorBytes s k).length = 16 := by simp [length_xorBytes, h, hk]
    have x2 := isBytes_xorBytes _ _ hs hkb
    obtain ⟨r1, r2, r3⟩ := rounds_block ks (fun k1 hk1 => hc k1 (by simp [hk1])) _ x1 x2
    refine ⟨r1, r2, ?_⟩
    simp only
    rw [r3, xorBytes_cancel _ _ (by rw [h, hk])]

end aes

theorem length_chunks (size count : Nat) (bs : Bytes) : (chunks size count bs).length = count := by
  induction count generalizing bs with
  | zero => rfl
  | succ n ih => simp [chunks, ih]

theorem mem_chunks (size count : Nat) (bs : Bytes) (h : size * count ≤ bs.length)
    (hb : IsBytes bs) : ∀ c ∈ chunks size count bs, c.length = size ∧ IsBytes c := by
  induction count generalizing bs with
  | zero => intro c hc; simp [chunks] at hc
  | succ n ih =>
    intro c hc
    simp only [chunks, List.mem_cons] at hc
    have hsz : size ≤ bs.length := by
      have : size * (n + 1) = size * n + size := by ring
      omega
    rcases hc with rfl | hc
    · refine ⟨by simp [hsz], fun x hx => hb x (List.mem_of_mem_take hx)⟩
    · refine ih (bs.drop size) ?_ (fun x hx => hb x (List.mem_of_mem_drop hx)) c hc
      have : size * (n + 1) = size * n + size := by ring
      simp only [List.length_drop]
      omega

namespace aes

theorem rotWord_word (w : Bytes) (h : w.length = 4) (hw : IsBytes w) :
    (rotWord w).length = 4 ∧ IsBytes (rotWord w) := by
  cases w with
  | nil => simp at h
  | cons a rest =>
    refine ⟨by simpa [rotWord] using h, ?_⟩
    intro x hx
    apply hw x
    simp only [rotWord, List.mem_append, List.mem_singleton] at hx
    simp only [List.mem_cons]
    tauto

theorem expandLoop_words (count i rc : Nat) (ws : List Bytes) (hrc : rc < 256)
    (hlen : 8 ≤ ws.length) (hws : ∀ w ∈ ws, w.length = 4 ∧ IsBytes w) :
    ∀ w ∈ expandLoop count i rc ws, w.length = 4 ∧ IsBytes w := by
  induction count generalizing i rc ws with
  | zero => simpa [expandLoop] using hws
  | succ n ih =>
    unfold expandLoop
    have g0 : ws.getD 0 [] ∈ ws := by
      rw [List.getD_eq_getElem ws [] (by omega : 0 < ws.length)]
      exact List.getElem_mem _
    have g7 : ws.getD 7 [] ∈ ws := by
      rw [List.getD_eq_getElem ws [] (by omega : 7 < ws.length)]
      exact List.getElem_mem _
    obtain ⟨t1, t2⟩ := hws _ g0
    obtain ⟨u1, u2⟩ := hws _ g7
    obtain ⟨r1, r2⟩ := rotWord_word _ t1 t2
    have hcon : IsBytes [rc, 0, 0, 0] := by
      intro x hx
      simp only [List.mem_cons, List.mem_singleton, List.not_mem_nil, or_false] at hx
      rcases hx with rfl | rfl | rfl | rfl <;> omega
    have htemp : ∀ (rc1 : Nat) (temp : Bytes), rc1 < 256 → temp.length = 4 → IsBytes temp →
        ∀ w ∈ expandLoop n (i + 1) rc1 (xorBytes (ws.getD 7 []) temp :: ws),
          w.length = 4 ∧ IsBytes w := by
      intro rc1 temp hrc1 ht1 ht2
      apply ih
      · exact hrc1
      · simp only [List.length_cons]; omega
      · intro w hw
        simp only [List.mem_cons] at hw
        rcases hw with rfl | hw
        · exact ⟨by rw [length_xorBytes, u1, ht1, min_self], isBytes_xorBytes _ _ u2 ht2⟩
        · exact hws w hw
    by_cases h0 : i % 8 = 0
    · simp only [h0, if_true]
      apply htemp _ _ (xtime_lt rc hrc)
      · rw [length_xorBytes, length_subBytes, r1]; rfl
      · exact isBytes_xorBytes _ _ (isBytes_subBytes _ r2) hcon
    · by_cases h4 : i % 8 = 4
      · simp only [h4, if_true, show ¬ (4 : Nat) = 0 by omega, if_false]
        exact htemp _ _ hrc (by rw [length_subBytes, t1]) (isBytes_subBytes _ t2)
      · simp only [h0, h4, if_false]
        exact htemp _ _ hrc t1 t2

theorem roundKeys_blocks (ws : List Bytes) (hws : ∀ w ∈ ws, w.length = 4 ∧ IsBytes w) :
    ∀ k ∈ roundKeys ws, k.length = 16 ∧ IsBytes k := by
  induction ws using roundKeys.induct with
  | case1 w0 w1 w2 w3 rest ih =>
    intro k hk
    simp only [roundKeys, List.mem_cons] at hk
    rcases hk with rfl | hk
    · obtain ⟨a1, a2⟩ := hws w0 (by simp)
      obtain ⟨b1, b2⟩ := hws w1 (by simp)
      obtain ⟨c1, c2⟩ := hws w2 (by simp)
      obtain ⟨d1, d2⟩ := hws w3 (by simp)
      refine ⟨by simp [a1, b1, c1, d1], ?_⟩
      exact isBytes_append (isBytes_append (isBytes_append a2 b2) c2) d2
    · exact ih (fun w hw => hws w (by simp [hw])) k hk
  | case2 ws hne =>
    intro k hk
    rw [roundKeys] at hk
    · simp at hk
    · exact hne

/-- The round keys of a 32-byte key are blocks. -/
theorem expandKey_blocks (key : Bytes) (h : key.length = 32) (hk : IsBytes key) :
    ∀ k ∈ expandKey key, k.length = 16 ∧ IsBytes k := by
  unfold expandKey
  apply roundKeys_blocks
  intro w hw
  rw [List.mem_reverse] at hw
  refine expandLoop_words 52 8 1 _ (by omega) ?_ ?_ w hw
  · simp [length_chunks]
  · intro w hw
    rw [List.mem_reverse] at hw
    exact mem_chunks 4 8 key (by omega) hk w hw

end aes

theorem length_le_bytesOf (s : Str) : s.length ≤ (bytesOf s).length := by
  induction s with
  | nil => simp [bytesOf]
  | cons c s ih =>
    have h1 : 1 ≤ (utf8Char c).length := by
      unfold utf8Char
      simp only
      split
      · simp
      · split
        · simp
        · split <;> simp
    simp only [bytesOf, List.flatMap_cons, List.length_append, List.length_cons] at ih ⊢
    omega

namespace aes

theorem length_shiftRows (s : Bytes) (h : s.length = 16) :
    (shiftRows s).length = 16 ∧ (invShiftRows s).length = 16 ∧ (mixColumns s).length = 16 ∧
      (invMixColumns s).length = 16 := by
  obtain ⟨s0, s1, s2, s3, s4, s5, s6, s7, s8, s9, s10, s11, s12, s13, s14, s15, rfl⟩ :=
    block_cases s h
  exact ⟨rfl, rfl, rfl, rfl⟩

theorem length_rounds (ks : List Bytes) (hks : ∀ k ∈ ks, k.length = 16 ∧ IsBytes k) (s : Bytes)
    (h : s.length = 16) : (rounds ks s).length = 16 ∧ (invRounds ks s).length = 16 := by
  induction ks generalizing s with
  | nil => exact ⟨h, h⟩
  | cons k ks ih =>
    obtain ⟨hk, _⟩ := hks k (by simp)
    have l1 : ∀ t : Bytes, t.length = 16 → (xorBytes t k).length = 16 := by
      intro t ht
      rw [length_xorBytes, ht, hk, min_self]
    have l2 : ∀ t : Bytes, t.length = 16 → (subBytes t).length = 16 ∧ (invSubBytes t).length = 16 := by
      intro t ht
      simp [subBytes, invSubBytes, ht]
    cases ks with
    | nil =>
      simp only [rounds, invRounds]
      exact ⟨l1 _ (length_shiftRows _ (l2 _ h).1).1, (l2 _ (length_shiftRows _ (l1 _ h)).2.1).2⟩
    | cons k2 ks =>
      have ih2 := ih (fun k1 hk1 => hks k1 (by simp [hk1]))
      simp only [rounds, invRounds]
      refine ⟨(ih2 _ (l1 _ (length_shiftRows _ (length_shiftRows _ (l2 _ h).1).1).2.2.1)).1, ?_⟩
      exact (l2 _ (length_shiftRows _
        (length_shiftRows _ (l1 _ (ih2 s h).2)).2.2.2).2.1).2

theorem length_Encrypt (c : Block) (hc : ∀ k ∈ c.roundKeys, k.length = 16 ∧ IsBytes k)
    (s : Bytes) (h : s.length = 16) : (c.Encrypt s).length = 16 ∧ (c.Decrypt s).length = 16 := by
  unfold Block.Encrypt Block.Decrypt
  rcases hrk : c.roundKeys with _ | ⟨k, ks⟩
  · exact ⟨h, h⟩
  · rw [hrk] at hc
    obtain ⟨hk, _⟩ := hc k (by simp)
    have hks : ∀ k1 ∈ ks, k1.length = 16 ∧ IsBytes k1 := fun k1 hk1 => hc k1 (by simp [hk1])
    simp only
    refine ⟨(length_rounds ks hks _ (by rw [length_xorBytes, h, hk, min_self])).1, ?_⟩
    rw [length_xorBytes, (length_rounds ks hks _ h).2, hk, min_self]

end aes

namespace pkcs7pad

theorem length_Pad (buf : Bytes) (size : Nat) (h : 0 < size) :
    (Pad buf size).length = size * (buf.length / size + 1) := by
  have h1 := Nat.mod_lt buf.length h
  have h2 := Nat.div_add_mod buf.length size
  simp only [Pad, List.length_append, List.length_replicate]
  rw [Nat.mul_add, Nat.mul_one]
  omega

theorem isBytes_Pad (buf : Bytes) (size : Nat) (h : size < 256) (hb : IsBytes buf) :
    IsBytes (Pad buf size) := by
  intro x hx
  simp only [Pad, List.mem_append] at hx
  rcases hx with hx | hx
  · exact hb x hx
  · have := (List.mem_replicate.mp hx).2
    omega

theorem getD_padded (buf : Bytes) (i j : Nat) (hj : j < i) :
    (buf ++ List.replicate i i).getD (buf.length + j) 0 = i := by
  rw [List.getD_eq_getElem _ _ (by simp; omega)]
  rw [List.getElem_append_right (by omega)]
  simp

/-- Removing the padding undoes padding. -/
theorem Unpad_Pad (buf : Bytes) (size : Nat) (h0 : 0 < size) (h1 : size ≤ 255) :
    Unpad (Pad buf size) = .ok buf := by
  have hm := Nat.mod_lt buf.length h0
  obtain ⟨i, hi⟩ : ∃ i, i = size - buf.length % size := ⟨_, rfl⟩
  have hi1 : 1 ≤ i := by omega
  have hi2 : i ≤ 255 := by omega
  have hlen : (buf ++ List.replicate i i).length = buf.length + i := by simp
  have hlast : (buf ++ List.replicate i i).getD (buf.length + i - 1) 0 = i := by
    have := getD_padded buf i (i - 1) (by omega)
    rwa [show buf.length + (i - 1) = buf.length + i - 1 by omega] at this
  unfold Unpad Pad
  simp only [← hi, hlen, hlast]
  have hgood : ((List.range (if 255 > buf.length + i then buf.length + i else 255)).all
      (fun j => decide (i ≤ j) || (buf ++ List.replicate i i).getD (buf.length + i - 1 - j) 0 == i))
      = true := by
    rw [List.all_eq_true]
    intro j _
    by_cases hj : i ≤ j
    · simp [hj]
    · have := getD_padded buf i (i - 1 - j) (by omega)
      rw [show buf.length + (i - 1 - j) = buf.length + i - 1 - j by omega] at this
      simp only [this, beq_self_eq_true, Bool.or_true]
  rw [hgood]
  have h3 : ¬ (buf.length + i = 0) := by omega
  simp [h3, hi1]

end pkcs7pad

namespace crypto

/-- The loop over whole blocks: every block is transformed and the bytes
beyond the length are left as they are. -/
theorem blockLoop_blocks (f : Bytes → Bytes) (hf : ∀ b : Bytes, b.length = 16 → (f b).length = 16)
    (len capacity k : Nat) (spare : Bytes) (hcap : len ≤ capacity) (fuel : Nat) (done blocks : Bytes)
    (hb : blocks.length = 16 * k) (hlen : done.length + 16 * k = len) (hfuel : k < fuel) :
    blockLoop f len capacity fuel done (blocks ++ spare) =
      .ok (done ++ (chunks 16 k blocks).flatMap f ++ spare) := by
  induction k generalizing fuel done blocks with
  | zero =>
    obtain ⟨fuel, rfl⟩ : ∃ n, fuel = n + 1 := ⟨fuel - 1, by omega⟩
    have : blocks = [] := List.length_eq_zero.mp (by simpa using hb)
    subst this
    have h2 : ¬ done.length < len := by omega
    simp [blockLoop, h2, chunks]
  | succ k ih =>
    obtain ⟨fuel, rfl⟩ : ∃ n, fuel = n + 1 := ⟨fuel - 1, by omega⟩
    have h2 : done.length < len := by omega
    have h3 : done.length + 16 ≤ capacity := by omega
    have h4 : 16 ≤ blocks.length := by omega
    have htake : (blocks ++ spare).take 16 = blocks.take 16 := List.take_append_of_le_length h4
    have hdrop : (blocks ++ spare).drop 16 = blocks.drop 16 ++ spare :=
      List.drop_append_of_le_length h4
    have h5 : (f (blocks.take 16)).length = 16 := hf _ (by simp [h4])
    unfold blockLoop
    simp only [aes.BlockSize, h2, h3, if_true, htake, hdrop]
    rw [ih fuel (done ++ f (blocks.take 16)) (blocks.drop 16) (by simp; omega)
      (by simp [h5]; omega) (by omega)]
    simp [chunks, List.append_assoc]

/-- Transforming whole blocks one by one and then transforming them back. -/
theorem chunks_inverse (enc dec : Bytes → Bytes)
    (h : ∀ b : Bytes, b.length = 16 → IsBytes b →
      (enc b).length = 16 ∧ IsBytes (enc b) ∧ dec (enc b) = b)
    (k : Nat) (P : Bytes) (hP : P.length = 16 * k) (hPb : IsBytes P) :
    ((chunks 16 k P).flatMap enc).length = 16 * k ∧ IsBytes ((chunks 16 k P).flatMap enc) ∧
      (chunks 16 k ((chunks 16 k P).flatMap enc)).flatMap dec = P := by
  induction k generalizing P with
  | zero =>
    have : P = [] := List.length_eq_zero.mp (by simpa using hP)
    subst this
    refine ⟨by simp [chunks], ?_, by simp [chunks]⟩
    intro x hx
    simp [chunks] at hx
  | succ k ih =>
    have h4 : 16 ≤ P.length := by omega
    obtain ⟨e1, e2, e3⟩ := h (P.take 16) (by simp [h4])
      (fun x hx => hPb x (List.mem_of_mem_take hx))
    obtain ⟨r1, r2, r3⟩ := ih (P.drop 16) (by simp; omega)
      (fun x hx => hPb x (List.mem_of_mem_drop hx))
    simp only [chunks, List.flatMap_cons]
    refine ⟨by simp [e1, r1]; omega, isBytes_append e2 r2, ?_⟩
    rw [List.take_append_of_le_length (by omega), List.take_of_length_le (by omega),
      List.drop_append_of_le_length (by omega), List.drop_of_length_le (by omega),
      List.nil_append, e3, r3, List.take_append_drop]

end crypto

namespace x25519

theorem length_X25519 (k u : Bytes) (hk : k.length = 32) (hu : u.length = 32) :
    (X25519 k u).length = 32 := by
  unfold X25519
  rw [if_pos ⟨hk, hu⟩]
  exact length_leBytes _ _

theorem isBytes_X25519 (k u : Bytes) : IsBytes (X25519 k u) := by
  unfold X25519
  split
  · exact isBytes_leBytes _ _
  · intro x hx
    simp at hx

end x25519

namespace crypto

theorem all_zero_eq_false (out : Bytes) (h1 : out.length = 32) (h3 : out ≠ List.replicate 32 0) :
    out.all (· == 0) = false := by
  rw [Bool.eq_false_iff]
  intro hall
  apply h3
  rw [List.eq_replicate_iff]
  refine ⟨h1, ?_⟩
  intro b hb
  have := List.all_eq_true.mp hall b hb
  simpa using this

theorem NewCipher_32 (key : Bytes) (h : key.length = 32) :
    aes.NewCipher key = .ok { roundKeys := aes.expandKey key } := by
  unfold aes.NewCipher
  rw [if_pos (Or.inr (Or.inr h))]

theorem ECDH_ok (privateKey publicKey : Bytes) (h1 : privateKey.length = 32)
    (h2 : publicKey.length = 32)
    (h3 : x25519.X25519 privateKey publicKey ≠ List.replicate 32 0) :
    ecdh.ECDH privateKey publicKey = .ok (x25519.X25519 privateKey publicKey) := by
  have h4 := all_zero_eq_false _ (x25519.length_X25519 privateKey publicKey h1 h2) h3
  unfold ecdh.ECDH
  simp only [h4, Bool.false_eq_true, if_false]

theorem NewPrivateKey_ok (key : Bytes) (h : key.length = 32) : ecdh.NewPrivateKey key = .ok key := by
  unfold ecdh.NewPrivateKey
  rw [if_neg (not_not.mpr h)]

theorem NewPublicKey_ok (key : Bytes) (h : key.length = 32) : ecdh.NewPublicKey key = .ok key := by
  unfold ecdh.NewPublicKey
  rw [if_neg (not_not.mpr h)]

theorem createAESCipher_of_steps (privateKey publicKey k u secret : Bytes) (c : aes.Block)
    (h1 : ecdh.NewPrivateKey privateKey = .ok k) (h2 : ecdh.NewPublicKey publicKey = .ok u)
    (h3 : ecdh.ECDH k u = .ok secret) (h4 : aes.NewCipher secret = .ok c) :
    createAESCipher privateKey publicKey = .ok c := by
  simp only [createAESCipher, h1, h2, h3, h4]

/-- The cipher of two 32-byte keys whose shared secret is not zero. -/
theorem createAESCipher_ok (privateKey publicKey : Bytes) (h1 : privateKey.length = 32)
    (h2 : publicKey.length = 32)
    (h3 : x25519.X25519 privateKey publicKey ≠ List.replicate 32 0) :
    createAESCipher privateKey publicKey =
      .ok { roundKeys := aes.expandKey (x25519.X25519 privateKey publicKey) } :=
  createAESCipher_of_steps _ _ _ _ _ _ (NewPrivateKey_ok _ h1) (NewPublicKey_ok _ h2)
    (ECDH_ok _ _ h1 h2 h3) (NewCipher_32 _ (x25519.length_X25519 _ _ h1 h2))

theorem length_basePoint : x25519.basePoint.length = 32 := by decide

theorem GenerateEncryptionKeyPair_ok (random privateKey publicKey publicKeyDER : Bytes)
    (h : GenerateEncryptionKeyPair random = .ok (privateKey, publicKey, publicKeyDER)) :
    privateKey.length = 32 ∧ publicKey.length = 32 := by
  unfold GenerateEncryptionKeyPair ecdh.NewPrivateKey at h
  by_cases hr : random.length = 32
  · simp only [hr, ne_eq, not_true_eq_false, if_false, Except.ok.injEq, Prod.mk.injEq] at h
    obtain ⟨rfl, rfl, _⟩ := h
    exact ⟨hr, x25519.length_X25519 _ _ hr length_basePoint⟩
  · simp [hr] at h

/-- Encrypting with a cipher and decrypting with the same cipher. -/
theorem DecryptMessage_EncryptMessage (message a B b A : Bytes) (hm : IsBytes message)
    (c : aes.Block) (hc : ∀ k ∈ c.roundKeys, k.length = 16 ∧ IsBytes k)
    (h1 : createAESCipher a B = .ok c) (h2 : createAESCipher b A = .ok c) :
    ∃ encrypted, EncryptMessage message a B = .ok encrypted ∧
      DecryptMessage encrypted b A = .ok message := by
  have hblock := fun s h hs => aes.Decrypt_Encrypt c hc s h hs
  obtain ⟨k, hk⟩ : ∃ k, k = message.length / 16 + 1 := ⟨_, rfl⟩
  obtain ⟨P, hPdef⟩ : ∃ P, P = pkcs7pad.Pad message 16 := ⟨_, rfl⟩
  have hP : P.length = 16 * k := by
    rw [hPdef, pkcs7pad.length_Pad _ _ (by omega), hk]
  have hPb : IsBytes P := hPdef ▸ pkcs7pad.isBytes_Pad message 16 (by omega) hm
  obtain ⟨c1, c2, c3⟩ := chunks_inverse c.Encrypt c.Decrypt hblock k P hP hPb
  obtain ⟨C, hCdef⟩ : ∃ C, C = (chunks 16 k P).flatMap c.Encrypt := ⟨_, rfl⟩
  rw [← hCdef] at c1 c2 c3
  have henc : blockLoop c.Encrypt P.length P.length (P.length + 1) [] P = .ok C := by
    have := blockLoop_blocks c.Encrypt (fun s h => (aes.length_Encrypt c hc s h).1) P.length P.length k [] (le_refl _)
      (P.length + 1) [] P hP (by simp [hP]) (by omega)
    simpa [← hCdef] using this
  refine ⟨base64.EncodeToString C, ?_, ?_⟩
  · simp only [EncryptMessage, h1, aes.BlockSize, ← hPdef, henc]
  · have hcap : C.length ≤ (bytesOf (base64.EncodeToString C)).length / 4 * 3 := by
      have h3 := length_le_bytesOf (base64.EncodeToString C)
      rw [base64.length_EncodeToString] at h3
      omega
    obtain ⟨cap, hcapdef⟩ : ∃ cap, cap = (bytesOf (base64.EncodeToString C)).length / 4 * 3 :=
      ⟨_, rfl⟩
    rw [← hcapdef] at hcap
    have hdec : blockLoop c.Decrypt C.length cap (C.length + 1) []
        (C ++ List.replicate (cap - C.length) 0) = .ok (P ++ List.replicate (cap - C.length) 0) := by
      have := blockLoop_blocks c.Decrypt (fun s h => (aes.length_Encrypt c hc s h).2) C.length cap k
        (List.replicate (cap - C.length) 0) hcap (C.length + 1) [] C c1 (by simp [c1]) (by omega)
      simpa [c3] using this
    simp only [DecryptMessage, h2, base64.DecodeString_EncodeToString C c2, ← hcapdef, hdec]
    rw [List.take_append_of_le_length (by omega), List.take_of_length_le (by omega), hPdef,
      pkcs7pad.Unpad_Pad message 16 (by omega) (by omega)]

end crypto

namespace fixture

theorem X25519_example : x25519.X25519 X25519PrivateKey X25519PublicKey = sharedSecret := by
  decide!

theorem createAESCipher_example :
    crypto.createAESCipher X25519PrivateKey X25519PublicKey =
      .ok { roundKeys := aes.expandKey sharedSecret } := by
  have h := crypto.createAESCipher_ok X25519PrivateKey X25519PublicKey (by decide) (by decide)
    (by rw [X25519_example]; decide)
  rwa [X25519_example] at h

end fixture

namespace x25519

theorem PublicKey_alice : ecdh.PublicKey alicePrivate = alicePublic := by
  decide!

theorem PublicKey_bob : ecdh.PublicKey bobPrivate = bobPublic := by
  decide!

theorem X25519_alice_bob : X25519 alicePrivate bobPublic = sharedK := by
  decide!

theorem X25519_bob_alice : X25519 bobPrivate alicePublic = sharedK := by
  decide!

end x25519

namespace crypto

/-- C17: for every message and every two key pairs `(a, A)` and `(b, B)` that
`GenerateEncryptionKeyPair` returns, `EncryptMessage` with `a` and `B`
returns a ciphertext that `DecryptMessage` turns back into the message, with
`b` and `A` as well as with `a` and `B` again, given the contract of the
X25519 library underneath: both sides compute the same shared secret and it
is not zero. -/
theorem cipher_round_trip (message ra rb a A derA b B derB : Bytes) (hm : IsBytes message)
    (ha : GenerateEncryptionKeyPair ra = .ok (a, A, derA))
    (hb : GenerateEncryptionKeyPair rb = .ok (b, B, derB))
    (hagree : x25519.X25519 b A = x25519.X25519 a B)
    (hnz : x25519.X25519 a B ≠ List.replicate 32 0) :
    ∃ encrypted, EncryptMessage message a B = .ok encrypted ∧
      DecryptMessage encrypted b A = .ok message ∧
      DecryptMessage encrypted a B = .ok message := by
  obtain ⟨la, lA⟩ := GenerateEncryptionKeyPair_ok ra a A derA ha
  obtain ⟨lb, lB⟩ := GenerateEncryptionKeyPair_ok rb b B derB hb
  have hc := aes.expandKey_blocks (x25519.X25519 a B) (x25519.length_X25519 a B la lB)
    (x25519.isBytes_X25519 a B)
  have h1 := createAESCipher_ok a B la lB hnz
  have h2 := createAESCipher_ok b A lb lA (by rw [hagree]; exact hnz)
  rw [hagree] at h2
  obtain ⟨encrypted, e1, e2⟩ := DecryptMessage_EncryptMessage message a B b A hm _ hc h1 h2
  obtain ⟨encrypted2, e3, e4⟩ := DecryptMessage_EncryptMessage message a B a B hm _ hc h1 h1
  rw [e1] at e3
  cases e3
  exact ⟨encrypted, e1, e2, e4⟩

theorem cipher_round_trip_witness :
    ∃ encrypted,
      EncryptMessage (bytesOf fixture.challengeString) x25519.alicePrivate x25519.bobPublic =
        .ok encrypted ∧
      DecryptMessage encrypted x25519.bobPrivate x25519.alicePublic =
        .ok (bytesOf fixture.challengeString) ∧
      DecryptMessage encrypted x25519.alicePrivate x25519.bobPublic =
        .ok (bytesOf fixture.challengeString) :=
  cipher_round_trip (bytesOf fixture.challengeString) x25519.alicePrivate x25519.bobPrivate
    x25519.alicePrivate x25519.alicePublic (derHeader ++ x25519.alicePublic)
    x25519.bobPrivate x25519.bobPublic (derHeader ++ x25519.bobPublic)
    (by decide)
    (by
      have h : x25519.alicePrivate.length = 32 := by decide
      simp only [GenerateEncryptionKeyPair, NewPrivateKey_ok _ h, x25519.PublicKey_alice])
    (by
      have h : x25519.bobPrivate.length = 32 := by decide
      simp only [GenerateEncryptionKeyPair, NewPrivateKey_ok _ h, x25519.PublicKey_bob])
    (by rw [x25519.X25519_alice_bob, x25519.X25519_bob_alice])
    (by rw [x25519.X25519_alice_bob]; decide)

/-- C18: with the example keys of `cryptotest`, `EncryptMessage` of the
example plain text returns exactly the example ciphertext, and
`DecryptMessage` of the example ciphertext returns exactly the example plain
text. -/
theorem example_vector :
    EncryptMessage (bytesOf fixture.examplePlainText) fixture.X25519PrivateKey
        fixture.X25519PublicKey =
      .ok "CrwN248HS4CIYsUvxtrK0pWCBaoyZh4LnWtGqeH7Mpc=".toList ∧
    DecryptMessage "CrwN248HS4CIYsUvxtrK0pWCBaoyZh4LnWtGqeH7Mpc=".toList fixture.X25519PrivateKey
        fixture.X25519PublicKey =
      .ok (bytesOf "ONDC is a Great Initiative!".toList) := by
  constructor
  · simp only [EncryptMessage, fixture.createAESCipher_example]
    decide!
  · simp only [DecryptMessage, fixture.createAESCipher_example]
    decide!

/-- C19: `DecryptMessage` is not total.  With the example keys and the
base64 text `AAAA`, which decodes to three bytes in an array of capacity
three, the slice expression `messageByte[0:16]` of the first pass through the
loop panics. -/
theorem DecryptMessage_panics :
    DecryptMessage "AAAA".toList fixture.X25519PrivateKey fixture.X25519PublicKey =
      .panic "runtime error: slice bounds out of range [:16] with capacity 3".toList := by
  simp only [DecryptMessage, fixture.createAESCipher_example]
  decide!

end crypto

namespace middleware

theorem headerGet_Set (w : http.ResponseWriter) (key value : Str) :
    (w.Set key value).headerGet key = value := by
  simp [http.ResponseWriter.headerGet, http.ResponseWriter.Set, List.lookup]

theorem Adapt_append (handler : Handler) (adapters : List Adapter) (adapter : Adapter) :
    Adapt handler (adapters ++ [adapter]) = adapter (Adapt handler adapters) := by
  simp [Adapt, List.foldl_append]

theorem Adapt_testAdapter (vals : List Str) (w : http.ResponseWriter) (r : Request) :
    (Adapt fixture.testEmptyHandler (vals.map fixture.testAdapter) w r).headerGet
        "Test-Header".toList =
      w.headerGet "Test-Header".toList ++ vals.reverse.flatten := by
  induction vals using List.reverseRecOn generalizing w with
  | nil => simp [Adapt, fixture.testEmptyHandler]
  | append_singleton vals val ih =>
    rw [List.map_append, List.map_singleton, Adapt_append]
    simp only [fixture.testAdapter]
    rw [ih, headerGet_Set]
    simp

/-- C21: `Adapt` without adapters returns the handler itself; every further
adapter wraps the handler made from the adapters before it, so
`Adapt(h, a1, ..., an)` is `an(...(a2(a1(h))))`, the first adapter innermost;
on a request the adapters of `TestAdapt` therefore run from the last to the
first before the handler: they leave their values in the header in reverse
order, `321` for `1`, `2`, `3`, and the status stays 200. -/
theorem Adapt_spec :
    (∀ handler : Handler, Adapt handler [] = handler) ∧
    (∀ (handler : Handler) (adapters : List Adapter) (adapter : Adapter),
      Adapt handler (adapters ++ [adapter]) = adapter (Adapt handler adapters)) ∧
    (∀ (handler : Handler) (adapters : List Adapter),
      Adapt handler adapters =
        adapters.reverse.foldr (fun adapter inner => adapter inner) handler) ∧
    (∀ (handler : Handler) (a1 a2 a3 : Adapter),
      Adapt handler [a1, a2, a3] = a3 (a2 (a1 handler))) ∧
    (∀ (vals : List Str) (w : http.ResponseWriter) (r : Request),
      (Adapt fixture.testEmptyHandler (vals.map fixture.testAdapter) w r).headerGet
          "Test-Header".toList =
        w.headerGet "Test-Header".toList ++ vals.reverse.flatten) ∧
    (∀ r : Request,
      (Adapt fixture.testEmptyHandler
          [fixture.testAdapter "1".toList, fixture.testAdapter "2".toList,
           fixture.testAdapter "3".toList] http.NewRecorder r).headerGet "Test-Header".toList =
        "321".toList ∧
      (Adapt fixture.testEmptyHandler
          [fixture.testAdapter "1".toList, fixture.testAdapter "2".toList,
           fixture.testAdapter "3".toList] http.NewRecorder r).Code = 200) := by
  refine ⟨fun _ => rfl, Adapt_append, ?_, fun _ _ _ _ => rfl, Adapt_testAdapter, ?_⟩
  · intro handler adapters
    simp [Adapt, List.foldr_reverse]
  · intro r
    constructor
    · have h := Adapt_testAdapter ["1".toList, "2".toList, "3".toList] http.NewRecorder r
      simpa [http.ResponseWriter.headerGet, http.NewRecorder] using h
    · simp [Adapt, fixture.testAdapter, fixture.testEmptyHandler, http.ResponseWriter.Set,
        http.NewRecorder]

end middleware

namespace fixture

theorem extract_reversedWindow :
    authentication.ExtractInfoFromHeader
        (authentication.authSignature "example-bap.com".toList "bap1234".toList 1641291475
          1641287875 wantedSignature) =
      ({ testInfo with Created := 1641291475, Expired := 1641287875 }, none) := by
  have h := authentication.ExtractInfoFromHeader_authSignature "example-bap.com".toList
    "bap1234".toList 1641291475 1641287875 wantedSignature (by decide) (by decide) (by decide)
    (by unfold authentication.IsInt64; omega) (by unfold authentication.IsInt64; omega)
  rw [h]
  rfl

end fixture

namespace middleware

/-- The wrapped handler is called exactly when every gate passes. -/
theorem serveHTTP_iff {Context : Type} (a : authenticator Context) (r : Request) :
    (∃ req, Event.serveHTTP req ∈ authentication a r) ↔ GatesPass a r := by
  rcases authentication_cases a r with ⟨hp, hnp, s, k, ctx, ht⟩ |
    ⟨hn, hnp, ht | ht | ht | ⟨s, k, ctx, ht⟩⟩ | ⟨hn, text, hp, _, s, k, ctx, ht⟩
  · exact ⟨fun _ => hp, fun _ => ⟨r, by simp [ht]⟩⟩
  all_goals
    refine ⟨?_, fun h => absurd h hn⟩
    rintro ⟨req, hreq⟩
    simp [ht] at hreq

/-- C24: a request whose decoded header has `Created > Expired` is rejected
at every clock reading, at the window gate when the two algorithm names
agree, and never reaches the wrapped handler; so every request the wrapped
handler is called on has `Created <= Expired`.  `ExtractInfoFromHeader` itself
decodes such a header without error. -/
theorem window_order {Context : Type} (a : authenticator Context) (r : Request) :
    (∀ info, authentication.ExtractInfoFromHeader (r.Get a.verifyingHeader) = (info, none) →
      info.Created > info.Expired →
      ¬ GatesPass a r ∧ Event.unauthenticated ∈ authentication a r ∧
      (∀ req, Event.serveHTTP req ∉ authentication a r) ∧
      (info.Algorithm = info.KeyIDAlgorithm →
        authentication a r = [.clockNow, .unauthenticated])) ∧
    (∀ req, Event.serveHTTP req ∈ authentication a r →
      ∃ info, authentication.ExtractInfoFromHeader (r.Get a.verifyingHeader) = (info, none) ∧
        info.Created ≤ info.Expired) ∧
    (∃ header info, authentication.ExtractInfoFromHeader header = (info, none) ∧
      info.Created > info.Expired) := by
  refine ⟨?_, ?_, ?_⟩
  · intro info hdec hgt
    have hn : ¬ GatesPass a r := by
      rw [gatesPass_iff a r info hdec]
      rintro ⟨_, h1, h2, _⟩
      omega
    have hw : info.Created > a.clock ∨ info.Expired < a.clock := by omega
    refine ⟨hn, (rejects_of_window a r info hdec hw).1, ?_, ?_⟩
    · intro req hreq
      exact hn ((serveHTTP_iff a r).1 ⟨req, hreq⟩)
    · intro halg
      rw [authentication_of_info a r info hdec]
      have hw : info.Created > a.clock ∨ info.Expired < a.clock := by omega
      simp [halg, hw]
  · intro req hreq
    obtain ⟨info, ctx, key, hdec, _, h1, h2, _⟩ := (serveHTTP_iff a r).1 ⟨req, hreq⟩
    exact ⟨info, hdec, by omega⟩
  · exact ⟨_, _, fixture.extract_reversedWindow, by decide⟩

theorem window_order_witness :
    ¬ GatesPass (fixture.testAuthenticator 1641290000)
        (fixture.testRequest (authentication.authSignature "example-bap.com".toList
          "bap1234".toList 1641291475 1641287875 fixture.wantedSignature)) ∧
    authentication (fixture.testAuthenticator 1641290000)
        (fixture.testRequest (authentication.authSignature "example-bap.com".toList
          "bap1234".toList 1641291475 1641287875 fixture.wantedSignature)) =
      [.clockNow, .unauthenticated] :=
  have h := (window_order (fixture.testAuthenticator 1641290000)
    (fixture.testRequest (authentication.authSignature "example-bap.com".toList
      "bap1234".toList 1641291475 1641287875 fixture.wantedSignature))).1 _
    (by
      show authentication.ExtractInfoFromHeader ((fixture.testRequest _).Get
        "Authorization".toList) = _
      rw [fixture.get_testRequest]
      exact fixture.extract_reversedWindow)
    (by decide)
  ⟨h.1, h.2.2.2 rfl⟩

/-- C26: the decision of the authenticator is a function of the value of the
verifying header, the body, the clock reading and the answers of the registry
(the authenticator has no other state that a run reads or writes): two runs
that agree on these decide alike; and a request that is allowed at one clock
reading is allowed again, byte for byte the same, at every clock reading
between `Created` and `Expired` when the registry returns the same key. -/
theorem replay_accepted {Context : Type} (a₁ a₂ : authenticator Context) (r₁ r₂ : Request)
    (hheader : r₂.Get a₂.verifyingHeader = r₁.Get a₁.verifyingHeader)
    (hbody : r₂.Body = r₁.Body)
    (hdecode : a₂.decodeContext r₁.Body = a₁.decodeContext r₁.Body)
    (hregistry : ∀ info,
      authentication.ExtractInfoFromHeader (r₁.Get a₁.verifyingHeader) = (info, none) →
      ∀ ctx, a₂.registryClient info.SubscriberID info.UniqueKeyID ctx =
        a₁.registryClient info.SubscriberID info.UniqueKeyID ctx) :
    (a₂.clock = a₁.clock → (GatesPass a₂ r₂ ↔ GatesPass a₁ r₁)) ∧
    (GatesPass a₁ r₁ → ∀ info,
      authentication.ExtractInfoFromHeader (r₁.Get a₁.verifyingHeader) = (info, none) →
      info.Created ≤ a₂.clock → a₂.clock ≤ info.Expired →
      GatesPass a₂ r₂ ∧ ∃ req, Event.serveHTTP req ∈ authentication a₂ r₂) := by
  constructor
  · intro hclock
    unfold GatesPass
    rw [hheader, hbody, hdecode, hclock]
    constructor
    · rintro ⟨info, ctx, key, h1, h2, h3, h4, h5, h6, h7⟩
      exact ⟨info, ctx, key, h1, h2, h3, h4, h5, (hregistry info h1 ctx) ▸ h6, h7⟩
    · rintro ⟨info, ctx, key, h1, h2, h3, h4, h5, h6, h7⟩
      exact ⟨info, ctx, key, h1, h2, h3, h4, h5, (hregistry info h1 ctx).symm ▸ h6, h7⟩
  · intro hpass info hdec hc he
    rw [gatesPass_iff a₁ r₁ info hdec] at hpass
    obtain ⟨halg, _, _, ctx, key, h5, h6, h7⟩ := hpass
    have hp : GatesPass a₂ r₂ := by
      rw [gatesPass_iff a₂ r₂ info (hheader ▸ hdec)]
      refine ⟨halg, hc, he, ctx, key, ?_, ?_, ?_⟩
      · rw [hbody, hdecode, h5]
      · rw [hregistry info hdec ctx, h6]
      · rw [hbody, h7]
    exact ⟨hp, (serveHTTP_iff a₂ r₂).2 hp⟩

theorem replay_accepted_witness :
    GatesPass (fixture.testAuthenticator 1641291475) (fixture.testRequest fixture.testAuthHeader) ∧
    ∃ req, Event.serveHTTP req ∈ authentication (fixture.testAuthenticator 1641291475)
      (fixture.testRequest fixture.testAuthHeader) :=
  (replay_accepted (fixture.testAuthenticator 1641290000) (fixture.testAuthenticator 1641291475)
    (fixture.testRequest fixture.testAuthHeader) (fixture.testRequest fixture.testAuthHeader)
    rfl rfl rfl (fun _ _ _ => rfl)).2 fixture.gatesPass_test fixture.testInfo
    (by
      show authentication.ExtractInfoFromHeader ((fixture.testRequest _).Get
        "Authorization".toList) = _
      rw [fixture.get_testRequest]
      exact fixture.extract_testAuthHeader)
    (by decide) (by decide)

end middleware

namespace strings

theorem append_sep_inj (a b a' b' : Str) (sep : Char) (ha : sep ∉ a) (ha' : sep ∉ a')
    (h : a ++ sep :: b = a' ++ sep :: b') : a = a' ∧ b = b' := by
  have h1 := Cut_append_sep a b sep ha
  have h2 := Cut_append_sep a' b' sep ha'
  rw [h, h2] at h1
  simp only [Prod.mk.injEq, and_true] at h1
  exact ⟨h1.1.symm, h1.2.symm⟩

end strings

namespace blake2b

theorem isBytes_flatMap_leBytes (k : Nat) (ws : List Nat) : IsBytes (ws.flatMap (leBytes k)) := by
  intro b hb
  simp only [List.mem_flatMap] at hb
  obtain ⟨w, _, hw⟩ := hb
  exact isBytes_leBytes k w b hw

theorem isBytes_Sum512 (data : Bytes) : IsBytes (Sum512 data) := by
  unfold Sum512
  exact isBytes_flatMap_leBytes _ _

end blake2b

theorem bytesOf_ascii (s : Str) (h : ∀ c ∈ s, c.toNat < 128) : bytesOf s = s.map Char.toNat := by
  induction s with
  | nil => rfl
  | cons c s ih =>
    have hc : c.toNat < 128 := h c (by simp)
    have ih2 := ih (fun d hd => h d (by simp [hd]))
    simp only [bytesOf, List.flatMap_cons, List.map_cons] at ih2 ⊢
    rw [ih2]
    simp [utf8Char, hc]

theorem bytesOf_injective_ascii (s t : Str) (hs : ∀ c ∈ s, c.toNat < 128)
    (ht : ∀ c ∈ t, c.toNat < 128) (h : bytesOf s = bytesOf t) : s = t := by
  rw [bytesOf_ascii s hs, bytesOf_ascii t ht] at h
  exact List.map_injective_iff.mpr (fun a b hab => Char.ext (UInt32.ext (by
    simpa [Char.toNat, UInt32.toNat] using hab))) h

namespace base64

theorem encodeChar_ascii (v : Nat) : (encodeChar v).toNat < 128 := by
  by_cases hv : v < 64
  · interval_cases v <;> decide
  · have : encodeChar v = 'A' := by
      unfold encodeChar
      rw [List.getD_eq_default]
      simp [alphabet]
      omega
    rw [this]
    decide

theorem EncodeToString_ascii (bs : Bytes) : ∀ c ∈ EncodeToString bs, c.toNat < 128 := by
  induction bs using EncodeToString.induct with
  | case1 => intro c hc; simp [EncodeToString] at hc
  | case2 a =>
    intro c hc
    simp only [EncodeToString, List.mem_cons, List.mem_singleton, List.not_mem_nil,
      or_false] at hc
    rcases hc with rfl | rfl | rfl | rfl
    · exact encodeChar_ascii _
    · exact encodeChar_ascii _
    · decide
    · decide
  | case3 a b =>
    intro c hc
    simp only [EncodeToString, List.mem_cons, List.mem_singleton, List.not_mem_nil,
      or_false] at hc
    rcases hc with rfl | rfl | rfl | rfl
    · exact encodeChar_ascii _
    · exact encodeChar_ascii _
    · exact encodeChar_ascii _
    · decide
  | case4 a b c rest ih =>
    intro d hd
    simp only [EncodeToString, List.mem_cons] at hd
    rcases hd with rfl | rfl | rfl | rfl | hd
    · exact encodeChar_ascii _
    · exact encodeChar_ascii _
    · exact encodeChar_ascii _
    · exact encodeChar_ascii _
    · exact ih d hd

end base64

namespace strconv

theorem FormatInt_ascii (i : Int) : ∀ c ∈ FormatInt i, c.toNat < 128 ∧ c ≠ '\n' := by
  intro c hc
  rcases mem_FormatInt i c hc with rfl | ⟨k, hk, rfl⟩
  · decide
  · interval_cases k <;> decide

theorem FormatInt_injective (i j : Int) (hi : authentication.IsInt64 i)
    (hj : authentication.IsInt64 j) (h : FormatInt i = FormatInt j) : i = j := by
  have h1 := Atoi_FormatInt i hi.1 hi.2
  have h2 := Atoi_FormatInt j hj.1 hj.2
  rw [h, h2] at h1
  exact (Except.ok.inj h1).symm

end strconv

namespace authentication

theorem createSigningString_ascii (payload : Bytes) (created expired : Int) :
    ∀ c ∈ createSigningString payload created expired, c.toNat < 128 := by
  intro c hc
  rw [createSigningString_nested] at hc
  simp only [List.mem_append] at hc
  rcases hc with hc | hc | hc | hc | hc | hc
  · revert c; decide
  · exact (strconv.FormatInt_ascii _ c hc).1
  · revert c; decide
  · exact (strconv.FormatInt_ascii _ c hc).1
  · revert c; decide
  · exact base64.EncodeToString_ascii _ c hc

theorem createSigningString_inj (p1 p2 : Bytes) (c1 e1 c2 e2 : Int)
    (hc1 : IsInt64 c1) (he1 : IsInt64 e1) (hc2 : IsInt64 c2) (he2 : IsInt64 e2)
    (h : createSigningString p1 c1 e1 = createSigningString p2 c2 e2) :
    c1 = c2 ∧ e1 = e2 ∧ blake2b.Sum512 p1 = blake2b.Sum512 p2 := by
  rw [createSigningString_nested, createSigningString_nested] at h
  have h1 := List.append_cancel_left h
  have hn : ∀ i : Int, '\n' ∉ strconv.FormatInt i :=
    fun i hmem => (strconv.FormatInt_ascii i _ hmem).2 rfl
  have hlit : ∀ rest : Str, "\n(expires): ".toList ++ rest = '\n' :: ("(expires): ".toList ++ rest) :=
    fun _ => rfl
  rw [hlit, hlit] at h1
  obtain ⟨hc, h2⟩ := strings.append_sep_inj _ _ _ _ '\n' (hn c1) (hn c2) h1
  have h3 := List.append_cancel_left h2
  have hlit2 : ∀ rest : Str, "\ndigest: BLAKE-512=".toList ++ rest =
      '\n' :: ("digest: BLAKE-512=".toList ++ rest) := fun _ => rfl
  rw [hlit2, hlit2] at h3
  obtain ⟨he, h4⟩ := strings.append_sep_inj _ _ _ _ '\n' (hn e1) (hn e2) h3
  have h5 := List.append_cancel_left h4
  have d1 := base64.DecodeString_EncodeToString _ (blake2b.isBytes_Sum512 p1)
  have d2 := base64.DecodeString_EncodeToString _ (blake2b.isBytes_Sum512 p2)
  rw [h5, d2] at d1
  exact ⟨strconv.FormatInt_injective _ _ hc1 hc2 hc, strconv.FormatInt_injective _ _ he1 he2 he,
    (Except.ok.inj d1).symm⟩

/-- C29: the signing string determines its window and its digest: for all
payloads and all 64-bit timestamps, equal signing strings, and also equal
bytes of the signing strings (the bytes that are signed), have the same
`created`, the same `expired` and the same BLAKE2b-512 digest of the payload;
so a change of `created` or of `expired` changes the bytes that are
signed. -/
theorem signingString_injective (p1 p2 : Bytes) (c1 e1 c2 e2 : Int)
    (hc1 : IsInt64 c1) (he1 : IsInt64 e1) (hc2 : IsInt64 c2) (he2 : IsInt64 e2) :
    (createSigningString p1 c1 e1 = createSigningString p2 c2 e2 →
      c1 = c2 ∧ e1 = e2 ∧ blake2b.Sum512 p1 = blake2b.Sum512 p2) ∧
    (bytesOf (createSigningString p1 c1 e1) = bytesOf (createSigningString p2 c2 e2) →
      c1 = c2 ∧ e1 = e2 ∧ blake2b.Sum512 p1 = blake2b.Sum512 p2) ∧
    ((c1 ≠ c2 ∨ e1 ≠ e2) →
      bytesOf (createSigningString p1 c1 e1) ≠ bytesOf (createSigningString p2 c2 e2)) := by
  have hs := createSigningString_inj p1 p2 c1 e1 c2 e2 hc1 he1 hc2 he2
  have hb : bytesOf (createSigningString p1 c1 e1) = bytesOf (createSigningString p2 c2 e2) →
      c1 = c2 ∧ e1 = e2 ∧ blake2b.Sum512 p1 = blake2b.Sum512 p2 := fun h =>
    hs (bytesOf_injective_ascii _ _ (createSigningString_ascii _ _ _)
      (createSigningString_ascii _ _ _) h)
  refine ⟨hs, hb, ?_⟩
  intro hne h
  have := hb h
  rcases hne with hne | hne
  · exact hne this.1
  · exact hne this.2.1

theorem signingString_injective_witness :
    bytesOf (createSigningString fixture.payload 1641287875 1641291475) ≠
      bytesOf (createSigningString fixture.payload 1641287876 1641291475) :=
  (signingString_injective fixture.payload fixture.payload 1641287875 1641291475 1641287876
    1641291475 (by unfold IsInt64; omega) (by unfold IsInt64; omega) (by unfold IsInt64; omega)
    (by unfold IsInt64; omega)).2.2 (Or.inl (by decide))

end authentication

namespace regexp

theorem matchesPrefix_of_nullable (r : Regexp) (s : Str) (h : nullable r = true) :
    matchesPrefix r s = true := by
  cases s <;> simp [matchesPrefix, h]

theorem not_nullable_of_needsDigit (r : Regexp) (h : needsDigit r = true) :
    nullable r = false := by
  induction r with
  | cls ranges => rfl
  | cat r s ihr ihs =>
    simp only [needsDigit, Bool.or_eq_true] at h
    rcases h with h | h
    · simp [nullable, ihr h]
    · simp [nullable, ihs h]
  | star r ih => simp [needsDigit] at h
  | plus r ih => simpa [nullable] using ih (by simpa [needsDigit] using h)
  | quest r ih => simp [needsDigit] at h
  | none => rfl
  | eps => simp [needsDigit] at h
  | alt r s ihr ihs =>
    simp only [needsDigit, Bool.and_eq_true] at h
    simp [nullable, ihr h.1, ihs h.2]

theorem not_inRanges_of_digits (ranges : List (Char × Char)) (c : Char)
    (h : ranges.all (fun range => decide ('0' ≤ range.1) && decide (range.2 ≤ '9')) = true)
    (hc : isDecimalDigit c = false) : inRanges ranges c = false := by
  unfold inRanges
  rw [List.any_eq_false]
  intro range hr hin
  have hd := List.all_eq_true.mp h range hr
  simp only [Bool.and_eq_true, decide_eq_true_eq] at hd hin
  have : isDecimalDigit c = true := by
    simp only [isDecimalDigit, Bool.and_eq_true, decide_eq_true_eq]
    exact ⟨le_trans hd.1 hin.1, le_trans hin.2 hd.2⟩
  rw [this] at hc
  exact Bool.noConfusion hc

theorem needsDigit_deriv (r : Regexp) (c : Char) (h : needsDigit r = true)
    (hc : isDecimalDigit c = false) : needsDigit (deriv r c) = true := by
  induction r with
  | cls ranges =>
    simp only [needsDigit] at h
    simp [deriv, not_inRanges_of_digits ranges c h hc, needsDigit]
  | cat r s ihr ihs =>
    simp only [needsDigit, Bool.or_eq_true] at h
    by_cases hn : nullable r = true
    · have hr : needsDigit r ≠ true := fun hr => by
        rw [not_nullable_of_needsDigit r hr] at hn
        exact Bool.noConfusion hn
      have hs : needsDigit s = true := h.resolve_left hr
      simp [deriv, hn, needsDigit, hs, ihs hs]
    · rcases h with h | h
      · simp [deriv, hn, needsDigit, ihr h]
      · simp [deriv, hn, needsDigit, h]
  | star r ih => simp [needsDigit] at h
  | plus r ih =>
    simp only [needsDigit] at h
    simp [deriv, needsDigit, ih h]
  | quest r ih => simp [needsDigit] at h
  | none => rfl
  | eps => simp [needsDigit] at h
  | alt r s ihr ihs =>
    simp only [needsDigit, Bool.and_eq_true] at h
    simp [deriv, needsDigit, ihr h.1, ihs h.2]

theorem not_matchesPrefix_of_needsDigit (r : Regexp) (s : Str) (h : needsDigit r = true)
    (hs : ∀ c ∈ s, isDecimalDigit c = false) : matchesPrefix r s = false := by
  induction s generalizing r with
  | nil => simpa [matchesPrefix] using not_nullable_of_needsDigit r h
  | cons c cs ih =>
    simp only [matchesPrefix, Bool.or_eq_false_iff]
    exact ⟨not_nullable_of_needsDigit r h,
      ih _ (needsDigit_deriv r c h (hs c (by simp))) (fun d hd => hs d (by simp [hd]))⟩

theorem not_MatchString_of_needsDigit (r : Regexp) (s : Str) (h : needsDigit r = true)
    (hs : ∀ c ∈ s, isDecimalDigit c = false) : MatchString r s = false := by
  unfold MatchString
  rw [List.any_eq_false]
  intro t ht
  rw [List.mem_tails] at ht
  rw [not_matchesPrefix_of_needsDigit r t h (fun c hc => hs c (ht.mem hc))]
  exact Bool.false_ne_true

end regexp

namespace model

theorem matches_digit (c : Char) (cs : Str) (hc : regexp.isDecimalDigit c = true) :
    regexp.matchesPrefix decimalValueRegex (c :: cs) = true := by
  have hr : regexp.inRanges [('0', '9')] c = true := by
    simpa [regexp.inRanges, regexp.isDecimalDigit] using hc
  have hn : regexp.nullable (regexp.deriv decimalValueRegex c) = true := by
    simp [decimalValueRegex, digits, regexp.deriv, regexp.nullable, hr]
  simp [regexp.matchesPrefix, regexp.matchesPrefix_of_nullable _ cs hn]

theorem valid_iff (value : Str) :
    isRegex decimalValueRegex value = value.any regexp.isDecimalDigit := by
  by_cases h : value.any regexp.isDecimalDigit = true
  · rw [h]
    obtain ⟨c, hc, hd⟩ := List.any_eq_true.mp h
    obtain ⟨pre, post, rfl⟩ := List.append_of_mem hc
    unfold isRegex regexp.MatchString
    rw [List.any_eq_true]
    exact ⟨c :: post, (List.mem_tails _ _).mpr (List.suffix_append _ _), matches_digit c post hd⟩
  · have h2 : value.any regexp.isDecimalDigit = false := by simpa using h
    rw [h2]
    apply regexp.not_MatchString_of_needsDigit _ _ (by decide)
    intro c hc
    by_contra hcd
    exact h (List.any_eq_true.mpr ⟨c, hc, by simpa using hcd⟩)

/-- C30: the validator `custom_decimal_value` accepts `abc1` and `1.2x`, which
are not decimal values: the pattern is not anchored, a single digit is a
match, and so a value is accepted exactly when it has one of the digits `0`
to `9` somewhere in it.  The empty string is rejected. -/
theorem decimalValue_unanchored :
    DecimalValue.valid { Value := "abc1".toList } = true ∧
    DecimalValue.valid { Value := "1.2x".toList } = true ∧
    DecimalValue.valid { Value := "".toList } = false ∧
    (∀ d : DecimalValue, d.valid = d.Value.any regexp.isDecimalDigit) := by
  refine ⟨by decide, by decide, by decide, fun d => valid_iff d.Value⟩

end model

namespace keyrotation

theorem bytesOf_ne_nil (c : Char) (s : Str) : bytesOf (c :: s) ≠ [] := by
  have h : utf8Char c ≠ [] := by
    unfold utf8Char
    simp only
    split
    · simp
    · split
      · simp
      · split <;> simp
  simp [bytesOf, List.flatMap_cons, h]

/-- The three early exits of the handler on a fresh response writer: an event
of another type, a method other than POST, a body that does not decode. -/
theorem rotationHandler_early (s : server) (lib : library) (r : middleware.Request) :
    (∀ event, r.Method = "POST".toList → lib.decode r.Body = .ok event →
      event.Message.Attributes.EventType ≠ "SECRET_ROTATE".toList →
      (rotationHandler s lib http.NewRecorder r).1.Code = 200 ∧
      (rotationHandler s lib http.NewRecorder r).1.Body =
        bytesOf ("Ignore event type: ".toList ++
          strconv.Quote lib.isPrint event.Message.Attributes.EventType) ∧
      (rotationHandler s lib http.NewRecorder r).2 = []) ∧
    (r.Method ≠ "POST".toList →
      (rotationHandler s lib http.NewRecorder r).1.Code = 405 ∧
      (rotationHandler s lib http.NewRecorder r).1.Body = [] ∧
      (rotationHandler s lib http.NewRecorder r).2 = []) ∧
    (∀ err, r.Method = "POST".toList → lib.decode r.Body = .error err →
      (rotationHandler s lib http.NewRecorder r).1.Code = 400 ∧
      (rotationHandler s lib http.NewRecorder r).1.Body = [] ∧
      (rotationHandler s lib http.NewRecorder r).2 = []) := by
  refine ⟨?_, ?_, ?_⟩
  · intro event hm hd ht
    simp only [rotationHandler, hm, ne_eq, not_true_eq_false, if_false, hd, ht,
      not_false_eq_true, if_true]
    simp [http.ResponseWriter.WriteHeader, http.ResponseWriter.Write, http.NewRecorder]
  · intro hm
    simp only [rotationHandler, ne_eq, hm, not_false_eq_true, if_true]
    simp [http.ResponseWriter.WriteHeader, http.NewRecorder]
  · intro err hm hd
    simp only [rotationHandler, hm, ne_eq, not_true_eq_false, if_false, hd]
    simp [http.ResponseWriter.WriteHeader, http.NewRecorder]

/-- C23: a POST event whose type is not `SECRET_ROTATE` gets the status 200
and the body `Ignore event type: ` followed by the event type as
`strconv.Quote` writes it; a request that is not a POST gets 405 and an empty
body; a body that does not decode gets 400 and an empty body.  In all three
cases the handler makes no call: no key is generated, `AddKey` and
`RotateKeys` are not called. -/
theorem rotation_ignored (s : server) (lib : library) (r : middleware.Request) :
    (∀ event, r.Method = "POST".toList → lib.decode r.Body = .ok event →
      event.Message.Attributes.EventType ≠ "SECRET_ROTATE".toList →
      (rotationHandler s lib http.NewRecorder r).1.Code = 200 ∧
      (rotationHandler s lib http.NewRecorder r).1.Body =
        bytesOf ("Ignore event type: ".toList ++
          strconv.Quote lib.isPrint event.Message.Attributes.EventType) ∧
      (rotationHandler s lib http.NewRecorder r).2 = []) ∧
    (r.Method ≠ "POST".toList →
      (rotationHandler s lib http.NewRecorder r).1.Code = 405 ∧
      (rotationHandler s lib http.NewRecorder r).1.Body = [] ∧
      (rotationHandler s lib http.NewRecorder r).2 = []) ∧
    (∀ err, r.Method = "POST".toList → lib.decode r.Body = .error err →
      (rotationHandler s lib http.NewRecorder r).1.Code = 400 ∧
      (rotationHandler s lib http.NewRecorder r).1.Body = [] ∧
      (rotationHandler s lib http.NewRecorder r).2 = []) :=
  rotationHandler_early s lib r

theorem rotation_ignored_witness :
    (rotationHandler fixture.rotationServer (fixture.rotationLibrary fixture.createEvent)
        http.NewRecorder (fixture.rotationRequest "POST".toList)).1.Code = 200 ∧
    (rotationHandler fixture.rotationServer (fixture.rotationLibrary fixture.createEvent)
        http.NewRecorder (fixture.rotationRequest "POST".toList)).1.Body =
      bytesOf "Ignore event type: \"SECRET_CREATE\"".toList ∧
    (rotationHandler fixture.rotationServer (fixture.rotationLibrary fixture.createEvent)
        http.NewRecorder (fixture.rotationRequest "POST".toList)).2 = [] ∧
    (rotationHandler fixture.rotationServer (fixture.rotationLibrary fixture.createEvent)
        http.NewRecorder (fixture.rotationRequest "GET".toList)).1.Code = 405 :=
  have h := (rotation_ignored fixture.rotationServer (fixture.rotationLibrary fixture.createEvent)
    (fixture.rotationRequest "POST".toList)).1 fixture.createEvent rfl rfl (by decide)
  have h2 := (rotation_ignored fixture.rotationServer
    (fixture.rotationLibrary fixture.createEvent)
    (fixture.rotationRequest "GET".toList)).2.1 (by decide)
  ⟨h.1, h.2.1.trans (by decide), h.2.2, h2.1⟩

/-- What the handler does on a POST event of the type `SECRET_ROTATE`, step
by step. -/
theorem rotationHandler_rotate (s : server) (lib : library) (w : http.ResponseWriter)
    (r : middleware.Request) (event : secretManagerEvent) (hm : r.Method = "POST".toList)
    (hd : lib.decode r.Body = .ok event)
    (ht : event.Message.Attributes.EventType = "SECRET_ROTATE".toList) :
    rotationHandler s lib w r =
      match crypto.GenerateEncryptionKeyPair lib.encryptionRandom with
      | .error _ => (w.WriteHeader 500, [.generateEncryptionKeyPair])
      | .ok (encryptionPrivateKey, encryptionPublicKey, encryptionPublicKeyDER) =>
        match authentication.GenerateKeysetJSON lib.tk lib.signingRandom with
        | .error _ => (w.WriteHeader 500, [.generateEncryptionKeyPair, .generateKeysetJSON])
        | .ok signingKeyset =>
          match authentication.ExtractRawPublicKey lib.tk signingKeyset with
          | .error _ => (w.WriteHeader 500, [.generateEncryptionKeyPair, .generateKeysetJSON])
          | .ok signingPublicKey =>
            match lib.marshal
                { privateKeyEncryption := encryptionPrivateKey
                  publicKeyEncryption := encryptionPublicKey
                  publicKeyEncryptionDER := encryptionPublicKeyDER
                  signingKeySet := signingKeyset
                  publicKeySigning := signingPublicKey } with
            | .error _ => (w.WriteHeader 500, [.generateEncryptionKeyPair, .generateKeysetJSON])
            | .ok payloadJSON =>
              match s.keyClient event.Message.Attributes.SecretID payloadJSON with
              | some _ =>
                (w.WriteHeader 500,
                  [.generateEncryptionKeyPair, .generateKeysetJSON,
                   .addKey event.Message.Attributes.SecretID payloadJSON])
              | none =>
                match s.registryClient (base64.EncodeToString encryptionPublicKeyDER)
                    (base64.EncodeToString signingPublicKey) s.conf.RequestID s.conf.SubscriberID
                    s.conf.RotationPeriod with
                | some _ =>
                  (w.WriteHeader 500,
                    [.generateEncryptionKeyPair, .generateKeysetJSON,
                     .addKey event.Message.Attributes.SecretID payloadJSON,
                     .rotateKeys (base64.EncodeToString encryptionPublicKeyDER)
                       (base64.EncodeToString signingPublicKey) s.conf.RequestID
                       s.conf.SubscriberID s.conf.RotationPeriod])
                | none =>
                  (w.Write (bytesOf "Key rotation is completed".toList),
                    [.generateEncryptionKeyPair, .generateKeysetJSON,
                     .addKey event.Message.Attributes.SecretID payloadJSON,
                     .rotateKeys (base64.EncodeToString encryptionPublicKeyDER)
                       (base64.EncodeToString signingPublicKey) s.conf.RequestID
                       s.conf.SubscriberID s.conf.RotationPeriod]) := by
  simp only [rotationHandler, hm, ne_eq, not_true_eq_false, if_false, hd, ht]

/-- The outcomes of the handler on a fresh response writer: the four ways it
ends without a rotation, and the three ways it ends after `AddKey` was
called. -/
theorem rotationHandler_outcomes (s : server) (lib : library) (r : middleware.Request) :
    (((rotationHandler s lib http.NewRecorder r).1.Code = 405 ∨
        (rotationHandler s lib http.NewRecorder r).1.Code = 400) ∧
      (rotationHandler s lib http.NewRecorder r).1.Body = [] ∧
      (rotationHandler s lib http.NewRecorder r).2 = []) ∨
    ((rotationHandler s lib http.NewRecorder r).1.Code = 200 ∧
      (∃ eventType, (rotationHandler s lib http.NewRecorder r).1.Body =
        bytesOf ("Ignore event type: ".toList ++ eventType)) ∧
      (rotationHandler s lib http.NewRecorder r).2 = []) ∨
    ((rotationHandler s lib http.NewRecorder r).1.Code = 500 ∧
      (rotationHandler s lib http.NewRecorder r).1.Body = [] ∧
      ((rotationHandler s lib http.NewRecorder r).2 = [.generateEncryptionKeyPair] ∨
        (rotationHandler s lib http.NewRecorder r).2 =
          [.generateEncryptionKeyPair, .generateKeysetJSON])) ∨
    (∃ secretID payloadJSON, s.keyClient secretID payloadJSON ≠ none ∧
      (rotationHandler s lib http.NewRecorder r).1.Code = 500 ∧
      (rotationHandler s lib http.NewRecorder r).1.Body = [] ∧
      (rotationHandler s lib http.NewRecorder r).2 =
        [.generateEncryptionKeyPair, .generateKeysetJSON, .addKey secretID payloadJSON]) ∨
    (∃ secretID payloadJSON e p q i d, s.keyClient secretID payloadJSON = none ∧
      s.registryClient e p q i d ≠ none ∧
      (rotationHandler s lib http.NewRecorder r).1.Code = 500 ∧
      (rotationHandler s lib http.NewRecorder r).1.Body = [] ∧
      (rotationHandler s lib http.NewRecorder r).2 =
        [.generateEncryptionKeyPair, .generateKeysetJSON, .addKey secretID payloadJSON,
         .rotateKeys e p q i d]) ∨
    (∃ secretID payloadJSON e p q i d, s.keyClient secretID payloadJSON = none ∧
      s.registryClient e p q i d = none ∧
      (rotationHandler s lib http.NewRecorder r).1.Code = 200 ∧
      (rotationHandler s lib http.NewRecorder r).1.Body =
        bytesOf "Key rotation is completed".toList ∧
      (rotationHandler s lib http.NewRecorder r).2 =
        [.generateEncryptionKeyPair, .generateKeysetJSON, .addKey secretID payloadJSON,
         .rotateKeys e p q i d]) := by
  by_cases hm : r.Method = "POST".toList
  swap
  · have h := (rotationHandler_early s lib r).2.1 hm
    exact Or.inl ⟨Or.inl h.1, h.2⟩
  rcases hd : lib.decode r.Body with err | event
  · have h := (rotationHandler_early s lib r).2.2 err hm hd
    exact Or.inl ⟨Or.inr h.1, h.2⟩
  by_cases ht : event.Message.Attributes.EventType = "SECRET_ROTATE".toList
  swap
  · have h := (rotationHandler_early s lib r).1 event hm hd ht
    exact Or.inr (Or.inl ⟨h.1, ⟨_, h.2.1⟩, h.2.2⟩)
  rw [rotationHandler_rotate s lib _ r event hm hd ht]
  have c500 : (http.NewRecorder.WriteHeader 500).Code = 500 ∧
      (http.NewRecorder.WriteHeader 500).Body = [] := by
    simp [http.ResponseWriter.WriteHeader, http.NewRecorder]
  rcases crypto.GenerateEncryptionKeyPair lib.encryptionRandom with e1 | ⟨k1, k2, k3⟩
  all_goals try dsimp only
  · exact Or.inr (Or.inr (Or.inl ⟨c500.1, c500.2, Or.inl rfl⟩))
  rcases authentication.GenerateKeysetJSON lib.tk lib.signingRandom with e2 | ks
  all_goals try dsimp only
  · exact Or.inr (Or.inr (Or.inl ⟨c500.1, c500.2, Or.inr rfl⟩))
  rcases authentication.ExtractRawPublicKey lib.tk ks with e3 | pk
  all_goals try dsimp only
  · exact Or.inr (Or.inr (Or.inl ⟨c500.1, c500.2, Or.inr rfl⟩))
  rcases lib.marshal _ with e4 | pj
  all_goals try dsimp only
  · exact Or.inr (Or.inr (Or.inl ⟨c500.1, c500.2, Or.inr rfl⟩))
  rcases hk : s.keyClient event.Message.Attributes.SecretID pj with _ | ek
  all_goals try dsimp only
  swap
  · exact Or.inr (Or.inr (Or.inr (Or.inl ⟨_, _, by rw [hk]; simp, c500.1, c500.2, rfl⟩)))
  rcases hr : s.registryClient (base64.EncodeToString k3) (base64.EncodeToString pk)
    s.conf.RequestID s.conf.SubscriberID s.conf.RotationPeriod with _ | er
  all_goals try dsimp only
  swap
  · exact Or.inr (Or.inr (Or.inr (Or.inr (Or.inl
      ⟨_, _, _, _, _, _, _, hk, by rw [hr]; simp, c500.1, c500.2, rfl⟩))))
  · refine Or.inr (Or.inr (Or.inr (Or.inr (Or.inr
      ⟨_, _, _, _, _, _, _, hk, hr, ?_, ?_, rfl⟩))))
    · simp [http.ResponseWriter.Write, http.ResponseWriter.WriteHeader, http.NewRecorder]
    · simp [http.ResponseWriter.Write, http.ResponseWriter.WriteHeader, http.NewRecorder]

theorem rotation_generation_fails (s : server) (lib : library) (r : middleware.Request)
    (event : secretManagerEvent) (hm : r.Method = "POST".toList)
    (hd : lib.decode r.Body = .ok event)
    (ht : event.Message.Attributes.EventType = "SECRET_ROTATE".toList)
    (hfail : (∃ err, crypto.GenerateEncryptionKeyPair lib.encryptionRandom = .error err) ∨
      (∃ err, authentication.GenerateKeysetJSON lib.tk lib.signingRandom = .error err) ∨
      (∀ keysetJSON, ∃ err, authentication.ExtractRawPublicKey lib.tk keysetJSON = .error err) ∨
      (∀ p, ∃ err, lib.marshal p = .error err)) :
    (rotationHandler s lib http.NewRecorder r).1.Code = 500 ∧ (rotationHandler s lib http.NewRecorder r).1.Body = [] ∧
      ((rotationHandler s lib http.NewRecorder r).2 = [.generateEncryptionKeyPair] ∨
        (rotationHandler s lib http.NewRecorder r).2 = [.generateEncryptionKeyPair, .generateKeysetJSON]) := by
  rw [rotationHandler_rotate s lib _ r event hm hd ht]
  have c500 : (http.NewRecorder.WriteHeader 500).Code = 500 ∧
      (http.NewRecorder.WriteHeader 500).Body = [] := by
    simp [http.ResponseWriter.WriteHeader, http.NewRecorder]
  rcases h1 : crypto.GenerateEncryptionKeyPair lib.encryptionRandom with e1 | ⟨k1, k2, k3⟩
  all_goals try dsimp only
  · exact ⟨c500.1, c500.2, Or.inl rfl⟩
  rcases h2 : authentication.GenerateKeysetJSON lib.tk lib.signingRandom with e2 | ks
  all_goals try dsimp only
  · exact ⟨c500.1, c500.2, Or.inr rfl⟩
  rcases h3 : authentication.ExtractRawPublicKey lib.tk ks with e3 | pk
  all_goals try dsimp only
  · exact ⟨c500.1, c500.2, Or.inr rfl⟩
  rcases h4 : lib.marshal ⟨k1, k2, k3, ks, pk⟩ with e4 | pj
  all_goals try dsimp only
  · exact ⟨c500.1, c500.2, Or.inr rfl⟩
  exfalso
  rcases hfail with ⟨err, h⟩ | ⟨err, h⟩ | h | h
  · rw [h1] at h; cases h
  · rw [h2] at h; cases h
  · obtain ⟨err, h⟩ := h ks
    rw [h3] at h; cases h
  · obtain ⟨err, h⟩ := h ⟨k1, k2, k3, ks, pk⟩
    rw [h4] at h; cases h

/-- C22: in the key rotation flow every failing step ends the run with the
status 500 and an empty body.  `RotateKeys` is called only after `AddKey` was
called and returned no error; when `AddKey` fails, and when the generation of
a key or the marshalling of the payload fails, `RotateKeys` is not called
(and in the latter case `AddKey` is not called either); when `RotateKeys`
fails the status is 500; and the body `Key rotation is completed` is written
exactly when `AddKey` and `RotateKeys` were both called and both returned no
error. -/
theorem rotation_aborts (s : server) (lib : library) (r : middleware.Request) :
    (∀ e p q i d, Call.rotateKeys e p q i d ∈ (rotationHandler s lib http.NewRecorder r).2 →
      ∃ secretID payloadJSON,
        (rotationHandler s lib http.NewRecorder r).2 = [.generateEncryptionKeyPair, .generateKeysetJSON, .addKey secretID payloadJSON,
          .rotateKeys e p q i d] ∧
        s.keyClient secretID payloadJSON = none) ∧
    (∀ secretID payloadJSON, Call.addKey secretID payloadJSON ∈ (rotationHandler s lib http.NewRecorder r).2 →
      s.keyClient secretID payloadJSON ≠ none →
      (rotationHandler s lib http.NewRecorder r).1.Code = 500 ∧ (rotationHandler s lib http.NewRecorder r).1.Body = [] ∧ ∀ e p q i d, Call.rotateKeys e p q i d ∉ (rotationHandler s lib http.NewRecorder r).2) ∧
    (∀ event, r.Method = "POST".toList → lib.decode r.Body = .ok event →
      event.Message.Attributes.EventType = "SECRET_ROTATE".toList →
      ((∃ err, crypto.GenerateEncryptionKeyPair lib.encryptionRandom = .error err) ∨
        (∃ err, authentication.GenerateKeysetJSON lib.tk lib.signingRandom = .error err) ∨
        (∀ keysetJSON, ∃ err,
          authentication.ExtractRawPublicKey lib.tk keysetJSON = .error err) ∨
        (∀ p, ∃ err, lib.marshal p = .error err)) →
      (rotationHandler s lib http.NewRecorder r).1.Code = 500 ∧ (rotationHandler s lib http.NewRecorder r).1.Body = [] ∧
      (∀ secretID payloadJSON, Call.addKey secretID payloadJSON ∉ (rotationHandler s lib http.NewRecorder r).2) ∧
      (∀ e p q i d, Call.rotateKeys e p q i d ∉ (rotationHandler s lib http.NewRecorder r).2)) ∧
    (∀ e p q i d, Call.rotateKeys e p q i d ∈ (rotationHandler s lib http.NewRecorder r).2 → s.registryClient e p q i d ≠ none →
      (rotationHandler s lib http.NewRecorder r).1.Code = 500 ∧ (rotationHandler s lib http.NewRecorder r).1.Body = []) ∧
    ((rotationHandler s lib http.NewRecorder r).1.Body = bytesOf "Key rotation is completed".toList ↔
      ∃ secretID payloadJSON e p q i d,
        (rotationHandler s lib http.NewRecorder r).2 = [.generateEncryptionKeyPair, .generateKeysetJSON, .addKey secretID payloadJSON,
          .rotateKeys e p q i d] ∧
        s.keyClient secretID payloadJSON = none ∧ s.registryClient e p q i d = none) := by
  have hgen := rotation_generation_fails s lib r
  have hout := rotationHandler_outcomes s lib r
  have hne : bytesOf "Key rotation is completed".toList ≠ [] := by decide
  have hik : ∀ t : Str, bytesOf ("Ignore event type: ".toList ++ t) ≠
      bytesOf "Key rotation is completed".toList := by
    intro t h
    have h73 : (bytesOf ("Ignore event type: ".toList ++ t)).head? = some 73 := by
      simp [bytesOf, utf8Char]
    rw [h] at h73
    revert h73
    decide
  generalize rotationHandler s lib http.NewRecorder r = out at hgen hout
  refine ⟨?_, ?_, ?_, ?_, ?_⟩
  · intro e p q i d hmem
    rcases hout with ⟨_, _, hc⟩ | ⟨_, _, hc⟩ | ⟨_, _, hc | hc⟩ | ⟨sid, pj, _, _, _, hc⟩ |
      ⟨sid, pj, e1, p1, q1, i1, d1, hk, _, _, _, hc⟩ |
      ⟨sid, pj, e1, p1, q1, i1, d1, hk, _, _, _, hc⟩
    all_goals rw [hc] at hmem
    all_goals simp at hmem
    all_goals obtain ⟨rfl, rfl, rfl, rfl, rfl⟩ := hmem
    all_goals exact ⟨sid, pj, hc, hk⟩
  · intro sid pj hmem hfail
    rcases hout with ⟨_, _, hc⟩ | ⟨_, _, hc⟩ | ⟨_, _, hc | hc⟩ | ⟨sid1, pj1, _, h5, hb, hc⟩ |
      ⟨sid1, pj1, e1, p1, q1, i1, d1, hk, _, _, _, hc⟩ |
      ⟨sid1, pj1, e1, p1, q1, i1, d1, hk, _, _, _, hc⟩
    all_goals rw [hc] at hmem
    all_goals simp at hmem
    · refine ⟨h5, hb, ?_⟩
      intro e p q i d hr
      rw [hc] at hr
      simp at hr
    · obtain ⟨rfl, rfl⟩ := hmem
      exact absurd hk hfail
    · obtain ⟨rfl, rfl⟩ := hmem
      exact absurd hk hfail
  · intro event hm hd ht hfail
    obtain ⟨h5, hb, hc⟩ := hgen event hm hd ht hfail
    refine ⟨h5, hb, ?_, ?_⟩
    · intro sid pj hmem
      rcases hc with hc | hc <;> rw [hc] at hmem <;> simp at hmem
    · intro e p q i d hmem
      rcases hc with hc | hc <;> rw [hc] at hmem <;> simp at hmem
  · intro e p q i d hmem hfail
    rcases hout with ⟨_, _, hc⟩ | ⟨_, _, hc⟩ | ⟨_, _, hc | hc⟩ | ⟨sid1, pj1, _, h5, hb, hc⟩ |
      ⟨sid1, pj1, e1, p1, q1, i1, d1, hk, _, h5, hb, hc⟩ |
      ⟨sid1, pj1, e1, p1, q1, i1, d1, hk, hr, _, _, hc⟩
    all_goals rw [hc] at hmem
    all_goals simp at hmem
    · exact ⟨h5, hb⟩
    · obtain ⟨rfl, rfl, rfl, rfl, rfl⟩ := hmem
      exact absurd hr hfail
  · constructor
    · intro hbody
      rcases hout with ⟨_, hb, _⟩ | ⟨_, ⟨t, hb⟩, _⟩ | ⟨_, hb, _⟩ | ⟨sid1, pj1, _, _, hb, _⟩ |
        ⟨sid1, pj1, e1, p1, q1, i1, d1, _, _, _, hb, _⟩ |
        ⟨sid1, pj1, e1, p1, q1, i1, d1, hk, hr, _, _, hc⟩
      · rw [hb] at hbody; exact absurd hbody.symm hne
      · rw [hb] at hbody; exact absurd hbody (hik t)
      · rw [hb] at hbody; exact absurd hbody.symm hne
      · rw [hb] at hbody; exact absurd hbody.symm hne
      · rw [hb] at hbody; exact absurd hbody.symm hne
      · exact ⟨_, _, _, _, _, _, _, hc, hk, hr⟩
    · rintro ⟨sid, pj, e, p, q, i, d, hcalls, hk, hr⟩
      rcases hout with ⟨_, _, hc⟩ | ⟨_, _, hc⟩ | ⟨_, _, hc | hc⟩ | ⟨sid1, pj1, _, _, _, hc⟩ |
        ⟨sid1, pj1, e1, p1, q1, i1, d1, _, hr1, _, _, hc⟩ |
        ⟨sid1, pj1, e1, p1, q1, i1, d1, _, _, _, hb, _⟩
      all_goals try (rw [hc] at hcalls; simp at hcalls)
      · obtain ⟨_, rfl, rfl, rfl, rfl, rfl⟩ := hcalls
        exact absurd hr hr1
      · exact hb

end keyrotation

namespace fixture

theorem GenerateEncryptionKeyPair_alice :
    crypto.GenerateEncryptionKeyPair x25519.alicePrivate =
      .ok (x25519.alicePrivate, x25519.alicePublic, crypto.derHeader ++ x25519.alicePublic) := by
  have h : x25519.alicePrivate.length = 32 := by decide
  simp only [crypto.GenerateEncryptionKeyPair, crypto.NewPrivateKey_ok _ h,
    x25519.PublicKey_alice]

theorem GenerateKeysetJSON_testKeyset :
    authentication.GenerateKeysetJSON exampleJSON testKeyset.keyValue = .ok exampleKeysetJSON := by
  simp [authentication.GenerateKeysetJSON, keyset.NewHandle, length_testKeyset_keyValue,
    verify_testKeyset.1, exampleJSON, exampleKeysetJSON]

theorem ExtractRawPublicKey_testKeyset :
    authentication.ExtractRawPublicKey exampleJSON exampleKeysetJSON = .ok testKeyset.publicKey := by
  simp [authentication.ExtractRawPublicKey, authentication.readJSONKeyset,
    read_exampleKeysetJSON]

/-- The run of the handler on the rotation event of the test, up to the two
clients. -/
theorem rotationHandler_rotateEvent (s : keyrotation.server) (w : http.ResponseWriter) :
    keyrotation.rotationHandler s (rotationLibrary rotateEvent) w
        (rotationRequest "POST".toList) =
      match s.keyClient rotateEvent.Message.Attributes.SecretID rotationPayloadJSON with
      | some _ =>
        (w.WriteHeader 500,
          [.generateEncryptionKeyPair, .generateKeysetJSON,
           .addKey rotateEvent.Message.Attributes.SecretID rotationPayloadJSON])
      | none =>
        match s.registryClient
            (base64.EncodeToString (crypto.derHeader ++ x25519.alicePublic))
            (base64.EncodeToString testKeyset.publicKey) s.conf.RequestID s.conf.SubscriberID
            s.conf.RotationPeriod with
        | some _ =>
          (w.WriteHeader 500,
            [.generateEncryptionKeyPair, .generateKeysetJSON,
             .addKey rotateEvent.Message.Attributes.SecretID rotationPayloadJSON,
             .rotateKeys (base64.EncodeToString (crypto.derHeader ++ x25519.alicePublic))
               (base64.EncodeToString testKeyset.publicKey) s.conf.RequestID
               s.conf.SubscriberID s.conf.RotationPeriod])
        | none =>
          (w.Write (bytesOf "Key rotation is completed".toList),
            [.generateEncryptionKeyPair, .generateKeysetJSON,
             .addKey rotateEvent.Message.Attributes.SecretID rotationPayloadJSON,
             .rotateKeys (base64.EncodeToString (crypto.derHeader ++ x25519.alicePublic))
               (base64.EncodeToString testKeyset.publicKey) s.conf.RequestID
               s.conf.SubscriberID s.conf.RotationPeriod]) := by
  rw [keyrotation.rotationHandler_rotate s (rotationLibrary rotateEvent) w
    (rotationRequest "POST".toList) rotateEvent rfl rfl rfl]
  have h1 : crypto.GenerateEncryptionKeyPair (rotationLibrary rotateEvent).encryptionRandom =
      .ok (x25519.alicePrivate, x25519.alicePublic, crypto.derHeader ++ x25519.alicePublic) :=
    GenerateEncryptionKeyPair_alice
  have h2 : authentication.GenerateKeysetJSON (rotationLibrary rotateEvent).tk
      (rotationLibrary rotateEvent).signingRandom = .ok exampleKeysetJSON :=
    GenerateKeysetJSON_testKeyset
  have h3 : authentication.ExtractRawPublicKey (rotationLibrary rotateEvent).tk
      exampleKeysetJSON = .ok testKeyset.publicKey := ExtractRawPublicKey_testKeyset
  have h4 : (rotationLibrary rotateEvent).marshal rotationPayload = .ok rotationPayloadJSON := rfl
  rw [h1]
  dsimp only
  rw [h2]
  dsimp only
  rw [h3]
  dsimp only
  rw [show ({ privateKeyEncryption := x25519.alicePrivate
              publicKeyEncryption := x25519.alicePublic
              publicKeyEncryptionDER := crypto.derHeader ++ x25519.alicePublic
              signingKeySet := exampleKeysetJSON
              publicKeySigning := testKeyset.publicKey } : keyrotation.payload) =
    rotationPayload from rfl, h4]

end fixture

namespace keyrotation

theorem rotation_aborts_witness :
    (rotationHandler fixture.failingKeyServer (fixture.rotationLibrary fixture.rotateEvent)
        http.NewRecorder (fixture.rotationRequest "POST".toList)).1.Code = 500 ∧
    (rotationHandler fixture.failingKeyServer (fixture.rotationLibrary fixture.rotateEvent)
        http.NewRecorder (fixture.rotationRequest "POST".toList)).1.Body = [] ∧
    (∀ e p q i d, Call.rotateKeys e p q i d ∉
      (rotationHandler fixture.failingKeyServer (fixture.rotationLibrary fixture.rotateEvent)
        http.NewRecorder (fixture.rotationRequest "POST".toList)).2) ∧
    (rotationHandler fixture.rotationServer (fixture.rotationLibrary fixture.rotateEvent)
        http.NewRecorder (fixture.rotationRequest "POST".toList)).1.Body =
      bytesOf "Key rotation is completed".toList :=
  have h1 := (rotation_aborts fixture.failingKeyServer
    (fixture.rotationLibrary fixture.rotateEvent) (fixture.rotationRequest "POST".toList)).2.1
    fixture.rotateEvent.Message.Attributes.SecretID fixture.rotationPayloadJSON
    (by rw [fixture.rotationHandler_rotateEvent]; simp [fixture.failingKeyServer])
    (by simp [fixture.failingKeyServer])
  have h2 := (rotation_aborts fixture.rotationServer
    (fixture.rotationLibrary fixture.rotateEvent)
    (fixture.rotationRequest "POST".toList)).2.2.2.2.2
    ⟨fixture.rotateEvent.Message.Attributes.SecretID, fixture.rotationPayloadJSON,
      base64.EncodeToString (crypto.derHeader ++ x25519.alicePublic),
      base64.EncodeToString fixture.testKeyset.publicKey, [], [], 0,
      by rw [fixture.rotationHandler_rotateEvent]; simp only [fixture.rotationServer],
      rfl, rfl⟩
  ⟨h1.1, h1.2.1, h1.2.2, h2⟩

end keyrotation

namespace base64

theorem encodeChar_mem (v : Nat) : encodeChar v ∈ alphabet := by
  by_cases hv : v < 64
  · interval_cases v <;> decide
  · have : encodeChar v = 'A' := by
      unfold encodeChar
      rw [List.getD_eq_default]
      simp [alphabet]
      omega
    rw [this]
    decide

theorem isBase64Text_EncodeToString (bs : Bytes) :
    authentication.IsBase64Text (EncodeToString bs) := by
  unfold authentication.IsBase64Text
  induction bs using EncodeToString.induct with
  | case1 => intro c hc; simp [EncodeToString] at hc
  | case2 a =>
    intro c hc
    simp only [EncodeToString, List.mem_cons, List.mem_singleton, List.not_mem_nil,
      or_false] at hc
    rcases hc with rfl | rfl | rfl | rfl
    · exact Or.inl (encodeChar_mem _)
    · exact Or.inl (encodeChar_mem _)
    · exact Or.inr rfl
    · exact Or.inr rfl
  | case3 a b =>
    intro c hc
    simp only [EncodeToString, List.mem_cons, List.mem_singleton, List.not_mem_nil,
      or_false] at hc
    rcases hc with rfl | rfl | rfl | rfl
    · exact Or.inl (encodeChar_mem _)
    · exact Or.inl (encodeChar_mem _)
    · exact Or.inl (encodeChar_mem _)
    · exact Or.inr rfl
  | case4 a b c rest ih =>
    intro d hd
    simp only [EncodeToString, List.mem_cons] at hd
    rcases hd with rfl | rfl | rfl | rfl | hd
    · exact Or.inl (encodeChar_mem _)
    · exact Or.inl (encodeChar_mem _)
    · exact Or.inl (encodeChar_mem _)
    · exact Or.inl (encodeChar_mem _)
    · exact ih d hd

end base64

namespace authentication

/-- The signature `SignPayload` makes with a seed verifies under the public
key of the seed, when Ed25519 accepts the signature it made. -/
theorem VerifySignature_signed (random payload : Bytes) (created expired : Int)
    (hed : ed25519.Verify (ed25519.publicKey random)
      (bytesOf (createSigningString payload created expired))
      (ed25519.Sign random (bytesOf (createSigningString payload created expired))) =
      .ok true) :
    VerifySignature (base64.EncodeToString (ed25519.Sign random
        (bytesOf (createSigningString payload created expired)))) payload
      (ed25519.publicKey random) created expired = .ok () := by
  simp only [VerifySignature]
  rw [base64.DecodeString_EncodeToString _ (ed25519.isBytes_Sign _ _)]
  simp [subtle.NewED25519Verifier, subtle.Verify, ed25519.length_publicKey,
    ed25519.length_Sign, hed]

end authentication

namespace requestaction

theorem get_createONDCRequest (body : Bytes) (requestURL authHeader : Str) :
    ((({ Header := [], Body := body, Method := "POST".toList, URL := requestURL } :
        middleware.Request).Set "Authorization".toList authHeader).Set "Content-Type".toList
        "application/json".toList).Get "Authorization".toList = authHeader ∧
    ((({ Header := [], Body := body, Method := "POST".toList, URL := requestURL } :
        middleware.Request).Set "Authorization".toList authHeader).Set "Content-Type".toList
        "application/json".toList).Body = body := by
  constructor
  · simp [middleware.Request.Set, middleware.Request.Get, List.lookup]
  · rfl

/-- C27: the request `createONDCRequest` builds for a body, with a keyset
that `GenerateKeysetJSON` returned and a subscriber id and key id without `,`
and `|` (the subscriber id not beginning with a double quote), passes every
gate of `NPAuthentication` at every clock reading from `t` to `t + 30` when
the body decodes and the registry returns the public key of the keyset, and
the wrapped handler is called on it; at `t + 31` it is rejected at the window
gate.  The contracts of the two libraries underneath are hypotheses: Tink
reads back the keyset it wrote, and Ed25519 accepts the signature it made for
this signing string. -/
theorem outbound_inbound {Context : Type} (tk : keyset.JSON) (random keysetJSON body key : Bytes)
    (t : Int) (subscriberID keyID action url role receiver : Str)
    (urlError : Str → Option Error)
    (registryClient : Str → Str → Context → Except Error Bytes)
    (decodeContext : Bytes → Except Error Context) (ctx : Context) (req : middleware.Request)
    (hgen : authentication.GenerateKeysetJSON tk random = .ok keysetJSON)
    (htink : ∀ h bs, tk.Write h = .ok bs → tk.Read bs = .ok h)
    (hed : ed25519.Verify (ed25519.publicKey random)
      (bytesOf (authentication.createSigningString body t (t + 30)))
      (ed25519.Sign random (bytesOf (authentication.createSigningString body t (t + 30)))) =
        .ok true)
    (hsub : ',' ∉ subscriberID ∧ '|' ∉ subscriberID ∧ subscriberID.head? ≠ some strings.quote)
    (hkeyID : ',' ∉ keyID ∧ '|' ∉ keyID)
    (ht : authentication.IsInt64 t ∧ authentication.IsInt64 (t + 30))
    (hctx : decodeContext body = .ok ctx)
    (hkey : authentication.ExtractRawPublicKey tk keysetJSON = .ok key)
    (hreg : registryClient subscriberID keyID ctx = .ok key)
    (hreq : createONDCRequest tk (.ok keysetJSON) t subscriberID keyID urlError action url body =
      .ok req) :
    (∀ now, t ≤ now → now ≤ t + 30 →
      middleware.GatesPass
        (middleware.NPAuthenticator registryClient now decodeContext role receiver) req ∧
      middleware.NPAuthentication registryClient now decodeContext role receiver req =
        [.clockNow, .readBody, .publicSigningKey subscriberID keyID ctx, .serveHTTP req]) ∧
    (¬ middleware.GatesPass
        (middleware.NPAuthenticator registryClient (t + 31) decodeContext role receiver) req ∧
      middleware.NPAuthentication registryClient (t + 31) decodeContext role receiver req =
        [.clockNow, .unauthenticated]) := by
  -- the keyset and its key
  unfold authentication.GenerateKeysetJSON keyset.NewHandle at hgen
  by_cases hlen : random.length = 32
  swap
  · simp [hlen] at hgen
  simp only [hlen, ne_eq, not_true_eq_false, if_false] at hgen
  have hread := htink _ _ hgen
  have hkey2 : key = ed25519.publicKey random := by
    simp [authentication.ExtractRawPublicKey, authentication.readJSONKeyset, hread] at hkey
    exact hkey.symm
  subst hkey2
  -- the request
  have hsign := authentication.SignPayload_read tk body keysetJSON t (t + 30) _ hread hlen
  simp only [createONDCRequest, authentication.CreateAuthSignature, hsign] at hreq
  rcases hu : urlError (url ++ "/".toList ++ action) with _ | err
  swap
  · rw [hu] at hreq
    cases hreq
  rw [hu] at hreq
  simp only [Except.ok.injEq] at hreq
  obtain ⟨hget, hbody⟩ := get_createONDCRequest body (url ++ "/".toList ++ action)
    (authentication.authSignature subscriberID keyID t (t + 30)
      (base64.EncodeToString (ed25519.Sign random
        (bytesOf (authentication.createSigningString body t (t + 30))))))
  rw [hreq] at hget hbody
  -- the header decodes
  have hinfo := authentication.ExtractInfoFromHeader_authSignature subscriberID keyID t (t + 30)
    (base64.EncodeToString (ed25519.Sign random
      (bytesOf (authentication.createSigningString body t (t + 30))))) hsub hkeyID
    (authentication.base64Text_no_special _ (base64.isBase64Text_EncodeToString _)) ht.1 ht.2
  have hver := authentication.VerifySignature_signed random body t (t + 30) hed
  have hx : ∀ now, authentication.ExtractInfoFromHeader
      (req.Get (middleware.NPAuthenticator registryClient now decodeContext role
        receiver).verifyingHeader) =
      ({ SubscriberID := subscriberID
         UniqueKeyID := keyID
         KeyIDAlgorithm := "ed25519".toList
         Algorithm := "ed25519".toList
         Created := t
         Expired := t + 30
         Signature := base64.EncodeToString (ed25519.Sign random
           (bytesOf (authentication.createSigningString body t (t + 30)))) }, none) :=
      fun now => by
    show authentication.ExtractInfoFromHeader (req.Get "Authorization".toList) = _
    rw [hget]
    exact hinfo
  constructor
  · intro now h1 h2
    have hp : middleware.GatesPass
        (middleware.NPAuthenticator registryClient now decodeContext role receiver) req := by
      rw [middleware.gatesPass_iff _ _ _ (hx now)]
      refine ⟨rfl, h1, h2, ctx, _, ?_, hreg, ?_⟩
      · rw [hbody]; exact hctx
      · rw [hbody]; exact hver
    refine ⟨hp, ?_⟩
    show middleware.authentication
      (middleware.NPAuthenticator registryClient now decodeContext role receiver) req = _
    rw [middleware.authentication_of_info _ _ _ (hx now)]
    have hw : ¬ (t > now ∨ t + 30 < now) := by omega
    simp only [ne_eq, not_true_eq_false, if_false, middleware.NPAuthenticator, hw, hbody, hctx,
      hreg, hver]
  · have hn : ¬ middleware.GatesPass
        (middleware.NPAuthenticator registryClient (t + 31) decodeContext role receiver) req := by
      rw [middleware.gatesPass_iff _ _ _ (hx (t + 31))]
      rintro ⟨_, _, h2, _⟩
      have : (middleware.NPAuthenticator registryClient (t + 31) decodeContext role
        receiver).clock = t + 31 := rfl
      rw [this] at h2
      simp only at h2
      omega
    refine ⟨hn, ?_⟩
    show middleware.authentication
      (middleware.NPAuthenticator registryClient (t + 31) decodeContext role receiver) req = _
    rw [middleware.authentication_of_info _ _ _ (hx (t + 31))]
    have hw : t > t + 31 ∨ t + 30 < t + 31 := by omega
    simp only [ne_eq, not_true_eq_false, if_false, middleware.NPAuthenticator, hw, if_true]

theorem createONDCRequest_signed (tk : keyset.JSON) (keysetJSON body : Bytes) (t : Int)
    (subscriberID keyID action url : Str) (h : keyset.Handle)
    (hread : tk.Read keysetJSON = .ok h) (hlen : h.keyValue.length = 32) :
    createONDCRequest tk (.ok keysetJSON) t subscriberID keyID (fun _ => none) action url body =
      .ok ((({ Header := [], Body := body, Method := "POST".toList,
               URL := url ++ "/".toList ++ action } : middleware.Request).Set
          "Authorization".toList
          (authentication.authSignature subscriberID keyID t (t + 30)
            (base64.EncodeToString (ed25519.Sign h.keyValue
              (bytesOf (authentication.createSigningString body t (t + 30))))))).Set
          "Content-Type".toList "application/json".toList) := by
  simp only [createONDCRequest, authentication.CreateAuthSignature,
    authentication.SignPayload_read tk body keysetJSON t (t + 30) h hread hlen]

end requestaction

namespace fixture

/-- Ed25519 accepts the signature of the example key over the example payload
with the window of thirty seconds from the creation time. -/
theorem verify_thirtySeconds :
    ed25519.Verify (ed25519.publicKey testKeyset.keyValue)
      (bytesOf (authentication.createSigningString payload 1641287875 (1641287875 + 30)))
      (ed25519.Sign testKeyset.keyValue
        (bytesOf (authentication.createSigningString payload 1641287875 (1641287875 + 30)))) =
      .ok true := by
  rw [verify_testKeyset.1]
  decide!

end fixture

namespace requestaction

theorem outbound_inbound_witness :
    ∃ req,
      createONDCRequest fixture.exampleJSON (.ok fixture.exampleKeysetJSON) 1641287875
        "example-bap.com".toList "bap1234".toList (fun _ => none) "search".toList
        "https://gateway.example".toList fixture.payload = .ok req ∧
      middleware.NPAuthentication (fun _ _ _ => .ok fixture.testKeyset.publicKey)
          (1641287875 + 30) (fun _ => .ok ()) "Seller App".toList "bpp.com".toList req =
        [.clockNow, .readBody,
         .publicSigningKey "example-bap.com".toList "bap1234".toList (), .serveHTTP req] ∧
      middleware.NPAuthentication (fun _ _ _ => .ok fixture.testKeyset.publicKey)
          (1641287875 + 31) (fun _ => .ok ()) "Seller App".toList "bpp.com".toList req =
        [.clockNow, .unauthenticated] :=
  have hreq := createONDCRequest_signed fixture.exampleJSON fixture.exampleKeysetJSON
    fixture.payload 1641287875 "example-bap.com".toList "bap1234".toList "search".toList
    "https://gateway.example".toList fixture.testKeyset fixture.read_exampleKeysetJSON
    fixture.length_testKeyset_keyValue
  have h := outbound_inbound fixture.exampleJSON fixture.testKeyset.keyValue
    fixture.exampleKeysetJSON fixture.payload fixture.testKeyset.publicKey 1641287875
    "example-bap.com".toList "bap1234".toList "search".toList "https://gateway.example".toList
    "Seller App".toList "bpp.com".toList (fun _ => none)
    (fun _ _ _ => .ok fixture.testKeyset.publicKey) (fun _ => .ok ()) () _
    fixture.GenerateKeysetJSON_testKeyset fixture.exampleJSON_read_write
    fixture.verify_thirtySeconds (by decide) (by decide)
    (by unfold authentication.IsInt64; omega) rfl fixture.ExtractRawPublicKey_testKeyset rfl hreq
  ⟨_, hreq, ((h.1 (1641287875 + 30) (by omega) (by omega)).2), h.2.2⟩

end requestaction

namespace authentication

theorem ExtractInfoFromHeader_congr (header₁ header₂ : Str)
    (h : headerValues header₁ = headerValues header₂) :
    ExtractInfoFromHeader header₁ = ExtractInfoFromHeader header₂ := by
  unfold ExtractInfoFromHeader
  rw [h]

theorem headerValues_encoded (keyId algorithm created expires headers signature : Str)
    (h1 : ',' ∉ keyId ∧ keyId.head? ≠ some strings.quote ∧ keyId.getLast? ≠ some strings.quote)
    (h2 : ',' ∉ algorithm ∧ algorithm.head? ≠ some strings.quote ∧
      algorithm.getLast? ≠ some strings.quote)
    (h3 : ',' ∉ created ∧ created.head? ≠ some strings.quote ∧
      created.getLast? ≠ some strings.quote)
    (h4 : ',' ∉ expires ∧ expires.head? ≠ some strings.quote ∧
      expires.getLast? ≠ some strings.quote)
    (h5 : ',' ∉ headers ∧ headers.head? ≠ some strings.quote ∧
      headers.getLast? ≠ some strings.quote)
    (h6 : ',' ∉ signature ∧ signature.head? ≠ some strings.quote ∧
      signature.getLast? ≠ some strings.quote) :
    headerValues (encoded keyId algorithm created expires headers signature) =
      [("signature".toList, signature), ("headers".toList, headers),
       ("expires".toList, expires), ("created".toList, created),
       ("algorithm".toList, algorithm), ("keyId".toList, keyId)] := by
  unfold headerValues encoded
  simp only [strings.TrimPrefix_append]
  rw [strings.Split_append_sep _ _ ',' (not_mem_element _ _ (by decide) h1.1),
    strings.Split_append_sep _ _ ',' (not_mem_element _ _ (by decide) h2.1),
    strings.Split_append_sep _ _ ',' (not_mem_element _ _ (by decide) h3.1),
    strings.Split_append_sep _ _ ',' (not_mem_element _ _ (by decide) h4.1),
    strings.Split_append_sep _ _ ',' (not_mem_element _ _ (by decide) h5.1),
    strings.Split_of_not_mem _ ',' (not_mem_element _ _ (by decide) h6.1)]
  simp only [List.foldl_cons, List.foldl_nil]
  rw [addElement_element _ "keyId".toList _ (by decide) (by decide) h1.2.1 h1.2.2,
    addElement_element _ "algorithm".toList _ (by decide) (by decide) h2.2.1 h2.2.2,
    addElement_element _ "created".toList _ (by decide) (by decide) h3.2.1 h3.2.2,
    addElement_element _ "expires".toList _ (by decide) (by decide) h4.2.1 h4.2.2,
    addElement_element _ "headers".toList _ (by decide) (by decide) h5.2.1 h5.2.2,
    addElement_element _ "signature".toList _ (by decide) (by decide) h6.2.1 h6.2.2]

/-- The encoded form with the algorithm name `ed25519` is the header of
`CreateAuthSignature`. -/
theorem authSignatureFor_ed25519 (subscriberID keyID : Str) (created expired : Int)
    (signature : Str) :
    authSignatureFor "ed25519".toList subscriberID keyID created expired signature =
      authSignature subscriberID keyID created expired signature := by
  rw [authSignature_elements]
  rfl

theorem ExtractInfoFromHeader_authSignatureFor (algorithm subscriberID keyID : Str)
    (created expired : Int) (signature : Str)
    (halg : ',' ∉ algorithm ∧ '|' ∉ algorithm ∧ algorithm.head? ≠ some strings.quote ∧
      algorithm.getLast? ≠ some strings.quote)
    (hsub : ',' ∉ subscriberID ∧ '|' ∉ subscriberID ∧ subscriberID.head? ≠ some strings.quote)
    (hkey : ',' ∉ keyID ∧ '|' ∉ keyID)
    (hsig : ',' ∉ signature ∧ signature.head? ≠ some strings.quote ∧
      signature.getLast? ≠ some strings.quote)
    (hc : IsInt64 created) (he : IsInt64 expired) :
    ExtractInfoFromHeader
        (authSignatureFor algorithm subscriberID keyID created expired signature) =
      ({ SubscriberID := subscriberID
         UniqueKeyID := keyID
         KeyIDAlgorithm := algorithm
         Algorithm := algorithm
         Created := created
         Expired := expired
         Signature := signature }, none) := by
  have hcs := strconv.FormatInt_no_special created
  have hes := strconv.FormatInt_no_special expired
  have hbar : ',' ≠ '|' := by decide
  have hid : ',' ∉ subscriberID ++ '|' :: (keyID ++ '|' :: algorithm) := by
    simp [hsub.1, hkey.1, halg.1, hbar]
  have hidh : (subscriberID ++ '|' :: (keyID ++ '|' :: algorithm)).head? ≠
      some strings.quote := by
    cases subscriberID with
    | nil => simp only [List.nil_append, List.head?_cons]; decide
    | cons c cs =>
      have := hsub.2.2
      simpa using this
  have hidl : (subscriberID ++ '|' :: (keyID ++ '|' :: algorithm)).getLast? ≠
      some strings.quote := by
    have e : subscriberID ++ '|' :: (keyID ++ '|' :: algorithm) =
        (subscriberID ++ '|' :: keyID) ++ ('|' :: algorithm) := by simp
    rw [e, List.getLast?_append]
    rcases hq : ('|' :: algorithm).getLast? with _ | d
    · simp at hq
    · show some d ≠ some strings.quote
      cases algorithm with
      | nil =>
        simp only [List.getLast?_singleton, Option.some.injEq] at hq
        subst hq
        decide
      | cons c cs =>
        rw [List.getLast?_cons_cons] at hq
        rw [← hq]
        exact halg.2.2.2
  have hsplit : strings.Split (subscriberID ++ '|' :: (keyID ++ '|' :: algorithm)) '|' =
      [subscriberID, keyID, algorithm] := by
    rw [strings.Split_append_sep _ _ '|' hsub.2.1, strings.Split_append_sep _ _ '|' hkey.2,
      strings.Split_of_not_mem _ '|' halg.2.1]
  have hv := headerValues_encoded (subscriberID ++ '|' :: (keyID ++ '|' :: algorithm)) algorithm
    (strconv.FormatInt created) (strconv.FormatInt expired) "(created) (expires) digest".toList
    signature ⟨hid, hidh, hidl⟩ ⟨halg.1, halg.2.2.1, halg.2.2.2⟩ hcs hes
    ⟨by decide, by decide, by decide⟩ hsig
  unfold ExtractInfoFromHeader authSignatureFor
  simp only [hv]
  have hfind : requiredKeys.find? (fun k =>
      (List.lookup k [("signature".toList, signature),
       ("headers".toList, "(created) (expires) digest".toList),
       ("expires".toList, strconv.FormatInt expired),
       ("created".toList, strconv.FormatInt created),
       ("algorithm".toList, algorithm),
       ("keyId".toList, subscriberID ++ '|' :: (keyID ++ '|' :: algorithm))]).isNone) =
      none := rfl
  rw [hfind]
  have hid2 : valueOf [("signature".toList, signature),
       ("headers".toList, "(created) (expires) digest".toList),
       ("expires".toList, strconv.FormatInt expired),
       ("created".toList, strconv.FormatInt created),
       ("algorithm".toList, algorithm),
       ("keyId".toList, subscriberID ++ '|' :: (keyID ++ '|' :: algorithm))] "keyId".toList =
      subscriberID ++ '|' :: (keyID ++ '|' :: algorithm) := rfl
  have hcr : valueOf [("signature".toList, signature),
       ("headers".toList, "(created) (expires) digest".toList),
       ("expires".toList, strconv.FormatInt expired),
       ("created".toList, strconv.FormatInt created),
       ("algorithm".toList, algorithm),
       ("keyId".toList, subscriberID ++ '|' :: (keyID ++ '|' :: algorithm))]
       "created".toList = strconv.FormatInt created := rfl
  have hex : valueOf [("signature".toList, signature),
       ("headers".toList, "(created) (expires) digest".toList),
       ("expires".toList, strconv.FormatInt expired),
       ("created".toList, strconv.FormatInt created),
       ("algorithm".toList, algorithm),
       ("keyId".toList, subscriberID ++ '|' :: (keyID ++ '|' :: algorithm))]
       "expires".toList = strconv.FormatInt expired := rfl
  have hal : valueOf [("signature".toList, signature),
       ("headers".toList, "(created) (expires) digest".toList),
       ("expires".toList, strconv.FormatInt expired),
       ("created".toList, strconv.FormatInt created),
       ("algorithm".toList, algorithm),
       ("keyId".toList, subscriberID ++ '|' :: (keyID ++ '|' :: algorithm))]
       "algorithm".toList = algorithm := rfl
  have hsg : valueOf [("signature".toList, signature),
       ("headers".toList, "(created) (expires) digest".toList),
       ("expires".toList, strconv.FormatInt expired),
       ("created".toList, strconv.FormatInt created),
       ("algorithm".toList, algorithm),
       ("keyId".toList, subscriberID ++ '|' :: (keyID ++ '|' :: algorithm))]
       "signature".toList = signature := rfl
  simp only [hid2, hcr, hex, hal, hsg, hsplit,
    strconv.Atoi_FormatInt created hc.1 hc.2, strconv.Atoi_FormatInt expired he.1 he.2]

end authentication

namespace fixture

theorem extract_barAlgorithm :
    authentication.ExtractInfoFromHeader
        (authentication.authSignatureFor "ed|25519".toList "example-bap.com".toList
          "bap1234".toList 1641287875 1641291475 wantedSignature) =
      (authentication.Info.zero,
       some (.errorf "invalid Key ID: example-bap.com|bap1234|ed|25519".toList)) := by
  decide!

theorem extract_quoteAlgorithm :
    authentication.ExtractInfoFromHeader
        (authentication.authSignatureFor "\"ed".toList "example-bap.com".toList
          "bap1234".toList 1641287875 1641291475 wantedSignature) =
      ({ testInfo with KeyIDAlgorithm := "\"ed".toList, Algorithm := "ed".toList }, none) := by
  decide!

theorem extract_commaAlgorithm :
    authentication.ExtractInfoFromHeader
        (authentication.authSignatureFor "x,keyId=y".toList "example-bap.com".toList
          "bap1234".toList 1641287875 1641291475 wantedSignature) =
      (authentication.Info.zero, some (.errorf "invalid Key ID: y".toList)) := by
  decide!

theorem testAuthHeader_encoded :
    authentication.authSignatureFor "ed25519".toList "example-bap.com".toList "bap1234".toList
      1641287875 1641291475 wantedSignature = testAuthHeader := by
  decide!

end fixture

namespace middleware

/-- The decision on a request whose header decodes, read off the decoded
`Info`: the two algorithm names enter through their equality only. -/
theorem gatesPass_replaced {Context : Type} (a : authenticator Context) (r₁ r₂ : Request)
    (info : authentication.Info) (s : Str) (hbody : r₂.Body = r₁.Body)
    (h1 : authentication.ExtractInfoFromHeader (r₁.Get a.verifyingHeader) = (info, none))
    (hagree : info.Algorithm = info.KeyIDAlgorithm)
    (h2 : authentication.ExtractInfoFromHeader (r₂.Get a.verifyingHeader) =
      ({ info with Algorithm := s, KeyIDAlgorithm := s }, none)) :
    GatesPass a r₂ ↔ GatesPass a r₁ := by
  rw [gatesPass_iff a r₁ info h1, gatesPass_iff a r₂ _ h2, hbody]
  simp [hagree]

/-- A counterexample to C28 as stated.  A request whose two algorithm names
differ is rejected, and the same request with both names replaced by
`ed25519` is accepted; and a request that is accepted is rejected once both
names are replaced by `ed|25519`, which breaks the key id into four segments,
by a name that begins with a double quote, which the decoder strips from the
algorithm field only, or by `x,keyId=y`, whose second half is read as a key
id. -/
theorem algorithm_replaced_counterexample :
    authentication.ExtractInfoFromHeader fixture.mismatchAuthHeader =
      ({ fixture.testInfo with KeyIDAlgorithm := "x25519".toList }, none) ∧
    authentication.ExtractInfoFromHeader fixture.testAuthHeader =
      ({ ({ fixture.testInfo with KeyIDAlgorithm := "x25519".toList } : authentication.Info) with
          Algorithm := "ed25519".toList, KeyIDAlgorithm := "ed25519".toList }, none) ∧
    ¬ GatesPass (fixture.testAuthenticator 1641290000)
        (fixture.testRequest fixture.mismatchAuthHeader) ∧
    GatesPass (fixture.testAuthenticator 1641290000)
        (fixture.testRequest fixture.testAuthHeader) ∧
    authentication.authSignatureFor "ed25519".toList "example-bap.com".toList "bap1234".toList
        1641287875 1641291475 fixture.wantedSignature = fixture.testAuthHeader ∧
    ¬ GatesPass (fixture.testAuthenticator 1641290000)
        (fixture.testRequest (authentication.authSignatureFor "ed|25519".toList
          "example-bap.com".toList "bap1234".toList 1641287875 1641291475
          fixture.wantedSignature)) ∧
    ¬ GatesPass (fixture.testAuthenticator 1641290000)
        (fixture.testRequest (authentication.authSignatureFor "\"ed".toList
          "example-bap.com".toList "bap1234".toList 1641287875 1641291475
          fixture.wantedSignature)) ∧
    ¬ GatesPass (fixture.testAuthenticator 1641290000)
        (fixture.testRequest (authentication.authSignatureFor "x,keyId=y".toList
          "example-bap.com".toList "bap1234".toList 1641287875 1641291475
          fixture.wantedSignature)) := by
  refine ⟨fixture.extract_mismatchAuthHeader, fixture.extract_testAuthHeader, ?_,
    fixture.gatesPass_test, fixture.testAuthHeader_encoded, ?_, ?_, ?_⟩
  · have hx : authentication.ExtractInfoFromHeader
        ((fixture.testRequest fixture.mismatchAuthHeader).Get
          (fixture.testAuthenticator 1641290000).verifyingHeader) =
        ({ fixture.testInfo with KeyIDAlgorithm := "x25519".toList }, none) := by
      show authentication.ExtractInfoFromHeader ((fixture.testRequest _).Get
        "Authorization".toList) = _
      rw [fixture.get_testRequest]
      exact fixture.extract_mismatchAuthHeader
    rw [gatesPass_iff _ _ _ hx]
    rintro ⟨h, _⟩
    revert h
    decide
  · apply not_gatesPass_of_error _ _ authentication.Info.zero
      (.errorf "invalid Key ID: example-bap.com|bap1234|ed|25519".toList)
    show authentication.ExtractInfoFromHeader ((fixture.testRequest _).Get
      "Authorization".toList) = _
    rw [fixture.get_testRequest]
    exact fixture.extract_barAlgorithm
  · have hx : authentication.ExtractInfoFromHeader
        ((fixture.testRequest (authentication.authSignatureFor "\"ed".toList
          "example-bap.com".toList "bap1234".toList 1641287875 1641291475
          fixture.wantedSignature)).Get
          (fixture.testAuthenticator 1641290000).verifyingHeader) =
        ({ fixture.testInfo with KeyIDAlgorithm := "\"ed".toList, Algorithm := "ed".toList },
          none) := by
      show authentication.ExtractInfoFromHeader ((fixture.testRequest _).Get
        "Authorization".toList) = _
      rw [fixture.get_testRequest]
      exact fixture.extract_quoteAlgorithm
    rw [gatesPass_iff _ _ _ hx]
    rintro ⟨h, _⟩
    revert h
    decide
  · apply not_gatesPass_of_error _ _ authentication.Info.zero
      (.errorf "invalid Key ID: y".toList)
    show authentication.ExtractInfoFromHeader ((fixture.testRequest _).Get
      "Authorization".toList) = _
    rw [fixture.get_testRequest]
    exact fixture.extract_commaAlgorithm

/-- C28, amended: the algorithm name is compared for equality only.  For a
request whose header decodes with equal algorithm names and for every string
`s`, a request with the same body whose header decodes to the same `Info`
with `s` as both algorithm names gets the same decision; a header in the
encoded form with `s` in both places decodes so whenever `s` has no `,` and
no `|` and neither begins nor ends with a double quote; and the decision on
such a header is the Ed25519 verification of the signature within the window,
whatever the name. -/
theorem algorithm_name_unchecked {Context : Type} (a : authenticator Context) (r₁ r₂ : Request)
    (hbody : r₂.Body = r₁.Body) :
    (∀ info s,
      authentication.ExtractInfoFromHeader (r₁.Get a.verifyingHeader) = (info, none) →
      info.Algorithm = info.KeyIDAlgorithm →
      authentication.ExtractInfoFromHeader (r₂.Get a.verifyingHeader) =
        ({ info with Algorithm := s, KeyIDAlgorithm := s }, none) →
      (GatesPass a r₂ ↔ GatesPass a r₁)) ∧
    (∀ (s subscriberID keyID : Str) (created expired : Int) (signature : Str),
      (',' ∉ s ∧ '|' ∉ s ∧ s.head? ≠ some strings.quote ∧ s.getLast? ≠ some strings.quote) →
      (',' ∉ subscriberID ∧ '|' ∉ subscriberID ∧ subscriberID.head? ≠ some strings.quote) →
      (',' ∉ keyID ∧ '|' ∉ keyID) → authentication.IsBase64Text signature →
      authentication.IsInt64 created → authentication.IsInt64 expired →
      authentication.ExtractInfoFromHeader
          (authentication.authSignatureFor s subscriberID keyID created expired signature) =
        ({ SubscriberID := subscriberID
           UniqueKeyID := keyID
           KeyIDAlgorithm := s
           Algorithm := s
           Created := created
           Expired := expired
           Signature := signature }, none) ∧
      (r₂.Get a.verifyingHeader =
          authentication.authSignatureFor s subscriberID keyID created expired signature →
        (GatesPass a r₂ ↔ created ≤ a.clock ∧ a.clock ≤ expired ∧ ∃ ctx key,
          a.decodeContext r₂.Body = .ok ctx ∧
          a.registryClient subscriberID keyID ctx = .ok key ∧
          authentication.VerifySignature signature r₂.Body key created expired = .ok ()))) := by
  constructor
  · intro info s h1 hagree h2
    exact gatesPass_replaced a r₁ r₂ info s hbody h1 hagree h2
  · intro s subscriberID keyID created expired signature hs hsub hkey hsig hc he
    have hdec := authentication.ExtractInfoFromHeader_authSignatureFor s subscriberID keyID
      created expired signature hs hsub hkey (authentication.base64Text_no_special _ hsig) hc he
    refine ⟨hdec, ?_⟩
    intro hget
    rw [gatesPass_iff a r₂ _ (hget ▸ hdec)]
    simp

theorem algorithm_name_unchecked_witness :
    GatesPass (fixture.testAuthenticator 1641290000)
      (fixture.testRequest (authentication.authSignatureFor "rsa-sha256".toList
        "example-bap.com".toList "bap1234".toList 1641287875 1641291475
        fixture.wantedSignature)) :=
  ((algorithm_name_unchecked (fixture.testAuthenticator 1641290000)
    (fixture.testRequest fixture.testAuthHeader)
    (fixture.testRequest (authentication.authSignatureFor "rsa-sha256".toList
      "example-bap.com".toList "bap1234".toList 1641287875 1641291475
      fixture.wantedSignature)) rfl).1 fixture.testInfo "rsa-sha256".toList
    (by
      show authentication.ExtractInfoFromHeader ((fixture.testRequest _).Get
        "Authorization".toList) = _
      rw [fixture.get_testRequest]
      exact fixture.extract_testAuthHeader)
    rfl
    (by
      show authentication.ExtractInfoFromHeader ((fixture.testRequest _).Get
        "Authorization".toList) = _
      rw [fixture.get_testRequest]
      exact authentication.ExtractInfoFromHeader_authSignatureFor "rsa-sha256".toList
        "example-bap.com".toList "bap1234".toList 1641287875 1641291475
        fixture.wantedSignature (by decide) (by decide) (by decide) (by decide)
        (by unfold authentication.IsInt64; omega)
        (by unfold authentication.IsInt64; omega))).2 fixture.gatesPass_test

end middleware

/-! ## C25: the layout of a header does not change what is decoded -/

namespace strings

theorem Split_append (a b : Str) (sep : Char) :
    Split (a ++ sep :: b) sep = Split a sep ++ Split b sep := by
  induction a with
  | nil => simp [Split]
  | cons c cs ih =>
    rw [List.cons_append]
    by_cases hc : c = sep
    · simp [Split, hc, ih]
    · rcases hs : Split cs sep with _ | ⟨p, ps⟩
      · exact absurd hs (Split_ne_nil cs sep)
      · simp [Split, hc, ih, hs]

theorem exists_first_sep (s : Str) (sep : Char) (h : sep ∈ s) :
    ∃ a z, s = a ++ sep :: z ∧ sep ∉ a := by
  induction s with
  | nil => simp at h
  | cons c cs ih =>
    by_cases hc : c = sep
    · exact ⟨[], cs, by simp [hc], by simp⟩
    · have hcs : sep ∈ cs := by
        rcases List.mem_cons.1 h with e | e
        · exact absurd e.symm hc
        · exact e
      obtain ⟨a, z, hz, ha⟩ := ih hcs
      refine ⟨c :: a, z, by simp [hz], ?_⟩
      intro hm
      rcases List.mem_cons.1 hm with e | e
      · exact hc e.symm
      · exact ha e

theorem exists_last_sep (s : Str) (sep : Char) (h : sep ∈ s) :
    ∃ a z, s = a ++ sep :: z ∧ sep ∉ z := by
  induction s with
  | nil => simp at h
  | cons c cs ih =>
    by_cases hcs : sep ∈ cs
    · obtain ⟨a, z, hz, ha⟩ := ih hcs
      exact ⟨c :: a, z, by simp [hz], ha⟩
    · have hc : c = sep := by
        rcases List.mem_cons.1 h with e | e
        · exact e.symm
        · exact absurd e hcs
      exact ⟨[], cs, by simp [hc], hcs⟩

theorem dropWhile_append_all (p : Char → Bool) (a s : Str) (h : ∀ c ∈ a, p c = true) :
    (a ++ s).dropWhile p = s.dropWhile p := by
  induction a with
  | nil => rfl
  | cons c cs ih =>
    have hc : p c = true := h c (by simp)
    rw [List.cons_append, List.dropWhile_cons, hc]
    exact ih (fun d hd => h d (by simp [hd]))

theorem rdropWhile_append_all (p : Char → Bool) (s a : Str) (h : ∀ c ∈ a, p c = true) :
    (s ++ a).rdropWhile p = s.rdropWhile p := by
  simp only [List.rdropWhile, List.reverse_append]
  rw [dropWhile_append_all p a.reverse _ (by simpa using h)]

theorem dropWhile_all (p : Char → Bool) (a : Str) (h : ∀ c ∈ a, p c = true) :
    a.dropWhile p = [] := by
  have := dropWhile_append_all p a [] h
  simpa using this

theorem rdropWhile_dropWhile_append (p : Char → Bool) (x b : Str) (h : ∀ c ∈ b, p c = true) :
    ((x ++ b).dropWhile p).rdropWhile p = (x.dropWhile p).rdropWhile p := by
  induction x with
  | nil => simp [dropWhile_all p b h]
  | cons c cs ih =>
    by_cases hc : p c = true
    · rw [List.cons_append, List.dropWhile_cons, List.dropWhile_cons, hc]
      exact ih
    · rw [List.cons_append, List.dropWhile_cons, List.dropWhile_cons]
      simp only [hc, if_false, Bool.false_eq_true]
      rw [← List.cons_append, rdropWhile_append_all p _ b h]

theorem isSpace_of_spaces (a : Str) (h : ∀ c ∈ a, c = ' ') : ∀ c ∈ a, isSpace c = true := by
  intro c hc
  rw [h c hc]
  decide

/-- White space around a text does not change what `TrimSpace` leaves. -/
theorem TrimSpace_pad (a y b : Str) (ha : ∀ c ∈ a, c = ' ') (hb : ∀ c ∈ b, c = ' ') :
    TrimSpace (a ++ y ++ b) = TrimSpace y := by
  unfold TrimSpace
  rw [List.append_assoc, dropWhile_append_all isSpace a _ (isSpace_of_spaces a ha),
    rdropWhile_dropWhile_append isSpace y b (isSpace_of_spaces b hb)]

theorem TrimSpace_of_ends (x : Str) (hh : ∀ c, x.head? = some c → isSpace c = false)
    (hl : ∀ c, x.getLast? = some c → isSpace c = false) : TrimSpace x = x := by
  unfold TrimSpace
  rw [dropWhile_of_head _ _ hh, rdropWhile_of_getLast _ _ hl]

theorem mem_of_getLast (x : Str) (c : Char) (h : x.getLast? = some c) : c ∈ x := by
  rcases List.eq_nil_or_concat x with rfl | ⟨l, d, rfl⟩
  · simp at h
  · simp at h
    simp [h]

theorem Trim_of_not_mem (s cutset : Str) (h : ∀ c ∈ s, c ∉ cutset) : Trim s cutset = s := by
  unfold Trim
  rw [dropWhile_of_head, rdropWhile_of_getLast]
  · intro c hc
    have : c ∈ s := mem_of_getLast _ _ hc
    simpa using h c this
  · intro c hc
    have : c ∈ s := List.mem_of_mem_head? hc
    simpa using h c this

theorem mem_TrimSpace (x : Str) (c : Char) (h : c ∈ TrimSpace x) : c ∈ x := by
  unfold TrimSpace at h
  exact (List.dropWhile_suffix isSpace).subset ((List.rdropWhile_prefix isSpace _).subset h)

theorem dropWhile_concat_of_not (p : Char → Bool) (x : Str) (c : Char) (hc : p c = false) :
    (x ++ [c]).dropWhile p = x.dropWhile p ++ [c] := by
  induction x with
  | nil => simp [List.dropWhile, hc]
  | cons d ds ih =>
    by_cases hd : p d = true
    · rw [List.cons_append, List.dropWhile_cons, List.dropWhile_cons, hd]
      exact ih
    · rw [List.cons_append, List.dropWhile_cons, List.dropWhile_cons]
      simp [hd]

theorem rdropWhile_cons_of_not (p : Char → Bool) (c : Char) (x : Str) (hc : p c = false) :
    (c :: x).rdropWhile p = c :: x.rdropWhile p := by
  simp only [List.rdropWhile, List.reverse_cons]
  rw [dropWhile_concat_of_not p _ c hc]
  simp

/-- What the decoder keeps of a value: the text between optional double
quotes and white space, when the text has no double quote and, where a quote
stands next to it, no white space on that side. -/
theorem Trim_TrimSpace_layout (a b x : Str) (q₁ q₂ : Bool) (ha : ∀ c ∈ a, c = ' ')
    (hb : ∀ c ∈ b, c = ' ') (hq : quote ∉ x)
    (hh : q₁ = true → ∀ c, x.head? = some c → isSpace c = false)
    (hl : q₂ = true → ∀ c, x.getLast? = some c → isSpace c = false) :
    Trim (TrimSpace (a ++ ((if q₁ then [quote] else []) ++ x ++ (if q₂ then [quote] else [])) ++ b))
      [quote] = TrimSpace x := by
  rw [TrimSpace_pad a _ b ha hb]
  have hqs : isSpace quote = false := by decide
  have hnq : ∀ s : Str, (∀ c ∈ s, c ∈ x) → Trim s [quote] = s := by
    intro s hs
    apply Trim_of_not_mem
    intro c hc hcq
    have : c = quote := by simpa using hcq
    exact hq (this ▸ hs c hc)
  cases q₁ <;> cases q₂
  · simp only [Bool.false_eq_true, if_false, List.nil_append, List.append_nil]
    exact hnq _ (fun c hc => mem_TrimSpace x c hc)
  · simp only [Bool.false_eq_true, if_false, if_true, List.nil_append]
    have h1 : TrimSpace (x ++ [quote]) = x.dropWhile isSpace ++ [quote] := by
      unfold TrimSpace
      rw [dropWhile_concat_of_not isSpace x quote hqs, List.rdropWhile_concat]
      simp [hqs]
    rw [h1]
    rcases hd : x.dropWhile isSpace with _ | ⟨c, cs⟩
    · have : TrimSpace x = [] := by unfold TrimSpace; rw [hd]; rfl
      rw [this]
      simp [Trim, List.dropWhile, List.rdropWhile]
    · have hsuf : (c :: cs) <:+ x := hd ▸ List.dropWhile_suffix isSpace
      have hmem : ∀ d ∈ c :: cs, d ∈ x := fun d hd => hsuf.subset hd
      have hcq : c ≠ quote := fun e => hq (e ▸ hmem c (by simp))
      have hlast : ∀ d, (c :: cs).getLast? = some d → isSpace d = false := by
        intro d hd
        obtain ⟨t, ht⟩ := hsuf
        apply hl rfl d
        rw [← ht, List.getLast?_append, hd]
        rfl
      have h2 : TrimSpace x = c :: cs := by
        unfold TrimSpace
        rw [hd, rdropWhile_of_getLast _ _ hlast]
      rw [h2]
      unfold Trim
      rw [dropWhile_of_head _ _ (by intro d hd; simp at hd; subst hd; simpa using hcq)]
      rw [List.rdropWhile_concat]
      simp only [List.mem_singleton, decide_True, if_true]
      apply rdropWhile_of_getLast
      intro d hd
      have : d ∈ x := hmem d (mem_of_getLast _ _ hd)
      have hdq : d ≠ quote := fun e => hq (e ▸ this)
      simpa using hdq
  · simp only [Bool.false_eq_true, if_false, if_true, List.append_nil, List.singleton_append]
    have h1 : TrimSpace (quote :: x) = quote :: x.rdropWhile isSpace := by
      unfold TrimSpace
      rw [dropWhile_of_head _ _ (by intro d hd; simp at hd; subst hd; exact hqs)]
      exact rdropWhile_cons_of_not _ _ _ hqs
    have h2 : TrimSpace x = x.rdropWhile isSpace := by
      unfold TrimSpace
      rw [dropWhile_of_head _ _ (hh rfl)]
    rw [h1, h2]
    have h3 : Trim (quote :: x.rdropWhile isSpace) [quote] = Trim (x.rdropWhile isSpace) [quote] := by
      unfold Trim
      rw [List.dropWhile_cons]
      simp
    rw [h3]
    exact hnq _ (fun c hc => (List.rdropWhile_prefix isSpace _).subset hc)
  · simp only [if_true, List.singleton_append]
    have h1 : Trim (TrimSpace (quote :: (x ++ [quote]))) [quote] = x := by
      apply Trim_TrimSpace_quoted
      · intro h
        exact hq (List.mem_of_mem_head? h)
      · intro h
        exact hq (mem_of_getLast _ _ h)
    rw [List.cons_append] at *
    rw [h1, TrimSpace_of_ends x (hh rfl) (hl rfl)]

end strings

namespace authentication

theorem elementIn_plain (k v : Str) : elementIn Layout.plain k v = element k v := by
  simp [elementIn, Layout.plain, element]

theorem encodedIn_plain (keyId algorithm created expires headers signature : Str) :
    encodedIn true Layout.plain Layout.plain Layout.plain Layout.plain Layout.plain Layout.plain
      keyId algorithm created expires headers signature =
    encoded keyId algorithm created expires headers signature := by
  simp [encodedIn, encoded, elementIn_plain]

theorem not_mem_spaces (a : Str) (c : Char) (ha : ∀ d ∈ a, d = ' ') (hc : c ≠ ' ') : c ∉ a :=
  fun h => hc (ha c h)

theorem addElement_keyed (values : List (Str × Str)) (bk ak k val : Str)
    (hbk : ∀ c ∈ bk, c = ' ') (hak : ∀ c ∈ ak, c = ' ') (hk : '=' ∉ k)
    (hks : strings.TrimSpace k = k) :
    addElement values (bk ++ k ++ ak ++ '=' :: val) =
      (k, strings.Trim (strings.TrimSpace val) [strings.quote]) :: values := by
  unfold addElement
  have hn : '=' ∉ bk ++ k ++ ak := by
    simp only [List.mem_append, not_or]
    exact ⟨⟨not_mem_spaces bk _ hbk (by decide), hk⟩, not_mem_spaces ak _ hak (by decide)⟩
  rw [strings.Cut_append_sep (bk ++ k ++ ak) val '=' hn]
  simp only [if_true, strings.TrimSpace_pad bk k ak hbk hak, hks]

theorem addElement_last (values : List (Str × Str)) (z av : Str) (q : Bool)
    (hav : ∀ c ∈ av, c = ' ') (hq : strings.quote ∉ z)
    (hl : q = true → ∀ c, z.getLast? = some c → strings.isSpace c = false) :
    addElement values (z ++ ((if q then [strings.quote] else []) ++ av)) = addElement values z := by
  by_cases he : '=' ∈ z
  · obtain ⟨a, y, rfl, ha⟩ := strings.exists_first_sep z '=' he
    have hqy : strings.quote ∉ y := fun h => hq (by simp [h])
    have hly : q = true → ∀ c, y.getLast? = some c → strings.isSpace c = false := by
      intro hq1 c hc
      apply hl hq1 c
      rw [List.getLast?_append, List.getLast?_cons, hc]
      rfl
    unfold addElement
    rw [List.append_assoc, List.cons_append, strings.Cut_append_sep a _ '=' ha,
      strings.Cut_append_sep a y '=' ha]
    have h1 := strings.Trim_TrimSpace_layout [] av y false q (by simp) hav hqy (by simp) hly
    have h2 := strings.Trim_TrimSpace_layout [] [] y false false (by simp) (by simp) hqy
      (by simp) (by simp)
    simp only [Bool.false_eq_true, if_false, List.nil_append, List.append_nil,
      List.append_assoc] at h1 h2
    simp only [if_true, h1, h2]
  · have hn : '=' ∉ z ++ ((if q then [strings.quote] else []) ++ av) := by
      simp only [List.mem_append, not_or]
      refine ⟨he, ?_, not_mem_spaces av _ hav (by decide)⟩
      cases q <;> simp [strings.quote]
    unfold addElement strings.Cut
    simp [he, hn]

theorem foldl_addElement_tail (values : List (Str × Str)) (w av : Str) (q : Bool)
    (hav : ∀ c ∈ av, c = ' ') (hq : strings.quote ∉ w)
    (hl : q = true → ∀ c, w.getLast? = some c → strings.isSpace c = false) :
    (strings.Split (w ++ ((if q then [strings.quote] else []) ++ av)) ',').foldl addElement values =
      (strings.Split w ',').foldl addElement values := by
  have hpost : ',' ∉ (if q then [strings.quote] else []) ++ av := by
    simp only [List.mem_append, not_or]
    refine ⟨?_, not_mem_spaces av _ hav (by decide)⟩
    cases q <;> simp [strings.quote]
  by_cases hc : ',' ∈ w
  · obtain ⟨a, z, rfl, hz⟩ := strings.exists_last_sep w ',' hc
    have hqz : strings.quote ∉ z := fun h => hq (by simp [h])
    have hlz : q = true → ∀ c, z.getLast? = some c → strings.isSpace c = false := by
      intro hq1 c hc
      apply hl hq1 c
      rw [List.getLast?_append, List.getLast?_cons, hc]
      rfl
    have hn : ',' ∉ z ++ ((if q then [strings.quote] else []) ++ av) := by
      simp only [List.mem_append, not_or] at hpost ⊢
      exact ⟨hz, hpost⟩
    rw [List.append_assoc, List.cons_append, strings.Split_append, strings.Split_append,
      strings.Split_of_not_mem _ _ hn, strings.Split_of_not_mem _ _ hz, List.foldl_append,
      List.foldl_append]
    simp only [List.foldl_cons, List.foldl_nil]
    exact addElement_last _ z av q hav hqz hlz
  · have hn : ',' ∉ w ++ ((if q then [strings.quote] else []) ++ av) := by
      simp only [List.mem_append, not_or] at hpost ⊢
      exact ⟨hc, hpost⟩
    rw [strings.Split_of_not_mem _ _ hn, strings.Split_of_not_mem _ _ hc]
    simp only [List.foldl_cons, List.foldl_nil]
    exact addElement_last _ w av q hav hq hl

/-- The entries one element adds to the map when its value has no comma. -/
theorem foldl_elementIn_single (values : List (Str × Str)) (l : Layout) (hl : l.Spaces)
    (k v : Str) (hk : '=' ∉ k ∧ ',' ∉ k ∧ strings.TrimSpace k = k)
    (hq : strings.quote ∉ v) (hv : NoOuterSpace v) (hc : ',' ∉ v) :
    (strings.Split (elementIn l k v) ',').foldl addElement values = (k, v) :: values := by
  obtain ⟨hbk, hak, hbv, hav⟩ := hl
  have hform : elementIn l k v = l.beforeKey ++ k ++ l.afterKey ++ '=' ::
      (l.beforeValue ++ ((if l.quoted then [strings.quote] else []) ++ v ++
        (if l.quoted then [strings.quote] else [])) ++ l.afterValue) := by
    unfold elementIn
    cases l.quoted <;> simp
  have hn : ',' ∉ elementIn l k v := by
    rw [hform]
    simp only [List.mem_append, List.mem_cons, not_or]
    refine ⟨⟨⟨not_mem_spaces _ _ hbk (by decide), hk.2.1⟩, not_mem_spaces _ _ hak (by decide)⟩,
      by decide, ⟨not_mem_spaces _ _ hbv (by decide), ⟨?_, hc⟩, ?_⟩,
      not_mem_spaces _ _ hav (by decide)⟩ <;> cases l.quoted <;> simp [strings.quote]
  rw [strings.Split_of_not_mem _ _ hn]
  simp only [List.foldl_cons, List.foldl_nil]
  rw [hform, addElement_keyed values _ _ k _ hbk hak hk.1 hk.2.2,
    strings.Trim_TrimSpace_layout _ _ v l.quoted l.quoted hbv hav hq (fun _ => hv.1)
      (fun _ => hv.2), strings.TrimSpace_of_ends v hv.1 hv.2]

/-- The entries one element adds to the map when its value has a comma: the
key with the text before the first comma, then what the pieces after it add. -/
theorem foldl_elementIn_comma (values : List (Str × Str)) (l : Layout) (hl : l.Spaces)
    (k v₀ rest : Str) (hk : '=' ∉ k ∧ ',' ∉ k ∧ strings.TrimSpace k = k)
    (hq : strings.quote ∉ v₀ ++ ',' :: rest) (hv : NoOuterSpace (v₀ ++ ',' :: rest))
    (hc : ',' ∉ v₀) :
    (strings.Split (elementIn l k (v₀ ++ ',' :: rest)) ',').foldl addElement values =
      (strings.Split rest ',').foldl addElement ((k, strings.TrimSpace v₀) :: values) := by
  obtain ⟨hbk, hak, hbv, hav⟩ := hl
  have hq0 : strings.quote ∉ v₀ := fun h => hq (by simp [h])
  have hqr : strings.quote ∉ rest := fun h => hq (by simp [h])
  have hform : elementIn l k (v₀ ++ ',' :: rest) =
      (l.beforeKey ++ k ++ l.afterKey ++ '=' ::
        (l.beforeValue ++ ((if l.quoted then [strings.quote] else []) ++ v₀ ++
          (if false then [strings.quote] else [])) ++ [])) ++ ',' ::
        (rest ++ ((if l.quoted then [strings.quote] else []) ++ l.afterValue)) := by
    unfold elementIn
    cases l.quoted <;> simp
  have hn : ',' ∉ l.beforeKey ++ k ++ l.afterKey ++ '=' ::
        (l.beforeValue ++ ((if l.quoted then [strings.quote] else []) ++ v₀ ++
          (if false then [strings.quote] else [])) ++ []) := by
    simp only [List.mem_append, List.mem_cons, not_or]
    refine ⟨⟨⟨not_mem_spaces _ _ hbk (by decide), hk.2.1⟩, not_mem_spaces _ _ hak (by decide)⟩,
      by decide, ⟨not_mem_spaces _ _ hbv (by decide), ⟨?_, hc⟩, by simp⟩, by simp⟩
    cases l.quoted <;> simp [strings.quote]
  have hh : l.quoted = true → ∀ c, v₀.head? = some c → strings.isSpace c = false := by
    intro _ c hc0
    apply hv.1 c
    cases v₀ with
    | nil => simp at hc0
    | cons d ds => simpa using hc0
  have hlast : l.quoted = true → ∀ c, rest.getLast? = some c → strings.isSpace c = false := by
    intro _ c hc0
    apply hv.2 c
    rw [List.getLast?_append, List.getLast?_cons, hc0]
    rfl
  rw [hform, strings.Split_append_sep _ _ ',' hn]
  simp only [List.foldl_cons]
  rw [addElement_keyed values _ _ k _ hbk hak hk.1 hk.2.2,
    strings.Trim_TrimSpace_layout _ _ v₀ l.quoted false hbv (by simp) hq0 hh (by simp)]
  exact foldl_addElement_tail _ rest l.afterValue l.quoted hav hqr hlast

/-- The entries one element adds to the map do not depend on its layout. -/
theorem foldl_elementIn (values : List (Str × Str)) (l : Layout) (hl : l.Spaces)
    (k v : Str) (hk : '=' ∉ k ∧ ',' ∉ k ∧ strings.TrimSpace k = k)
    (hv : strings.quote ∉ v ∧ NoOuterSpace v) :
    (strings.Split (elementIn l k v) ',').foldl addElement values =
      (strings.Split (element k v) ',').foldl addElement values := by
  have hp : Layout.plain.Spaces := by simp [Layout.Spaces, Layout.plain]
  rw [← elementIn_plain]
  by_cases hc : ',' ∈ v
  · obtain ⟨v₀, rest, rfl, h0⟩ := strings.exists_first_sep v ',' hc
    rw [foldl_elementIn_comma values l hl k v₀ rest hk hv.1 hv.2 h0,
      foldl_elementIn_comma values Layout.plain hp k v₀ rest hk hv.1 hv.2 h0]
  · rw [foldl_elementIn_single values l hl k v hk hv.1 hv.2 hc,
      foldl_elementIn_single values Layout.plain hp k v hk hv.1 hv.2 hc]

theorem TrimPrefix_encodedIn (leading : Bool) (l : Layout) (hl : l.Spaces) (v rest : Str) :
    strings.TrimPrefix ((if leading then "Signature ".toList else []) ++
      (elementIn l "keyId".toList v ++ rest)) "Signature ".toList =
      elementIn l "keyId".toList v ++ rest := by
  cases leading
  · simp only [Bool.false_eq_true, if_false, List.nil_append]
    unfold strings.TrimPrefix elementIn
    rcases hb : l.beforeKey with _ | ⟨c, cs⟩
    · simp [List.isPrefixOf]
    · have : c = ' ' := hl.1 c (by simp [hb])
      subst this
      simp [List.isPrefixOf]
  · simp only [if_true]
    exact strings.TrimPrefix_append _ _

/-- The map read off a header does not depend on the layout of its elements
or on the leading literal. -/
theorem headerValues_encodedIn (leading : Bool) (l₁ l₂ l₃ l₄ l₅ l₆ : Layout)
    (v₁ v₂ v₃ v₄ v₅ v₆ : Str)
    (hl : l₁.Spaces ∧ l₂.Spaces ∧ l₃.Spaces ∧ l₄.Spaces ∧ l₅.Spaces ∧ l₆.Spaces)
    (hv : ∀ v ∈ [v₁, v₂, v₃, v₄, v₅, v₆], strings.quote ∉ v ∧ NoOuterSpace v) :
    headerValues (encodedIn leading l₁ l₂ l₃ l₄ l₅ l₆ v₁ v₂ v₃ v₄ v₅ v₆) =
      headerValues (encoded v₁ v₂ v₃ v₄ v₅ v₆) := by
  obtain ⟨h1, h2, h3, h4, h5, h6⟩ := hl
  have hk : ∀ k ∈ requiredKeys, '=' ∉ k ∧ ',' ∉ k ∧ strings.TrimSpace k = k := by decide
  unfold headerValues encodedIn encoded
  simp only []
  rw [TrimPrefix_encodedIn leading l₁ h1, strings.TrimPrefix_append]
  simp only [strings.Split_append, List.foldl_append]
  rw [foldl_elementIn _ l₆ h6 _ v₆ (hk _ (by simp [requiredKeys])) (hv _ (by simp)),
    foldl_elementIn _ l₅ h5 _ v₅ (hk _ (by simp [requiredKeys])) (hv _ (by simp)),
    foldl_elementIn _ l₄ h4 _ v₄ (hk _ (by simp [requiredKeys])) (hv _ (by simp)),
    foldl_elementIn _ l₃ h3 _ v₃ (hk _ (by simp [requiredKeys])) (hv _ (by simp)),
    foldl_elementIn _ l₂ h2 _ v₂ (hk _ (by simp [requiredKeys])) (hv _ (by simp)),
    foldl_elementIn _ l₁ h1 _ v₁ (hk _ (by simp [requiredKeys])) (hv _ (by simp))]

theorem NoOuterSpace_of (v : Str)
    (hh : (v.head?.map strings.isSpace).getD false = false)
    (hl : (v.getLast?.map strings.isSpace).getD false = false) : NoOuterSpace v := by
  constructor
  · intro c hc
    rw [hc] at hh
    simpa using hh
  · intro c hc
    rw [hc] at hl
    simpa using hl

/-- A counterexample to C25 as stated: the six values have no double quote,
and writing the key id, whose first character is a space, without its quotes
changes the subscriber id that is decoded. -/
theorem quotes_optional_counterexample :
    (∀ v ∈ [" a|b|ed25519".toList, "ed25519".toList, "1".toList, "2".toList,
        "(created) (expires) digest".toList, "c2ln".toList], strings.quote ∉ v) ∧
    ExtractInfoFromHeader (encoded " a|b|ed25519".toList "ed25519".toList "1".toList
        "2".toList "(created) (expires) digest".toList "c2ln".toList) =
      ({ SubscriberID := " a".toList
         UniqueKeyID := "b".toList
         KeyIDAlgorithm := "ed25519".toList
         Algorithm := "ed25519".toList
         Created := 1
         Expired := 2
         Signature := "c2ln".toList }, none) ∧
    ExtractInfoFromHeader (encodedIn true ⟨false, [], [], [], []⟩ Layout.plain Layout.plain
        Layout.plain Layout.plain Layout.plain " a|b|ed25519".toList "ed25519".toList
        "1".toList "2".toList "(created) (expires) digest".toList "c2ln".toList) =
      ({ SubscriberID := "a".toList
         UniqueKeyID := "b".toList
         KeyIDAlgorithm := "ed25519".toList
         Algorithm := "ed25519".toList
         Created := 1
         Expired := 2
         Signature := "c2ln".toList }, none) := by
  decide!

/-- C25, amended: quotes are optional on decode for values without white
space at their ends.  For every header in the encoded form whose six values
contain no double quote and neither begin nor end with white space, writing
any subset of the values without their double quotes, leaving out the leading
literal `Signature `, and putting spaces before and after any key and any
value, makes `ExtractInfoFromHeader` return the same `Info` and the same
error. -/
theorem quotes_optional (leading : Bool) (l₁ l₂ l₃ l₄ l₅ l₆ : Layout)
    (v₁ v₂ v₃ v₄ v₅ v₆ : Str)
    (hl : l₁.Spaces ∧ l₂.Spaces ∧ l₃.Spaces ∧ l₄.Spaces ∧ l₅.Spaces ∧ l₆.Spaces)
    (hv : ∀ v ∈ [v₁, v₂, v₃, v₄, v₅, v₆], strings.quote ∉ v ∧ NoOuterSpace v) :
    ExtractInfoFromHeader (encodedIn leading l₁ l₂ l₃ l₄ l₅ l₆ v₁ v₂ v₃ v₄ v₅ v₆) =
      ExtractInfoFromHeader (encoded v₁ v₂ v₃ v₄ v₅ v₆) :=
  ExtractInfoFromHeader_congr _ _ (headerValues_encodedIn leading l₁ l₂ l₃ l₄ l₅ l₆
    v₁ v₂ v₃ v₄ v₅ v₆ hl hv)

theorem quotes_optional_witness :
    ExtractInfoFromHeader (encodedIn false ⟨false, " ".toList, " ".toList, "  ".toList, " ".toList⟩
        Layout.plain ⟨false, [], [], [], []⟩ ⟨true, [], " ".toList, [], []⟩
        ⟨false, [], [], " ".toList, []⟩ ⟨false, [], [], [], " ".toList⟩
        "example-bap.com|bap1234|ed25519".toList "ed25519".toList "1641287875".toList
        "1641291475".toList "(created), (expires) digest".toList fixture.wantedSignature) =
      ExtractInfoFromHeader (encoded "example-bap.com|bap1234|ed25519".toList "ed25519".toList
        "1641287875".toList "1641291475".toList "(created), (expires) digest".toList
        fixture.wantedSignature) :=
  quotes_optional false ⟨false, " ".toList, " ".toList, "  ".toList, " ".toList⟩
    Layout.plain ⟨false, [], [], [], []⟩ ⟨true, [], " ".toList, [], []⟩
    ⟨false, [], [], " ".toList, []⟩ ⟨false, [], [], [], " ".toList⟩
    "example-bap.com|bap1234|ed25519".toList "ed25519".toList "1641287875".toList
    "1641291475".toList "(created), (expires) digest".toList fixture.wantedSignature
    (by simp only [Layout.Spaces, Layout.plain]; decide)
    (by
      intro v hv
      simp only [List.mem_cons, List.mem_singleton, List.not_mem_nil, or_false] at hv
      rcases hv with rfl | rfl | rfl | rfl | rfl | rfl <;>
        exact ⟨by decide, NoOuterSpace_of _ (by decide) (by decide)⟩)

end authentication

end Ondc
